import Mathlib

/-!
# libfprint drivers: upeksonly (swipe) and uru4000 (press)

A shallow embedding of the capture and activation logic of
`libfprint/drivers/upeksonly.c` and `libfprint/drivers/uru4000.c`,
followed by theorems about it.

Conventions of the embedding.

* A byte buffer is a `List Nat`; `memcpy` writes pointwise and keeps the
  length of the destination.
* The device context (`struct sonly_dev`, `struct uru4k_dev`) is a structure
  that is passed explicitly.  Every call into the host library or into
  libusb is appended to the `trace` field of the context, so that "what the
  driver did" is an observable list of events.
* Results that come from the environment (the return code of
  `libusb_submit_transfer`, the status and content of a completed transfer)
  are arguments of the function that consumes them.
-/

namespace Libfprint

/-! ## Buffers -/

/-- Pointwise model of C `memcpy (dst + off, src, n)`: bytes `off .. off+n-1` of
the destination are replaced by bytes `0 .. n-1` of the source, every other byte
is kept.  The length of the destination never changes. -/
def memcpy (dst : List Nat) (off : Nat) (src : List Nat) (n : Nat) : List Nat :=
  (List.range dst.length).map fun i =>
    if off ≤ i ∧ i < off + n then src.getD (i - off) 0 else dst.getD i 0

/-- Freshly allocated buffer of `n` bytes (`g_malloc`, `fpi_img_new`); the
unspecified initial content is modelled as zero bytes. -/
def g_malloc (n : Nat) : List Nat := List.replicate n 0

/-- The `k`-th slice of `w` bytes of a buffer. -/
def slice (buf : List Nat) (w k : Nat) : List Nat := (buf.drop (w * k)).take w

/-- Value of `LIBUSB_TRANSFER_COMPLETED` in `enum libusb_transfer_status`. -/
def LIBUSB_TRANSFER_COMPLETED : Int := 0
/-- Value of `LIBUSB_TRANSFER_ERROR`. -/
def LIBUSB_TRANSFER_ERROR : Int := 1
/-- Value of `LIBUSB_TRANSFER_CANCELLED`. -/
def LIBUSB_TRANSFER_CANCELLED : Int := 3

/-- Linux `errno` values used by the drivers. -/
def EIO : Int := 5
def ENOMEM : Int := 12
def ENODEV : Int := 19
def EINVAL : Int := 22
def ETIME : Int := 62
def EPROTO : Int := 71
def ETIMEDOUT : Int := 110

namespace Upeksonly

/-! ## upeksonly.c: data model -/

def IMG_WIDTH : Nat := 288
def NUM_BULK_TRANSFERS : Nat := 24
def MAX_ROWS : Nat := 700

/-- The per-transfer record `struct img_transfer_data` (the fields `idx` and
`dev` are the position in the pool and the context itself). -/
structure img_transfer_data where
  flying : Bool
  cancelling : Bool
deriving DecidableEq, Repr

/-- The tear-down discriminator `enum sonly_kill_transfers_action`. -/
inductive sonly_kill_transfers_action where
  | NOT_KILLING
  | ABORT_SSM
  | IMG_SESSION_ERROR
  | ITERATE_SSM
  | EXEC_CALLBACK
deriving DecidableEq, Repr

open sonly_kill_transfers_action

/-- The state machines a `kill_ssm` pointer can designate. -/
inductive SsmRef where
  | loopsm
  | capsm
deriving DecidableEq, Repr

/-- Calls the swipe driver makes into libusb and the host library. -/
inductive Event where
  /-- Entry of `last_transfer_killed`, with the pending action. -/
  | last_transfer_killed (action : sonly_kill_transfers_action)
  | ssm_mark_aborted (ssm : SsmRef) (code : Int)
  | ssm_next_state (ssm : SsmRef)
  | session_error (code : Int)
  | cancel_transfer (idx : Nat)
  /-- The call `libusb_submit_transfer (img_transfer[idx])`, its result, and the
  value of `killing_transfers` when it was made. -/
  | submit_transfer (idx : Nat) (r : Int) (killing : sonly_kill_transfers_action)
  /-- The call `fpi_imgdev_image_captured` with `img->height`, the allocated size
  and the image bytes. -/
  | image_captured (height : Nat) (size : Nat) (data : List Nat)
  | report_finger_status (present : Bool)
  /-- The call `g_slist_prepend (sdev->rows, sdev->rowbuf)` with the row bytes. -/
  | g_slist_prepend (row : List Nat)
  /-- The call `fp_err ("no rows?")` of `handoff_img`. -/
  | fp_err_no_rows
  /-- A control OUT transfer (request 0x0c) that writes the byte `value` to
  register `reg` (`wIndex`), handed to `libusb_submit_transfer`, with the result
  of the call. -/
  | ctrl_write (reg value : Nat) (r : Int)
  /-- A control IN transfer (request 0x0c) that reads register `reg`. -/
  | ctrl_read (reg : Nat) (r : Int)
  /-- The interrupt transfer on endpoint 0x83 that awaits the finger. -/
  | intr_submit (r : Int)
  | deactivate_complete
deriving DecidableEq, Repr

/-- The device context `struct sonly_dev`.  `rows` is the `GSList`, head first;
`rowbuf = none` is the null pointer. -/
structure sonly_dev where
  capturing : Bool
  deactivating : Bool
  read_reg_result : Nat
  img_transfer_data : List img_transfer_data
  num_flying : Int
  rows : List (List Nat)
  num_rows : Nat
  rowbuf : Option (List Nat)
  rowbuf_offset : Int
  wraparounds : Int
  num_blank : Int
  finger_removed : Int
  last_seqnum : Int
  killing_transfers : sonly_kill_transfers_action
  kill_status_code : Int
  kill_ssm : SsmRef
  trace : List Event
deriving DecidableEq, Repr

/-- Append one event to the trace of the context. -/
def sonly_dev.emit (s : sonly_dev) (e : Event) : sonly_dev :=
  { s with trace := s.trace ++ [e] }

/-! ## upeksonly.c: image processing -/

def last_transfer_killed (s : sonly_dev) : sonly_dev :=
  let s := s.emit (Event.last_transfer_killed s.killing_transfers)
  match s.killing_transfers with
  | ABORT_SSM => s.emit (Event.ssm_mark_aborted s.kill_ssm s.kill_status_code)
  | ITERATE_SSM => s.emit (Event.ssm_next_state s.kill_ssm)
  | IMG_SESSION_ERROR => s.emit (Event.session_error s.kill_status_code)
  | _ => s

/-- One iteration of the `for` loop of `cancel_img_transfers`. -/
def cancel_one (s : sonly_dev) (i : Nat) : sonly_dev :=
  match s.img_transfer_data.get? i with
  | none => s
  | some idata =>
    if !idata.flying || idata.cancelling then s
    else
      { s with
        img_transfer_data := s.img_transfer_data.set i { idata with cancelling := true }
        trace := s.trace ++ [Event.cancel_transfer i] }

def cancel_img_transfers (s : sonly_dev) : sonly_dev :=
  if s.num_flying = 0 then last_transfer_killed s
  else (List.range NUM_BULK_TRANSFERS).foldl cancel_one s

def is_capturing (s : sonly_dev) : Bool :=
  decide (s.num_rows < MAX_ROWS) && decide (s.finger_removed = 0)

/-- The `do ... while` loop of `handoff_img`: copy each list element into the
image at increasing offsets. -/
def handoff_copy : List (List Nat) → Nat → List Nat → List Nat
  | [], _, img => img
  | elem :: rest, offset, img =>
    handoff_copy rest (offset + IMG_WIDTH) (memcpy img offset elem IMG_WIDTH)

def handoff_img (s : sonly_dev) : sonly_dev :=
  let size := IMG_WIDTH * s.num_rows
  let img := g_malloc size
  match s.rows with
  | [] => s.emit Event.fp_err_no_rows
  | elem :: rest =>
    let data := handoff_copy (elem :: rest) 0 img
    let s := { s with rows := [] }
    let s := s.emit (Event.image_captured s.num_rows size data)
    let s := s.emit (Event.report_finger_status false)
    let s := { s with killing_transfers := ITERATE_SSM, kill_ssm := SsmRef.loopsm }
    cancel_img_transfers s

/-- Loop body of `compute_rows`, accumulating `(_diff, _total)` over the first
`n` positions. -/
def compute_rows_loop (a b : List Nat) : Nat → Int × Int
  | 0 => (0, 0)
  | i + 1 =>
    let (d, t) := compute_rows_loop a b i
    let ai : Int := a.getD i 0
    let bi : Int := b.getD i 0
    ((if ai > bi then d + (ai - bi) else d + (bi - ai)), t + bi)

/-- Returns `(diff, total)`. -/
def compute_rows (a b : List Nat) : Int × Int := compute_rows_loop a b IMG_WIDTH

/-- Dereference of `sdev->rowbuf`; the null pointer reads as an empty buffer. -/
def sonly_dev.rowbuf_data (s : sonly_dev) : List Nat := s.rowbuf.getD []

/-- The tail of `row_complete`, reached when the completed row is kept: prepend
it to the list, count it, and hand off when the row limit is met. -/
def row_accept (s : sonly_dev) : sonly_dev :=
  let s := (s.emit (Event.g_slist_prepend s.rowbuf_data))
  let s := { s with rows := s.rowbuf_data :: s.rows, num_rows := s.num_rows + 1, rowbuf := none }
  if s.num_rows ≥ MAX_ROWS then handoff_img s else s

def row_complete (s : sonly_dev) : sonly_dev :=
  let s := { s with rowbuf_offset := -1 }
  if s.num_rows > 0 then
    let lastrow := s.rows.headD []
    let dt := compute_rows lastrow s.rowbuf_data
    if dt.2 < 52000 then
      let s := { s with num_blank := 0 }
      if dt.1 < 3000 then s else row_accept s
    else
      let s := { s with num_blank := s.num_blank + 1 }
      if s.num_blank > 500 then
        handoff_img { s with finger_removed := 1 }
      else if dt.1 < 3000 then s else row_accept s
  else row_accept s

def add_to_rowbuf (s : sonly_dev) (data : List Nat) (size : Int) : sonly_dev :=
  let s := { s with
    rowbuf := s.rowbuf.map fun rb => memcpy rb s.rowbuf_offset.toNat data size.toNat
    rowbuf_offset := s.rowbuf_offset + size }
  if s.rowbuf_offset ≥ (IMG_WIDTH : Int) then row_complete s else s

def start_new_row (s : sonly_dev) (data : List Nat) (size : Int) : sonly_dev :=
  let rb := match s.rowbuf with
    | none => g_malloc IMG_WIDTH
    | some rb => rb
  let rb := memcpy rb (IMG_WIDTH - 2) data 2
  let rb := memcpy rb 0 (data.drop 2) (size - 2).toNat
  { s with rowbuf := some rb, rowbuf_offset := size }

def rowbuf_remaining (s : sonly_dev) : Int :=
  if s.rowbuf_offset = -1 then -1
  else
    let r : Int := IMG_WIDTH - s.rowbuf_offset
    if r > 62 then 62 else r

/-- The packet handler.  `data` is the packet (sequence number included);
`seqnum` is a `uint16_t`, so the addition of the wrap-around base is reduced
modulo `2^16` before the multiplication by 62.  The first `if` of the source
only logs a warning and is left out. -/
def handle_packet (s : sonly_dev) (data : List Nat) : sonly_dev :=
  let seqnum : Int := ((data.getD 0 0 <<< 8 ||| data.getD 1 0 : Nat) : Int) % 65536
  let data := data.drop 2
  let s := if seqnum ≤ s.last_seqnum then { s with wraparounds := s.wraparounds + 1 } else s
  let s := { s with last_seqnum := seqnum }
  let seqnum := (seqnum + s.wraparounds * 16384) % 65536
  let abs_base_addr : Int := seqnum * 62
  let for_rowbuf := rowbuf_remaining s
  if for_rowbuf ≠ -1 then add_to_rowbuf s data for_rowbuf
  else if abs_base_addr % IMG_WIDTH = 0 then start_new_row s data 62
  else
    let next_row_addr : Int := ((abs_base_addr / IMG_WIDTH) + 1) * IMG_WIDTH
    let diff := next_row_addr - abs_base_addr
    if diff < 62 then start_new_row s (data.drop diff.toNat) (62 - diff) else s

/-- The packet loop of `img_data_cb` with `n` packets of the 64 still to go; the
flag is `true` when the loop left the callback through its `return`. -/
def packet_loop (buffer : List Nat) : Nat → sonly_dev → sonly_dev × Bool
  | 0, s => (s, false)
  | n + 1, s =>
    if !is_capturing s then (s, true)
    else packet_loop buffer n (handle_packet s (buffer.drop (64 * (64 - (n + 1)))))

/-- Set the flags of transfer `idx` in the pool. -/
def set_idata (s : sonly_dev) (idx : Nat) (f : img_transfer_data → img_transfer_data) :
    sonly_dev :=
  match s.img_transfer_data.get? idx with
  | none => s
  | some idata => { s with img_transfer_data := s.img_transfer_data.set idx (f idata) }

/-- The first statements of `img_data_cb`: the transfer is no longer flying. -/
def img_data_cb_landed (s : sonly_dev) (idx : Nat) : sonly_dev :=
  let s := set_idata s idx fun d => { d with flying := false, cancelling := false }
  { s with num_flying := s.num_flying - 1 }

/-- The block `if (transfer->status != LIBUSB_TRANSFER_COMPLETED) { ... }` of
`img_data_cb`; control continues after it. -/
def img_data_cb_status (s : sonly_dev) (status : Int) : sonly_dev :=
  if status ≠ LIBUSB_TRANSFER_COMPLETED then
    cancel_img_transfers
      { s with killing_transfers := IMG_SESSION_ERROR, kill_status_code := status }
  else s

/-- The last block of `img_data_cb`: `if (is_capturing(sdev)) { resubmit }`. -/
def img_data_cb_resubmit (s : sonly_dev) (idx : Nat) (resubmit_r : Int) : sonly_dev :=
  if is_capturing s then
    let s := s.emit (Event.submit_transfer idx resubmit_r s.killing_transfers)
    if resubmit_r < 0 then
      cancel_img_transfers
        { s with killing_transfers := IMG_SESSION_ERROR, kill_status_code := resubmit_r }
    else
      set_idata { s with num_flying := s.num_flying + 1 } idx fun d =>
        { d with flying := true }
  else s

/-- Completion callback of bulk transfer `idx` with its `status` and `buffer`;
`resubmit_r` is what `libusb_submit_transfer` returns if the callback calls it. -/
def img_data_cb (s : sonly_dev) (idx : Nat) (status : Int) (buffer : List Nat)
    (resubmit_r : Int) : sonly_dev :=
  let s := img_data_cb_landed s idx
  if s.killing_transfers ≠ NOT_KILLING then
    if s.num_flying = 0 then last_transfer_killed s else s
  else
    let s := img_data_cb_status s status
    let p := packet_loop buffer 64 s
    if p.2 then p.1 else img_data_cb_resubmit p.1 idx resubmit_r

end Upeksonly

end Libfprint

namespace Libfprint.Upeksonly

open sonly_kill_transfers_action

/-! ## Observations on a context and its trace -/

/-- The context without its transfer pool and trace. -/
def core (s : sonly_dev) : sonly_dev := { s with img_transfer_data := [], trace := [] }

/-- The calls of `handoff_img`, in order: `(height, size, data)` of the image
handed to the host, and `(0, 0, [])` for a call that found no rows. -/
def handoffs (tr : List Event) : List (Nat × Nat × List Nat) :=
  tr.filterMap fun e =>
    match e with
    | Event.image_captured h sz d => some (h, sz, d)
    | Event.fp_err_no_rows => some (0, 0, [])
    | _ => none

/-- The rows prepended to the row list, in the order of the calls. -/
def prepends (tr : List Event) : List (List Nat) :=
  tr.filterMap fun e =>
    match e with
    | Event.g_slist_prepend r => some r
    | _ => none

/-- The submissions of bulk transfers: `(idx, r, killing_transfers)`. -/
def submits (tr : List Event) : List (Nat × Int × sonly_kill_transfers_action) :=
  tr.filterMap fun e =>
    match e with
    | Event.submit_transfer i r k => some (i, r, k)
    | _ => none

/-- The executions of `last_transfer_killed`, with the action pending at each. -/
def kills (tr : List Event) : List sonly_kill_transfers_action :=
  tr.filterMap fun e =>
    match e with
    | Event.last_transfer_killed a => some a
    | _ => none

/-- The sum over the row of the absolute differences, `Σ |a[i] - b[i]|`. -/
def abs_diff_sum (a b : List Nat) : Int :=
  ∑ i in Finset.range IMG_WIDTH, |(a.getD i 0 : Int) - (b.getD i 0 : Int)|

/-- One completion of a bulk transfer, as delivered to `img_data_cb`. -/
structure Completion where
  idx : Nat
  status : Int
  buffer : List Nat
  resubmit_r : Int

/-- The context after a sequence of bulk-transfer completions. -/
def run (s : sonly_dev) (cs : List Completion) : sonly_dev :=
  cs.foldl (fun s c => img_data_cb s c.idx c.status c.buffer c.resubmit_r) s

/-- State `CAPSM_INIT` of `capsm_run_state`: reset of the capture counters,
then `fpi_ssm_next_state`. -/
def capsm_init (s : sonly_dev) : sonly_dev :=
  let s := { s with
    rowbuf_offset := -1
    num_rows := 0
    wraparounds := -1
    num_blank := 0
    finger_removed := 0
    last_seqnum := 16383
    killing_transfers := NOT_KILLING }
  s.emit (Event.ssm_next_state SsmRef.capsm)

/-- An emitted image `(h, sz, d)` is well formed with respect to the rows `ps`
that were prepended to the row list (in call order): it has `h = |ps|` rows of
`IMG_WIDTH` bytes, between 1 and `MAX_ROWS` of them, its bytes are the rows of
the list read from its head (the most recently prepended row first), and rows
next to each other differ by at least 3000. -/
structure GoodImage (ps : List (List Nat)) (h sz : Nat) (d : List Nat) : Prop where
  size_eq : sz = IMG_WIDTH * h
  height_pos : 1 ≤ h
  height_le : h ≤ MAX_ROWS
  height_eq : h = ps.length
  data_eq : d = ps.reverse.flatten
  width : ∀ r ∈ ps, r.length = IMG_WIDTH
  dedup : List.Chain' (fun a b => 3000 ≤ abs_diff_sum a b) ps.reverse

/-- The invariant of one capture. -/
structure CaptureInv (s : sonly_dev) : Prop where
  rows_len : is_capturing s = true → s.rows.length = s.num_rows
  row_width : ∀ r ∈ s.rows, r.length = IMG_WIDTH
  rowbuf_width : ∀ b, s.rowbuf = some b → b.length = IMG_WIDTH
  rowbuf_some : s.rowbuf_offset ≠ -1 → s.rowbuf ≠ none
  num_rows_le : s.num_rows ≤ MAX_ROWS
  dedup : is_capturing s = true → List.Chain' (fun a b => 3000 ≤ abs_diff_sum a b) s.rows
  stack : is_capturing s = true → s.rows = (prepends s.trace).reverse
  imgs : ∀ h sz d, (h, sz, d) ∈ handoffs s.trace → GoodImage (prepends s.trace) h sz d
  done : handoffs s.trace ≠ [] → is_capturing s = false

end Libfprint.Upeksonly

namespace Libfprint.Upeksonly

open sonly_kill_transfers_action

/-! ## A concrete state at the end of a swipe -/

/-- A row of 288 dark pixels. -/
def example_rowA : List Nat := List.replicate 288 0

/-- A row of 288 bright pixels (its total, 73440, counts as blank). -/
def example_rowB : List Nat := List.replicate 288 255

/-- The context inside `add_to_rowbuf`, just before `row_complete`, at the
end of this swipe: `example_rowA` was accepted first, `example_rowB`
second (the first blank row), 499 further bright rows were dropped as
duplicates, and one more bright row is complete in `rowbuf`. -/
def example_end_of_swipe : sonly_dev :=
  { capturing := true
    deactivating := false
    read_reg_result := 0
    img_transfer_data :=
      { flying := false, cancelling := false } ::
        List.replicate 23 { flying := true, cancelling := false }
    num_flying := 23
    rows := [example_rowB, example_rowA]
    num_rows := 2
    rowbuf := some example_rowB
    rowbuf_offset := 288
    wraparounds := 0
    num_blank := 500
    finger_removed := 0
    last_seqnum := 9000
    killing_transfers := NOT_KILLING
    kill_status_code := 0
    kill_ssm := SsmRef.loopsm
    trace := [Event.g_slist_prepend example_rowA, Event.g_slist_prepend example_rowB] }

/-- A completed row handed to `row_complete`, as `add_to_rowbuf` does when the
row buffer is full. -/
def feed_row (s : sonly_dev) (row : List Nat) : sonly_dev :=
  row_complete { s with rowbuf := some row, rowbuf_offset := IMG_WIDTH }

/-- The context of `example_end_of_swipe` at the start of that swipe: no row
yet, counters as `CAPSM_INIT` sets them. -/
def example_start_of_swipe : sonly_dev :=
  { example_end_of_swipe with
    rows := []
    num_rows := 0
    rowbuf := none
    rowbuf_offset := -1
    num_blank := 0
    trace := [] }

/-- A context as `dev_init` and `dev_activate` leave it: zeroed, no transfer
flying. -/
def example_fresh : sonly_dev :=
  { capturing := false
    deactivating := false
    read_reg_result := 0
    img_transfer_data := List.replicate 24 { flying := false, cancelling := false }
    num_flying := 0
    rows := []
    num_rows := 0
    rowbuf := none
    rowbuf_offset := 0
    wraparounds := 0
    num_blank := 0
    finger_removed := 0
    last_seqnum := 0
    killing_transfers := NOT_KILLING
    kill_status_code := 0
    kill_ssm := SsmRef.loopsm
    trace := [] }

end Libfprint.Upeksonly

namespace Libfprint.Upeksonly

open sonly_kill_transfers_action

/-! ## Tear-down bookkeeping -/

/-- The `flying` flags of the transfer pool. -/
def flying_flags (s : sonly_dev) : List Bool := s.img_transfer_data.map fun d => d.flying

/-- Number of pool transfers whose `flying` flag is set. -/
def count_flying (s : sonly_dev) : Nat := (flying_flags s).count true

/-- What row assembly and tear-down requests leave alone: `t` is reached from `s`
without landing or submitting a transfer, and without running the deferred
action unless no transfer was flying. -/
structure Frame (s t : sonly_dev) : Prop where
  num_flying : t.num_flying = s.num_flying
  flags : flying_flags t = flying_flags s
  kills : s.num_flying ≠ 0 → kills t.trace = kills s.trace
  submits : submits t.trace = submits s.trace
  killing : t.killing_transfers = s.killing_transfers ∨ t.killing_transfers = ITERATE_SSM

/-- Every completion of the list lands a transfer that is flying at that time. -/
def valid_run : sonly_dev → List Completion → Prop
  | _, [] => True
  | s, c :: cs =>
    (flying_flags s).getD c.idx false = true ∧
      valid_run (img_data_cb s c.idx c.status c.buffer c.resubmit_r) cs

end Libfprint.Upeksonly

namespace Libfprint.Upeksonly

open sonly_kill_transfers_action

/-- The bookkeeping invariant of a capture, between callbacks: `num_flying`
counts the flying transfers; while no tear-down is requested all 24 transfers
fly and the deferred action has not run; once a tear-down is requested the
deferred action has run exactly when no transfer is flying any more, and then
exactly once. -/
structure TeardownInv (s : sonly_dev) : Prop where
  count : s.num_flying = (count_flying s : Int)
  idle : s.killing_transfers = NOT_KILLING →
    s.num_flying = (NUM_BULK_TRANSFERS : Int) ∧ kills s.trace = []
  stop : is_capturing s = false → s.killing_transfers ≠ NOT_KILLING
  busy : s.killing_transfers ≠ NOT_KILLING →
    (0 < s.num_flying ∧ kills s.trace = []) ∨
      (s.num_flying = 0 ∧ (kills s.trace).length = 1)

end Libfprint.Upeksonly

namespace Libfprint.Upeksonly

open sonly_kill_transfers_action

/-! ## upeksonly.c: arming the bulk pool -/

/-- The `for` loop of state `CAPSM_FIRE_BULK` of `capsm_run_state`, at index `i`
with `n` iterations to go; `submit_r i` is what `libusb_submit_transfer` returns
for transfer `i`.  The flag is `true` when the loop left the function through
one of its `return`s. -/
def fire_bulk_loop (submit_r : Nat → Int) : Nat → Nat → sonly_dev → sonly_dev × Bool
  | 0, _, s => (s, false)
  | n + 1, i, s =>
    let r := submit_r i
    let s := s.emit (Event.submit_transfer i r s.killing_transfers)
    if r < 0 then
      if i = 0 then (s.emit (Event.ssm_mark_aborted SsmRef.capsm r), true)
      else
        (cancel_img_transfers
          { s with killing_transfers := ABORT_SSM, kill_ssm := SsmRef.capsm,
                   kill_status_code := r }, true)
    else
      let s := set_idata s i fun d => { d with flying := true }
      fire_bulk_loop submit_r n (i + 1) { s with num_flying := s.num_flying + 1 }

/-- State `CAPSM_FIRE_BULK` of `capsm_run_state`. -/
def capsm_fire_bulk (s : sonly_dev) (submit_r : Nat → Int) : sonly_dev :=
  let p := fire_bulk_loop submit_r NUM_BULK_TRANSFERS 0 s
  if p.2 then p.1
  else ({ p.1 with capturing := true } : sonly_dev).emit (Event.ssm_next_state SsmRef.capsm)

/-- The capture state with all 24 transfers armed. -/
def example_armed : sonly_dev := capsm_fire_bulk (capsm_init example_fresh) fun _ => 0

/-- A 4096-byte buffer of 64 packets that all carry sequence number 1. -/
def example_stale_buffer : List Nat :=
  (List.replicate 64 (0 :: 1 :: List.replicate 62 0)).flatten

/-- Transfer 0 fails with `LIBUSB_TRANSFER_ERROR`; its buffer is
`example_stale_buffer`, and a resubmission would be accepted. -/
def example_bad_completion : Completion :=
  { idx := 0, status := LIBUSB_TRANSFER_ERROR, buffer := example_stale_buffer, resubmit_r := 0 }

end Libfprint.Upeksonly

namespace Libfprint.Uru4000

/-! ## uru4000.c: constants and data model -/

def EP_INTR : Nat := 0x81
def EP_DATA : Nat := 0x82
def DATABLK_RQLEN : Nat := 0x1b340
def DATABLK_EXPECT : Nat := 0x1b1c0
def CAPTURE_HDRLEN : Nat := 64
def IRQ_LENGTH : Nat := 64
def CR_LENGTH : Nat := 16

def IRQDATA_SCANPWR_ON : Nat := 0x56aa
def IRQDATA_FINGER_ON : Nat := 0x0101
def IRQDATA_FINGER_OFF : Nat := 0x0200
def IRQDATA_DEATH : Nat := 0x0800

def REG_HWSTAT : Nat := 0x07
def REG_MODE : Nat := 0x4e
def REG_RESPONSE : Nat := 0x2000
def REG_CHALLENGE : Nat := 0x2010

def MODE_INIT : Nat := 0x00
def MODE_AWAIT_FINGER_ON : Nat := 0x10
def MODE_AWAIT_FINGER_OFF : Nat := 0x12
def MODE_CAPTURE : Nat := 0x20

/-- The table `fwenc_offsets`. -/
def fwenc_offsets : List Nat := [0x510, 0x62d, 0x792, 0x7f4]

/-- The key `crkey`. -/
def crkey : List Nat :=
  [0x79, 0xac, 0x91, 0x79, 0x5c, 0xa1, 0x47, 0x8e,
   0x98, 0xe0, 0x0f, 0x3c, 0x59, 0x8f, 0x5f, 0x4b]

/-- The fields `img_height` and `img_width` of `uru4000_driver`. -/
def uru4000_driver_img_height : Nat := 289
def uru4000_driver_img_width : Nat := 384

/-- The OpenSSL functions the driver calls, taken as given: `set_encrypt_key key
bits` is the key schedule `AES_set_encrypt_key` stores in an `AES_KEY`, and
`encrypt block schedule` is the block `AES_encrypt` writes to its output. -/
structure Aes where
  set_encrypt_key : List Nat → Nat → List Nat
  encrypt : List Nat → List Nat → List Nat

/-- The image flags of the host library. -/
inductive ImgFlag where
  | FP_IMG_V_FLIPPED
  | FP_IMG_H_FLIPPED
  | FP_IMG_COLORS_INVERTED
deriving DecidableEq, Repr

/-- The states of `enum fp_imgdev_state` a driver can be asked for, and any
other value of the enumeration type. -/
inductive fp_imgdev_state where
  | IMGDEV_STATE_AWAIT_FINGER_ON
  | IMGDEV_STATE_CAPTURE
  | IMGDEV_STATE_AWAIT_FINGER_OFF
  | other (value : Int)
deriving DecidableEq, Repr

/-- The functions installed as `irq_cb`. -/
inductive irq_cb_fn where
  | finger_presence_irq_cb
  | init_scanpwr_irq_cb
deriving DecidableEq, Repr

/-- The functions installed as `irqs_stopped_cb`. -/
inductive irqs_stopped_cb_fn where
  | deactivate_irqs_stopped
deriving DecidableEq, Repr

/-- Calls the press driver makes into libusb and the host library. -/
inductive Event where
  /-- A control OUT transfer handed to `libusb_submit_transfer`, with `wValue`,
  `wLength`, the payload and the result of the call. -/
  | ctrl_out (wValue wLength : Nat) (data : List Nat) (r : Int)
  /-- A control IN transfer handed to `libusb_submit_transfer`. -/
  | ctrl_in (wValue wLength : Nat) (r : Int)
  /-- A bulk IN transfer handed to `libusb_submit_transfer`. -/
  | bulk_in (endpoint length : Nat) (r : Int)
  | cancel_img_transfer
  | cancel_irq_transfer
  | image_captured (data : List Nat) (flags : List ImgFlag)
  | session_error (error : Int)
  | activate_complete (status : Int)
  | deactivate_complete
  | report_finger_status (present : Bool)
  | timeout_add (msec : Nat)
  | timeout_cancel
deriving DecidableEq, Repr

/-- The device context `struct uru4k_dev`.  A transfer pointer is modelled by
whether it is set.  `null_deref` is not a field of the C structure: it records
that the program has read through a null pointer, which is undefined behaviour
(in practice the process dies there): what was called before that read
happened, nothing after it did. -/
structure uru4k_dev where
  auth_cr : Bool
  activate_state : fp_imgdev_state
  last_reg_rd : Nat
  last_hwstat : Nat
  irq_transfer : Bool
  img_transfer : Bool
  irq_cb : Option irq_cb_fn
  irqs_stopped_cb : Option irqs_stopped_cb_fn
  rebootpwr_ctr : Int
  powerup_ctr : Int
  powerup_hwstat : Nat
  scanpwr_irq_timeouts : Int
  scanpwr_irq_timeout : Bool
  fwfixer_offset : Int
  fwfixer_value : Nat
  aeskey : List Nat
  trace : List Event
  null_deref : Bool
deriving DecidableEq, Repr

/-- Append one event to the trace of the context. -/
def uru4k_dev.emit (s : uru4k_dev) (e : Event) : uru4k_dev :=
  { s with trace := s.trace ++ [e] }

/-- What the environment answers to one transfer: whether
`libusb_alloc_transfer` succeeds, what `libusb_submit_transfer` returns, and,
for a submitted transfer, its completion status, actual length and data. -/
structure IoReply where
  alloc_ok : Bool
  submit_r : Int
  status : Int
  actual_length : Nat
  data : List Nat
deriving DecidableEq, Repr

/-- A call of the state-machine runtime: `fpi_ssm_next_state`,
`fpi_ssm_jump_to_state`, `fpi_ssm_mark_completed`, `fpi_ssm_mark_aborted`. -/
inductive SsmCall where
  | next_state
  | jump_to_state (state : Nat)
  | mark_completed
  | mark_aborted (error : Int)
deriving DecidableEq, Repr

/-! ## uru4000.c: register I/O -/

/-- The status `write_regs_cb` passes to the user callback. -/
def write_regs_cb (status : Int) (actual_length wLength : Nat) : Int :=
  if status ≠ LIBUSB_TRANSFER_COMPLETED then - EIO
  else if actual_length ≠ wLength then -EPROTO
  else 0

/-- Returns the context, the return value `r`, and, when the transfer was
submitted, the status its completion passes to the callback. -/
def write_regs (s : uru4k_dev) (first_reg num_regs : Nat) (values : List Nat)
    (io : IoReply) : uru4k_dev × Int × Option Int :=
  if !io.alloc_ok then (s, -ENOMEM, none)
  else
    let data := memcpy (g_malloc num_regs) 0 values num_regs
    let s := s.emit (Event.ctrl_out first_reg num_regs data io.submit_r)
    if io.submit_r < 0 then (s, io.submit_r, none)
    else (s, io.submit_r, some (write_regs_cb io.status io.actual_length num_regs))

def write_reg (s : uru4k_dev) (reg value : Nat) (io : IoReply) : uru4k_dev × Int × Option Int :=
  write_regs s reg 1 [value] io

/-- The status and data pointer `read_regs_cb` passes to the user callback. -/
def read_regs_cb (status : Int) (actual_length wLength : Nat) (data : List Nat) :
    Int × Option (List Nat) :=
  if status ≠ LIBUSB_TRANSFER_COMPLETED then (- EIO, none)
  else if actual_length ≠ wLength then (-EPROTO, none)
  else (0, some data)

def read_regs (s : uru4k_dev) (first_reg num_regs : Nat) (io : IoReply) :
    uru4k_dev × Int × Option (Int × Option (List Nat)) :=
  if !io.alloc_ok then (s, -ENOMEM, none)
  else
    let s := s.emit (Event.ctrl_in first_reg num_regs io.submit_r)
    if io.submit_r < 0 then (s, io.submit_r, none)
    else (s, io.submit_r, some (read_regs_cb io.status io.actual_length num_regs io.data))

def read_reg (s : uru4k_dev) (reg : Nat) (io : IoReply) :
    uru4k_dev × Int × Option (Int × Option (List Nat)) :=
  read_regs s reg 1 io

end Libfprint.Uru4000

namespace Libfprint.Uru4000

/-! ## uru4000.c: challenge/response -/

def response_cb (status : Int) : List SsmCall :=
  if status = 0 then [SsmCall.next_state] else [SsmCall.mark_aborted status]

/-- The callback of the challenge read, with the write of the response it
submits and the completion of that write (`response_cb`).  `data` is the
challenge; it is only read when `status` is 0. -/
def challenge_cb (aes : Aes) (s : uru4k_dev) (status : Int) (data : Option (List Nat))
    (io : IoReply) : uru4k_dev × List SsmCall :=
  if status ≠ 0 then (s, [SsmCall.mark_aborted status])
  else
    let respdata := memcpy (g_malloc CR_LENGTH) 0 (aes.encrypt (data.getD []) s.aeskey) CR_LENGTH
    match write_regs s REG_RESPONSE CR_LENGTH respdata io with
    | (s, r, cb) =>
      if r < 0 then (s, [SsmCall.mark_aborted r])
      else
        match cb with
        | some st => (s, response_cb st)
        | none => (s, [])

/-- The function `sm_do_challenge_response`: the read of the challenge (reply
`io_rd`), and through `challenge_cb` the write of the response (reply `io_wr`). -/
def sm_do_challenge_response (aes : Aes) (s : uru4k_dev) (io_rd io_wr : IoReply) :
    uru4k_dev × List SsmCall :=
  match read_regs s REG_CHALLENGE CR_LENGTH io_rd with
  | (s, r, cb) =>
    if r < 0 then (s, [SsmCall.mark_aborted r])
    else
      match cb with
      | some (status, data) => challenge_cb aes s status data io_wr
      | none => (s, [])

/-! ## uru4000.c: interrupt listener and imaging loop -/

def start_irq_handler (s : uru4k_dev) (io : IoReply) : uru4k_dev × Int :=
  if !io.alloc_ok then (s, -ENOMEM)
  else
    let s := { s with irq_transfer := true }
    let s := s.emit (Event.bulk_in EP_INTR IRQ_LENGTH io.submit_r)
    if io.submit_r < 0 then ({ s with irq_transfer := false }, io.submit_r)
    else (s, io.submit_r)

def start_imaging_loop (s : uru4k_dev) (io : IoReply) : uru4k_dev × Int :=
  if !io.alloc_ok then (s, -ENOMEM)
  else
    let s := { s with img_transfer := true }
    let s := s.emit (Event.bulk_in EP_DATA DATABLK_RQLEN io.submit_r)
    (s, io.submit_r)

def stop_imaging_loop (s : uru4k_dev) : uru4k_dev :=
  if s.img_transfer then s.emit Event.cancel_img_transfer else s

/-- The code of `image_cb` from its label `out`: restart the loop when `r` is 0,
and report a session error when `r` is then not 0. -/
def image_cb_out (s : uru4k_dev) (r : Int) (io : IoReply) : uru4k_dev :=
  let p := if r = 0 then start_imaging_loop s io else (s, r)
  if p.2 ≠ 0 then p.1.emit (Event.session_error p.2) else p.1

/-- The code of `image_cb` that packages the image, for a given `hdr_skip`. -/
def image_cb_capture (s : uru4k_dev) (buffer : List Nat) (hdr_skip : Nat) (io : IoReply) :
    uru4k_dev :=
  let image_size := DATABLK_EXPECT - CAPTURE_HDRLEN
  let data := memcpy (g_malloc image_size) 0 (buffer.drop hdr_skip) image_size
  image_cb_out (s.emit (Event.image_captured data
    [ImgFlag.FP_IMG_V_FLIPPED, ImgFlag.FP_IMG_H_FLIPPED, ImgFlag.FP_IMG_COLORS_INVERTED])) 0 io

/-- Completion of the image transfer with its `status`, `actual_length` and
`buffer`; `io` is the reply to the transfer `start_imaging_loop` submits next. -/
def image_cb (s : uru4k_dev) (status : Int) (actual_length : Nat) (buffer : List Nat)
    (io : IoReply) : uru4k_dev :=
  let image_size := DATABLK_EXPECT - CAPTURE_HDRLEN
  let s := { s with img_transfer := false }
  if status = LIBUSB_TRANSFER_CANCELLED then s
  else if status ≠ LIBUSB_TRANSFER_COMPLETED then image_cb_out s (- EIO) io
  else if actual_length = image_size then image_cb_capture s buffer 0 io
  else if actual_length ≠ DATABLK_EXPECT then image_cb_out s (-EPROTO) io
  else image_cb_capture s buffer CAPTURE_HDRLEN io

/-! ## uru4000.c: state changing -/

/-- Returns the context, the return value, and the status the completion of the
mode write passes to `change_state_write_reg_cb` when that write was submitted. -/
def dev_change_state (s : uru4k_dev) (state : fp_imgdev_state) (io_img io_wr : IoReply) :
    uru4k_dev × Int × Option Int :=
  let s := stop_imaging_loop s
  match state with
  | fp_imgdev_state.IMGDEV_STATE_AWAIT_FINGER_ON =>
    if !s.irq_transfer then (s, - EIO, none)
    else write_reg { s with irq_cb := some irq_cb_fn.finger_presence_irq_cb }
      REG_MODE MODE_AWAIT_FINGER_ON io_wr
  | fp_imgdev_state.IMGDEV_STATE_CAPTURE =>
    let s := { s with irq_cb := none }
    let s := (start_imaging_loop s io_img).1
    write_reg s REG_MODE MODE_CAPTURE io_wr
  | fp_imgdev_state.IMGDEV_STATE_AWAIT_FINGER_OFF =>
    if !s.irq_transfer then (s, - EIO, none)
    else write_reg { s with irq_cb := some irq_cb_fn.finger_presence_irq_cb }
      REG_MODE MODE_AWAIT_FINGER_OFF io_wr
  | fp_imgdev_state.other _ => (s, -EINVAL, none)

def change_state_write_reg_cb (s : uru4k_dev) (status : Int) : uru4k_dev :=
  if status ≠ 0 then s.emit (Event.session_error status) else s

/-! ## uru4000.c: state machine helpers -/

def sm_write_reg_cb (result : Int) : List SsmCall :=
  if result ≠ 0 then [SsmCall.mark_aborted result] else [SsmCall.next_state]

/-- The function `sm_write_reg` with the completion of its transfer. -/
def sm_write_reg (s : uru4k_dev) (reg value : Nat) (io : IoReply) : uru4k_dev × List SsmCall :=
  match write_reg s reg value io with
  | (s, r, cb) =>
    if r < 0 then (s, [SsmCall.mark_aborted r])
    else
      match cb with
      | some result => (s, sm_write_reg_cb result)
      | none => (s, [])

/-! ## uru4000.c: firmware fixer -/

def FWFIXER_INIT : Nat := 0
def FWFIXER_READ_NEXT : Nat := 1
def FWFIXER_WRITE : Nat := 2
def FWFIXER_NUM_STATES : Nat := 3

/-- The callback of a probe read; `data = none` is the null pointer.  It has no
`return` after `fpi_ssm_mark_aborted`, so for every status it goes on to read
`data[0]`: through a null pointer that read is undefined behaviour and nothing
after it is executed, the calls listed are those made before it. -/
def fwfixer_read_cb (s : uru4k_dev) (status : Int) (data : Option (List Nat)) :
    uru4k_dev × List SsmCall :=
  let aborted := if status ≠ 0 then [SsmCall.mark_aborted status] else []
  match data with
  | none => ({ s with null_deref := true }, aborted)
  | some d =>
    if d.getD 0 0 = 0xff ∧ (d.getD 1 0) &&& 0x0f = 0x07 ∧ d.getD 2 0 = 0x41 then
      ({ s with fwfixer_value := d.getD 1 0 }, aborted ++ [SsmCall.jump_to_state FWFIXER_WRITE])
    else (s, aborted ++ [SsmCall.jump_to_state FWFIXER_READ_NEXT])

/-- One state of `fwfixer_run_state`, with the completion of the transfer it
submits; `io 0` is the reply to that transfer. -/
def fwfixer_run_state (s : uru4k_dev) (cur_state : Nat) (io : Nat → IoReply) :
    uru4k_dev × List SsmCall :=
  if cur_state = FWFIXER_INIT then
    ({ s with fwfixer_offset := -1 }, [SsmCall.next_state])
  else if cur_state = FWFIXER_READ_NEXT then
    let s := { s with fwfixer_offset := s.fwfixer_offset + 1 }
    let offset := s.fwfixer_offset
    if offset = (fwenc_offsets.length : Int) then (s, [SsmCall.mark_aborted (-ENODEV)])
    else
      let try_addr := fwenc_offsets.getD offset.toNat 0
      match read_regs s try_addr 3 (io 0) with
      | (s, r, cb) =>
        if r < 0 then (s, [SsmCall.mark_aborted r])
        else
          match cb with
          | some (status, data) => fwfixer_read_cb s status data
          | none => (s, [])
  else if cur_state = FWFIXER_WRITE then
    let enc_addr := (fwenc_offsets.getD s.fwfixer_offset.toNat 0 + 1) % 65536
    let cur := s.fwfixer_value
    let new := cur &&& 0xef
    if new = cur then (s, [SsmCall.next_state])
    else sm_write_reg s enc_addr new (io 0)
  else (s, [])

/-! ## The state-machine runtime -/

/-- How a state machine ends. -/
inductive SsmOutcome where
  | completed
  | aborted (error : Int)
  /-- The action of state `state` returned without a transition call. -/
  | parked (state : Nat)
  /-- An action or callback made more than one transition call. -/
  | misuse (calls : List SsmCall)
deriving DecidableEq, Repr

/-- Modelled from the spec: the state-machine runtime `fpi_ssm_*` of the host
library, which is not part of the drivers.  A machine has states
`0 .. nr_states - 1`; each action arranges exactly one of `next`, `jump_to`,
`complete`, `abort`; `next` moves to the following state and completes the
machine after the last one; `complete` and `abort (err)` end the machine.
`handler s cur_state io` is the action of a state together with the completions
of the transfers it submits; the environment is `io k j`, the reply to the
`j`-th transfer submitted by the `k`-th action that runs.  The result is `none`
when the fuel runs out. -/
def ssm_exec (nr_states : Nat)
    (handler : uru4k_dev → Nat → (Nat → IoReply) → uru4k_dev × List SsmCall)
    (io : Nat → Nat → IoReply) : Nat → uru4k_dev → Nat → uru4k_dev × Option SsmOutcome
  | 0, s, _ => (s, none)
  | fuel + 1, s, cur_state =>
    match handler s cur_state (io 0) with
    | (s, calls) =>
      let io := fun k => io (k + 1)
      match calls with
      | [] => (s, some (SsmOutcome.parked cur_state))
      | [SsmCall.next_state] =>
        if cur_state + 1 = nr_states then (s, some SsmOutcome.completed)
        else ssm_exec nr_states handler io fuel s (cur_state + 1)
      | [SsmCall.jump_to_state n] => ssm_exec nr_states handler io fuel s n
      | [SsmCall.mark_completed] => (s, some SsmOutcome.completed)
      | [SsmCall.mark_aborted e] => (s, some (SsmOutcome.aborted e))
      | calls => (s, some (SsmOutcome.misuse calls))

/-- Modelled from the spec: the runtime's handling of a finished child machine
(`fpi_ssm_start_subsm`): "when a child sub-SSM completes without error, the
runtime implicitly calls `next` on the parent; on error, `abort (parent, err)`". -/
def subsm_calls : Option SsmOutcome → List SsmCall
  | some SsmOutcome.completed => [SsmCall.next_state]
  | some (SsmOutcome.aborted e) => [SsmCall.mark_aborted e]
  | _ => []

/-- The firmware fixer, run from `FWFIXER_INIT`. -/
def fwfixer_exec (io : Nat → Nat → IoReply) (fuel : Nat) (s : uru4k_dev) :
    uru4k_dev × Option SsmOutcome :=
  ssm_exec FWFIXER_NUM_STATES fwfixer_run_state io fuel s FWFIXER_INIT

/-! ## uru4000.c: initialization -/

def INIT_GET_HWSTAT : Nat := 0
def INIT_FIX_FIRMWARE : Nat := 4
def INIT_AWAIT_SCAN_POWER : Nat := 6

def init_scanpwr_timeout (s : uru4k_dev) : uru4k_dev × List SsmCall :=
  let s := { s with irq_cb := none, scanpwr_irq_timeout := false }
  let s := { s with scanpwr_irq_timeouts := s.scanpwr_irq_timeouts + 1 }
  if s.scanpwr_irq_timeouts ≥ 3 then (s, [SsmCall.mark_aborted (-ETIMEDOUT)])
  else (s, [SsmCall.jump_to_state INIT_GET_HWSTAT])

/-- State `INIT_FIX_FIRMWARE` of `init_run_state`: run the firmware fixer as a
sub-machine; the calls are those the runtime makes on the init machine when the
sub-machine ends. -/
def init_fix_firmware (io : Nat → Nat → IoReply) (fuel : Nat) (s : uru4k_dev) :
    uru4k_dev × List SsmCall :=
  match fwfixer_exec io fuel s with
  | (s, outcome) => (s, subsm_calls outcome)

/-- The completion callback of the init machine; `error` is `ssm->error`. -/
def activate_initsm_complete (s : uru4k_dev) (error : Int) (io_img io_wr : IoReply) :
    uru4k_dev × Option Int :=
  if error ≠ 0 then (s.emit (Event.activate_complete error), none)
  else
    match dev_change_state s s.activate_state io_img io_wr with
    | (s, r, cb) => (s.emit (Event.activate_complete r), cb)

def INIT_DONE : Nat := 7

/-- State `INIT_AWAIT_SCAN_POWER` of `init_run_state`; `timer_ok` tells whether
`fpi_timeout_add` returns a timer. -/
def init_await_scan_power (s : uru4k_dev) (timer_ok : Bool) : uru4k_dev × List SsmCall :=
  if !s.irq_transfer then (s, [SsmCall.mark_aborted (- EIO)])
  else
    let s := ({ s with scanpwr_irq_timeout := timer_ok } : uru4k_dev).emit (Event.timeout_add 300)
    if !s.scanpwr_irq_timeout then (s, [SsmCall.mark_aborted (-ETIME)])
    else ({ s with irq_cb := some irq_cb_fn.init_scanpwr_irq_cb }, [])

/-- The function `dev_activate`, up to the start of the init machine: returns
the context and the return value. -/
def dev_activate (s : uru4k_dev) (state : fp_imgdev_state) (io : IoReply) : uru4k_dev × Int :=
  match start_irq_handler s io with
  | (s, r) =>
    if r < 0 then (s, r)
    else ({ s with scanpwr_irq_timeouts := 0, activate_state := state }, 0)

/-- The function `dev_init`, after the interface was found and claimed: the
context it allocates (zeroed), with the profile and the AES key schedule. -/
def dev_init_context (aes : Aes) (auth_cr : Bool) : uru4k_dev :=
  { auth_cr := auth_cr
    activate_state := fp_imgdev_state.other 0
    last_reg_rd := 0
    last_hwstat := 0
    irq_transfer := false
    img_transfer := false
    irq_cb := none
    irqs_stopped_cb := none
    rebootpwr_ctr := 0
    powerup_ctr := 0
    powerup_hwstat := 0
    scanpwr_irq_timeouts := 0
    scanpwr_irq_timeout := false
    fwfixer_offset := 0
    fwfixer_value := 0
    aeskey := aes.set_encrypt_key crkey 128
    trace := []
    null_deref := false }

/-! ## Replies of a well-behaved device, and what the claims speak of -/

/-- The reply to a read that completes with `n` bytes `data`. -/
def read_ok (data : List Nat) (n : Nat) : IoReply :=
  { alloc_ok := true, submit_r := 0, status := LIBUSB_TRANSFER_COMPLETED,
    actual_length := n, data := data }

/-- The reply to a write of `n` bytes that completes. -/
def write_ok (n : Nat) : IoReply :=
  { alloc_ok := true, submit_r := 0, status := LIBUSB_TRANSFER_COMPLETED,
    actual_length := n, data := [] }

/-- The pattern `FF X7 41` on the three bytes read at a candidate address. -/
def fw_match (t : List Nat) : Prop :=
  t.getD 0 0 = 0xff ∧ (t.getD 1 0) &&& 0x0f = 0x07 ∧ t.getD 2 0 = 0x41

instance (t : List Nat) : Decidable (fw_match t) := by
  unfold fw_match
  infer_instance

/-- The probe reads of candidates `k, .., k + n - 1`: 3 bytes at each address of
`fwenc_offsets`, in order. -/
def probe_reads (k n : Nat) : List Event :=
  (List.range n).map fun j => Event.ctrl_in (fwenc_offsets.getD (k + j) 0) 3 0

/-- The 16 bytes of the single-block AES-128 encryption of `c` under `crkey`. -/
def aes_ecb_encrypt (aes : Aes) (c : List Nat) : List Nat :=
  (List.range CR_LENGTH).map fun i => (aes.encrypt c (aes.set_encrypt_key crkey 128)).getD i 0

/-- A stand-in for AES whose key schedule is the key and whose block function
adds the first key byte to every byte of the block. -/
def example_aes : Aes :=
  { set_encrypt_key := fun key _ => key
    encrypt := fun block key => block.map fun b => (b + key.getD 0 0) % 256 }

/-- A press context right after `dev_init`, for a device without
challenge/response. -/
def example_press_ctx : uru4k_dev := dev_init_context example_aes false

/-- Firmware in which the third candidate holds the pattern, with the
encryption bit set: `FF 17 41` at 0x792. -/
def example_fw (j : Nat) : List Nat := if j = 2 then [0xff, 0x17, 0x41] else [0, 0, 0]

/-- A device that answers the probe reads from `example_fw` and accepts
the write. -/
def example_fw_io (k : Nat) (_ : Nat) : IoReply :=
  if k = 4 then write_ok 1 else read_ok (example_fw (k - 1)) 3

/-- Firmware without the pattern at any candidate. -/
def example_fw_blank (_ : Nat) : List Nat := [0, 0, 0]

/-- A device that answers every probe read from `example_fw_blank`. -/
def example_fw_blank_io (_ : Nat) (_ : Nat) : IoReply := read_ok [0, 0, 0] 3

/-- The image bytes taken from a transfer buffer after skipping `hdr_skip`. -/
def framed (buffer : List Nat) (hdr_skip : Nat) : List Nat :=
  (List.range (DATABLK_EXPECT - CAPTURE_HDRLEN)).map fun i => buffer.getD (hdr_skip + i) 0

/-- The flags of a press image. -/
def press_flags : List ImgFlag :=
  [ImgFlag.FP_IMG_V_FLIPPED, ImgFlag.FP_IMG_H_FLIPPED, ImgFlag.FP_IMG_COLORS_INVERTED]

/-- What `image_cb` does after a good frame: `start_imaging_loop`, and a
session error when that fails. -/
def restart_events (io : IoReply) : List Event :=
  if io.alloc_ok then
    Event.bulk_in EP_DATA DATABLK_RQLEN io.submit_r ::
      (if io.submit_r ≠ 0 then [Event.session_error io.submit_r] else [])
  else [Event.session_error (-ENOMEM)]

end Libfprint.Uru4000

namespace Libfprint.Upeksonly

open sonly_kill_transfers_action

/-! ## upeksonly.c: the locals of `handle_packet` -/

/-- The sequence number `handle_packet` reads from a packet:
`data[0] << 8 | data[1]`, a `uint16_t`. -/
def packet_seqnum (data : List Nat) : Int :=
  ((data.getD 0 0 <<< 8 ||| data.getD 1 0 : Nat) : Int) % 65536

/-- The context after the wrap accounting of `handle_packet`: the statements up
to and including `sdev->last_seqnum = seqnum`. -/
def wrap_account (s : sonly_dev) (data : List Nat) : sonly_dev :=
  let seqnum := packet_seqnum data
  let s := if seqnum ≤ s.last_seqnum then { s with wraparounds := s.wraparounds + 1 } else s
  { s with last_seqnum := seqnum }

/-- The value `handle_packet` assigns to its local `abs_base_addr`: `seqnum` is
a `uint16_t`, so `seqnum += sdev->wraparounds * 16384` is reduced modulo `2^16`
before the multiplication by 62. -/
def abs_base_addr (s : sonly_dev) (data : List Nat) : Int :=
  ((packet_seqnum data + (wrap_account s data).wraparounds * 16384) % 65536) * 62

/-- Modelled from the spec: the absolute address as the exact integer
`(seqnum + wraparounds * 16384) * 62`, with the wrap count after the accounting
of this packet. -/
def abs_base_addr_exact (s : sonly_dev) (data : List Nat) : Int :=
  (packet_seqnum data + (wrap_account s data).wraparounds * 16384) * 62

/-- A 64-byte packet with sequence number `seq` and 62 dark pixels. -/
def example_packet (seq : Nat) : List Nat :=
  (seq / 256 % 256) :: (seq % 256) :: List.replicate 62 0

/-- A capture in which the sequence counter has wrapped four times (the first
packet of a capture counts as a wrap): `wraparounds` is 3, the last packet had
sequence number 16382, no row is being assembled. -/
def example_wrapped : sonly_dev :=
  { capsm_init example_fresh with wraparounds := 3, last_seqnum := 16382 }

/-- The packets handed to `handle_packet` one after the other, as the loop of
`img_data_cb` does: a packet is handled only while `is_capturing` holds. -/
def feed_packets (s : sonly_dev) (ps : List (List Nat)) : sonly_dev :=
  ps.foldl (fun s p => if is_capturing s then handle_packet s p else s) s

/-- What holds of the row buffer between packets: the offset is -1 or inside the
row, and a row in progress has a buffer. -/
def RowbufInv (s : sonly_dev) : Prop :=
  (s.rowbuf_offset = -1 ∨ (0 ≤ s.rowbuf_offset ∧ s.rowbuf_offset < (IMG_WIDTH : Int))) ∧
  (s.rowbuf_offset ≠ -1 → s.rowbuf ≠ none)

/-- The sum of the pixels of a row, `Σ b[i]`. -/
def row_total (b : List Nat) : Int :=
  ∑ i in Finset.range IMG_WIDTH, (b.getD i 0 : Int)

/-- The capture of `example_start_of_swipe` once its first row, the dark
`example_rowA`, is stored: one row, no blank row counted. -/
def example_first_row : sonly_dev := feed_row example_start_of_swipe example_rowA

end Libfprint.Upeksonly
namespace Libfprint.Upeksonly

open sonly_kill_transfers_action

/-- A capture one row short of the row limit: 699 stored rows, alternately
bright and dark, and a dark row complete in the row buffer (the context inside
`add_to_rowbuf`, just before `row_complete`). -/
def example_last_row : sonly_dev :=
  { example_end_of_swipe with
    rows := (List.range 699).map fun i => if i % 2 = 0 then example_rowB else example_rowA
    num_rows := 699
    rowbuf := some example_rowA
    num_blank := 1
    trace := [] }

end Libfprint.Upeksonly
namespace Libfprint.Upeksonly

open sonly_kill_transfers_action

/-! ## upeksonly.c: activation, and the steps that touch the transfer pool -/

/-- The function `dev_activate`: a fresh pool (`g_malloc0`) with no transfer
flying; `alloc_ok i` tells whether `libusb_alloc_transfer` succeeds for
transfer `i`.  When an allocation fails the pool is freed and `-ENOMEM` is
returned; otherwise the init machine is started and 0 is returned. -/
def dev_activate (s : sonly_dev) (alloc_ok : Nat → Bool) : sonly_dev × Int :=
  let s := { s with
    deactivating := false
    capturing := false
    img_transfer_data :=
      List.replicate NUM_BULK_TRANSFERS { flying := false, cancelling := false }
    num_flying := 0 }
  if (List.range NUM_BULK_TRANSFERS).all alloc_ok then (s, 0)
  else ({ s with img_transfer_data := [] }, -ENOMEM)

/-- A step of the driver between two callbacks: state `CAPSM_INIT`, state
`CAPSM_FIRE_BULK` (with the results of the 24 submissions), a completion
delivered to `img_data_cb`, or a call of `cancel_img_transfers`. -/
inductive Step where
  | capsm_init
  | capsm_fire_bulk (submit_r : Nat → Int)
  | img_data_cb (c : Completion)
  | cancel_img_transfers

def step (s : sonly_dev) : Step → sonly_dev
  | Step.capsm_init => capsm_init s
  | Step.capsm_fire_bulk submit_r => capsm_fire_bulk s submit_r
  | Step.img_data_cb c => img_data_cb s c.idx c.status c.buffer c.resubmit_r
  | Step.cancel_img_transfers => cancel_img_transfers s

/-- What libusb guarantees of a step: a completion is delivered for a transfer
that is in flight, and the submission of a transfer that is in flight is
refused (`LIBUSB_ERROR_BUSY`). -/
def step_ok (s : sonly_dev) : Step → Prop
  | Step.capsm_fire_bulk submit_r =>
    ∀ i, i < NUM_BULK_TRANSFERS → (flying_flags s).getD i false = true → submit_r i < 0
  | Step.img_data_cb c => (flying_flags s).getD c.idx false = true
  | _ => True

def steps (s : sonly_dev) (l : List Step) : sonly_dev := l.foldl step s

def steps_ok : sonly_dev → List Step → Prop
  | _, [] => True
  | s, x :: l => step_ok s x ∧ steps_ok (step s x) l

/-- The pool has its 24 records and `num_flying` counts the flying ones. -/
def FlyInv (s : sonly_dev) : Prop :=
  (flying_flags s).length = NUM_BULK_TRANSFERS ∧ s.num_flying = (count_flying s : Int)

end Libfprint.Upeksonly
namespace Libfprint.Uru4000

/-! ## Press driver: the capture scenario -/

/-- The press context once `dev_change_state` has moved `example_press_ctx` to
`IMGDEV_STATE_CAPTURE`, with a device that accepts the image transfer and the
mode write. -/
def example_capture_ctx : uru4k_dev :=
  (dev_change_state example_press_ctx fp_imgdev_state.IMGDEV_STATE_CAPTURE
    (read_ok [] 0) (write_ok 1)).1

/-- A transfer buffer of the full requested length `DATABLK_RQLEN`. -/
def example_full_buffer : List Nat := List.replicate DATABLK_RQLEN 0

end Libfprint.Uru4000

namespace Libfprint.Uru4000

/-! ## uru4000.c: register reads in a state machine -/

def sm_read_reg_cb (s : uru4k_dev) (result : Int) (data : Option (List Nat)) :
    uru4k_dev × List SsmCall :=
  if result ≠ 0 then (s, [SsmCall.mark_aborted result])
  else ({ s with last_reg_rd := (data.getD []).getD 0 0 }, [SsmCall.next_state])

/-- The function `sm_read_reg` with the completion of its transfer. -/
def sm_read_reg (s : uru4k_dev) (reg : Nat) (io : IoReply) : uru4k_dev × List SsmCall :=
  match read_reg s reg io with
  | (s, r, cb) =>
    if r < 0 then (s, [SsmCall.mark_aborted r])
    else
      match cb with
      | some (status, data) => sm_read_reg_cb s status data
      | none => (s, [])

def sm_set_mode (s : uru4k_dev) (mode : Nat) (io : IoReply) : uru4k_dev × List SsmCall :=
  sm_write_reg s REG_MODE mode io

def sm_set_hwstat (s : uru4k_dev) (value : Nat) (io : IoReply) : uru4k_dev × List SsmCall :=
  sm_write_reg s REG_HWSTAT value io

/-! ## uru4000.c: the reboot-power machine -/

def REBOOTPWR_SET_HWSTAT : Nat := 0
def REBOOTPWR_GET_HWSTAT : Nat := 1
def REBOOTPWR_CHECK_HWSTAT : Nat := 2
def REBOOTPWR_PAUSE : Nat := 3
def REBOOTPWR_NUM_STATES : Nat := 4

def rebootpwr_pause_cb (s : uru4k_dev) : uru4k_dev × List SsmCall :=
  let s := { s with rebootpwr_ctr := s.rebootpwr_ctr - 1 }
  if s.rebootpwr_ctr = 0 then (s, [SsmCall.mark_aborted (- EIO)])
  else (s, [SsmCall.jump_to_state REBOOTPWR_GET_HWSTAT])

/-- One state of `rebootpwr_run_state`, with the completion of the transfer it
submits (reply `io 0`).  In `REBOOTPWR_PAUSE`, `(io 0).alloc_ok` tells whether
`fpi_timeout_add` returns a timer; the timer then expires and
`rebootpwr_pause_cb` runs. -/
def rebootpwr_run_state (s : uru4k_dev) (cur_state : Nat) (io : Nat → IoReply) :
    uru4k_dev × List SsmCall :=
  if cur_state = REBOOTPWR_SET_HWSTAT then
    let s := { s with rebootpwr_ctr := 100 }
    sm_set_hwstat s (s.last_hwstat &&& 0xf) (io 0)
  else if cur_state = REBOOTPWR_GET_HWSTAT then sm_read_reg s REG_HWSTAT (io 0)
  else if cur_state = REBOOTPWR_CHECK_HWSTAT then
    let s := { s with last_hwstat := s.last_reg_rd }
    if s.last_hwstat &&& 0x1 ≠ 0 then (s, [SsmCall.mark_completed])
    else (s, [SsmCall.next_state])
  else if cur_state = REBOOTPWR_PAUSE then
    let s := s.emit (Event.timeout_add 10)
    if !(io 0).alloc_ok then (s, [SsmCall.mark_aborted (-ETIME)])
    else rebootpwr_pause_cb s
  else (s, [])

/-- The reboot-power machine, run from `REBOOTPWR_SET_HWSTAT`. -/
def rebootpwr_exec (io : Nat → Nat → IoReply) (fuel : Nat) (s : uru4k_dev) :
    uru4k_dev × Option SsmOutcome :=
  ssm_exec REBOOTPWR_NUM_STATES rebootpwr_run_state io fuel s REBOOTPWR_SET_HWSTAT

/-! ## uru4000.c: the power-up machine -/

def POWERUP_INIT : Nat := 0
def POWERUP_SET_HWSTAT : Nat := 1
def POWERUP_GET_HWSTAT : Nat := 2
def POWERUP_CHECK_HWSTAT : Nat := 3
def POWERUP_PAUSE : Nat := 4
def POWERUP_CHALLENGE_RESPONSE : Nat := 5
def POWERUP_CHALLENGE_RESPONSE_SUCCESS : Nat := 6
def POWERUP_NUM_STATES : Nat := 7

def powerup_pause_cb (s : uru4k_dev) : uru4k_dev × List SsmCall :=
  let s := { s with powerup_ctr := s.powerup_ctr - 1 }
  if s.powerup_ctr = 0 then (s, [SsmCall.mark_aborted (- EIO)])
  else if !s.auth_cr then (s, [SsmCall.jump_to_state POWERUP_SET_HWSTAT])
  else (s, [SsmCall.next_state])

/-- One state of `powerup_run_state`, with the completions of the transfers it
submits (`io 0`, and `io 1` for the response write of the challenge/response
state).  In `POWERUP_PAUSE`, `(io 0).alloc_ok` tells whether `fpi_timeout_add`
returns a timer; the timer then expires and `powerup_pause_cb` runs. -/
def powerup_run_state (aes : Aes) (s : uru4k_dev) (cur_state : Nat) (io : Nat → IoReply) :
    uru4k_dev × List SsmCall :=
  if cur_state = POWERUP_INIT then
    ({ s with powerup_ctr := 100, powerup_hwstat := s.last_hwstat &&& 0xf },
      [SsmCall.next_state])
  else if cur_state = POWERUP_SET_HWSTAT then sm_set_hwstat s s.powerup_hwstat (io 0)
  else if cur_state = POWERUP_GET_HWSTAT then sm_read_reg s REG_HWSTAT (io 0)
  else if cur_state = POWERUP_CHECK_HWSTAT then
    let s := { s with last_hwstat := s.last_reg_rd }
    if s.last_reg_rd &&& 0x80 = 0 then (s, [SsmCall.mark_completed])
    else (s, [SsmCall.next_state])
  else if cur_state = POWERUP_PAUSE then
    let s := s.emit (Event.timeout_add 10)
    if !(io 0).alloc_ok then (s, [SsmCall.mark_aborted (-ETIME)])
    else powerup_pause_cb s
  else if cur_state = POWERUP_CHALLENGE_RESPONSE then
    sm_do_challenge_response aes s (io 0) (io 1)
  else if cur_state = POWERUP_CHALLENGE_RESPONSE_SUCCESS then
    (s, [SsmCall.jump_to_state POWERUP_SET_HWSTAT])
  else (s, [])

/-- The power-up machine, run from `POWERUP_INIT`. -/
def powerup_exec (aes : Aes) (io : Nat → Nat → IoReply) (fuel : Nat) (s : uru4k_dev) :
    uru4k_dev × Option SsmOutcome :=
  ssm_exec POWERUP_NUM_STATES (powerup_run_state aes) io fuel s POWERUP_INIT

/-! ## uru4000.c: the init machine -/

def INIT_CHECK_HWSTAT_REBOOT : Nat := 1
def INIT_REBOOT_POWER : Nat := 2
def INIT_CHECK_HWSTAT_POWERDOWN : Nat := 3
def INIT_POWERUP : Nat := 5
def INIT_NUM_STATES : Nat := 8

/-- One state of `init_run_state`.  A sub-machine started in state `n` runs with
the replies `sub_io n` and the fuel `sub_fuel`; the calls returned for such a
state are those the runtime makes on the init machine when the sub-machine
ends.  In `INIT_AWAIT_SCAN_POWER`, `(io 0).alloc_ok` tells whether
`fpi_timeout_add` returns a timer. -/
def init_run_state (aes : Aes) (sub_io : Nat → Nat → Nat → IoReply) (sub_fuel : Nat)
    (s : uru4k_dev) (cur_state : Nat) (io : Nat → IoReply) : uru4k_dev × List SsmCall :=
  if cur_state = INIT_GET_HWSTAT then sm_read_reg s REG_HWSTAT (io 0)
  else if cur_state = INIT_CHECK_HWSTAT_REBOOT then
    let s := { s with last_hwstat := s.last_reg_rd }
    if s.last_hwstat &&& 0x84 = 0x84 then (s, [SsmCall.next_state])
    else (s, [SsmCall.jump_to_state INIT_CHECK_HWSTAT_POWERDOWN])
  else if cur_state = INIT_REBOOT_POWER then
    match rebootpwr_exec (sub_io INIT_REBOOT_POWER) sub_fuel s with
    | (s, outcome) => (s, subsm_calls outcome)
  else if cur_state = INIT_CHECK_HWSTAT_POWERDOWN then
    if s.last_hwstat &&& 0x80 = 0 then sm_set_hwstat s (s.last_hwstat ||| 0x80) (io 0)
    else (s, [SsmCall.next_state])
  else if cur_state = INIT_FIX_FIRMWARE then
    init_fix_firmware (sub_io INIT_FIX_FIRMWARE) sub_fuel s
  else if cur_state = INIT_POWERUP then
    match powerup_exec aes (sub_io INIT_POWERUP) sub_fuel s with
    | (s, outcome) => (s, subsm_calls outcome)
  else if cur_state = INIT_AWAIT_SCAN_POWER then init_await_scan_power s (io 0).alloc_ok
  else if cur_state = INIT_DONE then
    let s := s.emit Event.timeout_cancel
    ({ s with scanpwr_irq_timeout := false, irq_cb := none }, [SsmCall.mark_completed])
  else (s, [])

/-! ## uru4000.c: the interrupt handler -/

/-- A call of a callback installed in the context. -/
inductive IrqCall where
  | irq_cb (fn : irq_cb_fn) (status : Int) (type : Nat)
  | irqs_stopped_cb (fn : irqs_stopped_cb_fn)
deriving DecidableEq, Repr

def finger_presence_irq_cb (s : uru4k_dev) (status : Int) (type : Nat) : uru4k_dev :=
  if status ≠ 0 then s.emit (Event.session_error status)
  else if type = IRQDATA_FINGER_ON then s.emit (Event.report_finger_status true)
  else if type = IRQDATA_FINGER_OFF then s.emit (Event.report_finger_status false)
  else s

/-- The calls `init_scanpwr_irq_cb` makes on the init machine, which is in state
`cur_state`. -/
def init_scanpwr_irq_cb (cur_state : Nat) (status : Int) (type : Nat) : List SsmCall :=
  if status ≠ 0 then [SsmCall.mark_aborted status]
  else if type ≠ IRQDATA_SCANPWR_ON then []
  else if cur_state ≠ INIT_AWAIT_SCAN_POWER then []
  else [SsmCall.next_state]

def deactivate_irqs_stopped (s : uru4k_dev) : uru4k_dev := s.emit Event.deactivate_complete

/-- The callbacks as far as they act on the context themselves:
`finger_presence_irq_cb` and `deactivate_irqs_stopped`; the calls
`init_scanpwr_irq_cb` makes on the init machine are left to the runtime. -/
def driver_callbacks (s : uru4k_dev) : IrqCall → uru4k_dev
  | IrqCall.irq_cb irq_cb_fn.finger_presence_irq_cb status type =>
    finger_presence_irq_cb s status type
  | IrqCall.irq_cb irq_cb_fn.init_scanpwr_irq_cb _ _ => s
  | IrqCall.irqs_stopped_cb irqs_stopped_cb_fn.deactivate_irqs_stopped =>
    deactivate_irqs_stopped s

/-- The code of `irq_handler` from its label `err`: tell `irq_cb` (as it is set
then) about the error `r`, then the code from `out`. -/
def irq_handler_err (host : uru4k_dev → IrqCall → uru4k_dev) (s : uru4k_dev)
    (calls : List IrqCall) (r : Int) : uru4k_dev × List IrqCall :=
  match s.irq_cb with
  | some f =>
    ({ host s (IrqCall.irq_cb f r 0) with irq_transfer := false },
      calls ++ [IrqCall.irq_cb f r 0])
  | none => ({ s with irq_transfer := false }, calls)

/-- The dispatch of a received interrupt to `irq_cb`. -/
def irq_handler_dispatch (host : uru4k_dev → IrqCall → uru4k_dev) (s : uru4k_dev)
    (type : Nat) : uru4k_dev × List IrqCall :=
  match s.irq_cb with
  | some f => (host s (IrqCall.irq_cb f 0 type), [IrqCall.irq_cb f 0 type])
  | none => (s, [])

/-- Completion of the interrupt transfer with its `status`, `actual_length` and
`data`.  `host s c` is the context after the callback call `c` made in context
`s` (the callback itself and whatever the host library does before it returns);
`io` is the reply to the transfer `start_irq_handler` submits.  Returns the
context and the callback calls made, in order. -/
def irq_handler (host : uru4k_dev → IrqCall → uru4k_dev) (s : uru4k_dev) (status : Int)
    (actual_length : Nat) (data : List Nat) (io : IoReply) : uru4k_dev × List IrqCall :=
  if status = LIBUSB_TRANSFER_CANCELLED then
    match s.irqs_stopped_cb with
    | some f =>
      ({ host s (IrqCall.irqs_stopped_cb f) with irqs_stopped_cb := none, irq_transfer := false },
        [IrqCall.irqs_stopped_cb f])
    | none => ({ s with irqs_stopped_cb := none, irq_transfer := false }, [])
  else if status ≠ LIBUSB_TRANSFER_COMPLETED then irq_handler_err host s [] (- EIO)
  else if actual_length ≠ IRQ_LENGTH then irq_handler_err host s [] (-EPROTO)
  else
    let type := (data.getD 0 0 * 256 + data.getD 1 0) % 65536
    let d := irq_handler_dispatch host s type
    match start_irq_handler d.1 io with
    | (s, r) => if r = 0 then (s, d.2) else irq_handler_err host s d.2 r

def stop_irq_handler (s : uru4k_dev) (cb : irqs_stopped_cb_fn) : uru4k_dev :=
  if s.irq_transfer then
    { s.emit Event.cancel_irq_transfer with irqs_stopped_cb := some cb }
  else s

/-! ## uru4000.c: deactivation -/

def DEINIT_SET_MODE_INIT : Nat := 0
def DEINIT_POWERDOWN : Nat := 1
def DEINIT_NUM_STATES : Nat := 2

def deinit_run_state (s : uru4k_dev) (cur_state : Nat) (io : Nat → IoReply) :
    uru4k_dev × List SsmCall :=
  if cur_state = DEINIT_SET_MODE_INIT then sm_set_mode s MODE_INIT (io 0)
  else if cur_state = DEINIT_POWERDOWN then sm_set_hwstat s 0x80 (io 0)
  else (s, [])

def deactivate_deinitsm_complete (s : uru4k_dev) : uru4k_dev :=
  stop_irq_handler s irqs_stopped_cb_fn.deactivate_irqs_stopped

/-- The function `dev_deactivate` with the run of the deinit machine it
starts.  Modelled from the spec: the runtime calls the completion callback
(`deactivate_deinitsm_complete`) when the machine has completed or aborted. -/
def dev_deactivate (s : uru4k_dev) (io : Nat → Nat → IoReply) (fuel : Nat) :
    uru4k_dev × Option SsmOutcome :=
  let s := stop_imaging_loop s
  let s := { s with irq_cb := none }
  match ssm_exec DEINIT_NUM_STATES deinit_run_state io fuel s DEINIT_SET_MODE_INIT with
  | (s, some SsmOutcome.completed) => (deactivate_deinitsm_complete s, some SsmOutcome.completed)
  | (s, some (SsmOutcome.aborted e)) =>
    (deactivate_deinitsm_complete s, some (SsmOutcome.aborted e))
  | r => r

end Libfprint.Uru4000

namespace Libfprint.Uru4000

/-! ## uru4000.c: opening the device -/

structure libusb_endpoint_descriptor where
  bEndpointAddress : Nat
  bmAttributes : Nat
deriving DecidableEq, Repr, Inhabited

/-- An interface descriptor; `bNumEndpoints` is the length of `endpoint`. -/
structure libusb_interface_descriptor where
  bInterfaceNumber : Nat
  bInterfaceClass : Nat
  bInterfaceSubClass : Nat
  bInterfaceProtocol : Nat
  endpoint : List libusb_endpoint_descriptor
deriving DecidableEq, Repr

/-- An interface with its alternate settings; `num_altsetting` is the length of
`altsetting`. -/
structure libusb_interface where
  altsetting : List libusb_interface_descriptor
deriving DecidableEq, Repr

/-- A configuration descriptor; `bNumInterfaces` is the length of `interface`. -/
structure libusb_config_descriptor where
  interface : List libusb_interface
deriving DecidableEq, Repr

def LIBUSB_TRANSFER_TYPE_MASK : Nat := 0x03
def LIBUSB_TRANSFER_TYPE_BULK : Nat := 2
def LIBUSB_TRANSFER_TYPE_INTERRUPT : Nat := 3

/-- The `for` loop of `dev_init`: the first altsetting of the first interface
that has one with class, subclass and protocol 255. -/
def find_interface : List libusb_interface → Option libusb_interface_descriptor
  | [] => none
  | cur_iface :: rest =>
    match cur_iface.altsetting with
    | [] => find_interface rest
    | iface_desc :: _ =>
      if iface_desc.bInterfaceClass = 255 ∧ iface_desc.bInterfaceSubClass = 255
          ∧ iface_desc.bInterfaceProtocol = 255 then some iface_desc
      else find_interface rest

/-- Calls of `dev_init` into libusb and the host library. -/
inductive InitCall where
  | claim_interface (interface_number : Nat) (r : Int)
  | open_complete (status : Int)
deriving DecidableEq, Repr

/-- The function `dev_init`.  `config` is what `libusb_get_config_descriptor`
gives (an error code or the descriptor), `claim_r` what `libusb_claim_interface`
returns if it is called, `auth_cr` the flag of the profile selected by
`driver_data`.  Returns the return value, the calls made and the context
allocated on success. -/
def dev_init (aes : Aes) (auth_cr : Bool) (config : Except Int libusb_config_descriptor)
    (claim_r : Int) : Int × List InitCall × Option uru4k_dev :=
  match config with
  | Except.error r => (r, [], none)
  | Except.ok config =>
    match find_interface config.interface with
    | none => (-ENODEV, [], none)
    | some iface_desc =>
      if iface_desc.endpoint.length ≠ 2 then (-ENODEV, [], none)
      else
        let ep := iface_desc.endpoint.getD 0 default
        if ep.bEndpointAddress ≠ EP_INTR
            ∨ ep.bmAttributes &&& LIBUSB_TRANSFER_TYPE_MASK ≠ LIBUSB_TRANSFER_TYPE_INTERRUPT then
          (-ENODEV, [], none)
        else
          let ep := iface_desc.endpoint.getD 1 default
          if ep.bEndpointAddress ≠ EP_DATA
              ∨ ep.bmAttributes &&& LIBUSB_TRANSFER_TYPE_MASK ≠ LIBUSB_TRANSFER_TYPE_BULK then
            (-ENODEV, [], none)
          else if claim_r < 0 then
            (claim_r, [InitCall.claim_interface iface_desc.bInterfaceNumber claim_r], none)
          else
            (claim_r, [InitCall.claim_interface iface_desc.bInterfaceNumber claim_r,
              InitCall.open_complete 0], some (dev_init_context aes auth_cr))

/-- Modelled from the spec: an interface descriptor with "class/subclass/protocol
(0xFF,0xFF,0xFF) and exactly two endpoints, an interrupt-IN endpoint at address
0x81 followed by a bulk-IN endpoint at address 0x82". -/
def fingerprint_interface (d : libusb_interface_descriptor) : Prop :=
  d.bInterfaceClass = 0xFF ∧ d.bInterfaceSubClass = 0xFF ∧ d.bInterfaceProtocol = 0xFF ∧
  d.endpoint.length = 2 ∧
  (d.endpoint.getD 0 default).bEndpointAddress = 0x81 ∧
  (d.endpoint.getD 0 default).bmAttributes &&& 3 = 3 ∧
  (d.endpoint.getD 1 default).bEndpointAddress = 0x82 ∧
  (d.endpoint.getD 1 default).bmAttributes &&& 3 = 2

instance (d : libusb_interface_descriptor) : Decidable (fingerprint_interface d) := by
  unfold fingerprint_interface
  infer_instance

/-- Modelled from the spec: "the configuration contains an interface whose first
altsetting" is a fingerprint interface. -/
def has_fingerprint_interface (config : libusb_config_descriptor) : Prop :=
  ∃ i ∈ config.interface, ∃ d, i.altsetting.head? = some d ∧ fingerprint_interface d

/-- A fingerprint interface, numbered `n`. -/
def example_fp_interface (n : Nat) : libusb_interface :=
  { altsetting :=
      [{ bInterfaceNumber := n
         bInterfaceClass := 255
         bInterfaceSubClass := 255
         bInterfaceProtocol := 255
         endpoint :=
           [{ bEndpointAddress := 0x81, bmAttributes := 3 },
            { bEndpointAddress := 0x82, bmAttributes := 2 }] }] }

/-- A vendor-specific interface with a single bulk endpoint, numbered `n`. -/
def example_other_interface (n : Nat) : libusb_interface :=
  { altsetting :=
      [{ bInterfaceNumber := n
         bInterfaceClass := 255
         bInterfaceSubClass := 255
         bInterfaceProtocol := 255
         endpoint := [{ bEndpointAddress := 0x01, bmAttributes := 2 }] }] }

/-- A configuration whose first vendor-specific interface is not the reader and
whose second one is. -/
def example_config : libusb_config_descriptor :=
  { interface := [example_other_interface 0, example_fp_interface 1] }

/-- The context of `example_press_ctx` after `dev_activate`, when the first
interrupt transfer has completed with `LIBUSB_TRANSFER_ERROR`. -/
def example_irq_failed : uru4k_dev :=
  (irq_handler driver_callbacks
    (dev_activate example_press_ctx fp_imgdev_state.IMGDEV_STATE_AWAIT_FINGER_ON
      (read_ok [] 64)).1
    LIBUSB_TRANSFER_ERROR 0 [] (read_ok [] 64)).1

end Libfprint.Uru4000

namespace Libfprint.Uru4000

/-- The context of `example_press_ctx` after `dev_activate` and the change to
`IMGDEV_STATE_AWAIT_FINGER_ON`: the interrupt listener runs and
`finger_presence_irq_cb` is installed. -/
def example_listening : uru4k_dev :=
  (dev_change_state
    (dev_activate example_press_ctx fp_imgdev_state.IMGDEV_STATE_AWAIT_FINGER_ON
      (read_ok [] 64)).1
    fp_imgdev_state.IMGDEV_STATE_AWAIT_FINGER_ON (read_ok [] 0) (write_ok 1)).1

/-- The calls of a list that report status 0 to `irq_cb`. -/
def dispatched (calls : List IrqCall) : List IrqCall :=
  calls.filter fun c =>
    match c with
    | IrqCall.irq_cb _ status _ => decide (status = 0)
    | _ => false

/-! ## What the claims on the polling machines speak of -/

/-- The number of polls that fail before the first good one, among the first
`limit` polls: `ok j` tells whether poll `j` is good; `limit` when none is. -/
def polls_needed (ok : Nat → Bool) : Nat → Nat
  | 0 => 0
  | limit + 1 => if ok 0 then 0 else polls_needed (fun j => ok (j + 1)) limit + 1

/-- The events of `n` polls of the reboot-power machine that fail: a read of
`REG_HWSTAT`, then a pause of 10 ms. -/
def reboot_polls (n : Nat) : List Event :=
  (List.replicate n [Event.ctrl_in REG_HWSTAT 1 0, Event.timeout_add 10]).flatten

/-- The number of register reads in a trace. -/
def reads (tr : List Event) : Nat :=
  tr.countP (fun e => match e with
    | Event.ctrl_in _ _ _ => true
    | _ => false)

/-- The number of register writes in a trace. -/
def writes (tr : List Event) : Nat :=
  tr.countP (fun e => match e with
    | Event.ctrl_out _ _ _ _ => true
    | _ => false)

/-- The replies of a device to the reboot-power machine: the write is accepted
and completes, read `j` of `REG_HWSTAT` gives `rd j`, every timer is created. -/
def reboot_io (rd : Nat → Nat) (k : Nat) (_ : Nat) : IoReply :=
  if k = 0 then write_ok 1 else read_ok [rd ((k - 1) / 3)] 1

/-- The value read last after `n` reads `rd 0`, .., `rd (n - 1)`; `d` before the
first read. -/
def last_read (rd : Nat → Nat) (n d : Nat) : Nat :=
  if n = 0 then d else rd (n - 1)

/-- Status bytes of a device whose bit 0 is set from the third read on. -/
def example_reboot_rd (j : Nat) : Nat :=
  if j < 2 then 0x84 else 0x85

/-- The events of one challenge/response exchange with the challenge `c` and
the key schedule `key`: the read of 16 bytes at `REG_CHALLENGE`, the write of
the 16 encrypted bytes to `REG_RESPONSE`. -/
def cr_exchange (aes : Aes) (key c : List Nat) : List Event :=
  [Event.ctrl_in REG_CHALLENGE CR_LENGTH 0,
    Event.ctrl_out REG_RESPONSE CR_LENGTH
      (memcpy (g_malloc CR_LENGTH) 0
        (memcpy (g_malloc CR_LENGTH) 0 (aes.encrypt c key) CR_LENGTH) CR_LENGTH) 0]

/-- The events of `n` iterations of the power-up machine that find bit 7 set
and are followed by another one: the write of `hw` to `REG_HWSTAT`, the read of
`REG_HWSTAT`, a pause of 10 ms and, with `auth_cr`, a challenge/response
exchange (`ch j` is the challenge of iteration `j`). -/
def powerup_polls (aes : Aes) (key : List Nat) (auth_cr : Bool) (hw : Nat) :
    (Nat → List Nat) → Nat → List Event
  | _, 0 => []
  | ch, n + 1 =>
    [Event.ctrl_out REG_HWSTAT 1 [hw] 0, Event.ctrl_in REG_HWSTAT 1 0, Event.timeout_add 10] ++
      (if auth_cr then cr_exchange aes key (ch 0) else []) ++
      powerup_polls aes key auth_cr hw (fun j => ch (j + 1)) n

/-- The payloads of the writes to `REG_HWSTAT` in a trace, in order. -/
def hwstat_writes (tr : List Event) : List (List Nat) :=
  tr.filterMap (fun e => match e with
    | Event.ctrl_out reg _ data _ => if reg = REG_HWSTAT then some data else none
    | _ => none)

/-- The number of reads of `REG_CHALLENGE` in a trace. -/
def challenge_reads (tr : List Event) : Nat :=
  tr.countP (fun e => match e with
    | Event.ctrl_in reg _ _ => decide (reg = REG_CHALLENGE)
    | _ => false)

/-- The number of actions of one iteration of the power-up machine that is
followed by another one. -/
def powerup_stride (auth_cr : Bool) : Nat := if auth_cr then 6 else 4

/-- The replies of a device to the power-up machine of a profile with
`auth_cr`: writes are accepted and complete, read `j` of `REG_HWSTAT` gives
`rd j`, the challenge is 16 bytes `j + 1` after iteration `j`, every timer is
created. -/
def powerup_io (rd : Nat → Nat) (k : Nat) (i : Nat) : IoReply :=
  if k % 6 = 1 then write_ok 1
  else if k % 6 = 2 then read_ok [rd (k / 6)] 1
  else if k % 6 = 5 ∧ i = 0 then read_ok (List.replicate 16 (k / 6 + 1)) 16
  else write_ok 16

/-- Status bytes of a device whose bit 7 is clear from the second read on. -/
def example_powerup_rd (j : Nat) : Nat :=
  if j < 1 then 0x85 else 0x05

/-- A press context right after `dev_init`, for a device with
challenge/response, and the status byte 0x85 read last. -/
def example_press_auth : uru4k_dev :=
  { dev_init_context example_aes true with last_hwstat := 0x85 }

/-- The write of the power-down check of the init machine, for the status byte
`hw`: `hw | 0x80` to `REG_HWSTAT` when bit 7 of `hw` is clear, nothing
otherwise. -/
def powerdown_write (hw : Nat) : List Event :=
  if hw &&& 0x80 = 0 then [Event.ctrl_out REG_HWSTAT 1 [hw ||| 0x80] 0] else []

/-- The replies of a device to the init machine: the read of `REG_HWSTAT` gives
`h`, writes are accepted and complete. -/
def init_io (h : Nat) (k : Nat) (_ : Nat) : IoReply :=
  if k = 0 then read_ok [h] 1 else write_ok 1

end Libfprint.Uru4000
namespace Libfprint.Upeksonly

open sonly_kill_transfers_action
open Libfprint.Uru4000 (SsmCall SsmOutcome IoReply subsm_calls)

/-! ## upeksonly.c: state machine helpers -/

structure sonly_regwrite where
  reg : Nat
  value : Nat
deriving DecidableEq, Repr

def write_regs_finished (s : sonly_dev) (result : Int) : sonly_dev × List SsmCall :=
  if result = 0 then (s, [SsmCall.next_state]) else (s, [SsmCall.mark_aborted result])

/-- The function `write_regs_iterate`, with `write_regs_cb` for the completion
of the transfer it submits.  The list is `regs + regs_written` (the writes still
to do); `io 0` is the reply to the transfer submitted first. -/
def write_regs_iterate :
    List sonly_regwrite → (Nat → IoReply) → sonly_dev → sonly_dev × List SsmCall
  | [], _, s => write_regs_finished s 0
  | regwrite :: rest, io, s =>
    let r := (io 0).submit_r
    let s := s.emit (Event.ctrl_write regwrite.reg regwrite.value r)
    if r < 0 then write_regs_finished s r
    else if (io 0).status ≠ LIBUSB_TRANSFER_COMPLETED then write_regs_finished s (io 0).status
    else write_regs_iterate rest (fun j => io (j + 1)) s

/-- The function `sm_write_regs`; `(io 0).alloc_ok` tells whether the one
transfer of the burst can be allocated. -/
def sm_write_regs (s : sonly_dev) (regs : List sonly_regwrite) (io : Nat → IoReply) :
    sonly_dev × List SsmCall :=
  if !(io 0).alloc_ok then (s, [SsmCall.mark_aborted (-ENOMEM)])
  else write_regs_iterate regs io s

def sm_write_reg_cb (status : Int) : List SsmCall :=
  if status ≠ LIBUSB_TRANSFER_COMPLETED then [SsmCall.mark_aborted (- EIO)]
  else [SsmCall.next_state]

/-- The function `sm_write_reg` with the completion of its transfer. -/
def sm_write_reg (s : sonly_dev) (reg value : Nat) (io : IoReply) : sonly_dev × List SsmCall :=
  if !io.alloc_ok then (s, [SsmCall.mark_aborted (-ENOMEM)])
  else
    let s := s.emit (Event.ctrl_write reg value io.submit_r)
    if io.submit_r < 0 then (s, [SsmCall.mark_aborted io.submit_r])
    else (s, sm_write_reg_cb io.status)

def sm_read_reg_cb (s : sonly_dev) (status : Int) (data : List Nat) : sonly_dev × List SsmCall :=
  if status ≠ LIBUSB_TRANSFER_COMPLETED then (s, [SsmCall.mark_aborted (- EIO)])
  else ({ s with read_reg_result := data.getD 0 0 }, [SsmCall.next_state])

/-- The function `sm_read_reg` with the completion of its transfer. -/
def sm_read_reg (s : sonly_dev) (reg : Nat) (io : IoReply) : sonly_dev × List SsmCall :=
  if !io.alloc_ok then (s, [SsmCall.mark_aborted (-ENOMEM)])
  else
    let s := s.emit (Event.ctrl_read reg io.submit_r)
    if io.submit_r < 0 then (s, [SsmCall.mark_aborted io.submit_r])
    else sm_read_reg_cb s io.status io.data

def sm_await_intr_cb (s : sonly_dev) (status : Int) : sonly_dev × List SsmCall :=
  if status ≠ LIBUSB_TRANSFER_COMPLETED then (s, [SsmCall.mark_aborted status])
  else (s.emit (Event.report_finger_status true), [SsmCall.next_state])

/-- The function `sm_await_intr` with the completion of its transfer. -/
def sm_await_intr (s : sonly_dev) (io : IoReply) : sonly_dev × List SsmCall :=
  if !io.alloc_ok then (s, [SsmCall.mark_aborted (-ENOMEM)])
  else
    let s := s.emit (Event.intr_submit io.submit_r)
    if io.submit_r < 0 then (s, [SsmCall.mark_aborted io.submit_r])
    else sm_await_intr_cb s io.status

/-- Modelled from the spec: the state-machine runtime `fpi_ssm_*` of the host
library, for machines of the swipe driver; see `Libfprint.Uru4000.ssm_exec`. -/
def ssm_exec (nr_states : Nat)
    (handler : sonly_dev → Nat → (Nat → IoReply) → sonly_dev × List SsmCall)
    (io : Nat → Nat → IoReply) : Nat → sonly_dev → Nat → sonly_dev × Option SsmOutcome
  | 0, s, _ => (s, none)
  | fuel + 1, s, cur_state =>
    match handler s cur_state (io 0) with
    | (s, calls) =>
      let io := fun k => io (k + 1)
      match calls with
      | [] => (s, some (SsmOutcome.parked cur_state))
      | [SsmCall.next_state] =>
        if cur_state + 1 = nr_states then (s, some SsmOutcome.completed)
        else ssm_exec nr_states handler io fuel s (cur_state + 1)
      | [SsmCall.jump_to_state n] => ssm_exec nr_states handler io fuel s n
      | [SsmCall.mark_completed] => (s, some SsmOutcome.completed)
      | [SsmCall.mark_aborted e] => (s, some (SsmOutcome.aborted e))
      | calls => (s, some (SsmOutcome.misuse calls))

/-! ## upeksonly.c: await finger -/

def awfsm_writev_1 : List sonly_regwrite :=
  [⟨0x0a, 0x00⟩, ⟨0x0a, 0x00⟩, ⟨0x09, 0x20⟩, ⟨0x03, 0x3b⟩, ⟨0x00, 0x67⟩, ⟨0x00, 0x67⟩]

def awfsm_writev_2 : List sonly_regwrite :=
  [⟨0x01, 0xc6⟩, ⟨0x0c, 0x13⟩, ⟨0x0d, 0x0d⟩, ⟨0x0e, 0x0e⟩, ⟨0x0f, 0x0d⟩, ⟨0x0b, 0x00⟩]

def awfsm_writev_3 : List sonly_regwrite :=
  [⟨0x13, 0x45⟩, ⟨0x30, 0xe0⟩, ⟨0x12, 0x01⟩, ⟨0x20, 0x01⟩, ⟨0x09, 0x20⟩, ⟨0x0a, 0x00⟩,
   ⟨0x30, 0xe0⟩, ⟨0x20, 0x01⟩]

def awfsm_writev_4 : List sonly_regwrite :=
  [⟨0x08, 0x00⟩, ⟨0x10, 0x00⟩, ⟨0x12, 0x01⟩, ⟨0x11, 0xbf⟩, ⟨0x12, 0x01⟩, ⟨0x07, 0x10⟩,
   ⟨0x07, 0x10⟩, ⟨0x04, 0x00⟩, ⟨0x05, 0x00⟩, ⟨0x0b, 0x00⟩,
   ⟨0x15, 0x20⟩, ⟨0x30, 0xe1⟩, ⟨0x15, 0x24⟩, ⟨0x15, 0x04⟩, ⟨0x15, 0x84⟩]

def AWFSM_WRITEV_1 : Nat := 0
def AWFSM_READ_01 : Nat := 1
def AWFSM_WRITE_01 : Nat := 2
def AWFSM_WRITEV_2 : Nat := 3
def AWFSM_READ_13 : Nat := 4
def AWFSM_WRITE_13 : Nat := 5
def AWFSM_WRITEV_3 : Nat := 6
def AWFSM_READ_07 : Nat := 7
def AWFSM_WRITE_07 : Nat := 8
def AWFSM_WRITEV_4 : Nat := 9
def AWFSM_NUM_STATES : Nat := 10

/-- One state of `awfsm_run_state`, with the completions of the transfers it
submits (`io j` for the `j`-th). -/
def awfsm_run_state (s : sonly_dev) (cur_state : Nat) (io : Nat → IoReply) :
    sonly_dev × List SsmCall :=
  if cur_state = AWFSM_WRITEV_1 then sm_write_regs s awfsm_writev_1 io
  else if cur_state = AWFSM_READ_01 then sm_read_reg s 0x01 (io 0)
  else if cur_state = AWFSM_WRITE_01 then
    if s.read_reg_result ≠ 0xc6 then sm_write_reg s 0x01 0x46 (io 0)
    else sm_write_reg s 0x01 0xc6 (io 0)
  else if cur_state = AWFSM_WRITEV_2 then sm_write_regs s awfsm_writev_2 io
  else if cur_state = AWFSM_READ_13 then sm_read_reg s 0x13 (io 0)
  else if cur_state = AWFSM_WRITE_13 then
    if s.read_reg_result ≠ 0x45 then sm_write_reg s 0x13 0x05 (io 0)
    else sm_write_reg s 0x13 0x45 (io 0)
  else if cur_state = AWFSM_WRITEV_3 then sm_write_regs s awfsm_writev_3 io
  else if cur_state = AWFSM_READ_07 then sm_read_reg s 0x07 (io 0)
  else if cur_state = AWFSM_WRITE_07 then sm_write_reg s 0x07 s.read_reg_result (io 0)
  else if cur_state = AWFSM_WRITEV_4 then sm_write_regs s awfsm_writev_4 io
  else (s, [])

/-! ## upeksonly.c: capture mode -/

def capsm_writev : List sonly_regwrite :=
  [⟨0x09, 0x28⟩, ⟨0x13, 0x55⟩, ⟨0x0b, 0x80⟩, ⟨0x04, 0x00⟩, ⟨0x05, 0x00⟩]

def CAPSM_INIT : Nat := 0
def CAPSM_WRITE_15 : Nat := 1
def CAPSM_WRITE_30 : Nat := 2
def CAPSM_FIRE_BULK : Nat := 3
def CAPSM_WRITEV : Nat := 4
def CAPSM_NUM_STATES : Nat := 5

/-- One state of `capsm_run_state`.  In `CAPSM_FIRE_BULK`, `(io i).submit_r` is
the result of submitting bulk transfer `i`; the state makes no call on the
machine when a submission after the first fails (the abort is then left to
`last_transfer_killed`). -/
def capsm_run_state (s : sonly_dev) (cur_state : Nat) (io : Nat → IoReply) :
    sonly_dev × List SsmCall :=
  if cur_state = CAPSM_INIT then (capsm_init s, [SsmCall.next_state])
  else if cur_state = CAPSM_WRITE_15 then sm_write_reg s 0x15 0x20 (io 0)
  else if cur_state = CAPSM_WRITE_30 then sm_write_reg s 0x30 0xe0 (io 0)
  else if cur_state = CAPSM_FIRE_BULK then
    let p := fire_bulk_loop (fun i => (io i).submit_r) NUM_BULK_TRANSFERS 0 s
    (capsm_fire_bulk s (fun i => (io i).submit_r),
      if (io 0).submit_r < 0 then [SsmCall.mark_aborted (io 0).submit_r]
      else if p.2 then [] else [SsmCall.next_state])
  else if cur_state = CAPSM_WRITEV then sm_write_regs s capsm_writev io
  else (s, [])

/-! ## upeksonly.c: deinitialization -/

def deinitsm_writev : List sonly_regwrite :=
  [⟨0x0b, 0x00⟩, ⟨0x09, 0x20⟩, ⟨0x13, 0x45⟩, ⟨0x13, 0x45⟩]

def DEINITSM_WRITEV : Nat := 0
def DEINITSM_NUM_STATES : Nat := 1

def deinitsm_run_state (s : sonly_dev) (cur_state : Nat) (io : Nat → IoReply) :
    sonly_dev × List SsmCall :=
  if cur_state = DEINITSM_WRITEV then sm_write_regs s deinitsm_writev io
  else (s, [])

/-! ## upeksonly.c: capture loop -/

def LOOPSM_RUN_AWFSM : Nat := 0
def LOOPSM_AWAIT_FINGER : Nat := 1
def LOOPSM_RUN_CAPSM : Nat := 2
def LOOPSM_CAPTURE : Nat := 3
def LOOPSM_RUN_DEINITSM : Nat := 4
def LOOPSM_FINAL : Nat := 5
def LOOPSM_NUM_STATES : Nat := 6

/-- One state of `loopsm_run_state`.  A sub-machine started in state `n` runs
with the replies `sub_io n` and the fuel `sub_fuel`; the calls returned for such
a state are those the runtime makes on the loop machine when the sub-machine
ends. -/
def loopsm_run_state (sub_io : Nat → Nat → Nat → IoReply) (sub_fuel : Nat)
    (s : sonly_dev) (cur_state : Nat) (io : Nat → IoReply) : sonly_dev × List SsmCall :=
  if cur_state = LOOPSM_RUN_AWFSM then
    if s.deactivating then (s, [SsmCall.mark_completed])
    else
      match ssm_exec AWFSM_NUM_STATES awfsm_run_state (sub_io LOOPSM_RUN_AWFSM) sub_fuel s
          AWFSM_WRITEV_1 with
      | (s, outcome) => (s, subsm_calls outcome)
  else if cur_state = LOOPSM_AWAIT_FINGER then sm_await_intr s (io 0)
  else if cur_state = LOOPSM_RUN_CAPSM then
    match ssm_exec CAPSM_NUM_STATES capsm_run_state (sub_io LOOPSM_RUN_CAPSM) sub_fuel s
        CAPSM_INIT with
    | (s, outcome) => (s, subsm_calls outcome)
  else if cur_state = LOOPSM_CAPTURE then (s, [])
  else if cur_state = LOOPSM_RUN_DEINITSM then
    let s := { s with capturing := false }
    match ssm_exec DEINITSM_NUM_STATES deinitsm_run_state (sub_io LOOPSM_RUN_DEINITSM) sub_fuel s
        DEINITSM_WRITEV with
    | (s, outcome) => (s, subsm_calls outcome)
  else if cur_state = LOOPSM_FINAL then (s, [SsmCall.jump_to_state LOOPSM_RUN_AWFSM])
  else (s, [])

/-! ## upeksonly.c: deactivation -/

/-- The function `deactivate_done`; the freed pool is the empty list. -/
def deactivate_done (s : sonly_dev) : sonly_dev :=
  ({ s with img_transfer_data := [], rowbuf := none, rows := [] } : sonly_dev).emit
    Event.deactivate_complete

def dev_deactivate (s : sonly_dev) : sonly_dev :=
  if !s.capturing then deactivate_done s
  else
    cancel_img_transfers
      { s with deactivating := true, killing_transfers := ITERATE_SSM, kill_ssm := SsmRef.loopsm }

/-- The completion callback of the loop machine; `error` is `ssm->error`. -/
def loopsm_complete (s : sonly_dev) (error : Int) : sonly_dev :=
  if s.deactivating then deactivate_done s
  else if error ≠ 0 then s.emit (Event.session_error error)
  else s

/-- Modelled from the spec: the loop machine, parked in `LOOPSM_CAPTURE`, is
advanced by `fpi_ssm_next_state` (the call `last_transfer_killed` makes for
`ITERATE_SSM`): the runtime runs it from `LOOPSM_RUN_DEINITSM` and calls
`loopsm_complete` when it has completed or aborted. -/
def loopsm_resume (sub_io : Nat → Nat → Nat → IoReply) (sub_fuel : Nat)
    (io : Nat → Nat → IoReply) (fuel : Nat) (s : sonly_dev) : sonly_dev × Option SsmOutcome :=
  match ssm_exec LOOPSM_NUM_STATES (loopsm_run_state sub_io sub_fuel) io fuel s
      (LOOPSM_CAPTURE + 1) with
  | (s, some SsmOutcome.completed) => (loopsm_complete s 0, some SsmOutcome.completed)
  | (s, some (SsmOutcome.aborted e)) => (loopsm_complete s e, some (SsmOutcome.aborted e))
  | r => r

/-- The `cancelling` flags of the transfer pool. -/
def cancelling_flags (s : sonly_dev) : List Bool :=
  s.img_transfer_data.map fun d => d.cancelling

/-- The calls of `fpi_imgdev_deactivate_complete`. -/
def deactivations (tr : List Event) : Nat := tr.count Event.deactivate_complete

/-- A device that accepts and completes every transfer. -/
def io_ok : IoReply :=
  { alloc_ok := true, submit_r := 0, status := LIBUSB_TRANSFER_COMPLETED, actual_length := 1,
    data := [] }

end Libfprint.Upeksonly

namespace Libfprint.Upeksonly

open sonly_kill_transfers_action
open Libfprint.Uru4000 (SsmCall SsmOutcome IoReply subsm_calls)

/-! ## What the claims on register bursts speak of -/

/-- The reply tells of a transfer that is accepted and completes. -/
def reply_ok (r : IoReply) : Prop :=
  ¬ r.submit_r < 0 ∧ r.status = LIBUSB_TRANSFER_COMPLETED

instance (r : IoReply) : Decidable (reply_ok r) := by
  unfold reply_ok
  infer_instance

/-- The result a burst ends with when the transfer of reply `r` fails: the
result of the submission, or else the transfer status. -/
def reply_error (r : IoReply) : Int :=
  if r.submit_r < 0 then r.submit_r else r.status

/-- The first `n` writes of a burst over `regs`, in index order: write `i` has
`wIndex = regs[i].reg` and the payload `regs[i].value`; `io i` is the reply to
it. -/
def burst_writes : List sonly_regwrite → (Nat → IoReply) → Nat → List Event
  | regwrite :: rest, io, n + 1 =>
    Event.ctrl_write regwrite.reg regwrite.value (io 0).submit_r ::
      burst_writes rest (fun j => io (j + 1)) n
  | _, _, _ => []

/-- A device that accepts every transfer and fails the first with
`LIBUSB_TRANSFER_ERROR`. -/
def example_io_error (j : Nat) : IoReply :=
  if j = 0 then { io_ok with status := LIBUSB_TRANSFER_ERROR } else io_ok

end Libfprint.Upeksonly

namespace Libfprint.Upeksonly

open sonly_kill_transfers_action
open Libfprint.Uru4000 (SsmCall SsmOutcome IoReply subsm_calls)

/-! ## What the claim on deactivation during a capture speaks of -/

/-- The events of the deinit burst on a device that accepts and completes every
write. -/
def deinit_events : List Event :=
  [Event.ctrl_write 0x0b 0x00 0, Event.ctrl_write 0x09 0x20 0, Event.ctrl_write 0x13 0x45 0,
    Event.ctrl_write 0x13 0x45 0]

/-- The events of the deferred action `ITERATE_SSM` on the loop machine. -/
def iterate_events : List Event :=
  [Event.last_transfer_killed ITERATE_SSM, Event.ssm_next_state SsmRef.loopsm]

/-- The event is a call of `libusb_cancel_transfer`. -/
def is_cancel : Event → Bool
  | Event.cancel_transfer _ => true
  | _ => false

/-- The 24 transfers of the pool complete as cancelled, in index order. -/
def example_cancelled : List Completion :=
  (List.range 24).map fun i => ⟨i, LIBUSB_TRANSFER_CANCELLED, [], 0⟩

end Libfprint.Upeksonly

namespace Libfprint.Uru4000

/-! ## What the claim on a second run of the firmware fixer speaks of -/

/-- The bytes the probe reads find after the fix: the triple of candidate `m`
with its second byte `b` replaced by `b & 0xEF`, every other triple as before. -/
def fw_patched (tr : Nat → List Nat) (m : Nat) (j : Nat) : List Nat :=
  if j = m then (tr m).set 1 ((tr m).getD 1 0 &&& 0xef) else tr j

/-- A device that answers the probe reads from the patched `example_fw`. -/
def example_fw_patched_io (k : Nat) (_ : Nat) : IoReply :=
  read_ok (fw_patched example_fw 2 (k - 1)) 3

end Libfprint.Uru4000
namespace Libfprint.Uru4000

/-- The reply to a read that is accepted and completes with
`LIBUSB_TRANSFER_ERROR`. -/
def read_failed : IoReply :=
  { alloc_ok := true, submit_r := 0, status := LIBUSB_TRANSFER_ERROR, actual_length := 0,
    data := [] }

end Libfprint.Uru4000
namespace Libfprint.Upeksonly

open sonly_kill_transfers_action

/-! ## upeksonly.c: the copies of the row assembly -/

/-- One call `memcpy (sdev->rowbuf + dst, payload + src, len)` of the row
assembly; `payload` is the packet after its sequence number (62 bytes). -/
structure Copy where
  dst : Int
  src : Int
  len : Int
deriving DecidableEq, Repr

/-- The two copies of `start_new_row (sdev, payload + src, size)`. -/
def start_new_row_copies (src size : Int) : List Copy :=
  [⟨(IMG_WIDTH : Int) - 2, src, 2⟩, ⟨0, src + 2, size - 2⟩]

/-- The copy of `add_to_rowbuf (dev, payload, size)`. -/
def add_to_rowbuf_copies (s : sonly_dev) (size : Int) : List Copy :=
  [⟨s.rowbuf_offset, 0, size⟩]

/-- The copies `handle_packet` makes for a packet, in order. -/
def handle_packet_copies (s : sonly_dev) (data : List Nat) : List Copy :=
  let s1 := wrap_account s data
  let for_rowbuf := rowbuf_remaining s1
  if for_rowbuf ≠ -1 then add_to_rowbuf_copies s1 for_rowbuf
  else if abs_base_addr s data % (IMG_WIDTH : Int) = 0 then start_new_row_copies 0 62
  else
    let next_row_addr : Int := ((abs_base_addr s data / (IMG_WIDTH : Int)) + 1) * (IMG_WIDTH : Int)
    let diff := next_row_addr - abs_base_addr s data
    if diff < 62 then start_new_row_copies diff (62 - diff) else []

/-- The copy has a length that is not negative, reads inside the 62 bytes of
the payload and writes inside the `IMG_WIDTH` bytes of the row buffer. -/
def Copy.in_bounds (c : Copy) : Prop :=
  0 ≤ c.len ∧ 0 ≤ c.src ∧ c.src + c.len ≤ 62 ∧ 0 ≤ c.dst ∧ c.dst + c.len ≤ (IMG_WIDTH : Int)

instance (c : Copy) : Decidable c.in_bounds := by
  unfold Copy.in_bounds
  infer_instance

/-- The row buffer after one copy from the payload. -/
def apply_copy (payload : List Nat) (rb : List Nat) (c : Copy) : List Nat :=
  memcpy rb c.dst.toNat (payload.drop c.src.toNat) c.len.toNat

end Libfprint.Upeksonly
namespace Libfprint.Upeksonly

open sonly_kill_transfers_action

/-! ## What the claim on a gap-free stream speaks of -/

/-- The packets carry the sequence numbers 0, 1, 2, ... in order. -/
def gap_free (ps : List (List Nat)) : Prop :=
  ∀ k, k < ps.length → packet_seqnum (ps.getD k []) = (k : Int)

instance (ps : List (List Nat)) : Decidable (gap_free ps) := by
  unfold gap_free
  infer_instance

/-- The row offset `handle_packet` leaves for a packet with absolute address
`a`, when the offset before was `off`. -/
def next_offset (off a : Int) : Int :=
  if off = -1 then
    (if a % (IMG_WIDTH : Int) = 0 then 62
     else if ((a / (IMG_WIDTH : Int)) + 1) * (IMG_WIDTH : Int) - a < 62 then
       62 - (((a / (IMG_WIDTH : Int)) + 1) * (IMG_WIDTH : Int) - a)
     else -1)
  else if off + 62 < (IMG_WIDTH : Int) then off + 62 else -1

/-- The row offset after the first `n` packets of a gap-free stream handled
from the capture reset: packet `k` has the absolute address `62 * k`. -/
def stream_offset : Nat → Int
  | 0 => -1
  | n + 1 => next_offset (stream_offset n) (62 * (n : Int))

/-- Packet `k` of the gap-free stream completes a row. -/
def completes_row (k : Nat) : Bool :=
  decide (stream_offset k ≠ -1) && decide (stream_offset (k + 1) = -1)

end Libfprint.Upeksonly
namespace Libfprint.Upeksonly

/-! ## Row assembly: the context handed to `row_complete` -/

/-- The first two statements of `add_to_rowbuf`: the copy into the row buffer
and the advance of the offset.  When the row is full, `row_complete` is called
on this context. -/
def add_to_rowbuf_copy (s : sonly_dev) (data : List Nat) (size : Int) : sonly_dev :=
  { s with
    rowbuf := s.rowbuf.map fun rb => memcpy rb s.rowbuf_offset.toNat data size.toNat
    rowbuf_offset := s.rowbuf_offset + size }

/-- The context after the copy `handle_packet` makes, through `add_to_rowbuf`,
for a packet that continues the row in progress. -/
def continue_row (s : sonly_dev) (data : List Nat) : sonly_dev :=
  add_to_rowbuf_copy (wrap_account s data) (data.drop 2) (rowbuf_remaining (wrap_account s data))

/-- The call of `start_new_row` that `handle_packet` makes for a row that starts
at offset `d` of the payload of the packet `data` (`d = 0` for an aligned
packet). -/
def start_row_at (s : sonly_dev) (data : List Nat) (d : Nat) : sonly_dev :=
  start_new_row s ((data.drop 2).drop d) (62 - (d : Int))

/-- Five packets with the sequence numbers 0 to 4 whose payload bytes are all
different: byte `j` of the payload of packet `k` is `62 * k + j`. -/
def example_ramp (k : Nat) : List Nat :=
  0 :: k :: (List.range 62).map fun j => 62 * k + j

end Libfprint.Upeksonly
namespace Libfprint.Upeksonly

open sonly_kill_transfers_action
open Libfprint.Uru4000 (SsmCall SsmOutcome IoReply)

/-! ## Arming the bulk pool: observations -/

/-- The pool in which exactly the transfers `0 .. k-1` are flying and exactly
the transfers `0 .. c-1` are marked cancelling. -/
def pool_state (k c : Nat) : List img_transfer_data :=
  (List.range NUM_BULK_TRANSFERS).map fun j => ⟨decide (j < k), decide (j < c)⟩

/-- The calls of `libusb_submit_transfer` for the transfers `k .. k+n-1`, made
while `killing_transfers` is `a`. -/
def submit_events (submit_r : Nat → Int) (a : sonly_kill_transfers_action) (k n : Nat) :
    List Event :=
  (List.range n).map fun j => Event.submit_transfer (k + j) (submit_r (k + j)) a

/-- The calls of `libusb_cancel_transfer` for the transfers `0 .. n-1`. -/
def cancel_events (n : Nat) : List Event := (List.range n).map Event.cancel_transfer

/-- The calls of `last_transfer_killed` when `ABORT_SSM` is pending on the
capture machine with the status `r`. -/
def abort_events (r : Int) : List Event :=
  [Event.last_transfer_killed ABORT_SSM, Event.ssm_mark_aborted SsmRef.capsm r]

/-- Replies in which the submission of bulk transfer `i` fails with `r` and
every other submission is accepted. -/
def example_fail_io (i : Nat) (r : Int) (j : Nat) : IoReply :=
  if j = i then { io_ok with submit_r := r } else io_ok

end Libfprint.Upeksonly

namespace Libfprint.Upeksonly

open sonly_kill_transfers_action

/-! ## The calls of `cancel_img_transfers` -/

/-- The test of the loop of `cancel_img_transfers` for transfer `i`, in the
context `s`: the transfer is flying and not yet cancelling (an index outside the
pool is never visited). -/
def to_cancel (s : sonly_dev) (i : Nat) : Bool :=
  match s.img_transfer_data.get? i with
  | none => false
  | some idata => !(!idata.flying || idata.cancelling)

/-- The calls of `libusb_cancel_transfer` that the loop of
`cancel_img_transfers` makes in the context `s`: one for each transfer that
passes the test, in index order. -/
def cancel_calls (s : sonly_dev) : List Event :=
  ((List.range NUM_BULK_TRANSFERS).filter (to_cancel s)).map Event.cancel_transfer

end Libfprint.Upeksonly

namespace Libfprint.Upeksonly

open sonly_kill_transfers_action

/-! ## An example swipe, packet by packet -/

/-- A packet with sequence number 0 whose 62 payload bytes are all `v`. -/
def example_flat_packet (v : Nat) : List Nat := 0 :: 0 :: List.replicate 62 v

/-- A 4096-byte buffer of 64 such packets. -/
def example_flat_buffer (v : Nat) : List Nat :=
  (List.replicate 64 (example_flat_packet v)).flatten

/-- The packet starts with the sequence number 0 and has the 62 payload bytes
`v` (what follows them does not matter). -/
def is_flat (p : List Nat) (v : Nat) : Prop :=
  p.getD 0 0 = 0 ∧ p.getD 1 0 = 0 ∧ ∀ i, i < 62 → p.getD (2 + i) 0 = v

/-- The row buffer after `start_new_row` for a whole payload and four calls of
`add_to_rowbuf`, the payload bytes being `v`, from the buffer `old`. -/
def flat_assembled (old : List Nat) (v : Nat) : List Nat :=
  memcpy (memcpy (memcpy (memcpy
    (memcpy (memcpy old (IMG_WIDTH - 2) (List.replicate 62 v) 2) 0 (List.replicate 60 v) 60)
    62 (List.replicate 62 v) 62) 124 (List.replicate 62 v) 62) 186 (List.replicate 62 v) 62)
    248 (List.replicate 62 v) 40

/-- The row these packets make in a buffer whose bytes 60 and 61 are 0: no copy
of `start_new_row` or `add_to_rowbuf` writes these two bytes. -/
def example_flat_row (v : Nat) : List Nat :=
  List.replicate 60 v ++ [0, 0] ++ List.replicate 226 v

/-- The context `example_fresh` with the fields that a capture changes. -/
def swipe_ctx (pool : List img_transfer_data) (nf : Int) (rows : List (List Nat))
    (rowbuf : Option (List Nat)) (off w nb fr ls : Int) (kt : sonly_kill_transfers_action)
    (tr : List Event) : sonly_dev :=
  { example_fresh with
    img_transfer_data := pool
    num_flying := nf
    rows := rows
    num_rows := rows.length
    rowbuf := rowbuf
    rowbuf_offset := off
    wraparounds := w
    num_blank := nb
    finger_removed := fr
    last_seqnum := ls
    killing_transfers := kt
    trace := tr }

/-- The pool with all 24 transfers flying, as `CAPSM_FIRE_BULK` arms it. -/
def example_pool_all : List img_transfer_data :=
  List.replicate 24 ⟨true, false⟩

/-- The context of a capture whose 24 bulk transfers are flying: `example_fresh`
with the pool as `CAPSM_FIRE_BULK` arms it. -/
def example_flying : sonly_dev :=
  { example_fresh with img_transfer_data := example_pool_all, num_flying := 24 }

/-- The completion of transfer `i` with a buffer of 64 packets of payload bytes
`v`; the resubmission is accepted. -/
def example_flat_completion (i v : Nat) : Completion :=
  { idx := i, status := LIBUSB_TRANSFER_COMPLETED, buffer := example_flat_buffer v,
    resubmit_r := 0 }

/-- The transfers that complete third to 63rd in the example swipe: the pool in
the order of its submission, 2, 3, ..., 23, 0, 1, ... -/
def example_order : List Nat := (List.range 61).map fun j => (j + 2) % 24

/-- The example swipe: the transfers complete in the order of their submission,
transfer 0 with a buffer of dark packets, then 63 transfers (1, 2, ..., 23, 0,
..., the last one is transfer 15) with buffers of bright packets. -/
def example_swipe : List Completion :=
  example_flat_completion 0 0 :: example_flat_completion 1 255 ::
    ((example_order.map fun i => example_flat_completion i 255) ++
      [example_flat_completion 15 255])

/-- The context in which `handoff_img` calls `cancel_img_transfers` at the end
of the example swipe, in the callback of transfer 15: the image of the two
stored rows has been handed to the host. -/
def example_handed_off : sonly_dev :=
  { swipe_ctx (example_pool_all.set 15 ⟨false, false⟩) 23
      [example_flat_row 255, example_flat_row 0] (some (example_flat_row 255)) (-1) 4068 501 1 0
      ITERATE_SSM
      ([Event.ssm_next_state SsmRef.capsm, Event.g_slist_prepend (example_flat_row 0),
        Event.submit_transfer 0 0 NOT_KILLING, Event.g_slist_prepend (example_flat_row 255),
        Event.submit_transfer 1 0 NOT_KILLING] ++
        (example_order.map fun i => Event.submit_transfer i 0 NOT_KILLING) ++
        [Event.image_captured 2 576 (example_flat_row 255 ++ example_flat_row 0),
          Event.report_finger_status false]) with
    rows := [] }

/-- The context in which `row_complete` is called for the second row of the
example swipe, after 13 packets of the first buffer: the row in `rowbuf` equals
the stored row. -/
def example_dark_duplicate : sonly_dev :=
  swipe_ctx (example_pool_all.set 0 ⟨false, false⟩) 23 [example_flat_row 0]
    (some (example_flat_row 0)) 288 12 0 0 0 NOT_KILLING
    [Event.ssm_next_state SsmRef.capsm, Event.g_slist_prepend (example_flat_row 0)]

/-- The packets of a buffer that the last `n` iterations of the packet loop of
`img_data_cb` hand to `handle_packet`. -/
def loop_packets (buffer : List Nat) (n : Nat) : List (List Nat) :=
  (List.range n).map fun i => buffer.drop (64 * (64 - n + i))

end Libfprint.Upeksonly

/-! # Theorems -/

namespace Libfprint

/-! ## Buffers -/

theorem memcpy_length (dst : List Nat) (off : Nat) (src : List Nat) (n : Nat) :
    (memcpy dst off src n).length = dst.length := by
  simp [memcpy]

theorem memcpy_getD (dst : List Nat) (off : Nat) (src : List Nat) (n i : Nat)
    (hi : i < dst.length) :
    (memcpy dst off src n).getD i 0 =
      if off ≤ i ∧ i < off + n then src.getD (i - off) 0 else dst.getD i 0 := by
  have h : i < (memcpy dst off src n).length := by rw [memcpy_length]; exact hi
  rw [List.getD_eq_getElem _ _ h]
  simp [memcpy]

theorem memcpy_eq_append (dst : List Nat) (off : Nat) (src : List Nat) (n : Nat)
    (hoff : off + n ≤ dst.length) (hsrc : src.length = n) :
    memcpy dst off src n = dst.take off ++ src ++ dst.drop (off + n) := by
  apply List.ext_getElem
  · simp [memcpy_length]; omega
  · intro i h1 h2
    have hi : i < dst.length := by rw [memcpy_length] at h1; exact h1
    have := memcpy_getD dst off src n i hi
    rw [List.getD_eq_getElem _ _ h1] at this
    rw [this]
    by_cases c1 : i < off
    · have : ¬ (off ≤ i ∧ i < off + n) := by omega
      rw [if_neg this, List.getD_eq_getElem _ _ hi]
      rw [List.getElem_append_left (by simp; omega)]
      rw [List.getElem_append_left (by simp; omega)]
      simp
    · by_cases c2 : i < off + n
      · have : off ≤ i ∧ i < off + n := by omega
        rw [if_pos this]
        rw [List.getElem_append_left (by simp; omega)]
        rw [List.getElem_append_right (by simp; omega)]
        rw [List.getD_eq_getElem _ _ (by omega)]
        simp
        congr 1
        omega
      · have : ¬ (off ≤ i ∧ i < off + n) := by omega
        rw [if_neg this, List.getD_eq_getElem _ _ hi]
        rw [List.getElem_append_right (by simp; omega)]
        simp
        congr 1
        omega

theorem slice_flatten (rows : List (List Nat)) (w : Nat)
    (hlen : ∀ r ∈ rows, r.length = w) (k : Nat) (hk : k < rows.length) :
    slice rows.flatten w k = rows.getD k [] := by
  induction rows generalizing k with
  | nil => simp at hk
  | cons r rest ih =>
    have hr : r.length = w := hlen r (by simp)
    have hrest : ∀ x ∈ rest, x.length = w := fun x hx => hlen x (by simp [hx])
    cases k with
    | zero =>
      simp [slice, List.take_append_of_le_length, hr]
    | succ k =>
      have hk2 : k < rest.length := by simpa using hk
      have := ih hrest k hk2
      simp only [slice] at this ⊢
      simp only [List.flatten_cons, List.getD_cons_succ]
      rw [← this]
      have e : w * (k + 1) = r.length + w * k := by rw [hr]; ring
      rw [e, List.drop_append]

namespace Upeksonly

open sonly_kill_transfers_action

/-! ## Frame lemmas: what the tear-down functions leave unchanged -/

@[simp] theorem handoffs_append (a b : List Event) : handoffs (a ++ b) = handoffs a ++ handoffs b := by
  simp [handoffs]

@[simp] theorem prepends_append (a b : List Event) :
    prepends (a ++ b) = prepends a ++ prepends b := by
  simp [prepends]

@[simp] theorem submits_append (a b : List Event) :
    submits (a ++ b) = submits a ++ submits b := by
  simp [submits]

@[simp] theorem kills_append (a b : List Event) : kills (a ++ b) = kills a ++ kills b := by
  simp [kills]

theorem last_transfer_killed_core (s : sonly_dev) : core (last_transfer_killed s) = core s := by
  unfold last_transfer_killed
  cases h : s.killing_transfers <;> simp [sonly_dev.emit, core, h]

theorem last_transfer_killed_pool (s : sonly_dev) :
    (last_transfer_killed s).img_transfer_data = s.img_transfer_data := by
  unfold last_transfer_killed
  cases h : s.killing_transfers <;> simp [sonly_dev.emit, h]

theorem last_transfer_killed_obs (s : sonly_dev) :
    handoffs (last_transfer_killed s).trace = handoffs s.trace ∧
    prepends (last_transfer_killed s).trace = prepends s.trace ∧
    submits (last_transfer_killed s).trace = submits s.trace ∧
    kills (last_transfer_killed s).trace = kills s.trace ++ [s.killing_transfers] := by
  unfold last_transfer_killed
  cases h : s.killing_transfers <;>
    simp [sonly_dev.emit, h, handoffs, prepends, submits, kills]

theorem cancel_one_core (s : sonly_dev) (i : Nat) : core (cancel_one s i) = core s := by
  unfold cancel_one
  split
  · rfl
  · split <;> simp [core]

theorem cancel_one_obs (s : sonly_dev) (i : Nat) :
    handoffs (cancel_one s i).trace = handoffs s.trace ∧
    prepends (cancel_one s i).trace = prepends s.trace ∧
    submits (cancel_one s i).trace = submits s.trace ∧
    kills (cancel_one s i).trace = kills s.trace := by
  unfold cancel_one
  split
  · simp
  · split <;> simp [handoffs, prepends, submits, kills]

theorem cancel_fold_core (l : List Nat) (s : sonly_dev) :
    core (l.foldl cancel_one s) = core s := by
  induction l generalizing s with
  | nil => rfl
  | cons i l ih => rw [List.foldl_cons, ih, cancel_one_core]

theorem cancel_fold_obs (l : List Nat) (s : sonly_dev) :
    handoffs (l.foldl cancel_one s).trace = handoffs s.trace ∧
    prepends (l.foldl cancel_one s).trace = prepends s.trace ∧
    submits (l.foldl cancel_one s).trace = submits s.trace ∧
    kills (l.foldl cancel_one s).trace = kills s.trace := by
  induction l generalizing s with
  | nil => simp
  | cons i l ih =>
    rw [List.foldl_cons]
    obtain ⟨h1, h2, h3, h4⟩ := ih (cancel_one s i)
    obtain ⟨g1, g2, g3, g4⟩ := cancel_one_obs s i
    exact ⟨h1.trans g1, h2.trans g2, h3.trans g3, h4.trans g4⟩

theorem cancel_img_transfers_core (s : sonly_dev) :
    core (cancel_img_transfers s) = core s := by
  unfold cancel_img_transfers
  split
  · exact last_transfer_killed_core s
  · exact cancel_fold_core _ s

theorem cancel_img_transfers_obs (s : sonly_dev) :
    handoffs (cancel_img_transfers s).trace = handoffs s.trace ∧
    prepends (cancel_img_transfers s).trace = prepends s.trace ∧
    submits (cancel_img_transfers s).trace = submits s.trace := by
  unfold cancel_img_transfers
  split
  · obtain ⟨h1, h2, h3, _⟩ := last_transfer_killed_obs s
    exact ⟨h1, h2, h3⟩
  · obtain ⟨h1, h2, h3, _⟩ := cancel_fold_obs (List.range NUM_BULK_TRANSFERS) s
    exact ⟨h1, h2, h3⟩

end Upeksonly

end Libfprint

namespace Libfprint.Upeksonly

open sonly_kill_transfers_action

/-! ## The row list and the emitted image -/

theorem handoff_copy_eq (rows : List (List Nat)) (offset : Nat) (img : List Nat)
    (hlen : ∀ r ∈ rows, r.length = IMG_WIDTH)
    (himg : img.length = offset + IMG_WIDTH * rows.length) :
    handoff_copy rows offset img = img.take offset ++ rows.flatten := by
  induction rows generalizing offset img with
  | nil =>
    simp only [handoff_copy, List.flatten_nil, List.append_nil]
    rw [List.take_of_length_le]
    simp at himg
    omega
  | cons r rest ih =>
    have hr : r.length = IMG_WIDTH := hlen r (by simp)
    have hrest : ∀ x ∈ rest, x.length = IMG_WIDTH := fun x hx => hlen x (by simp [hx])
    have hlen2 : img.length = offset + IMG_WIDTH + IMG_WIDTH * rest.length := by
      rw [himg, List.length_cons]; ring
    simp only [handoff_copy]
    rw [ih (offset + IMG_WIDTH) _ hrest (by rw [memcpy_length]; exact hlen2)]
    rw [memcpy_eq_append img offset r IMG_WIDTH (by omega) hr]
    rw [List.take_append_of_le_length (by simp; omega)]
    rw [List.take_of_length_le (by simp; omega)]
    simp

theorem compute_rows_loop_fst (a b : List Nat) (n : Nat) :
    (compute_rows_loop a b n).1 =
      ∑ i in Finset.range n, |(a.getD i 0 : Int) - (b.getD i 0 : Int)| := by
  induction n with
  | zero => simp [compute_rows_loop]
  | succ n ih =>
    rw [Finset.sum_range_succ, ← ih]
    simp only [compute_rows_loop]
    split
    · rename_i h
      rw [abs_of_pos (by omega)]
    · rename_i h
      rw [abs_of_nonpos (by omega)]
      ring

theorem compute_rows_fst (a b : List Nat) : (compute_rows a b).1 = abs_diff_sum a b :=
  compute_rows_loop_fst a b IMG_WIDTH

theorem abs_diff_sum_comm (a b : List Nat) : abs_diff_sum a b = abs_diff_sum b a := by
  unfold abs_diff_sum
  apply Finset.sum_congr rfl
  intro i _
  exact abs_sub_comm _ _

end Libfprint.Upeksonly

namespace Libfprint.Upeksonly

open sonly_kill_transfers_action

/-! ## The capture invariant -/

theorem core_fields {s t : sonly_dev} (h : core t = core s) :
    t.rows = s.rows ∧ t.num_rows = s.num_rows ∧ t.rowbuf = s.rowbuf ∧
    t.rowbuf_offset = s.rowbuf_offset ∧ t.finger_removed = s.finger_removed ∧
    t.num_flying = s.num_flying ∧ t.killing_transfers = s.killing_transfers ∧
    t.kill_status_code = s.kill_status_code ∧ t.kill_ssm = s.kill_ssm := by
  have e1 := congrArg sonly_dev.rows h
  have e2 := congrArg sonly_dev.num_rows h
  have e3 := congrArg sonly_dev.rowbuf h
  have e4 := congrArg sonly_dev.rowbuf_offset h
  have e5 := congrArg sonly_dev.finger_removed h
  have e6 := congrArg sonly_dev.num_flying h
  have e7 := congrArg sonly_dev.killing_transfers h
  have e8 := congrArg sonly_dev.kill_status_code h
  have e9 := congrArg sonly_dev.kill_ssm h
  exact ⟨e1, e2, e3, e4, e5, e6, e7, e8, e9⟩

theorem is_capturing_of_core {s t : sonly_dev} (h : core t = core s) :
    is_capturing t = is_capturing s := by
  obtain ⟨_, h2, _, _, h5, _⟩ := core_fields h
  simp [is_capturing, h2, h5]

theorem CaptureInv.of_core {s t : sonly_dev} (h : CaptureInv s) (hc : core t = core s)
    (hi : handoffs t.trace = handoffs s.trace) (hp : prepends t.trace = prepends s.trace) :
    CaptureInv t := by
  obtain ⟨h1, h2, h3, h4, _⟩ := core_fields hc
  have hcap := is_capturing_of_core hc
  constructor
  · rw [hcap, h1, h2]; exact h.rows_len
  · rw [h1]; exact h.row_width
  · rw [h3]; exact h.rowbuf_width
  · rw [h3, h4]; exact h.rowbuf_some
  · rw [h2]; exact h.num_rows_le
  · rw [hcap, h1]; exact h.dedup
  · rw [hcap, h1, hp]; exact h.stack
  · rw [hi, hp]; exact h.imgs
  · rw [hi, hcap]; exact h.done

theorem handoff_img_core (s : sonly_dev) (h : s.rows ≠ []) :
    core (handoff_img s) =
      core { s with rows := [], killing_transfers := ITERATE_SSM, kill_ssm := SsmRef.loopsm } := by
  unfold handoff_img
  cases hr : s.rows with
  | nil => exact absurd hr h
  | cons e r =>
    simp only []
    rw [cancel_img_transfers_core]
    simp [core, sonly_dev.emit]

theorem handoff_img_obs (s : sonly_dev) (h : s.rows ≠ []) :
    handoffs (handoff_img s).trace =
      handoffs s.trace ++ [(s.num_rows, IMG_WIDTH * s.num_rows,
        handoff_copy s.rows 0 (g_malloc (IMG_WIDTH * s.num_rows)))] ∧
    prepends (handoff_img s).trace = prepends s.trace ∧
    submits (handoff_img s).trace = submits s.trace := by
  unfold handoff_img
  cases hr : s.rows with
  | nil => exact absurd hr h
  | cons e r =>
    simp only []
    obtain ⟨h1, h2, h3⟩ := cancel_img_transfers_obs
      { ({ s with rows := [] } : sonly_dev).emit
          (Event.image_captured s.num_rows (IMG_WIDTH * s.num_rows)
            (handoff_copy (e :: r) 0 (g_malloc (IMG_WIDTH * s.num_rows))))
          |>.emit (Event.report_finger_status false) with
        killing_transfers := ITERATE_SSM, kill_ssm := SsmRef.loopsm }
    refine ⟨h1.trans ?_, h2.trans ?_, h3.trans ?_⟩ <;>
      simp [sonly_dev.emit, handoffs, prepends, submits]

theorem handoff_data_eq (s : sonly_dev) (hw : ∀ r ∈ s.rows, r.length = IMG_WIDTH)
    (hl : s.rows.length = s.num_rows) :
    handoff_copy s.rows 0 (g_malloc (IMG_WIDTH * s.num_rows)) = s.rows.flatten := by
  rw [handoff_copy_eq s.rows 0 _ hw (by simp [g_malloc, hl])]
  simp

end Libfprint.Upeksonly

namespace Libfprint.Upeksonly

open sonly_kill_transfers_action

theorem handoff_img_inv (s : sonly_dev) (hne : s.rows ≠ [])
    (hl : s.rows.length = s.num_rows)
    (hw : ∀ r ∈ s.rows, r.length = IMG_WIDTH)
    (hrw : ∀ b, s.rowbuf = some b → b.length = IMG_WIDTH)
    (hrs : s.rowbuf_offset ≠ -1 → s.rowbuf ≠ none)
    (hle : s.num_rows ≤ MAX_ROWS)
    (hch : List.Chain' (fun a b => 3000 ≤ abs_diff_sum a b) s.rows)
    (hst : s.rows = (prepends s.trace).reverse)
    (hi : handoffs s.trace = [])
    (hnc : is_capturing s = false) :
    CaptureInv (handoff_img s) := by
  have hc := handoff_img_core s hne
  obtain ⟨o1, o2, _⟩ := handoff_img_obs s hne
  obtain ⟨h1, h2, h3, h4, _⟩ := core_fields hc
  have hcap : is_capturing (handoff_img s) = false := by
    rw [is_capturing_of_core hc]
    simpa [is_capturing] using hnc
  simp only [] at h1 h2 h3 h4
  have hpos : 1 ≤ s.num_rows := by
    rw [← hl]
    cases hr : s.rows with
    | nil => exact absurd hr hne
    | cons a l => simp
  constructor
  · intro h; rw [hcap] at h; cases h
  · rw [h1]; simp
  · rw [h3]; exact hrw
  · rw [h3, h4]; exact hrs
  · rw [h2]; exact hle
  · intro h; rw [hcap] at h; cases h
  · intro h; rw [hcap] at h; cases h
  · intro h sz d hm
    rw [o1, hi, handoff_data_eq s hw hl] at hm
    simp at hm
    obtain ⟨rfl, rfl, rfl⟩ := hm
    rw [o2]
    refine ⟨rfl, hpos, hle, ?_, ?_, ?_, ?_⟩
    · rw [← hl, hst]; simp
    · rw [hst]
    · intro r hr
      apply hw
      rw [hst]
      simpa using hr
    · rw [← hst]; exact hch
  · intro _; exact hcap

theorem row_accept_inv (s : sonly_dev) (h : CaptureInv s) (hcap : is_capturing s = true)
    (b : List Nat) (hb : s.rowbuf = some b) (hoff : s.rowbuf_offset = -1)
    (hd : ∀ a, s.rows.head? = some a → 3000 ≤ abs_diff_sum b a) :
    CaptureInv (row_accept s) := by
  have hlt : s.num_rows < MAX_ROWS := by
    simp [is_capturing] at hcap; exact hcap.1
  have hfr : s.finger_removed = 0 := by
    simp [is_capturing] at hcap; exact hcap.2
  have hbl : b.length = IMG_WIDTH := h.rowbuf_width b hb
  have hi : handoffs s.trace = [] := by
    by_contra hne
    have := h.done hne
    rw [hcap] at this; cases this
  have hchain : List.Chain' (fun a b => 3000 ≤ abs_diff_sum a b) (b :: s.rows) := by
    rw [List.chain'_cons']
    exact ⟨fun a ha => hd a (by simpa using ha), h.dedup hcap⟩
  have hwid : ∀ r ∈ b :: s.rows, r.length = IMG_WIDTH := by
    intro r hr
    rcases List.mem_cons.mp hr with rfl | hr
    · exact hbl
    · exact h.row_width r hr
  unfold row_accept
  simp only [sonly_dev.rowbuf_data, sonly_dev.emit, hb, Option.getD_some]
  split
  · rename_i hge
    apply handoff_img_inv
    · simp
    · simp [h.rows_len hcap]
    · exact hwid
    · simp
    · simp [hoff]
    · show s.num_rows + 1 ≤ MAX_ROWS
      omega
    · exact hchain
    · simp [prepends, h.stack hcap]
    · show handoffs (s.trace ++ [Event.g_slist_prepend b]) = []
      rw [handoffs_append, hi]; rfl
    · have hge2 : MAX_ROWS ≤ s.num_rows + 1 := hge
      simp only [is_capturing, Bool.and_eq_false_imp, decide_eq_true_eq, decide_eq_false_iff_not]
      intro hh
      omega
  · rename_i hge
    simp only [ge_iff_le, not_le] at hge
    have hcap2 : ∀ t : sonly_dev, t.num_rows = s.num_rows + 1 → t.finger_removed = 0 →
        is_capturing t = true := by
      intro t h1 h2
      simp [is_capturing, h1, h2]
      exact hge
    constructor
    · intro _; simp [h.rows_len hcap]
    · exact hwid
    · simp
    · simp [hoff]
    · simp only []; omega
    · intro _; exact hchain
    · intro _; simp [prepends, h.stack hcap]
    · intro hh sz d hm
      simp [handoffs] at hm
      have : handoffs s.trace = [] := hi
      simp [handoffs] at this
      obtain ⟨e, he, hx⟩ := hm
      have := this e he
      rw [hx] at this
      cases this
    · intro hne
      exfalso
      apply hne
      simpa [handoffs] using hi

end Libfprint.Upeksonly

namespace Libfprint.Upeksonly

open sonly_kill_transfers_action

theorem CaptureInv.congr {s t : sonly_dev} (h : CaptureInv s)
    (h1 : t.rows = s.rows) (h2 : t.num_rows = s.num_rows) (h3 : t.rowbuf = s.rowbuf)
    (h5 : t.finger_removed = s.finger_removed)
    (hi : handoffs t.trace = handoffs s.trace) (hp : prepends t.trace = prepends s.trace)
    (h4 : t.rowbuf_offset ≠ -1 → t.rowbuf ≠ none) :
    CaptureInv t := by
  have hcap : is_capturing t = is_capturing s := by simp [is_capturing, h2, h5]
  constructor
  · rw [hcap, h1, h2]; exact h.rows_len
  · rw [h1]; exact h.row_width
  · rw [h3]; exact h.rowbuf_width
  · exact h4
  · rw [h2]; exact h.num_rows_le
  · rw [hcap, h1]; exact h.dedup
  · rw [hcap, h1, hp]; exact h.stack
  · rw [hi, hp]; exact h.imgs
  · rw [hi, hcap]; exact h.done

theorem CaptureInv.no_images {s : sonly_dev} (h : CaptureInv s)
    (hcap : is_capturing s = true) : handoffs s.trace = [] := by
  by_contra hne
  have := h.done hne
  rw [hcap] at this; cases this

theorem row_complete_inv (s : sonly_dev) (h : CaptureInv s) (hcap : is_capturing s = true)
    (b : List Nat) (hb : s.rowbuf = some b) : CaptureInv (row_complete s) := by
  have hi := h.no_images hcap
  have hl := h.rows_len hcap
  have hcap1 : ∀ t : sonly_dev, t.num_rows = s.num_rows → t.finger_removed = s.finger_removed →
      is_capturing t = true := by
    intro t h1 h2
    rw [← hcap]; simp [is_capturing, h1, h2]
  have keep : ∀ n : Int, CaptureInv { s with rowbuf_offset := -1, num_blank := n } := by
    intro n
    exact h.congr rfl rfl rfl rfl rfl rfl (fun hh => absurd rfl hh)
  unfold row_complete
  simp only [gt_iff_lt]
  split
  · rename_i hpos
    have hpos2 : 0 < s.num_rows := hpos
    obtain ⟨a, l, hrows⟩ : ∃ a l, s.rows = a :: l := by
      cases hr : s.rows with
      | nil => rw [hr] at hl; simp at hl; omega
      | cons a l => exact ⟨a, l, rfl⟩
    have hdata : ({ s with rowbuf_offset := -1 } : sonly_dev).rowbuf_data = b := by
      simp [sonly_dev.rowbuf_data, hb]
    have hhead : ({ s with rowbuf_offset := -1 } : sonly_dev).rows.headD [] = a := by
      simp [hrows]
    rw [hdata, hhead]
    have hacc : ∀ n : Int, ¬ (compute_rows a b).1 < 3000 →
        CaptureInv (row_accept { s with rowbuf_offset := -1, num_blank := n }) := by
      intro n hdiff
      apply row_accept_inv _ (keep n) (hcap1 _ rfl rfl) b hb rfl
      intro a2 ha2
      simp only [hrows, List.head?_cons, Option.some.injEq] at ha2
      subst ha2
      rw [abs_diff_sum_comm, ← compute_rows_fst]
      omega
    split
    · split
      · exact keep 0
      · rename_i hdiff
        exact hacc 0 hdiff
    · split
      · apply handoff_img_inv
        · simp [hrows]
        · exact hl
        · exact h.row_width
        · exact h.rowbuf_width
        · intro hh; exact absurd rfl hh
        · exact h.num_rows_le
        · exact h.dedup hcap
        · exact h.stack hcap
        · exact hi
        · simp [is_capturing]
      · split
        · exact keep _
        · rename_i hdiff
          exact hacc _ hdiff
  · rename_i hzero
    simp only [not_lt, Nat.le_zero_eq] at hzero
    have hnil : s.rows = [] := by
      rw [hzero] at hl
      exact List.length_eq_zero.mp hl
    have hk : CaptureInv { s with rowbuf_offset := -1 } :=
      h.congr rfl rfl rfl rfl rfl rfl (fun hh => absurd rfl hh)
    apply row_accept_inv { s with rowbuf_offset := -1 } hk (hcap1 _ rfl rfl) b hb rfl
    intro a ha
    simp [hnil] at ha

theorem start_new_row_inv (s : sonly_dev) (h : CaptureInv s) (data : List Nat) (size : Int) :
    CaptureInv (start_new_row s data size) := by
  unfold start_new_row
  have hcap : ∀ t : sonly_dev, t.num_rows = s.num_rows → t.finger_removed = s.finger_removed →
      is_capturing t = is_capturing s := by
    intro t h1 h2
    simp [is_capturing, h1, h2]
  constructor
  · exact h.rows_len
  · exact h.row_width
  · intro b hb
    simp only [Option.some.injEq] at hb
    subst hb
    rw [memcpy_length, memcpy_length]
    cases hr : s.rowbuf with
    | none => simp [g_malloc]
    | some rb => exact h.rowbuf_width rb hr
  · intro _; simp
  · exact h.num_rows_le
  · exact h.dedup
  · exact h.stack
  · exact h.imgs
  · exact h.done

theorem add_to_rowbuf_inv (s : sonly_dev) (h : CaptureInv s) (hcap : is_capturing s = true)
    (hoff : s.rowbuf_offset ≠ -1) (data : List Nat) (size : Int) :
    CaptureInv (add_to_rowbuf s data size) := by
  obtain ⟨b, hb⟩ : ∃ b, s.rowbuf = some b := by
    cases hr : s.rowbuf with
    | none => exact absurd hr (h.rowbuf_some hoff)
    | some b => exact ⟨b, rfl⟩
  have hinv : CaptureInv { s with
      rowbuf := s.rowbuf.map fun rb => memcpy rb s.rowbuf_offset.toNat data size.toNat
      rowbuf_offset := s.rowbuf_offset + size } := by
    constructor
    · exact h.rows_len
    · exact h.row_width
    · intro b2 hb2
      simp only [hb, Option.map_some', Option.some.injEq] at hb2
      subst hb2
      rw [memcpy_length]
      exact h.rowbuf_width b hb
    · intro _; simp [hb]
    · exact h.num_rows_le
    · exact h.dedup
    · exact h.stack
    · exact h.imgs
    · exact h.done
  unfold add_to_rowbuf
  simp only []
  split
  · apply row_complete_inv _ hinv
    · rw [← hcap]; simp [is_capturing]
    · simp [hb]; rfl
  · exact hinv

end Libfprint.Upeksonly

namespace Libfprint.Upeksonly

open sonly_kill_transfers_action

theorem rowbuf_remaining_ne (s : sonly_dev) (h : rowbuf_remaining s ≠ -1) :
    s.rowbuf_offset ≠ -1 := by
  intro h2
  apply h
  simp [rowbuf_remaining, h2]

/-- The row-assembly part of `handle_packet`, for any absolute address. -/
theorem handle_packet_dispatch_inv (s : sonly_dev) (h : CaptureInv s)
    (hcap : is_capturing s = true) (data : List Nat) (abs_base_addr : Int) :
    CaptureInv
      (if rowbuf_remaining s ≠ -1 then add_to_rowbuf s data (rowbuf_remaining s)
       else if abs_base_addr % (IMG_WIDTH : Int) = 0 then start_new_row s data 62
       else if ((abs_base_addr / (IMG_WIDTH : Int)) + 1) * (IMG_WIDTH : Int) - abs_base_addr < 62
         then start_new_row s
           (data.drop (((abs_base_addr / (IMG_WIDTH : Int)) + 1) * (IMG_WIDTH : Int)
             - abs_base_addr).toNat)
           (62 - (((abs_base_addr / (IMG_WIDTH : Int)) + 1) * (IMG_WIDTH : Int) - abs_base_addr))
       else s) := by
  by_cases c1 : rowbuf_remaining s ≠ -1
  · rw [if_pos c1]
    exact add_to_rowbuf_inv _ h hcap (rowbuf_remaining_ne _ c1) _ _
  · rw [if_neg c1]
    split
    · exact start_new_row_inv _ h _ _
    · split
      · exact start_new_row_inv _ h _ _
      · exact h

theorem handle_packet_inv (s : sonly_dev) (h : CaptureInv s) (hcap : is_capturing s = true)
    (data : List Nat) : CaptureInv (handle_packet s data) := by
  unfold handle_packet
  by_cases c : ((data.getD 0 0 <<< 8 ||| data.getD 1 0 : Nat) : Int) % 65536 ≤ s.last_seqnum
  · simp only [c, if_true]
    apply handle_packet_dispatch_inv
    · exact h.congr rfl rfl rfl rfl rfl rfl h.rowbuf_some
    · rw [← hcap]; simp [is_capturing]
  · simp only [c, if_false]
    apply handle_packet_dispatch_inv
    · exact h.congr rfl rfl rfl rfl rfl rfl h.rowbuf_some
    · rw [← hcap]; simp [is_capturing]

theorem packet_loop_inv (buffer : List Nat) (n : Nat) (s : sonly_dev) (h : CaptureInv s) :
    CaptureInv (packet_loop buffer n s).1 := by
  induction n generalizing s with
  | zero => exact h
  | succ n ih =>
    unfold packet_loop
    split
    · exact h
    · rename_i hc
      apply ih
      apply handle_packet_inv _ h
      simpa using hc

theorem set_idata_core (s : sonly_dev) (idx : Nat) (f : img_transfer_data → img_transfer_data) :
    core (set_idata s idx f) = core s ∧ (set_idata s idx f).trace = s.trace := by
  unfold set_idata
  split <;> simp [core]

theorem img_data_cb_landed_inv (s : sonly_dev) (h : CaptureInv s) (idx : Nat) :
    CaptureInv (img_data_cb_landed s idx) := by
  obtain ⟨c, tr⟩ := set_idata_core s idx fun d => { d with flying := false, cancelling := false }
  obtain ⟨f1, f2, f3, f4, f5, _⟩ := core_fields c
  unfold img_data_cb_landed
  exact h.congr f1 f2 f3 f5 (by simp [tr]) (by simp [tr])
    (by simp only [f3, f4]; exact h.rowbuf_some)

theorem img_data_cb_status_inv (s : sonly_dev) (h : CaptureInv s) (status : Int) :
    CaptureInv (img_data_cb_status s status) := by
  unfold img_data_cb_status
  split
  · obtain ⟨o1, o2, _⟩ := cancel_img_transfers_obs
      { s with killing_transfers := IMG_SESSION_ERROR, kill_status_code := status }
    have hk : CaptureInv
        { s with killing_transfers := IMG_SESSION_ERROR, kill_status_code := status } :=
      h.congr rfl rfl rfl rfl rfl rfl h.rowbuf_some
    exact hk.of_core (cancel_img_transfers_core _) o1 o2
  · exact h

theorem img_data_cb_resubmit_inv (s : sonly_dev) (h : CaptureInv s) (idx : Nat)
    (resubmit_r : Int) : CaptureInv (img_data_cb_resubmit s idx resubmit_r) := by
  unfold img_data_cb_resubmit
  have hk : ∀ (k : sonly_kill_transfers_action) (c n : Int), CaptureInv
      { s.emit (Event.submit_transfer idx resubmit_r s.killing_transfers) with
        killing_transfers := k, kill_status_code := c, num_flying := n } := by
    intro k c n
    exact h.congr rfl rfl rfl rfl (by simp [sonly_dev.emit, handoffs])
      (by simp [sonly_dev.emit, prepends]) h.rowbuf_some
  split
  · simp only []
    split
    · obtain ⟨o1, o2, _⟩ := cancel_img_transfers_obs
        { s.emit (Event.submit_transfer idx resubmit_r s.killing_transfers) with
          killing_transfers := IMG_SESSION_ERROR, kill_status_code := resubmit_r }
      exact (hk IMG_SESSION_ERROR resubmit_r _).of_core (cancel_img_transfers_core _) o1 o2
    · obtain ⟨c, tr⟩ := set_idata_core
        { s.emit (Event.submit_transfer idx resubmit_r s.killing_transfers) with
          num_flying := s.num_flying + 1 } idx fun d => { d with flying := true }
      exact (hk s.killing_transfers s.kill_status_code (s.num_flying + 1)).of_core c
        (congrArg handoffs tr) (congrArg prepends tr)
  · exact h

theorem img_data_cb_inv (s : sonly_dev) (h : CaptureInv s) (idx : Nat) (status : Int)
    (buffer : List Nat) (resubmit_r : Int) :
    CaptureInv (img_data_cb s idx status buffer resubmit_r) := by
  unfold img_data_cb
  have hc1 := img_data_cb_landed_inv s h idx
  simp only []
  split
  · split
    · obtain ⟨o1, o2, _⟩ := last_transfer_killed_obs (img_data_cb_landed s idx)
      exact hc1.of_core (last_transfer_killed_core _) o1 o2
    · exact hc1
  · have hc3 := packet_loop_inv buffer 64 _ (img_data_cb_status_inv _ hc1 status)
    split
    · exact hc3
    · exact img_data_cb_resubmit_inv _ hc3 idx resubmit_r

theorem run_inv (s : sonly_dev) (h : CaptureInv s) (cs : List Completion) :
    CaptureInv (run s cs) := by
  induction cs generalizing s with
  | nil => exact h
  | cons c cs ih =>
    simp only [run, List.foldl_cons]
    exact ih _ (img_data_cb_inv s h c.idx c.status c.buffer c.resubmit_r)

theorem capsm_init_inv (s : sonly_dev) (hrows : s.rows = []) (htrace : s.trace = [])
    (hbuf : ∀ b, s.rowbuf = some b → b.length = IMG_WIDTH) : CaptureInv (capsm_init s) := by
  unfold capsm_init
  constructor
  · intro _; simp [sonly_dev.emit, hrows]
  · simp [sonly_dev.emit, hrows]
  · exact hbuf
  · intro hh; exact absurd rfl hh
  · simp [sonly_dev.emit]
  · intro _; simp [sonly_dev.emit, hrows]
  · intro _; simp [sonly_dev.emit, hrows, htrace, prepends]
  · intro h sz d hm
    simp [sonly_dev.emit, htrace, handoffs] at hm
  · intro hne
    simp [sonly_dev.emit, htrace, handoffs] at hne

end Libfprint.Upeksonly

namespace Libfprint.Upeksonly

open sonly_kill_transfers_action

/-! ## Claims on the emitted swipe image -/

theorem image_mem_handoffs {tr : List Event} {h sz : Nat} {d : List Nat}
    (hm : Event.image_captured h sz d ∈ tr) : (h, sz, d) ∈ handoffs tr := by
  simp only [handoffs, List.mem_filterMap]
  exact ⟨_, hm, rfl⟩

theorem no_rows_mem_handoffs {tr : List Event} (hm : Event.fp_err_no_rows ∈ tr) :
    (0, 0, []) ∈ handoffs tr := by
  simp only [handoffs, List.mem_filterMap]
  exact ⟨_, hm, rfl⟩

theorem capture_run_inv (s0 : sonly_dev) (hrows : s0.rows = []) (htrace : s0.trace = [])
    (hbuf : ∀ b, s0.rowbuf = some b → b.length = IMG_WIDTH) (cs : List Completion) :
    CaptureInv (run (capsm_init s0) cs) :=
  run_inv _ (capsm_init_inv s0 hrows htrace hbuf) cs

theorem GoodImage.slice_eq {ps : List (List Nat)} {h sz : Nat} {d : List Nat}
    (g : GoodImage ps h sz d) (k : Nat) (hk : k < h) :
    slice d IMG_WIDTH k = ps.reverse.getD k [] := by
  rw [g.data_eq]
  apply slice_flatten
  · intro r hr
    exact g.width r (by simpa using hr)
  · rw [List.length_reverse, ← g.height_eq]; exact hk

theorem GoodImage.length_eq {ps : List (List Nat)} {h sz : Nat} {d : List Nat}
    (g : GoodImage ps h sz d) : d.length = sz := by
  have hw : ∀ l : List (List Nat), (∀ r ∈ l, r.length = IMG_WIDTH) →
      l.flatten.length = IMG_WIDTH * l.length := by
    intro l
    induction l with
    | nil => simp
    | cons a l ih =>
      intro hl
      simp only [List.flatten_cons, List.length_append, List.length_cons]
      rw [ih (fun r hr => hl r (by simp [hr])), hl a (by simp)]
      ring
  rw [g.data_eq, g.size_eq, g.height_eq, hw _ (fun r hr => g.width r (by simpa using hr))]
  simp

end Libfprint.Upeksonly

namespace Libfprint.Upeksonly

open sonly_kill_transfers_action

/-! ## The example swipe -/

set_option maxRecDepth 100000 in
theorem example_compute_rows :
    compute_rows example_rowB example_rowB = (0, 73440) ∧
    compute_rows example_rowA example_rowB = (73440, 73440) := by
  decide

/-- A bright row equal to the head of the list is dropped and counted as blank. -/
theorem feed_row_duplicate (s : sonly_dev) (l : List (List Nat))
    (hrows : s.rows = example_rowB :: l) (hn : 0 < s.num_rows) (hb : s.num_blank < 500) :
    feed_row s example_rowB =
      { s with rowbuf := some example_rowB, rowbuf_offset := -1,
               num_blank := s.num_blank + 1 } := by
  unfold feed_row row_complete
  have hpos : ({ s with rowbuf := some example_rowB, rowbuf_offset := (-1 : Int) }
      : sonly_dev).num_rows > 0 := hn
  simp only [hpos, if_true, sonly_dev.rowbuf_data, Option.getD_some, hrows, List.headD_cons,
    example_compute_rows.1]
  have h1 : ¬ ((73440 : Int) < 52000) := by decide
  have h2 : ¬ (s.num_blank + 1 > 500) := by omega
  have h3 : (0 : Int) < 3000 := by decide
  simp only [h1, h2, h3, if_true, if_false]

theorem feed_row_duplicates (n : Nat) :
    ∀ (s : sonly_dev) (l : List (List Nat)), s.rows = example_rowB :: l → 0 < s.num_rows →
      s.rowbuf = some example_rowB → s.rowbuf_offset = -1 → s.num_blank + n ≤ 500 →
      (List.replicate n example_rowB).foldl feed_row s =
        { s with num_blank := s.num_blank + n } := by
  induction n with
  | zero =>
    intro s l _ _ _ _ _
    simp
  | succ n ih =>
    intro s l hrows hn hbuf hoff hb
    rw [List.replicate_succ, List.foldl_cons, feed_row_duplicate s l hrows hn (by omega)]
    rw [ih { s with rowbuf := some example_rowB, rowbuf_offset := -1,
                    num_blank := s.num_blank + 1 } l hrows hn rfl rfl
      (by show s.num_blank + 1 + (n : Int) ≤ 500; push_cast at hb; omega)]
    cases s
    simp only [sonly_dev.mk.injEq, true_and, and_true] at hbuf hoff ⊢
    refine ⟨hbuf.symm, hoff.symm, ?_⟩
    push_cast
    ring

/-- The state `example_end_of_swipe` arises from `example_start_of_swipe` by the
completion of the dark row, of the bright row, and of 499 more bright rows;
then the next bright row fills the row buffer. -/
theorem example_end_of_swipe_reached :
    example_end_of_swipe =
      { (List.replicate 499 example_rowB).foldl feed_row
          (feed_row (feed_row example_start_of_swipe example_rowA) example_rowB) with
        rowbuf_offset := 288 } := by
  have h2 : feed_row (feed_row example_start_of_swipe example_rowA) example_rowB =
      { example_end_of_swipe with rowbuf := none, rowbuf_offset := -1, num_blank := 1 } := by
    set_option maxRecDepth 100000 in decide
  have hd : ∀ s : sonly_dev, s.rows = [example_rowB, example_rowA] → s.num_rows = 2 →
      s.num_blank = 1 → feed_row s example_rowB =
        { s with rowbuf := some example_rowB, rowbuf_offset := -1, num_blank := 2 } := by
    intro s h1 h2 h3
    rw [feed_row_duplicate s [example_rowA] h1 (by omega) (by omega), h3]
    rfl
  rw [h2]
  have e : (499 : Nat) = 498 + 1 := rfl
  rw [e, List.replicate_succ, List.foldl_cons, hd _ rfl rfl rfl]
  rw [feed_row_duplicates 498 _ [example_rowA] rfl (by decide) rfl rfl (by decide)]
  rfl

end Libfprint.Upeksonly

namespace Libfprint.Upeksonly

open sonly_kill_transfers_action

/-- C1 (as stated) fails: at the end of the swipe `example_end_of_swipe`, where
`example_rowA` was accepted first and `example_rowB` second, the image emitted by
`handoff_img` starts with `example_rowB`: its row 0 is not the first accepted
row. -/
theorem C1_counterexample :
    Event.image_captured 2 576 (example_rowB ++ example_rowA)
        ∈ (row_complete example_end_of_swipe).trace ∧
      prepends (row_complete example_end_of_swipe).trace = [example_rowA, example_rowB] ∧
      slice (example_rowB ++ example_rowA) IMG_WIDTH 0 ≠
        (prepends (row_complete example_end_of_swipe).trace).getD 0 [] := by
  set_option maxRecDepth 100000 in decide

/-- C1 (amended): in every capture started at `CAPSM_INIT` with an empty row
list, an image emitted by `handoff_img` has as many rows as were accepted
(prepended to the row list), and holds them newest first: for every `k`, the
`k`-th 288-byte row of the image data is the `(h - 1 - k)`-th accepted row. -/
theorem C1_handoff_rows_newest_first (s0 : sonly_dev) (hrows : s0.rows = [])
    (htrace : s0.trace = []) (hbuf : ∀ b, s0.rowbuf = some b → b.length = IMG_WIDTH)
    (cs : List Completion) :
    ∀ h sz d, Event.image_captured h sz d ∈ (run (capsm_init s0) cs).trace →
      h = (prepends (run (capsm_init s0) cs).trace).length ∧
      ∀ k, k < h → slice d IMG_WIDTH k =
        (prepends (run (capsm_init s0) cs).trace).getD (h - 1 - k) [] := by
  intro h sz d hm
  have g := (capture_run_inv s0 hrows htrace hbuf cs).imgs h sz d (image_mem_handoffs hm)
  refine ⟨g.height_eq, ?_⟩
  intro k hk
  rw [g.slice_eq k hk]
  have hlen := g.height_eq
  rw [List.getD_eq_getElem _ _ (by rw [List.length_reverse]; omega),
    List.getD_eq_getElem _ _ (by omega), List.getElem_reverse]
  congr 1
  omega


/-- C2: in every capture that starts at `CAPSM_INIT` with an empty row list,
for every sequence of bulk-transfer completions, `handoff_img` is never reached
without rows, and every image it emits has `IMG_WIDTH * num_rows` bytes and
height `num_rows` with `1 ≤ num_rows ≤ MAX_ROWS`. -/
theorem C2_swipe_image_size (s0 : sonly_dev) (hrows : s0.rows = [])
    (htrace : s0.trace = []) (hbuf : ∀ b, s0.rowbuf = some b → b.length = IMG_WIDTH)
    (cs : List Completion) :
    Event.fp_err_no_rows ∉ (run (capsm_init s0) cs).trace ∧
    (run (capsm_init s0) cs).num_rows ≤ MAX_ROWS ∧
    ∀ h sz d, Event.image_captured h sz d ∈ (run (capsm_init s0) cs).trace →
      sz = IMG_WIDTH * h ∧ d.length = sz ∧ 1 ≤ h ∧ h ≤ MAX_ROWS ∧ MAX_ROWS = 700 := by
  have inv := capture_run_inv s0 hrows htrace hbuf cs
  refine ⟨?_, inv.num_rows_le, ?_⟩
  · intro hm
    have g := inv.imgs 0 0 [] (no_rows_mem_handoffs hm)
    exact absurd g.height_pos (by decide)
  · intro h sz d hm
    have g := inv.imgs h sz d (image_mem_handoffs hm)
    exact ⟨g.size_eq, g.length_eq, g.height_pos, g.height_le, rfl⟩


theorem row_complete_dedup (s : sonly_dev) (a b : List Nat) (l : List (List Nat))
    (hn : 0 < s.num_rows) (hrows : s.rows = a :: l) (hb : s.rowbuf = some b)
    (hd : abs_diff_sum a b < 3000) :
    prepends (row_complete s).trace = prepends s.trace := by
  have hd2 : (compute_rows a b).1 < 3000 := by rw [compute_rows_fst]; exact hd
  unfold row_complete
  have hdata : ({ s with rowbuf_offset := -1 } : sonly_dev).rowbuf_data = b := by
    simp [sonly_dev.rowbuf_data, hb]
  have hhead : ({ s with rowbuf_offset := -1 } : sonly_dev).rows.headD [] = a := by
    simp [hrows]
  have hpos : ({ s with rowbuf_offset := -1 } : sonly_dev).num_rows > 0 := hn
  simp only [hpos, if_true]
  rw [hdata, hhead]
  by_cases ht : (compute_rows a b).2 < 52000
  · rw [if_pos ht, if_pos hd2]
  · rw [if_neg ht]
    split
    · exact (handoff_img_obs _ (by simp [hrows])).2.1
    · rfl

/-- C3: in every capture started at `CAPSM_INIT` with an empty row list, any two
adjacent rows `k`, `k+1` of an emitted image satisfy `Σ |a[i] - b[i]| ≥ 3000`;
and `row_complete` never prepends a completed row whose absolute-difference sum
against the most recently accepted row (the head of the list) is below 3000. -/
theorem C3_swipe_row_dedup (s0 : sonly_dev) (hrows : s0.rows = [])
    (htrace : s0.trace = []) (hbuf : ∀ b, s0.rowbuf = some b → b.length = IMG_WIDTH)
    (cs : List Completion) :
    (∀ h sz d, Event.image_captured h sz d ∈ (run (capsm_init s0) cs).trace →
      ∀ k, k + 1 < h →
        3000 ≤ abs_diff_sum (slice d IMG_WIDTH k) (slice d IMG_WIDTH (k + 1))) ∧
    (∀ (s : sonly_dev) (a b : List Nat) (l : List (List Nat)), 0 < s.num_rows →
      s.rows = a :: l → s.rowbuf = some b → abs_diff_sum a b < 3000 →
      prepends (row_complete s).trace = prepends s.trace) := by
  refine ⟨?_, fun s a b l => row_complete_dedup s a b l⟩
  intro h sz d hm k hk
  have g := (capture_run_inv s0 hrows htrace hbuf cs).imgs h sz d (image_mem_handoffs hm)
  rw [g.slice_eq k (by omega), g.slice_eq (k + 1) hk]
  have hlen : (prepends (run (capsm_init s0) cs).trace).reverse.length = h := by
    rw [List.length_reverse, ← g.height_eq]
  have hc := List.chain'_iff_get.mp g.dedup k (by omega)
  rw [List.getD_eq_getElem _ _ (by omega), List.getD_eq_getElem _ _ (by omega)]
  simpa using hc


end Libfprint.Upeksonly

namespace Libfprint.Upeksonly

open sonly_kill_transfers_action

/-! ## Frame lemmas for the tear-down bookkeeping -/

theorem map_set_same {α β : Type} (f : α → β) (l : List α) (i : Nat) (x y : α)
    (h : l.get? i = some x) (hf : f y = f x) : (l.set i y).map f = l.map f := by
  induction l generalizing i with
  | nil => simp
  | cons a l ih =>
    cases i with
    | zero =>
      simp only [List.get?_cons_zero, Option.some.injEq] at h
      subst h
      simp [hf]
    | succ i =>
      simp only [List.get?_cons_succ] at h
      simp [ih i h]

theorem Frame.refl (s : sonly_dev) : Frame s s :=
  ⟨rfl, rfl, fun _ => rfl, rfl, Or.inl rfl⟩

theorem Frame.trans {s t u : sonly_dev} (h1 : Frame s t) (h2 : Frame t u) : Frame s u := by
  constructor
  · rw [h2.num_flying, h1.num_flying]
  · rw [h2.flags, h1.flags]
  · intro h
    rw [h2.kills (by rw [h1.num_flying]; exact h), h1.kills h]
  · rw [h2.submits, h1.submits]
  · rcases h2.killing with e | e
    · rw [e]; exact h1.killing
    · exact Or.inr e

theorem cancel_one_flags (s : sonly_dev) (i : Nat) :
    flying_flags (cancel_one s i) = flying_flags s := by
  unfold cancel_one
  split
  · rfl
  · rename_i idata hget
    split
    · rfl
    · exact map_set_same _ _ _ idata _ hget rfl

theorem cancel_fold_flags (l : List Nat) (s : sonly_dev) :
    flying_flags (l.foldl cancel_one s) = flying_flags s := by
  induction l generalizing s with
  | nil => rfl
  | cons i l ih => rw [List.foldl_cons, ih, cancel_one_flags]

theorem cancel_img_transfers_frame (s : sonly_dev) : Frame s (cancel_img_transfers s) := by
  have hc := core_fields (cancel_img_transfers_core s)
  obtain ⟨_, _, o3⟩ := cancel_img_transfers_obs s
  refine ⟨hc.2.2.2.2.2.1, ?_, ?_, o3, Or.inl hc.2.2.2.2.2.2.1⟩
  · unfold cancel_img_transfers
    split
    · unfold flying_flags
      rw [last_transfer_killed_pool]
    · exact cancel_fold_flags _ s
  · intro hne
    unfold cancel_img_transfers
    rw [if_neg hne]
    exact (cancel_fold_obs _ s).2.2.2

theorem handoff_img_frame (s : sonly_dev) : Frame s (handoff_img s) := by
  unfold handoff_img
  cases hr : s.rows with
  | nil =>
    exact ⟨rfl, rfl, fun _ => by simp [sonly_dev.emit, kills],
      by simp [sonly_dev.emit, submits], Or.inl rfl⟩
  | cons e r =>
    simp only []
    refine Frame.trans ?_ (cancel_img_transfers_frame _)
    exact ⟨rfl, rfl, fun _ => by simp [sonly_dev.emit, kills],
      by simp [sonly_dev.emit, submits], Or.inr rfl⟩

theorem row_accept_frame (s : sonly_dev) : Frame s (row_accept s) := by
  unfold row_accept
  have h0 : Frame s { s.emit (Event.g_slist_prepend s.rowbuf_data) with
      rows := (s.emit (Event.g_slist_prepend s.rowbuf_data)).rowbuf_data ::
        (s.emit (Event.g_slist_prepend s.rowbuf_data)).rows,
      num_rows := (s.emit (Event.g_slist_prepend s.rowbuf_data)).num_rows + 1,
      rowbuf := none } :=
    ⟨rfl, rfl, fun _ => by simp [sonly_dev.emit, kills],
      by simp [sonly_dev.emit, submits], Or.inl rfl⟩
  simp only []
  split
  · exact h0.trans (handoff_img_frame _)
  · exact h0

theorem row_complete_frame (s : sonly_dev) : Frame s (row_complete s) := by
  unfold row_complete
  have keep : ∀ n : Int, Frame s { s with rowbuf_offset := -1, num_blank := n } :=
    fun n => ⟨rfl, rfl, fun _ => rfl, rfl, Or.inl rfl⟩
  have keep1 : Frame s { s with rowbuf_offset := -1 } :=
    ⟨rfl, rfl, fun _ => rfl, rfl, Or.inl rfl⟩
  have keep2 : ∀ n : Int,
      Frame s { s with rowbuf_offset := -1, num_blank := n, finger_removed := 1 } :=
    fun n => ⟨rfl, rfl, fun _ => rfl, rfl, Or.inl rfl⟩
  simp only []
  split
  · split
    · split
      · exact keep 0
      · exact (keep 0).trans (row_accept_frame _)
    · split
      · exact (keep2 _).trans (handoff_img_frame _)
      · split
        · exact keep _
        · exact (keep _).trans (row_accept_frame _)
  · exact keep1.trans (row_accept_frame _)

theorem add_to_rowbuf_frame (s : sonly_dev) (data : List Nat) (size : Int) :
    Frame s (add_to_rowbuf s data size) := by
  unfold add_to_rowbuf
  have h0 : Frame s { s with
      rowbuf := s.rowbuf.map fun rb => memcpy rb s.rowbuf_offset.toNat data size.toNat
      rowbuf_offset := s.rowbuf_offset + size } :=
    ⟨rfl, rfl, fun _ => rfl, rfl, Or.inl rfl⟩
  simp only []
  split
  · exact h0.trans (row_complete_frame _)
  · exact h0

theorem start_new_row_frame (s : sonly_dev) (data : List Nat) (size : Int) :
    Frame s (start_new_row s data size) :=
  ⟨rfl, rfl, fun _ => rfl, rfl, Or.inl rfl⟩

theorem handle_packet_frame (s : sonly_dev) (data : List Nat) :
    Frame s (handle_packet s data) := by
  have disp : ∀ (s2 : sonly_dev) (d : List Nat) (abs_base_addr : Int), Frame s s2 → Frame s
      (if rowbuf_remaining s2 ≠ -1 then add_to_rowbuf s2 d (rowbuf_remaining s2)
       else if abs_base_addr % (IMG_WIDTH : Int) = 0 then start_new_row s2 d 62
       else if ((abs_base_addr / (IMG_WIDTH : Int)) + 1) * (IMG_WIDTH : Int) - abs_base_addr < 62
         then start_new_row s2
           (d.drop (((abs_base_addr / (IMG_WIDTH : Int)) + 1) * (IMG_WIDTH : Int)
             - abs_base_addr).toNat)
           (62 - (((abs_base_addr / (IMG_WIDTH : Int)) + 1) * (IMG_WIDTH : Int) - abs_base_addr))
       else s2) := by
    intro s2 d a h2
    by_cases c1 : rowbuf_remaining s2 ≠ -1
    · rw [if_pos c1]; exact h2.trans (add_to_rowbuf_frame _ _ _)
    · rw [if_neg c1]
      split
      · exact h2.trans (start_new_row_frame _ _ _)
      · split
        · exact h2.trans (start_new_row_frame _ _ _)
        · exact h2
  unfold handle_packet
  by_cases c : ((data.getD 0 0 <<< 8 ||| data.getD 1 0 : Nat) : Int) % 65536 ≤ s.last_seqnum
  · simp only [c, if_true]
    apply disp
    exact ⟨rfl, rfl, fun _ => rfl, rfl, Or.inl rfl⟩
  · simp only [c, if_false]
    apply disp
    exact ⟨rfl, rfl, fun _ => rfl, rfl, Or.inl rfl⟩

theorem packet_loop_frame (buffer : List Nat) (n : Nat) (s : sonly_dev) :
    Frame s (packet_loop buffer n s).1 := by
  induction n generalizing s with
  | zero => exact Frame.refl s
  | succ n ih =>
    unfold packet_loop
    split
    · exact Frame.refl s
    · exact (handle_packet_frame s _).trans (ih _)

end Libfprint.Upeksonly

namespace Libfprint.Upeksonly

open sonly_kill_transfers_action

/-! ## Completions during a tear-down -/

theorem img_data_cb_landed_fields (s : sonly_dev) (idx : Nat) :
    (img_data_cb_landed s idx).num_flying = s.num_flying - 1 ∧
    (img_data_cb_landed s idx).killing_transfers = s.killing_transfers ∧
    (img_data_cb_landed s idx).trace = s.trace ∧
    is_capturing (img_data_cb_landed s idx) = is_capturing s := by
  obtain ⟨c, tr⟩ := set_idata_core s idx fun d => { d with flying := false, cancelling := false }
  obtain ⟨_, f2, _, _, f5, f6, f7, _⟩ := core_fields c
  unfold img_data_cb_landed
  refine ⟨by simp only [f6], f7, tr, ?_⟩
  simp only [is_capturing, f2, f5]

theorem last_transfer_killed_fields (s : sonly_dev) :
    (last_transfer_killed s).num_flying = s.num_flying ∧
    (last_transfer_killed s).killing_transfers = s.killing_transfers := by
  obtain ⟨_, _, _, _, _, f6, f7, _⟩ := core_fields (last_transfer_killed_core s)
  exact ⟨f6, f7⟩

/-- A completion while a tear-down is pending only counts down, and runs the
deferred action when the count reaches zero. -/
theorem img_data_cb_killing (s : sonly_dev) (hk : s.killing_transfers ≠ NOT_KILLING)
    (idx : Nat) (status : Int) (buffer : List Nat) (r : Int) :
    (img_data_cb s idx status buffer r).num_flying = s.num_flying - 1 ∧
    (img_data_cb s idx status buffer r).killing_transfers = s.killing_transfers ∧
    kills (img_data_cb s idx status buffer r).trace =
      kills s.trace ++ (if s.num_flying = 1 then [s.killing_transfers] else []) ∧
    submits (img_data_cb s idx status buffer r).trace = submits s.trace := by
  obtain ⟨l1, l2, l3, _⟩ := img_data_cb_landed_fields s idx
  unfold img_data_cb
  simp only []
  rw [if_pos (by rw [l2]; exact hk)]
  by_cases h0 : (img_data_cb_landed s idx).num_flying = 0
  · rw [if_pos h0]
    obtain ⟨k1, k2⟩ := last_transfer_killed_fields (img_data_cb_landed s idx)
    obtain ⟨_, _, o3, o4⟩ := last_transfer_killed_obs (img_data_cb_landed s idx)
    have h1 : s.num_flying = 1 := by rw [l1] at h0; omega
    refine ⟨by rw [k1, l1], by rw [k2, l2], ?_, by rw [o3, l3]⟩
    rw [o4, l3, l2, if_pos h1]
  · rw [if_neg h0]
    have h1 : ¬ s.num_flying = 1 := by rw [l1] at h0; omega
    refine ⟨l1, l2, ?_, by rw [l3]⟩
    rw [l3, if_neg h1]; simp

theorem run_cons (s : sonly_dev) (c : Completion) (cs : List Completion) :
    run s (c :: cs) = run (img_data_cb s c.idx c.status c.buffer c.resubmit_r) cs := rfl

/-- With a tear-down pending and `n` transfers flying, the deferred action runs
on the `n`-th completion and on no other; no transfer is submitted. -/
theorem run_killing (cs : List Completion) (s : sonly_dev) (n : Int)
    (hk : s.killing_transfers ≠ NOT_KILLING) (hn : s.num_flying = n) :
    kills (run s cs).trace =
      kills s.trace ++ (if 0 < n ∧ n ≤ cs.length then [s.killing_transfers] else []) ∧
    (run s cs).num_flying = n - cs.length ∧
    submits (run s cs).trace = submits s.trace := by
  induction cs generalizing s n with
  | nil =>
    have : ¬ (0 < n ∧ n ≤ ((([] : List Completion).length : Nat) : Int)) := by
      simp only [List.length_nil, Nat.cast_zero]; omega
    rw [if_neg this]
    simp [run, hn]
  | cons c cs ih =>
    obtain ⟨a1, a2, a3, a4⟩ := img_data_cb_killing s hk c.idx c.status c.buffer c.resubmit_r
    obtain ⟨b1, b2, b3⟩ := ih (img_data_cb s c.idx c.status c.buffer c.resubmit_r) (n - 1)
      (by rw [a2]; exact hk) (by rw [a1, hn])
    rw [run_cons]
    refine ⟨?_, ?_, by rw [b3, a4]⟩
    · rw [b1, a3, a2, hn]
      simp only [List.length_cons, Nat.cast_add, Nat.cast_one]
      by_cases h1 : n = 1
      · subst h1
        simp
      · rw [if_neg h1]
        by_cases h2 : 0 < n - 1 ∧ n - 1 ≤ (cs.length : Int)
        · rw [if_pos h2, if_pos (by omega)]; simp
        · rw [if_neg h2, if_neg (by omega)]; simp
    · rw [b2]
      simp only [List.length_cons, Nat.cast_add, Nat.cast_one]
      ring

/-- Part of C4: a call of `cancel_img_transfers` with a tear-down action set and
`n` transfers flying, followed by any completions: the deferred action runs
exactly once, on the spot when `n = 0` and else on the `n`-th completion. -/
theorem cancel_then_run (s : sonly_dev) (n : Nat) (cs : List Completion)
    (hk : s.killing_transfers ≠ NOT_KILLING) (hn : s.num_flying = n) :
    kills (run (cancel_img_transfers s) cs).trace =
      kills s.trace ++ (if n ≤ cs.length then [s.killing_transfers] else []) ∧
    (run (cancel_img_transfers s) (cs.take n)).num_flying = (n : Int) - (cs.take n).length ∧
    submits (run (cancel_img_transfers s) cs).trace = submits s.trace := by
  have fr := cancel_img_transfers_frame s
  have hk2 : (cancel_img_transfers s).killing_transfers = s.killing_transfers := by
    exact (core_fields (cancel_img_transfers_core s)).2.2.2.2.2.2.1
  obtain ⟨r1, _, r3⟩ := run_killing cs (cancel_img_transfers s) n (by rw [hk2]; exact hk)
    (by rw [fr.num_flying, hn])
  obtain ⟨_, q2, _⟩ := run_killing (cs.take n) (cancel_img_transfers s) n
    (by rw [hk2]; exact hk) (by rw [fr.num_flying, hn])
  refine ⟨?_, q2, by rw [r3, fr.submits]⟩
  rw [r1, hk2]
  cases n with
  | zero =>
    have h0 : s.num_flying = 0 := by simpa using hn
    have : kills (cancel_img_transfers s).trace = kills s.trace ++ [s.killing_transfers] := by
      unfold cancel_img_transfers
      rw [if_pos h0]
      exact (last_transfer_killed_obs s).2.2.2
    rw [this]
    simp
  | succ m =>
    have h0 : s.num_flying ≠ 0 := by rw [hn]; simp; omega
    rw [fr.kills h0]
    by_cases h : m + 1 ≤ cs.length
    · rw [if_pos h, if_pos (by constructor <;> (simp only [Nat.cast_add, Nat.cast_one]; omega))]
    · rw [if_neg h, if_neg (by simp only [Nat.cast_add, Nat.cast_one]; omega)]

end Libfprint.Upeksonly

namespace Libfprint.Upeksonly

open sonly_kill_transfers_action

/-! ## The flying count -/

theorem set_idata_flags (s : sonly_dev) (idx : Nat) (f : img_transfer_data → img_transfer_data)
    (b : Bool) (hf : ∀ d, (f d).flying = b) (hi : idx < (flying_flags s).length) :
    flying_flags (set_idata s idx f) = (flying_flags s).set idx b := by
  unfold set_idata
  have hi2 : idx < s.img_transfer_data.length := by simpa [flying_flags] using hi
  rw [List.get?_eq_get hi2]
  simp only [flying_flags, List.map_set, hf]

theorem getD_true_lt (l : List Bool) (i : Nat) (h : l.getD i false = true) :
    ∃ hi : i < l.length, l[i] = true := by
  by_cases hi : i < l.length
  · rw [List.getD_eq_getElem _ _ hi] at h
    exact ⟨hi, h⟩
  · rw [List.getD_eq_default _ _ (by omega)] at h
    cases h

theorem count_set_true (l : List Bool) (i : Nat) (h : i < l.length) (hf : l[i] = false) :
    (l.set i true).count true = l.count true + 1 := by
  rw [List.count_set _ _ _ _ h]; simp [hf]

theorem count_set_false (l : List Bool) (i : Nat) (h : i < l.length) (hf : l[i] = true) :
    (l.set i false).count true + 1 = l.count true := by
  rw [List.count_set _ _ _ _ h]; simp [hf]
  have : 0 < l.count true := by
    apply List.count_pos_iff.mpr
    rw [← hf]; exact List.getElem_mem h
  omega

theorem img_data_cb_landed_flags (s : sonly_dev) (idx : Nat)
    (hv : (flying_flags s).getD idx false = true) :
    flying_flags (img_data_cb_landed s idx) = (flying_flags s).set idx false ∧
    count_flying (img_data_cb_landed s idx) + 1 = count_flying s := by
  obtain ⟨hi, ht⟩ := getD_true_lt _ _ hv
  have e : flying_flags (img_data_cb_landed s idx) = (flying_flags s).set idx false := by
    unfold img_data_cb_landed
    exact set_idata_flags s idx _ false (fun _ => rfl) hi
  refine ⟨e, ?_⟩
  unfold count_flying
  rw [e]
  exact count_set_false _ _ hi ht

/-! ## Leaving the capture always requests a tear-down -/

theorem handoff_img_killing (s : sonly_dev) (h : s.rows ≠ []) :
    (handoff_img s).killing_transfers = ITERATE_SSM :=
  (core_fields (handoff_img_core s h)).2.2.2.2.2.2.1

theorem row_accept_stop (s : sonly_dev) (hcap : is_capturing s = true) :
    is_capturing (row_accept s) = true ∨ (row_accept s).killing_transfers = ITERATE_SSM := by
  have hfr : s.finger_removed = 0 := by
    simp [is_capturing] at hcap; exact hcap.2
  unfold row_accept
  simp only []
  split
  · exact Or.inr (handoff_img_killing _ (by simp))
  · rename_i hge
    have hge2 : ¬ MAX_ROWS ≤ s.num_rows + 1 := hge
    left
    simp [is_capturing, sonly_dev.emit, hfr]
    omega

theorem row_complete_stop (s : sonly_dev) (h : CaptureInv s) (hcap : is_capturing s = true) :
    is_capturing (row_complete s) = true ∨
      (row_complete s).killing_transfers = ITERATE_SSM := by
  have hl := h.rows_len hcap
  have hcap1 : ∀ t : sonly_dev, t.num_rows = s.num_rows → t.finger_removed = s.finger_removed →
      is_capturing t = true := by
    intro t h1 h2
    rw [← hcap]; simp [is_capturing, h1, h2]
  unfold row_complete
  simp only [gt_iff_lt]
  by_cases hpos : 0 < s.num_rows
  · have hpos2 : 0 < ({ s with rowbuf_offset := -1 } : sonly_dev).num_rows := hpos
    rw [if_pos hpos2]
    have hne : s.rows ≠ [] := by
      intro hnil
      rw [hnil] at hl
      simp at hl
      omega
    split
    · split
      · exact Or.inl (hcap1 _ rfl rfl)
      · exact row_accept_stop _ (hcap1 _ rfl rfl)
    · split
      · exact Or.inr (handoff_img_killing _ hne)
      · split
        · exact Or.inl (hcap1 _ rfl rfl)
        · exact row_accept_stop _ (hcap1 _ rfl rfl)
  · have hpos2 : ¬ 0 < ({ s with rowbuf_offset := -1 } : sonly_dev).num_rows := hpos
    rw [if_neg hpos2]
    exact row_accept_stop _ (hcap1 _ rfl rfl)

theorem add_to_rowbuf_stop (s : sonly_dev) (h : CaptureInv s) (hcap : is_capturing s = true)
    (hoff : s.rowbuf_offset ≠ -1) (data : List Nat) (size : Int) :
    is_capturing (add_to_rowbuf s data size) = true ∨
      (add_to_rowbuf s data size).killing_transfers = ITERATE_SSM := by
  obtain ⟨b, hb⟩ : ∃ b, s.rowbuf = some b := by
    cases hr : s.rowbuf with
    | none => exact absurd hr (h.rowbuf_some hoff)
    | some b => exact ⟨b, rfl⟩
  have hinv : CaptureInv { s with
      rowbuf := s.rowbuf.map fun rb => memcpy rb s.rowbuf_offset.toNat data size.toNat
      rowbuf_offset := s.rowbuf_offset + size } := by
    constructor
    · exact h.rows_len
    · exact h.row_width
    · intro b2 hb2
      simp only [hb, Option.map_some', Option.some.injEq] at hb2
      subst hb2
      rw [memcpy_length]
      exact h.rowbuf_width b hb
    · intro _; simp [hb]
    · exact h.num_rows_le
    · exact h.dedup
    · exact h.stack
    · exact h.imgs
    · exact h.done
  unfold add_to_rowbuf
  simp only []
  split
  · exact row_complete_stop _ hinv (by rw [← hcap]; simp [is_capturing])
  · left
    rw [← hcap]; simp [is_capturing]

theorem handle_packet_stop (s : sonly_dev) (h : CaptureInv s) (hcap : is_capturing s = true)
    (data : List Nat) :
    is_capturing (handle_packet s data) = true ∨
      (handle_packet s data).killing_transfers = ITERATE_SSM := by
  have disp : ∀ (s2 : sonly_dev) (d : List Nat) (abs_base_addr : Int), CaptureInv s2 →
      is_capturing s2 = true →
      (fun t => is_capturing t = true ∨ t.killing_transfers = ITERATE_SSM)
      (if rowbuf_remaining s2 ≠ -1 then add_to_rowbuf s2 d (rowbuf_remaining s2)
       else if abs_base_addr % (IMG_WIDTH : Int) = 0 then start_new_row s2 d 62
       else if ((abs_base_addr / (IMG_WIDTH : Int)) + 1) * (IMG_WIDTH : Int) - abs_base_addr < 62
         then start_new_row s2
           (d.drop (((abs_base_addr / (IMG_WIDTH : Int)) + 1) * (IMG_WIDTH : Int)
             - abs_base_addr).toNat)
           (62 - (((abs_base_addr / (IMG_WIDTH : Int)) + 1) * (IMG_WIDTH : Int) - abs_base_addr))
       else s2) := by
    intro s2 d a h2 hc2
    have hsn : ∀ d2 sz, is_capturing (start_new_row s2 d2 sz) = true := by
      intro d2 sz
      rw [← hc2]; simp [is_capturing, start_new_row]
    by_cases c1 : rowbuf_remaining s2 ≠ -1
    · rw [if_pos c1]
      exact add_to_rowbuf_stop _ h2 hc2 (rowbuf_remaining_ne _ c1) _ _
    · rw [if_neg c1]
      split
      · exact Or.inl (hsn _ _)
      · split
        · exact Or.inl (hsn _ _)
        · exact Or.inl hc2
  unfold handle_packet
  by_cases c : ((data.getD 0 0 <<< 8 ||| data.getD 1 0 : Nat) : Int) % 65536 ≤ s.last_seqnum
  · simp only [c, if_true]
    apply disp
    · exact h.congr rfl rfl rfl rfl rfl rfl h.rowbuf_some
    · rw [← hcap]; simp [is_capturing]
  · simp only [c, if_false]
    apply disp
    · exact h.congr rfl rfl rfl rfl rfl rfl h.rowbuf_some
    · rw [← hcap]; simp [is_capturing]

theorem packet_loop_stop (buffer : List Nat) (n : Nat) (s : sonly_dev) (h : CaptureInv s)
    (hs : is_capturing s = false → s.killing_transfers ≠ NOT_KILLING) :
    (is_capturing (packet_loop buffer n s).1 = false →
      (packet_loop buffer n s).1.killing_transfers ≠ NOT_KILLING) ∧
    ((packet_loop buffer n s).2 = true → is_capturing (packet_loop buffer n s).1 = false) := by
  induction n generalizing s with
  | zero =>
    refine ⟨hs, ?_⟩
    intro h2
    simp [packet_loop] at h2
  | succ n ih =>
    unfold packet_loop
    by_cases hc : is_capturing s = true
    · have hc2 : ¬ ((!is_capturing s) = true) := by simp [hc]
      rw [if_neg hc2]
      apply ih _ (handle_packet_inv s h hc _)
      intro hstop
      rcases handle_packet_stop s h hc (buffer.drop (64 * (64 - (n + 1)))) with e | e
      · rw [e] at hstop; cases hstop
      · rw [e]; decide
    · have hc3 : is_capturing s = false := by simpa using hc
      have hc2 : (!is_capturing s) = true := by simp [hc3]
      rw [if_pos hc2]
      exact ⟨hs, fun _ => hc3⟩

end Libfprint.Upeksonly

namespace Libfprint.Upeksonly

open sonly_kill_transfers_action

/-! ## The bookkeeping invariant is kept by every completion -/

theorem img_data_cb_status_facts (s : sonly_dev) (status : Int) (h0 : s.num_flying ≠ 0) :
    (img_data_cb_status s status).num_flying = s.num_flying ∧
    flying_flags (img_data_cb_status s status) = flying_flags s ∧
    kills (img_data_cb_status s status).trace = kills s.trace ∧
    submits (img_data_cb_status s status).trace = submits s.trace ∧
    is_capturing (img_data_cb_status s status) = is_capturing s ∧
    (status ≠ LIBUSB_TRANSFER_COMPLETED →
      (img_data_cb_status s status).killing_transfers = IMG_SESSION_ERROR) ∧
    (status = LIBUSB_TRANSFER_COMPLETED → img_data_cb_status s status = s) := by
  unfold img_data_cb_status
  by_cases hs : status ≠ LIBUSB_TRANSFER_COMPLETED
  · rw [if_pos hs]
    have fr := cancel_img_transfers_frame
      { s with killing_transfers := IMG_SESSION_ERROR, kill_status_code := status }
    have hc := cancel_img_transfers_core
      { s with killing_transfers := IMG_SESSION_ERROR, kill_status_code := status }
    refine ⟨fr.num_flying, fr.flags, fr.kills h0, fr.submits, ?_, ?_, ?_⟩
    · rw [is_capturing_of_core hc]; simp [is_capturing]
    · intro _; exact (core_fields hc).2.2.2.2.2.2.1
    · intro h; exact absurd h hs
  · rw [if_neg hs]
    exact ⟨rfl, rfl, rfl, rfl, rfl, fun h => absurd h hs, fun _ => rfl⟩

theorem kills_submit (tr : List Event) (i : Nat) (r : Int) (k : sonly_kill_transfers_action) :
    kills (tr ++ [Event.submit_transfer i r k]) = kills tr := by
  simp [kills]

theorem img_data_cb_resubmit_ok (s : sonly_dev) (idx : Nat) (r : Int)
    (hcap : is_capturing s = true) (hr : ¬ r < 0) (hi : idx < (flying_flags s).length) :
    (img_data_cb_resubmit s idx r).num_flying = s.num_flying + 1 ∧
    flying_flags (img_data_cb_resubmit s idx r) = (flying_flags s).set idx true ∧
    (img_data_cb_resubmit s idx r).trace =
      s.trace ++ [Event.submit_transfer idx r s.killing_transfers] ∧
    (img_data_cb_resubmit s idx r).killing_transfers = s.killing_transfers ∧
    is_capturing (img_data_cb_resubmit s idx r) = true := by
  unfold img_data_cb_resubmit
  rw [if_pos hcap]
  dsimp only
  rw [if_neg hr]
  obtain ⟨cc, tr⟩ := set_idata_core
    { s.emit (Event.submit_transfer idx r s.killing_transfers) with
      num_flying := s.num_flying + 1 } idx fun d => { d with flying := true }
  have hcf := core_fields cc
  refine ⟨hcf.2.2.2.2.2.1, ?_, tr, hcf.2.2.2.2.2.2.1, ?_⟩
  · exact set_idata_flags _ idx _ true (fun _ => rfl) hi
  · exact (is_capturing_of_core cc).trans
      (by rw [← hcap]; simp [is_capturing, sonly_dev.emit])

theorem img_data_cb_resubmit_failed (s : sonly_dev) (idx : Nat) (r : Int)
    (hcap : is_capturing s = true) (hr : r < 0) (h0 : s.num_flying ≠ 0) :
    (img_data_cb_resubmit s idx r).num_flying = s.num_flying ∧
    flying_flags (img_data_cb_resubmit s idx r) = flying_flags s ∧
    kills (img_data_cb_resubmit s idx r).trace = kills s.trace ∧
    submits (img_data_cb_resubmit s idx r).trace =
      submits s.trace ++ [(idx, r, s.killing_transfers)] ∧
    (img_data_cb_resubmit s idx r).killing_transfers = IMG_SESSION_ERROR := by
  unfold img_data_cb_resubmit
  rw [if_pos hcap]
  dsimp only
  rw [if_pos hr]
  have fr := cancel_img_transfers_frame
    { s.emit (Event.submit_transfer idx r s.killing_transfers) with
      killing_transfers := IMG_SESSION_ERROR, kill_status_code := r }
  have hc := cancel_img_transfers_core
    { s.emit (Event.submit_transfer idx r s.killing_transfers) with
      killing_transfers := IMG_SESSION_ERROR, kill_status_code := r }
  refine ⟨fr.num_flying, fr.flags, ?_, ?_, (core_fields hc).2.2.2.2.2.2.1⟩
  · rw [fr.kills h0]
    exact kills_submit _ _ _ _
  · rw [fr.submits]
    simp [sonly_dev.emit, submits]

theorem img_data_cb_teardown (s : sonly_dev) (hj : TeardownInv s) (hc : CaptureInv s)
    (idx : Nat) (hv : (flying_flags s).getD idx false = true) (status : Int)
    (buffer : List Nat) (r : Int) :
    TeardownInv (img_data_cb s idx status buffer r) := by
  obtain ⟨l1, l2, l3, l4⟩ := img_data_cb_landed_fields s idx
  obtain ⟨lf, lc⟩ := img_data_cb_landed_flags s idx hv
  obtain ⟨hi, _⟩ := getD_true_lt _ _ hv
  have hcount := hj.count
  have hnf1 : (img_data_cb_landed s idx).num_flying = (count_flying (img_data_cb_landed s idx) : Int) := by
    rw [l1, hcount]; omega
  unfold img_data_cb
  simp only []
  by_cases hk : s.killing_transfers ≠ NOT_KILLING
  · rw [if_pos (by rw [l2]; exact hk)]
    have hb : 0 < s.num_flying ∧ kills s.trace = [] := by
      rcases hj.busy hk with b | b
      · exact b
      · exfalso; have := b.1; omega
    by_cases h0 : (img_data_cb_landed s idx).num_flying = 0
    · rw [if_pos h0]
      obtain ⟨k1, k2⟩ := last_transfer_killed_fields (img_data_cb_landed s idx)
      have kp := last_transfer_killed_pool (img_data_cb_landed s idx)
      have hcf : count_flying (last_transfer_killed (img_data_cb_landed s idx)) =
          count_flying (img_data_cb_landed s idx) := by
        unfold count_flying flying_flags; rw [kp]
      constructor
      · rw [k1, hcf]; exact hnf1
      · intro h; rw [k2, l2] at h; exact absurd h hk
      · intro _; rw [k2, l2]; exact hk
      · intro _
        right
        refine ⟨by rw [k1]; exact h0, ?_⟩
        rw [(last_transfer_killed_obs _).2.2.2, l3, hb.2]; simp
    · rw [if_neg h0]
      constructor
      · exact hnf1
      · intro h; rw [l2] at h; exact absurd h hk
      · intro _; rw [l2]; exact hk
      · intro _
        left
        refine ⟨?_, by rw [l3]; exact hb.2⟩
        rw [l1] at h0 ⊢; omega
  · have hk0 : s.killing_transfers = NOT_KILLING := by
      by_contra h; exact hk h
    rw [if_neg (by rw [l2]; exact hk)]
    obtain ⟨hn24, hkl⟩ := hj.idle hk0
    have hcap : is_capturing s = true := by
      by_contra h
      have : is_capturing s = false := by simpa using h
      exact hj.stop this hk0
    have h23 : (img_data_cb_landed s idx).num_flying = 23 := by
      rw [l1, hn24]; rfl
    obtain ⟨s1, s2, s3, _, s5, _, _⟩ := img_data_cb_status_facts (img_data_cb_landed s idx) status
      (by rw [h23]; decide)
    have hc2 := img_data_cb_status_inv _ (img_data_cb_landed_inv s hc idx) status
    have fr := packet_loop_frame buffer 64 (img_data_cb_status (img_data_cb_landed s idx) status)
    obtain ⟨p1, p2⟩ := packet_loop_stop buffer 64 _ hc2
      (by intro h; rw [s5, l4, hcap] at h; cases h)
    generalize packet_loop buffer 64 (img_data_cb_status (img_data_cb_landed s idx) status) = pr
      at fr p1 p2
    obtain ⟨t, ret⟩ := pr
    simp only [] at fr p1 p2 ⊢
    have tn : t.num_flying = 23 := by rw [fr.num_flying, s1, h23]
    have tf : flying_flags t = (flying_flags s).set idx false := by rw [fr.flags, s2, lf]
    have tk : kills t.trace = [] := by
      rw [fr.kills (by rw [s1, h23]; decide), s3, l3, hkl]
    have tc : (count_flying t : Int) = 23 := by
      have : count_flying t = count_flying (img_data_cb_landed s idx) := by
        unfold count_flying; rw [fr.flags, s2]
      rw [this, ← hnf1, h23]
    have stopped : is_capturing t = false → TeardownInv t := by
      intro hst
      have hne := p1 hst
      exact ⟨by rw [tn, tc], fun h => absurd h hne, fun _ => hne,
        fun _ => Or.inl ⟨by rw [tn]; decide, tk⟩⟩
    by_cases hret : ret = true
    · rw [if_pos hret]
      exact stopped (p2 hret)
    · rw [if_neg hret]
      by_cases hct : is_capturing t = true
      · by_cases hr : r < 0
        · obtain ⟨e1, e2, e3, _, e5⟩ := img_data_cb_resubmit_failed t idx r hct hr
            (by rw [tn]; decide)
          have ne : IMG_SESSION_ERROR ≠ NOT_KILLING := by decide
          constructor
          · rw [e1]
            unfold count_flying
            rw [e2]
            show t.num_flying = (count_flying t : Int)
            rw [tn, tc]
          · intro h; rw [e5] at h; exact absurd h ne
          · intro _; rw [e5]; exact ne
          · intro _
            left
            exact ⟨by rw [e1, tn]; decide, by rw [e3, tk]⟩
        · have hi2 : idx < (flying_flags t).length := by rw [tf]; simpa using hi
          obtain ⟨e1, e2, e3, e4, e5⟩ := img_data_cb_resubmit_ok t idx r hct hr hi2
          have e6 : ((flying_flags t).set idx true).count true = 24 := by
            rw [count_set_true _ _ hi2 (by simp [tf])]
            have : ((flying_flags t).count true : Int) = 23 := tc
            omega
          have e7 : kills (img_data_cb_resubmit t idx r).trace = [] := by
            rw [e3, kills_submit, tk]
          constructor
          · rw [e1]
            unfold count_flying
            rw [e2, e6, tn]; rfl
          · intro _
            exact ⟨by rw [e1, tn]; rfl, e7⟩
          · intro h
            rw [e5] at h; cases h
          · intro _
            left
            exact ⟨by rw [e1, tn]; decide, e7⟩
      · have hnc : is_capturing t = false := by simpa using hct
        have : img_data_cb_resubmit t idx r = t := by
          unfold img_data_cb_resubmit
          rw [if_neg hct]
        rw [this]
        exact stopped hnc

end Libfprint.Upeksonly

namespace Libfprint.Upeksonly

open sonly_kill_transfers_action

/-! ## The armed state -/

theorem replicate_set_true (i m : Nat) :
    (List.replicate i true ++ List.replicate (m + 1) false).set i true =
      List.replicate (i + 1) true ++ List.replicate m false := by
  induction i with
  | zero => simp [List.replicate_succ]
  | succ i ih =>
    rw [List.replicate_succ, List.cons_append, List.set_cons_succ, ih]
    simp [List.replicate_succ]

theorem fire_bulk_loop_ok (submit_r : Nat → Int) (hr : ∀ j, ¬ submit_r j < 0) (n : Nat) :
    ∀ (i m : Nat) (s : sonly_dev),
      flying_flags s = List.replicate i true ++ List.replicate (n + m) false →
      (fire_bulk_loop submit_r n i s).2 = false ∧
      core (fire_bulk_loop submit_r n i s).1 = core { s with num_flying := s.num_flying + n } ∧
      flying_flags (fire_bulk_loop submit_r n i s).1 =
        List.replicate (i + n) true ++ List.replicate m false ∧
      handoffs (fire_bulk_loop submit_r n i s).1.trace = handoffs s.trace ∧
      prepends (fire_bulk_loop submit_r n i s).1.trace = prepends s.trace ∧
      kills (fire_bulk_loop submit_r n i s).1.trace = kills s.trace := by
  induction n with
  | zero =>
    intro i m s hf
    refine ⟨rfl, ?_, by simpa using hf, rfl, rfl, rfl⟩
    simp [fire_bulk_loop, core]
  | succ n ih =>
    intro i m s hf
    unfold fire_bulk_loop
    dsimp only
    rw [if_neg (hr i)]
    have hi : i < (flying_flags (s.emit (Event.submit_transfer i (submit_r i)
        s.killing_transfers))).length := by
      show i < (flying_flags s).length
      rw [hf]; simp
    obtain ⟨cc, tr⟩ := set_idata_core
      (s.emit (Event.submit_transfer i (submit_r i) s.killing_transfers)) i
      fun d => { d with flying := true }
    have hfl := set_idata_flags
      (s.emit (Event.submit_transfer i (submit_r i) s.killing_transfers)) i
      (fun d => { d with flying := true }) true (fun _ => rfl) hi
    have hfl2 : flying_flags
        { set_idata (s.emit (Event.submit_transfer i (submit_r i) s.killing_transfers)) i
            (fun d => { d with flying := true }) with
          num_flying := (set_idata (s.emit (Event.submit_transfer i (submit_r i)
            s.killing_transfers)) i (fun d => { d with flying := true })).num_flying + 1 } =
        List.replicate (i + 1) true ++ List.replicate (n + m) false := by
      show flying_flags (set_idata _ i _) = _
      rw [hfl]
      show (flying_flags s).set i true = _
      rw [hf]
      have : n + 1 + m = (n + m) + 1 := by omega
      rw [this]
      exact replicate_set_true i (n + m)
    obtain ⟨a1, a2, a3, a4, a5, a6⟩ := ih (i + 1) m _ hfl2
    have hcf := core_fields cc
    refine ⟨a1, ?_, ?_, ?_, ?_, ?_⟩
    · rw [a2]
      have e6 := hcf.2.2.2.2.2.1
      have ec := congrArg sonly_dev.capturing cc
      have ed := congrArg sonly_dev.deactivating cc
      have er := congrArg sonly_dev.read_reg_result cc
      have ew := congrArg sonly_dev.wraparounds cc
      have eb := congrArg sonly_dev.num_blank cc
      have el := congrArg sonly_dev.last_seqnum cc
      simp only [core, sonly_dev.emit, sonly_dev.mk.injEq] at ec ed er ew eb el hcf e6 ⊢
      refine ⟨ec, ed, er, trivial, ?_, hcf.1, hcf.2.1, hcf.2.2.1, hcf.2.2.2.1, ew, eb, hcf.2.2.2.2.1,
        el, hcf.2.2.2.2.2.2.1, hcf.2.2.2.2.2.2.2.1, hcf.2.2.2.2.2.2.2.2, trivial⟩
      rw [e6]; push_cast; ring
    · rw [a3]
      have : i + 1 + n = i + (n + 1) := by omega
      rw [this]
    · rw [a4]
      show handoffs (set_idata _ i _).trace = _
      rw [tr]; simp [sonly_dev.emit, handoffs]
    · rw [a5]
      show prepends (set_idata _ i _).trace = _
      rw [tr]; simp [sonly_dev.emit, prepends]
    · rw [a6]
      show kills (set_idata _ i _).trace = _
      rw [tr]; simp [sonly_dev.emit, kills]

end Libfprint.Upeksonly

namespace Libfprint.Upeksonly

open sonly_kill_transfers_action

theorem armed_invs (s0 : sonly_dev) (submit_r : Nat → Int)
    (hrows : s0.rows = []) (htrace : s0.trace = [])
    (hbuf : ∀ b, s0.rowbuf = some b → b.length = IMG_WIDTH)
    (hpool : flying_flags s0 = List.replicate NUM_BULK_TRANSFERS false)
    (hnf : s0.num_flying = 0) (hr : ∀ j, ¬ submit_r j < 0) :
    CaptureInv (capsm_fire_bulk (capsm_init s0) submit_r) ∧
    TeardownInv (capsm_fire_bulk (capsm_init s0) submit_r) := by
  have hci := capsm_init_inv s0 hrows htrace hbuf
  have hf0 : flying_flags (capsm_init s0) =
      List.replicate 0 true ++ List.replicate (NUM_BULK_TRANSFERS + 0) false := by
    show flying_flags s0 = _
    rw [hpool]; simp
  obtain ⟨a1, a2, a3, a4, a5, a6⟩ :=
    fire_bulk_loop_ok submit_r hr NUM_BULK_TRANSFERS 0 0 (capsm_init s0) hf0
  unfold capsm_fire_bulk
  dsimp only
  rw [a1]
  simp only [Bool.false_eq_true, if_false]
  generalize (fire_bulk_loop submit_r NUM_BULK_TRANSFERS 0 (capsm_init s0)).1 = t at a2 a3 a4 a5 a6
  obtain ⟨f1, f2, f3, f4, f5, f6, f7, _⟩ := core_fields a2
  have hcap : is_capturing (({ t with capturing := true } : sonly_dev).emit
      (Event.ssm_next_state SsmRef.capsm)) = true := by
    simp [is_capturing, sonly_dev.emit, f2, f5, capsm_init, MAX_ROWS]
  have hk : kills (({ t with capturing := true } : sonly_dev).emit
      (Event.ssm_next_state SsmRef.capsm)).trace = [] := by
    show kills (t.trace ++ [Event.ssm_next_state SsmRef.capsm]) = []
    rw [kills_append, a6]
    simp [kills, capsm_init, sonly_dev.emit, htrace]
  constructor
  · refine CaptureInv.congr (s := capsm_init s0)
      (t := ({ t with capturing := true } : sonly_dev).emit (Event.ssm_next_state SsmRef.capsm))
      hci f1 f2 f3 f5 ?_ ?_ ?_
    · show handoffs (t.trace ++ [Event.ssm_next_state SsmRef.capsm]) = _
      rw [handoffs_append, a4]
      simp [handoffs]
    · show prepends (t.trace ++ [Event.ssm_next_state SsmRef.capsm]) = _
      rw [prepends_append, a5]
      simp [prepends]
    · intro h
      exact absurd f4 h
  · constructor
    · show t.num_flying = ((flying_flags t).count true : Int)
      rw [f6, a3]
      simp [capsm_init, sonly_dev.emit, hnf]
    · intro _
      refine ⟨?_, hk⟩
      show t.num_flying = _
      rw [f6]
      simp [capsm_init, sonly_dev.emit, hnf]
    · intro h
      rw [hcap] at h; cases h
    · intro h
      exfalso
      apply h
      show t.killing_transfers = NOT_KILLING
      rw [f7]
      rfl

theorem run_invs (s : sonly_dev) (cs : List Completion) (hc : CaptureInv s)
    (hj : TeardownInv s) (hv : valid_run s cs) :
    CaptureInv (run s cs) ∧ TeardownInv (run s cs) := by
  induction cs generalizing s with
  | nil => exact ⟨hc, hj⟩
  | cons c cs ih =>
    rw [run_cons]
    exact ih _ (img_data_cb_inv s hc _ _ _ _)
      (img_data_cb_teardown s hj hc c.idx hv.1 _ _ _) hv.2

theorem TeardownInv.fires_once {s : sonly_dev} (hj : TeardownInv s) :
    (kills s.trace).length ≤ 1 ∧
    ((kills s.trace).length = 1 ↔ (s.killing_transfers ≠ NOT_KILLING ∧ s.num_flying = 0)) := by
  by_cases hk : s.killing_transfers = NOT_KILLING
  · obtain ⟨h1, h2⟩ := hj.idle hk
    rw [h2]
    refine ⟨by simp, ?_⟩
    constructor
    · intro h; simp at h
    · intro h; exact absurd hk h.1
  · rcases hj.busy hk with ⟨h1, h2⟩ | ⟨h1, h2⟩
    · rw [h2]
      refine ⟨by simp, ?_⟩
      constructor
      · intro h; simp at h
      · intro h; omega
    · rw [h2]
      exact ⟨le_refl _, fun _ => ⟨hk, h1⟩, fun _ => rfl⟩

end Libfprint.Upeksonly

namespace Libfprint.Upeksonly

open sonly_kill_transfers_action

/-! ## Claims on the tear-down of the bulk transfers -/

/-! ## Swipe driver: a tear-down requested inside `img_data_cb` -/

/-- A completion of a flying transfer in a capture where no tear-down is
pending.  If the callback requests one (a bad status and a failed resubmission
always do), then 23 or 24 transfers are flying when it returns and the deferred
action has not run. -/
theorem img_data_cb_idle (s : sonly_dev) (hj : TeardownInv s) (hc : CaptureInv s)
    (hidle : s.killing_transfers = NOT_KILLING)
    (idx : Nat) (hv : (flying_flags s).getD idx false = true) (status : Int)
    (buffer : List Nat) (r : Int) :
    ((img_data_cb s idx status buffer r).killing_transfers ≠ NOT_KILLING →
      ((img_data_cb s idx status buffer r).num_flying = 23 ∨
        (img_data_cb s idx status buffer r).num_flying = 24) ∧
      kills (img_data_cb s idx status buffer r).trace = []) ∧
    (status ≠ LIBUSB_TRANSFER_COMPLETED →
      (img_data_cb s idx status buffer r).killing_transfers ≠ NOT_KILLING) ∧
    (r < 0 → (img_data_cb s idx status buffer r).killing_transfers ≠ NOT_KILLING) := by
  obtain ⟨l1, l2, l3, l4⟩ := img_data_cb_landed_fields s idx
  obtain ⟨lf, lc⟩ := img_data_cb_landed_flags s idx hv
  obtain ⟨hi, _⟩ := getD_true_lt _ _ hv
  unfold img_data_cb
  simp only []
  rw [if_neg (by rw [l2, hidle]; decide)]
  obtain ⟨hn24, hkl⟩ := hj.idle hidle
  have hcap : is_capturing s = true := by
    by_contra h
    have : is_capturing s = false := by simpa using h
    exact hj.stop this hidle
  have h23 : (img_data_cb_landed s idx).num_flying = 23 := by
    rw [l1, hn24]; rfl
  obtain ⟨s1, s2, s3, _, s5, s6, s7⟩ :=
    img_data_cb_status_facts (img_data_cb_landed s idx) status (by rw [h23]; decide)
  have hc2 := img_data_cb_status_inv _ (img_data_cb_landed_inv s hc idx) status
  have fr := packet_loop_frame buffer 64 (img_data_cb_status (img_data_cb_landed s idx) status)
  obtain ⟨p1, p2⟩ := packet_loop_stop buffer 64 _ hc2
    (by intro h; rw [s5, l4, hcap] at h; cases h)
  generalize packet_loop buffer 64 (img_data_cb_status (img_data_cb_landed s idx) status) = pr
    at fr p1 p2
  obtain ⟨t, ret⟩ := pr
  simp only [] at fr p1 p2 ⊢
  have tn : t.num_flying = 23 := by rw [fr.num_flying, s1, h23]
  have tf : flying_flags t = (flying_flags s).set idx false := by rw [fr.flags, s2, lf]
  have tk : kills t.trace = [] := by
    rw [fr.kills (by rw [s1, h23]; decide), s3, l3, hkl]
  have tbad : status ≠ LIBUSB_TRANSFER_COMPLETED → t.killing_transfers ≠ NOT_KILLING := by
    intro hb
    rcases fr.killing with e | e
    · rw [e, s6 hb]
      decide
    · rw [e]
      decide
  by_cases hret : ret = true
  · rw [if_pos hret]
    have hne := p1 (p2 hret)
    exact ⟨fun _ => ⟨Or.inl tn, tk⟩, fun _ => hne, fun _ => hne⟩
  · rw [if_neg hret]
    by_cases hct : is_capturing t = true
    · by_cases hr : r < 0
      · obtain ⟨e1, _, e3, _, e5⟩ := img_data_cb_resubmit_failed t idx r hct hr
          (by rw [tn]; decide)
        have hne : (img_data_cb_resubmit t idx r).killing_transfers ≠ NOT_KILLING := by
          rw [e5]
          decide
        exact ⟨fun _ => ⟨Or.inl (by rw [e1, tn]), by rw [e3, tk]⟩, fun _ => hne, fun _ => hne⟩
      · have hi2 : idx < (flying_flags t).length := by rw [tf]; simpa using hi
        obtain ⟨e1, _, e3, e4, _⟩ := img_data_cb_resubmit_ok t idx r hct hr hi2
        refine ⟨fun _ => ⟨Or.inr (by rw [e1, tn]; rfl), by rw [e3, kills_submit, tk]⟩, ?_, ?_⟩
        · intro hb
          rw [e4]
          exact tbad hb
        · intro h
          exact absurd h hr
    · have hnc : is_capturing t = false := by simpa using hct
      have : img_data_cb_resubmit t idx r = t := by
        unfold img_data_cb_resubmit
        rw [if_neg hct]
      rw [this]
      have hne := p1 hnc
      exact ⟨fun _ => ⟨Or.inl tn, tk⟩, fun _ => hne, fun _ => hne⟩

/-- C4: the deferred action fires exactly once per tear-down, when no transfer
is flying.  (a) In every capture (all 24 transfers armed by `CAPSM_FIRE_BULK`
after `CAPSM_INIT`), after any sequence of completions of flying transfers with
any statuses, `last_transfer_killed` has run at most once, and it has run
exactly when a tear-down is requested and `num_flying` is 0.  (b) For every call
of `cancel_img_transfers` with a tear-down action set and `n` transfers flying
(as `handoff_img`, the failed resubmit, `CAPSM_FIRE_BULK` and `dev_deactivate`
make it), and every subsequent sequence of completions, `last_transfer_killed`
runs exactly once: at once when `n = 0`, otherwise on the `n`-th completion,
which brings `num_flying` to 0.  (c) For the calls made inside `img_data_cb`: in
such a capture with no tear-down pending, a completion of a flying transfer with
a bad status, or whose resubmission fails, leaves a tear-down requested with
`m` transfers flying, `m` being 23 or 24 (the callback goes on after the call,
and may resubmit its transfer), and the deferred action not yet run; in every
subsequent sequence of completions it runs exactly once, on the `m`-th, which
brings `num_flying` to 0. -/
theorem C4_teardown_fires_once (s0 : sonly_dev) (submit_r : Nat → Int) (cs : List Completion)
    (hrows : s0.rows = []) (htrace : s0.trace = [])
    (hbuf : ∀ b, s0.rowbuf = some b → b.length = IMG_WIDTH)
    (hpool : flying_flags s0 = List.replicate NUM_BULK_TRANSFERS false)
    (hnf : s0.num_flying = 0) (hr : ∀ j, ¬ submit_r j < 0)
    (hv : valid_run (capsm_fire_bulk (capsm_init s0) submit_r) cs) :
    ((kills (run (capsm_fire_bulk (capsm_init s0) submit_r) cs).trace).length ≤ 1 ∧
      ((kills (run (capsm_fire_bulk (capsm_init s0) submit_r) cs).trace).length = 1 ↔
        ((run (capsm_fire_bulk (capsm_init s0) submit_r) cs).killing_transfers ≠ NOT_KILLING ∧
          (run (capsm_fire_bulk (capsm_init s0) submit_r) cs).num_flying = 0))) ∧
    (∀ (s : sonly_dev) (n : Nat) (ds : List Completion),
      s.killing_transfers ≠ NOT_KILLING → s.num_flying = n →
      kills (run (cancel_img_transfers s) ds).trace =
        kills s.trace ++ (if n ≤ ds.length then [s.killing_transfers] else []) ∧
      (run (cancel_img_transfers s) (ds.take n)).num_flying = (n : Int) - (ds.take n).length) ∧
    (∀ (idx : Nat) (status : Int) (buffer : List Nat) (r : Int) (ds : List Completion)
      (t : sonly_dev),
      t = img_data_cb (run (capsm_fire_bulk (capsm_init s0) submit_r) cs) idx status buffer r →
      (run (capsm_fire_bulk (capsm_init s0) submit_r) cs).killing_transfers = NOT_KILLING →
      (flying_flags (run (capsm_fire_bulk (capsm_init s0) submit_r) cs)).getD idx false = true →
      (status ≠ LIBUSB_TRANSFER_COMPLETED ∨ r < 0) →
      t.killing_transfers ≠ NOT_KILLING ∧
      (t.num_flying = 23 ∨ t.num_flying = 24) ∧
      kills t.trace = [] ∧
      kills (run t ds).trace =
        (if t.num_flying ≤ (ds.length : Int) then [t.killing_transfers] else []) ∧
      (run t (ds.take t.num_flying.toNat)).num_flying =
        t.num_flying - ((ds.take t.num_flying.toNat).length : Int)) := by
  obtain ⟨hc, hj⟩ := armed_invs s0 submit_r hrows htrace hbuf hpool hnf hr
  obtain ⟨hc2, hj2⟩ := run_invs _ cs hc hj hv
  refine ⟨hj2.fires_once, ?_, ?_⟩
  · intro s n ds hk hn
    obtain ⟨h1, h2, _⟩ := cancel_then_run s n ds hk hn
    exact ⟨h1, h2⟩
  · intro idx status buffer r ds t ht hidle hfly hbad
    obtain ⟨g1, g2, g3⟩ := img_data_cb_idle _ hj2 hc2 hidle idx hfly status buffer r
    rw [← ht] at g1 g2 g3
    have hk : t.killing_transfers ≠ NOT_KILLING := by
      rcases hbad with h | h
      · exact g2 h
      · exact g3 h
    obtain ⟨hn, hkl⟩ := g1 hk
    obtain ⟨r1, _, _⟩ := run_killing ds t t.num_flying hk rfl
    obtain ⟨_, q2, _⟩ := run_killing (ds.take t.num_flying.toNat) t t.num_flying hk rfl
    refine ⟨hk, hn, hkl, ?_, q2⟩
    rw [r1, hkl, List.nil_append]
    by_cases h : t.num_flying ≤ (ds.length : Int)
    · rw [if_pos h, if_pos ⟨by omega, h⟩]
    · rw [if_neg h, if_neg (fun h2 => h h2.2)]

theorem run_nil (s : sonly_dev) : run s [] = s := rfl

/-- The armed example capture after transfer 0 completed with
`LIBUSB_TRANSFER_ERROR`. -/
theorem example_bad_run :
    (0, 0, IMG_SESSION_ERROR) ∈ submits (run example_armed [example_bad_completion]).trace ∧
    (run example_armed [example_bad_completion]).num_flying = 24 ∧
    (run example_armed [example_bad_completion]).killing_transfers = IMG_SESSION_ERROR ∧
    (run example_armed [example_bad_completion]).img_transfer_data =
      { flying := true, cancelling := false } ::
        List.replicate 23 { flying := true, cancelling := true } := by
  set_option maxRecDepth 100000 in decide

theorem example_armed_idle :
    example_armed.killing_transfers = NOT_KILLING ∧
    (flying_flags example_armed).getD 0 false = true := by
  set_option maxRecDepth 100000 in decide

/-- Witness of C4: in the armed example capture transfer 0 completes with
`LIBUSB_TRANSFER_ERROR`; the callback requests the tear-down and resubmits the
transfer, so 24 transfers are flying; the deferred action runs when the 24th of
them has landed. -/
theorem C4_teardown_fires_once_witness :
    kills (run (run example_armed [example_bad_completion]) example_cancelled).trace =
      [IMG_SESSION_ERROR] ∧
    (run (run example_armed [example_bad_completion]) example_cancelled).num_flying = 0 := by
  have a3 : run example_armed [example_bad_completion] =
      img_data_cb (run (capsm_fire_bulk (capsm_init example_fresh) (fun _ => (0 : Int))) [])
        example_bad_completion.idx example_bad_completion.status
        example_bad_completion.buffer example_bad_completion.resubmit_r := by
    rw [run_cons, run_nil, run_nil]
    unfold example_armed
    rfl
  have h := (C4_teardown_fires_once example_fresh (fun _ => (0 : Int)) [] rfl rfl
    (fun b hb => by cases hb) (by decide) rfl (fun _ => Int.lt_irrefl 0) trivial).2.2
    example_bad_completion.idx example_bad_completion.status example_bad_completion.buffer
    example_bad_completion.resubmit_r example_cancelled
    (run example_armed [example_bad_completion]) a3 example_armed_idle.1 example_armed_idle.2
    (Or.inl (by decide))
  obtain ⟨_, e1, e2, _⟩ := example_bad_run
  obtain ⟨_, _, _, h4, h5⟩ := h
  rw [e1, e2] at h4
  rw [e1] at h5
  exact ⟨h4, h5⟩

/-- C10 fails on the code: in the armed capture `example_armed`, transfer 0
completes with `LIBUSB_TRANSFER_ERROR`; `img_data_cb` sets `killing_transfers` to
`IMG_SESSION_ERROR`, cancels the 23 other transfers, and then goes on to
resubmit transfer 0 while `killing_transfers` is `IMG_SESSION_ERROR`: the
transfer is flying again, not marked cancelling, and `num_flying` is back to 24. -/
theorem C10_resubmit_during_teardown :
    (0, 0, IMG_SESSION_ERROR) ∈ submits (run example_armed [example_bad_completion]).trace ∧
    (run example_armed [example_bad_completion]).num_flying = 24 ∧
    (run example_armed [example_bad_completion]).killing_transfers = IMG_SESSION_ERROR ∧
    (run example_armed [example_bad_completion]).img_transfer_data =
      { flying := true, cancelling := false } ::
        List.replicate 23 { flying := true, cancelling := true } :=
  example_bad_run

end Libfprint.Upeksonly

namespace Libfprint.Uru4000

/-! ## Press driver: image framing -/

theorem memcpy_zero_eq (src : List Nat) (n : Nat) :
    memcpy (g_malloc n) 0 src n = (List.range n).map fun i => src.getD i 0 := by
  unfold memcpy g_malloc
  rw [List.length_replicate]
  apply List.map_congr_left
  intro i hi
  have : i < n := List.mem_range.mp hi
  simp [this]

theorem memcpy_zero_length (src : List Nat) (n : Nat) :
    (memcpy (g_malloc n) 0 src n).length = n := by
  rw [memcpy_length]; simp [g_malloc]

theorem memcpy_zero_getD (src : List Nat) (n i : Nat) (hi : i < n) :
    (memcpy (g_malloc n) 0 src n).getD i 0 = src.getD i 0 := by
  rw [memcpy_getD _ _ _ _ _ (by simp [g_malloc]; exact hi)]
  simp [hi]

theorem framed_eq (buffer : List Nat) (hdr_skip : Nat) :
    memcpy (g_malloc (DATABLK_EXPECT - CAPTURE_HDRLEN)) 0 (buffer.drop hdr_skip)
      (DATABLK_EXPECT - CAPTURE_HDRLEN) = framed buffer hdr_skip := by
  rw [memcpy_zero_eq]
  unfold framed
  apply List.map_congr_left
  intro i _
  simp [List.getD_eq_getElem?_getD, List.getElem?_drop]

theorem framed_length (buffer : List Nat) (hdr_skip : Nat) :
    (framed buffer hdr_skip).length = DATABLK_EXPECT - CAPTURE_HDRLEN := by
  simp [framed]

theorem framed_getD (buffer : List Nat) (hdr_skip i : Nat)
    (hi : i < DATABLK_EXPECT - CAPTURE_HDRLEN) :
    (framed buffer hdr_skip).getD i 0 = buffer.getD (hdr_skip + i) 0 := by
  rw [← framed_eq, memcpy_zero_getD _ _ _ hi]
  simp [List.getD_eq_getElem?_getD, List.getElem?_drop]

theorem image_cb_out_zero (s : uru4k_dev) (io : IoReply) :
    (image_cb_out s 0 io).trace = s.trace ++ restart_events io := by
  unfold image_cb_out start_imaging_loop restart_events
  cases ha : io.alloc_ok
  · simp [uru4k_dev.emit, ENOMEM]
  · by_cases hr : io.submit_r = 0
    · simp [uru4k_dev.emit, hr]
    · simp [uru4k_dev.emit, hr]

theorem image_cb_out_error (s : uru4k_dev) (r : Int) (hr : r ≠ 0) (io : IoReply) :
    (image_cb_out s r io).trace = s.trace ++ [Event.session_error r] := by
  unfold image_cb_out
  simp [hr, uru4k_dev.emit]

theorem image_cb_capture_trace (s : uru4k_dev) (buffer : List Nat) (k : Nat) (io : IoReply) :
    (image_cb_capture s buffer k io).trace =
      s.trace ++ Event.image_captured (framed buffer k) press_flags :: restart_events io := by
  unfold image_cb_capture
  dsimp only
  rw [image_cb_out_zero, framed_eq]
  simp [uru4k_dev.emit, press_flags]

/-- C5: for an image transfer that completes with status COMPLETED and actual
length `L`, `image_cb` emits an image iff `L = DATABLK_EXPECT` (the image is then
buffer bytes `[64, 0x1B1C0)`) or `L = DATABLK_EXPECT - 64` (buffer bytes `[0, L)`);
the image has `DATABLK_EXPECT - 64 = 384 * 289` bytes and the flags
`V_FLIPPED | H_FLIPPED | COLORS_INVERTED`; for every other `L` nothing is emitted
but the session error `-EPROTO`. -/
theorem C5_press_image_framing (s : uru4k_dev) (L : Nat) (buffer : List Nat) (io : IoReply) :
    (image_cb s LIBUSB_TRANSFER_COMPLETED L buffer io).trace =
      s.trace ++
        (if L = DATABLK_EXPECT then
          Event.image_captured (framed buffer 64) press_flags :: restart_events io
        else if L = DATABLK_EXPECT - 64 then
          Event.image_captured (framed buffer 0) press_flags :: restart_events io
        else [Event.session_error (-EPROTO)]) ∧
    (∀ k, (framed buffer k).length = DATABLK_EXPECT - 64 ∧
      ∀ i, i < DATABLK_EXPECT - 64 → (framed buffer k).getD i 0 = buffer.getD (k + i) 0) ∧
    DATABLK_EXPECT = 0x1B1C0 ∧
    DATABLK_EXPECT - 64 = uru4000_driver_img_width * uru4000_driver_img_height := by
  refine ⟨?_, fun k => ⟨framed_length buffer k, fun i hi => framed_getD buffer k i hi⟩,
    rfl, by decide⟩
  unfold image_cb
  have hnc : ¬ (LIBUSB_TRANSFER_COMPLETED = LIBUSB_TRANSFER_CANCELLED) := by decide
  dsimp only
  rw [if_neg hnc, if_neg (by simp)]
  by_cases h1 : L = DATABLK_EXPECT - CAPTURE_HDRLEN
  · have h2 : ¬ L = DATABLK_EXPECT := by rw [h1]; decide
    have h3 : L = DATABLK_EXPECT - 64 := h1
    rw [if_pos h1, if_neg h2, if_pos h3, image_cb_capture_trace]
  · rw [if_neg h1]
    have h3 : ¬ L = DATABLK_EXPECT - 64 := h1
    by_cases h2 : L = DATABLK_EXPECT
    · rw [if_neg (by simpa using h2), if_pos h2, image_cb_capture_trace]
      rfl
    · rw [if_pos h2, if_neg h2, if_neg h3, image_cb_out_error _ _ (by decide)]

end Libfprint.Uru4000

namespace Libfprint.Uru4000

/-! ## Press driver: challenge/response -/

theorem write_regs_ok (s : uru4k_dev) (reg n : Nat) (values : List Nat) (io : IoReply)
    (ha : io.alloc_ok = true) (hs : ¬ io.submit_r < 0) :
    write_regs s reg n values io =
      (s.emit (Event.ctrl_out reg n (memcpy (g_malloc n) 0 values n) io.submit_r),
        io.submit_r, some (write_regs_cb io.status io.actual_length n)) := by
  unfold write_regs
  simp [ha, hs]

theorem read_regs_ok (s : uru4k_dev) (reg n : Nat) (io : IoReply)
    (ha : io.alloc_ok = true) (hs : ¬ io.submit_r < 0) :
    read_regs s reg n io =
      (s.emit (Event.ctrl_in reg n io.submit_r), io.submit_r,
        some (read_regs_cb io.status io.actual_length n io.data)) := by
  unfold read_regs
  simp [ha, hs]

theorem response_payload (aes : Aes) (c : List Nat) :
    memcpy (g_malloc CR_LENGTH) 0
      (memcpy (g_malloc CR_LENGTH) 0 (aes.encrypt c (aes.set_encrypt_key crkey 128)) CR_LENGTH)
      CR_LENGTH = aes_ecb_encrypt aes c := by
  rw [memcpy_zero_eq, memcpy_zero_eq]
  unfold aes_ecb_encrypt
  apply List.map_congr_left
  intro i hi
  have : i < CR_LENGTH := List.mem_range.mp hi
  rw [List.getD_eq_getElem _ _ (by simp; exact this)]
  simp

theorem challenge_cb_ok (aes : Aes) (s : uru4k_dev) (c : List Nat) (io_wr : IoReply)
    (hkey : s.aeskey = aes.set_encrypt_key crkey 128)
    (halloc : io_wr.alloc_ok = true) (hsubmit : ¬ io_wr.submit_r < 0) :
    (challenge_cb aes s 0 (some c) io_wr).1.trace =
      s.trace ++ [Event.ctrl_out 0x2000 16 (aes_ecb_encrypt aes c) io_wr.submit_r] := by
  unfold challenge_cb
  simp only [ne_eq, not_true_eq_false, if_false, Option.getD_some]
  rw [write_regs_ok _ _ _ _ _ halloc hsubmit, hkey, response_payload]
  simp only [if_neg hsubmit]
  cases write_regs_cb io_wr.status io_wr.actual_length CR_LENGTH <;>
    simp [uru4k_dev.emit, REG_RESPONSE, CR_LENGTH]

theorem sm_do_challenge_response_read_ok (aes : Aes) (s : uru4k_dev) (c : List Nat)
    (io_wr : IoReply) :
    sm_do_challenge_response aes s (read_ok c 16) io_wr =
      challenge_cb aes (s.emit (Event.ctrl_in 0x2010 16 0)) 0 (some c) io_wr := by
  unfold sm_do_challenge_response
  have h0 : ¬ (read_ok c 16).submit_r < 0 := Int.lt_irrefl 0
  rw [read_regs_ok _ _ _ _ rfl h0]
  simp [read_ok, read_regs_cb, CR_LENGTH, REG_CHALLENGE]

/-- C6: with the key schedule `dev_init` derived from `crkey`, for every
challenge `c` read successfully from `REG_CHALLENGE` (0x2010) the driver submits
one write of exactly 16 bytes to `REG_RESPONSE` (0x2000), and these are the
AES-128 single-block encryption of `c` under `crkey` (the transfer being
allocated and accepted by libusb); if the challenge read fails, nothing is
written and the machine is aborted with the status of the read. -/
theorem C6_challenge_response (aes : Aes) (s : uru4k_dev) (c : List Nat) (io_wr : IoReply)
    (hkey : s.aeskey = aes.set_encrypt_key crkey 128)
    (halloc : io_wr.alloc_ok = true) (hsubmit : ¬ io_wr.submit_r < 0) :
    (challenge_cb aes s 0 (some c) io_wr).1.trace =
      s.trace ++ [Event.ctrl_out 0x2000 16 (aes_ecb_encrypt aes c) io_wr.submit_r] ∧
    (sm_do_challenge_response aes s (read_ok c 16) io_wr).1.trace =
      s.trace ++ [Event.ctrl_in 0x2010 16 0,
        Event.ctrl_out 0x2000 16 (aes_ecb_encrypt aes c) io_wr.submit_r] ∧
    (aes_ecb_encrypt aes c).length = 16 ∧
    (∀ i, i < 16 → (aes_ecb_encrypt aes c).getD i 0 =
      (aes.encrypt c (aes.set_encrypt_key
        [0x79, 0xac, 0x91, 0x79, 0x5c, 0xa1, 0x47, 0x8e,
         0x98, 0xe0, 0x0f, 0x3c, 0x59, 0x8f, 0x5f, 0x4b] 128)).getD i 0) ∧
    (∀ (status : Int) (data : Option (List Nat)), status ≠ 0 →
      challenge_cb aes s status data io_wr = (s, [SsmCall.mark_aborted status])) ∧
    (∀ io_rd : IoReply, io_rd.alloc_ok = true → ¬ io_rd.submit_r < 0 →
      (io_rd.status ≠ LIBUSB_TRANSFER_COMPLETED ∨ io_rd.actual_length ≠ 16) →
      sm_do_challenge_response aes s io_rd io_wr =
        (s.emit (Event.ctrl_in 0x2010 16 io_rd.submit_r),
          [SsmCall.mark_aborted (read_regs_cb io_rd.status io_rd.actual_length 16 io_rd.data).1])
      ∧ (read_regs_cb io_rd.status io_rd.actual_length 16 io_rd.data).1 ≠ 0) := by
  refine ⟨challenge_cb_ok aes s c io_wr hkey halloc hsubmit, ?_,
    by simp [aes_ecb_encrypt, CR_LENGTH], ?_, ?_, ?_⟩
  · rw [sm_do_challenge_response_read_ok,
      challenge_cb_ok aes (s.emit (Event.ctrl_in 0x2010 16 0)) c io_wr hkey halloc hsubmit]
    simp [uru4k_dev.emit]
  · intro i hi
    unfold aes_ecb_encrypt
    rw [List.getD_eq_getElem _ _ (by simp [CR_LENGTH]; exact hi)]
    simp [crkey]
  · intro status data hst
    unfold challenge_cb
    rw [if_pos hst]
  · intro io_rd ha hs hbad
    have hne : (read_regs_cb io_rd.status io_rd.actual_length 16 io_rd.data).1 ≠ 0 := by
      unfold read_regs_cb
      rcases hbad with h | h
      · rw [if_pos h]; decide
      · by_cases h2 : io_rd.status ≠ LIBUSB_TRANSFER_COMPLETED
        · rw [if_pos h2]; decide
        · rw [if_neg h2, if_pos h]; decide
    refine ⟨?_, hne⟩
    have hne2 : (read_regs_cb io_rd.status io_rd.actual_length CR_LENGTH io_rd.data).1 ≠ 0 := hne
    unfold sm_do_challenge_response
    rw [read_regs_ok _ _ _ _ ha hs]
    simp only [if_neg hs]
    unfold challenge_cb
    rw [if_pos hne2]
    rfl

end Libfprint.Uru4000

namespace Libfprint.Uru4000

/-! ## Press driver: firmware fixer -/

theorem fwfixer_exec_init (io : Nat → Nat → IoReply) (f : Nat) (s : uru4k_dev) :
    ssm_exec FWFIXER_NUM_STATES fwfixer_run_state io (f + 1) s FWFIXER_INIT =
      ssm_exec FWFIXER_NUM_STATES fwfixer_run_state (fun k => io (k + 1)) f
        { s with fwfixer_offset := -1 } FWFIXER_READ_NEXT := by
  rw [ssm_exec]
  simp [fwfixer_run_state, FWFIXER_INIT, FWFIXER_READ_NEXT, FWFIXER_NUM_STATES]

theorem fwfixer_read_cb_ok (s : uru4k_dev) (t : List Nat) :
    fwfixer_read_cb s 0 (some t) =
      if fw_match t then
        ({ s with fwfixer_value := t.getD 1 0 }, [SsmCall.jump_to_state FWFIXER_WRITE])
      else (s, [SsmCall.jump_to_state FWFIXER_READ_NEXT]) := by
  unfold fwfixer_read_cb fw_match
  simp

theorem fwfixer_probe (s : uru4k_dev) (k : Nat) (hk : k < 4) (t : List Nat)
    (hoff : s.fwfixer_offset = (k : Int) - 1) (io : Nat → IoReply) (hio : io 0 = read_ok t 3) :
    fwfixer_run_state s FWFIXER_READ_NEXT io =
      fwfixer_read_cb
        (({ s with fwfixer_offset := (k : Int) } : uru4k_dev).emit
          (Event.ctrl_in (fwenc_offsets.getD k 0) 3 0)) 0 (some t) := by
  unfold fwfixer_run_state
  have h1 : ¬ (FWFIXER_READ_NEXT = FWFIXER_INIT) := by decide
  rw [if_neg h1, if_pos rfl]
  dsimp only
  have h2 : s.fwfixer_offset + 1 = (k : Int) := by rw [hoff]; ring
  rw [h2]
  have h3 : ¬ ((k : Int) = (fwenc_offsets.length : Int)) := by
    simp [fwenc_offsets]; omega
  rw [if_neg h3, hio]
  have h0 : ¬ (read_ok t 3).submit_r < 0 := Int.lt_irrefl 0
  rw [read_regs_ok _ _ _ _ rfl h0]
  simp [read_ok, read_regs_cb]

theorem fwfixer_exec_read_next (io : Nat → Nat → IoReply) (f : Nat) (s : uru4k_dev)
    (k : Nat) (hk : k < 4) (t : List Nat) (hoff : s.fwfixer_offset = (k : Int) - 1)
    (hio : io 0 0 = read_ok t 3) (hno : ¬ fw_match t) :
    ssm_exec FWFIXER_NUM_STATES fwfixer_run_state io (f + 1) s FWFIXER_READ_NEXT =
      ssm_exec FWFIXER_NUM_STATES fwfixer_run_state (fun j => io (j + 1)) f
        (({ s with fwfixer_offset := (k : Int) } : uru4k_dev).emit
          (Event.ctrl_in (fwenc_offsets.getD k 0) 3 0)) FWFIXER_READ_NEXT := by
  rw [ssm_exec, fwfixer_probe s k hk t hoff (io 0) hio, fwfixer_read_cb_ok, if_neg hno]

theorem fwfixer_exec_read_match (io : Nat → Nat → IoReply) (f : Nat) (s : uru4k_dev)
    (k : Nat) (hk : k < 4) (t : List Nat) (hoff : s.fwfixer_offset = (k : Int) - 1)
    (hio : io 0 0 = read_ok t 3) (hyes : fw_match t) :
    ssm_exec FWFIXER_NUM_STATES fwfixer_run_state io (f + 1) s FWFIXER_READ_NEXT =
      ssm_exec FWFIXER_NUM_STATES fwfixer_run_state (fun j => io (j + 1)) f
        { (({ s with fwfixer_offset := (k : Int) } : uru4k_dev).emit
          (Event.ctrl_in (fwenc_offsets.getD k 0) 3 0)) with fwfixer_value := t.getD 1 0 }
        FWFIXER_WRITE := by
  rw [ssm_exec, fwfixer_probe s k hk t hoff (io 0) hio, fwfixer_read_cb_ok, if_pos hyes]

theorem fwfixer_exec_end (io : Nat → Nat → IoReply) (f : Nat) (s : uru4k_dev)
    (hoff : s.fwfixer_offset = 3) :
    ssm_exec FWFIXER_NUM_STATES fwfixer_run_state io (f + 1) s FWFIXER_READ_NEXT =
      ({ s with fwfixer_offset := 4 }, some (SsmOutcome.aborted (-ENODEV))) := by
  rw [ssm_exec]
  simp [fwfixer_run_state, FWFIXER_INIT, FWFIXER_READ_NEXT, hoff, fwenc_offsets]

theorem fwfixer_exec_write_clear (io : Nat → Nat → IoReply) (f : Nat) (s : uru4k_dev)
    (hclear : s.fwfixer_value &&& 0xef = s.fwfixer_value) :
    ssm_exec FWFIXER_NUM_STATES fwfixer_run_state io (f + 1) s FWFIXER_WRITE =
      (s, some SsmOutcome.completed) := by
  rw [ssm_exec]
  simp [fwfixer_run_state, FWFIXER_INIT, FWFIXER_READ_NEXT, FWFIXER_WRITE, FWFIXER_NUM_STATES,
    hclear]

theorem fwfixer_exec_write_set (io : Nat → Nat → IoReply) (f : Nat) (s : uru4k_dev)
    (k : Nat) (hk : k < 4) (hoff : s.fwfixer_offset = (k : Int))
    (hset : ¬ s.fwfixer_value &&& 0xef = s.fwfixer_value) (hio : io 0 0 = write_ok 1) :
    ssm_exec FWFIXER_NUM_STATES fwfixer_run_state io (f + 1) s FWFIXER_WRITE =
      (s.emit (Event.ctrl_out (fwenc_offsets.getD k 0 + 1) 1 [s.fwfixer_value &&& 0xef] 0),
        some SsmOutcome.completed) := by
  have hlt : fwenc_offsets.getD k 0 + 1 < 65536 := by
    have : k = 0 ∨ k = 1 ∨ k = 2 ∨ k = 3 := by omega
    rcases this with rfl | rfl | rfl | rfl <;> decide
  have h0 : ¬ (write_ok 1).submit_r < 0 := Int.lt_irrefl 0
  have hp : ∀ v : Nat, memcpy (g_malloc 1) 0 [v] 1 = [v] := by
    intro v
    rw [memcpy_zero_eq]
    rfl
  rw [ssm_exec]
  simp only [fwfixer_run_state, FWFIXER_INIT, FWFIXER_READ_NEXT, FWFIXER_WRITE,
    FWFIXER_NUM_STATES, hoff, hset, hio, sm_write_reg, write_reg]
  rw [write_regs_ok _ _ _ _ _ rfl h0, hp]
  have hlt2 : (fwenc_offsets[k]?.getD 0 + 1) % 65536 = fwenc_offsets[k]?.getD 0 + 1 := by
    rw [← List.getD_eq_getElem?_getD]; exact Nat.mod_eq_of_lt hlt
  simp [write_ok, write_regs_cb, sm_write_reg_cb, hlt2]

end Libfprint.Uru4000

namespace Libfprint.Uru4000

theorem probe_reads_succ (k n : Nat) :
    probe_reads k (n + 1) =
      Event.ctrl_in (fwenc_offsets.getD k 0) 3 0 :: probe_reads (k + 1) n := by
  unfold probe_reads
  rw [List.range_succ_eq_map]
  simp only [List.map_cons, List.map_map, Nat.add_zero]
  congr 1
  apply List.map_congr_left
  intro j _
  simp only [Function.comp]
  congr 2
  omega

/-- Candidates that do not match are read one after the other. -/
theorem fwfixer_exec_scan (tr : Nat → List Nat) (n : Nat) :
    ∀ (k : Nat) (s : uru4k_dev) (io : Nat → Nat → IoReply) (f : Nat),
      s.fwfixer_offset = (k : Int) - 1 → k + n ≤ 4 →
      (∀ j, j < n → io j 0 = read_ok (tr j) 3 ∧ ¬ fw_match (tr j)) →
      ssm_exec FWFIXER_NUM_STATES fwfixer_run_state io (n + f) s FWFIXER_READ_NEXT =
        ssm_exec FWFIXER_NUM_STATES fwfixer_run_state (fun j => io (j + n)) f
          { s with fwfixer_offset := ((k + n : Nat) : Int) - 1,
                   trace := s.trace ++ probe_reads k n } FWFIXER_READ_NEXT := by
  induction n generalizing tr with
  | zero =>
    intro k s io f hoff _ _
    have : ({ s with fwfixer_offset := ((k + 0 : Nat) : Int) - 1,
                     trace := s.trace ++ probe_reads k 0 } : uru4k_dev) = s := by
      cases s
      simp only [probe_reads, List.range_zero, List.map_nil, List.append_nil, Nat.add_zero] at hoff ⊢
      simp only [uru4k_dev.mk.injEq, true_and, and_true]
      exact hoff.symm
    rw [this]
    simp
  | succ n ih =>
    intro k s io f hoff hk hio
    have e : n + 1 + f = (n + f) + 1 := by omega
    rw [e, fwfixer_exec_read_next io (n + f) s k (by omega) (tr 0) hoff (hio 0 (by omega)).1
      (hio 0 (by omega)).2]
    rw [ih (fun j => tr (j + 1)) (k + 1) _ (fun j => io (j + 1)) f
      (by simp [uru4k_dev.emit]) (by omega) (fun j hj => hio (j + 1) (by omega))]
    have e2 : k + 1 + n = k + (n + 1) := by omega
    rw [probe_reads_succ, e2]
    simp [uru4k_dev.emit]
    rfl

set_option maxRecDepth 100000 in
theorem byte_bit4 : ∀ b : Nat, b < 256 → (b &&& 0xef = b ↔ b &&& 0x10 = 0) := by
  decide

/-- C7: the firmware fixer reads 3 bytes at 0x510, 0x62D, 0x792, 0x7F4 in that
order and stops at the first candidate `m` whose bytes match `FF X7 41`; it then
writes the single byte `b1 & 0xEF` to the register after the matching address
if bit 4 of `b1` is set, writes nothing if it is clear, reads no later candidate
and completes without error (reads and write succeeding). -/
theorem C7_fwfixer_match (tr : Nat → List Nat) (m : Nat) (io : Nat → Nat → IoReply)
    (fuel : Nat) (s : uru4k_dev) (hm : m < 4) (hfuel : 7 ≤ fuel)
    (hreads : ∀ j, j ≤ m → io (j + 1) 0 = read_ok (tr j) 3)
    (hfirst : ∀ j, j < m → ¬ fw_match (tr j)) (hmatch : fw_match (tr m))
    (hbyte : (tr m).getD 1 0 < 256)
    (hwrite : io (m + 2) 0 = write_ok 1) :
    fwfixer_exec io fuel s =
      ({ s with
          fwfixer_offset := (m : Int)
          fwfixer_value := (tr m).getD 1 0
          trace := s.trace ++ probe_reads 0 (m + 1) ++
            (if (tr m).getD 1 0 &&& 0x10 = 0 then []
             else [Event.ctrl_out (fwenc_offsets.getD m 0 + 1) 1 [(tr m).getD 1 0 &&& 0xef] 0]) },
        some SsmOutcome.completed) ∧
    fwenc_offsets = [0x510, 0x62D, 0x792, 0x7F4] ∧
    probe_reads 0 4 = [Event.ctrl_in 0x510 3 0, Event.ctrl_in 0x62D 3 0,
      Event.ctrl_in 0x792 3 0, Event.ctrl_in 0x7F4 3 0] := by
  refine ⟨?_, rfl, by decide⟩
  obtain ⟨g, rfl⟩ : ∃ g, fuel = m + (g + 1 + 1) + 1 := ⟨fuel - m - 3, by omega⟩
  unfold fwfixer_exec
  rw [fwfixer_exec_init]
  rw [fwfixer_exec_scan tr m 0 _ (fun k => io (k + 1)) (g + 1 + 1) (by simp) (by omega)
    (fun j hj => ⟨hreads j (by omega), hfirst j hj⟩)]
  rw [fwfixer_exec_read_match _ (g + 1) _ m hm (tr m) (by simp) (by simpa using hreads m (le_refl m))
    hmatch]
  have hr : probe_reads 0 (m + 1) =
      probe_reads 0 m ++ [Event.ctrl_in (fwenc_offsets.getD m 0) 3 0] := by
    simp [probe_reads, List.range_succ]
  by_cases hbit : (tr m).getD 1 0 &&& 0x10 = 0
  · rw [fwfixer_exec_write_clear _ g _ ((byte_bit4 _ hbyte).mpr hbit), if_pos hbit, hr]
    simp [uru4k_dev.emit]
  · rw [fwfixer_exec_write_set _ g _ m hm (by simp [uru4k_dev.emit])
      (fun h => hbit ((byte_bit4 _ hbyte).mp h))
      (by convert hwrite using 2; omega), if_neg hbit, hr]
    simp [uru4k_dev.emit]

end Libfprint.Uru4000

namespace Libfprint.Uru4000

/-- Witness of C6: the context left by `dev_init`, an all-zero challenge, and a
device that accepts the write. -/
theorem C6_challenge_response_witness :
    (challenge_cb example_aes example_press_ctx 0 (some (List.replicate 16 0))
        (write_ok 16)).1.trace =
      example_press_ctx.trace ++
        [Event.ctrl_out 0x2000 16 (aes_ecb_encrypt example_aes (List.replicate 16 0)) 0] :=
  (C6_challenge_response example_aes example_press_ctx (List.replicate 16 0) (write_ok 16)
    rfl rfl (Int.lt_irrefl 0)).1

/-- Witness of C7: the firmware `example_fw`, pattern at the third candidate. -/
theorem C7_fwfixer_match_witness :
    (fwfixer_exec example_fw_io 7 example_press_ctx).2 = some SsmOutcome.completed ∧
    (fwfixer_exec example_fw_io 7 example_press_ctx).1.trace =
      [Event.ctrl_in 0x510 3 0, Event.ctrl_in 0x62D 3 0, Event.ctrl_in 0x792 3 0,
       Event.ctrl_out 0x793 1 [0x07] 0] := by
  have h := (C7_fwfixer_match example_fw 2 example_fw_io 7 example_press_ctx (by decide)
    (le_refl 7) (by decide) (by decide) (by decide) (by decide) (by decide)).1
  rw [h]
  exact ⟨rfl, by decide⟩

/-- C8: when all four probe reads succeed and no triple matches `FF X7 41`, the
firmware fixer performs exactly the four reads and no write and aborts with
`-ENODEV`; the runtime aborts the init machine with that error, and
`activate_initsm_complete` reports it through `activate_complete`. -/
theorem C8_fwfixer_no_match (tr : Nat → List Nat) (io : Nat → Nat → IoReply) (fuel : Nat)
    (s : uru4k_dev) (io_img io_wr : IoReply) (hfuel : 7 ≤ fuel)
    (hreads : ∀ j, j < 4 → io (j + 1) 0 = read_ok (tr j) 3)
    (hnone : ∀ j, j < 4 → ¬ fw_match (tr j)) :
    fwfixer_exec io fuel s =
      ({ s with fwfixer_offset := 4, trace := s.trace ++ probe_reads 0 4 },
        some (SsmOutcome.aborted (-ENODEV))) ∧
    probe_reads 0 4 = [Event.ctrl_in 0x510 3 0, Event.ctrl_in 0x62D 3 0,
      Event.ctrl_in 0x792 3 0, Event.ctrl_in 0x7F4 3 0] ∧
    (init_fix_firmware io fuel s).2 = [SsmCall.mark_aborted (-ENODEV)] ∧
    activate_initsm_complete (init_fix_firmware io fuel s).1 (-ENODEV) io_img io_wr =
      ((init_fix_firmware io fuel s).1.emit (Event.activate_complete (-ENODEV)), none) ∧
    ENODEV = 19 := by
  have hexec : fwfixer_exec io fuel s =
      ({ s with fwfixer_offset := 4, trace := s.trace ++ probe_reads 0 4 },
        some (SsmOutcome.aborted (-ENODEV))) := by
    obtain ⟨g, rfl⟩ : ∃ g, fuel = 4 + (g + 1) + 1 := ⟨fuel - 6, by omega⟩
    unfold fwfixer_exec
    rw [fwfixer_exec_init]
    rw [fwfixer_exec_scan tr 4 0 _ (fun k => io (k + 1)) (g + 1) (by simp) (by omega)
      (fun j hj => ⟨hreads j hj, hnone j hj⟩)]
    rw [fwfixer_exec_end _ g _ (by simp)]
  refine ⟨hexec, by decide, ?_, ?_, rfl⟩
  · unfold init_fix_firmware
    rw [hexec]
    rfl
  · unfold activate_initsm_complete
    rw [if_pos (by decide)]

/-- Witness of C8: the firmware `example_fw_blank`. -/
theorem C8_fwfixer_no_match_witness :
    (fwfixer_exec example_fw_blank_io 7 example_press_ctx).2 =
      some (SsmOutcome.aborted (-19)) := by
  have h := (C8_fwfixer_no_match example_fw_blank example_fw_blank_io 7 example_press_ctx
    (write_ok 1) (write_ok 1) (le_refl 7) (fun _ _ => rfl)
    (fun _ _ => (by decide : ¬ fw_match [0, 0, 0]))).1
  rw [h]
  rfl

/-- C9: within one activation (`dev_activate` resets the counter, and only
`init_scanpwr_timeout` changes it), the first and the second expiry of the
300 ms timer armed in `INIT_AWAIT_SCAN_POWER` each restart the init machine at
`INIT_GET_HWSTAT`, and the third aborts it with `-ETIMEDOUT`, which
`activate_initsm_complete` reports as `activate_complete (-ETIMEDOUT)`. -/
theorem C9_scanpwr_watchdog (s0 s1 s2 s3 : uru4k_dev) (state : fp_imgdev_state)
    (io io_img io_wr : IoReply)
    (hact : (dev_activate s0 state io).2 = 0 ∧ ¬ (start_irq_handler s0 io).2 < 0)
    (h1 : s1.scanpwr_irq_timeouts = (dev_activate s0 state io).1.scanpwr_irq_timeouts)
    (h2 : s2.scanpwr_irq_timeouts = (init_scanpwr_timeout s1).1.scanpwr_irq_timeouts)
    (h3 : s3.scanpwr_irq_timeouts = (init_scanpwr_timeout s2).1.scanpwr_irq_timeouts) :
    (init_scanpwr_timeout s1).2 = [SsmCall.jump_to_state INIT_GET_HWSTAT] ∧
    (init_scanpwr_timeout s2).2 = [SsmCall.jump_to_state INIT_GET_HWSTAT] ∧
    (init_scanpwr_timeout s3).2 = [SsmCall.mark_aborted (-ETIMEDOUT)] ∧
    activate_initsm_complete (init_scanpwr_timeout s3).1 (-ETIMEDOUT) io_img io_wr =
      ((init_scanpwr_timeout s3).1.emit (Event.activate_complete (-ETIMEDOUT)), none) ∧
    (∀ s : uru4k_dev, s.irq_transfer = true →
      (init_await_scan_power s true).1.trace = s.trace ++ [Event.timeout_add 300] ∧
      (init_await_scan_power s true).2 = []) ∧
    INIT_GET_HWSTAT = 0 ∧ ETIMEDOUT = 110 := by
  have e0 : (dev_activate s0 state io).1.scanpwr_irq_timeouts = 0 := by
    unfold dev_activate
    simp only [if_neg hact.2]
  have e1 : s1.scanpwr_irq_timeouts = 0 := by rw [h1, e0]
  have e2 : s2.scanpwr_irq_timeouts = 1 := by
    rw [h2]; simp [init_scanpwr_timeout, e1]
  have e3 : s3.scanpwr_irq_timeouts = 2 := by
    rw [h3]; simp [init_scanpwr_timeout, e2]
  refine ⟨?_, ?_, ?_, ?_, ?_, rfl, rfl⟩
  · simp [init_scanpwr_timeout, e1]
  · simp [init_scanpwr_timeout, e2]
  · simp [init_scanpwr_timeout, e3]
  · unfold activate_initsm_complete
    rw [if_pos (by decide)]
  · intro s hs
    simp [init_await_scan_power, hs, uru4k_dev.emit]

/-- Witness of C9: activation of `example_press_ctx` and three expiries in a row. -/
theorem C9_scanpwr_watchdog_witness :
    (init_scanpwr_timeout (init_scanpwr_timeout (init_scanpwr_timeout
      (dev_activate example_press_ctx fp_imgdev_state.IMGDEV_STATE_AWAIT_FINGER_ON
        (read_ok [] 64)).1).1).1).2 = [SsmCall.mark_aborted (-110)] :=
  (C9_scanpwr_watchdog example_press_ctx
    (dev_activate example_press_ctx fp_imgdev_state.IMGDEV_STATE_AWAIT_FINGER_ON
      (read_ok [] 64)).1
    (init_scanpwr_timeout (dev_activate example_press_ctx
      fp_imgdev_state.IMGDEV_STATE_AWAIT_FINGER_ON (read_ok [] 64)).1).1
    (init_scanpwr_timeout (init_scanpwr_timeout (dev_activate example_press_ctx
      fp_imgdev_state.IMGDEV_STATE_AWAIT_FINGER_ON (read_ok [] 64)).1).1).1
    fp_imgdev_state.IMGDEV_STATE_AWAIT_FINGER_ON (read_ok [] 64) (write_ok 1) (write_ok 1)
    ⟨by decide, by decide⟩ rfl rfl rfl).2.2.1

end Libfprint.Uru4000

namespace Libfprint.Upeksonly

open sonly_kill_transfers_action

/-! ## Swipe driver: packet addresses -/

/-- The function `handle_packet` in terms of `wrap_account` and `abs_base_addr`. -/
theorem handle_packet_eq (s : sonly_dev) (data : List Nat) :
    handle_packet s data =
      (if rowbuf_remaining (wrap_account s data) ≠ -1 then
        add_to_rowbuf (wrap_account s data) (data.drop 2) (rowbuf_remaining (wrap_account s data))
      else if abs_base_addr s data % (IMG_WIDTH : Int) = 0 then
        start_new_row (wrap_account s data) (data.drop 2) 62
      else if ((abs_base_addr s data / (IMG_WIDTH : Int)) + 1) * (IMG_WIDTH : Int)
          - abs_base_addr s data < 62 then
        start_new_row (wrap_account s data)
          ((data.drop 2).drop (((abs_base_addr s data / (IMG_WIDTH : Int)) + 1) * (IMG_WIDTH : Int)
            - abs_base_addr s data).toNat)
          (62 - (((abs_base_addr s data / (IMG_WIDTH : Int)) + 1) * (IMG_WIDTH : Int)
            - abs_base_addr s data))
      else wrap_account s data) := rfl

theorem wrap_account_fields (s : sonly_dev) (data : List Nat) :
    (wrap_account s data).rowbuf_offset = s.rowbuf_offset ∧
    (wrap_account s data).rowbuf = s.rowbuf ∧
    (wrap_account s data).last_seqnum = packet_seqnum data ∧
    (wrap_account s data).wraparounds =
      s.wraparounds + (if packet_seqnum data ≤ s.last_seqnum then 1 else 0) := by
  unfold wrap_account
  by_cases h : packet_seqnum data ≤ s.last_seqnum
  · simp [h]
  · simp [h]

end Libfprint.Upeksonly
namespace Libfprint.Upeksonly

open sonly_kill_transfers_action

/-! ## Swipe driver: the row offset -/

theorem handoff_img_row_fields (s : sonly_dev) :
    (handoff_img s).rowbuf_offset = s.rowbuf_offset ∧
    (handoff_img s).rowbuf = s.rowbuf ∧
    (handoff_img s).num_rows = s.num_rows ∧
    (handoff_img s).num_blank = s.num_blank ∧
    (handoff_img s).finger_removed = s.finger_removed ∧
    (handoff_img s).wraparounds = s.wraparounds ∧
    (handoff_img s).last_seqnum = s.last_seqnum := by
  cases hr : s.rows with
  | nil =>
    unfold handoff_img
    simp only [hr]
    exact ⟨rfl, rfl, rfl, rfl, rfl, rfl, rfl⟩
  | cons a l =>
    have hc := handoff_img_core s (by rw [hr]; simp)
    have e1 := congrArg sonly_dev.rowbuf_offset hc
    have e2 := congrArg sonly_dev.rowbuf hc
    have e3 := congrArg sonly_dev.num_rows hc
    have e4 := congrArg sonly_dev.num_blank hc
    have e5 := congrArg sonly_dev.finger_removed hc
    have e6 := congrArg sonly_dev.wraparounds hc
    have e7 := congrArg sonly_dev.last_seqnum hc
    exact ⟨e1, e2, e3, e4, e5, e6, e7⟩

theorem row_accept_row_fields (s : sonly_dev) :
    (row_accept s).rowbuf_offset = s.rowbuf_offset ∧
    (row_accept s).rowbuf = none ∧
    (row_accept s).num_rows = s.num_rows + 1 ∧
    (row_accept s).num_blank = s.num_blank ∧
    (row_accept s).finger_removed = s.finger_removed ∧
    (row_accept s).wraparounds = s.wraparounds ∧
    (row_accept s).last_seqnum = s.last_seqnum := by
  unfold row_accept
  dsimp only
  split
  · obtain ⟨h1, h2, h3, h4, h5, h6, h7⟩ := handoff_img_row_fields
      { s.emit (Event.g_slist_prepend s.rowbuf_data) with
        rows := s.rowbuf_data :: s.rows, num_rows := s.num_rows + 1, rowbuf := none }
    exact ⟨h1, h2, h3, h4, h5, h6, h7⟩
  · exact ⟨rfl, rfl, rfl, rfl, rfl, rfl, rfl⟩

theorem row_complete_offset (s : sonly_dev) : (row_complete s).rowbuf_offset = -1 := by
  unfold row_complete
  dsimp only
  split
  · split
    · split
      · rfl
      · rw [(row_accept_row_fields _).1]
    · split
      · rw [(handoff_img_row_fields _).1]
      · split
        · rfl
        · rw [(row_accept_row_fields _).1]
  · rw [(row_accept_row_fields _).1]

theorem row_complete_seq_fields (s : sonly_dev) :
    (row_complete s).wraparounds = s.wraparounds ∧
    (row_complete s).last_seqnum = s.last_seqnum := by
  unfold row_complete
  dsimp only
  split
  · split
    · split
      · exact ⟨rfl, rfl⟩
      · exact ⟨(row_accept_row_fields _).2.2.2.2.2.1, (row_accept_row_fields _).2.2.2.2.2.2⟩
    · split
      · exact ⟨(handoff_img_row_fields _).2.2.2.2.2.1, (handoff_img_row_fields _).2.2.2.2.2.2⟩
      · split
        · exact ⟨rfl, rfl⟩
        · exact ⟨(row_accept_row_fields _).2.2.2.2.2.1, (row_accept_row_fields _).2.2.2.2.2.2⟩
  · exact ⟨(row_accept_row_fields _).2.2.2.2.2.1, (row_accept_row_fields _).2.2.2.2.2.2⟩

/-- The offset after `add_to_rowbuf` with the size `rowbuf_remaining` gives. -/
theorem add_to_rowbuf_offset (s : sonly_dev) (data : List Nat)
    (h0 : 0 ≤ s.rowbuf_offset) (h1 : s.rowbuf_offset < (IMG_WIDTH : Int)) :
    rowbuf_remaining s ≠ -1 ∧
    (add_to_rowbuf s data (rowbuf_remaining s)).rowbuf_offset =
      (if s.rowbuf_offset + 62 < (IMG_WIDTH : Int) then s.rowbuf_offset + 62 else -1) := by
  have hw : (IMG_WIDTH : Int) = 288 := rfl
  rw [hw] at h1 ⊢
  have hne : ¬ s.rowbuf_offset = -1 := by omega
  have hrem : rowbuf_remaining s =
      (if 288 - s.rowbuf_offset > 62 then 62 else 288 - s.rowbuf_offset) := by
    unfold rowbuf_remaining
    rw [if_neg hne]
    rfl
  refine ⟨by rw [hrem]; split <;> omega, ?_⟩
  by_cases hc : s.rowbuf_offset + 62 < 288
  · have hr : rowbuf_remaining s = 62 := by rw [hrem, if_pos (by omega)]
    rw [hr, if_pos hc]
    unfold add_to_rowbuf
    dsimp only
    rw [hw, if_neg (by omega)]
  · have hr : rowbuf_remaining s = 288 - s.rowbuf_offset := by rw [hrem, if_neg (by omega)]
    rw [hr, if_neg hc]
    unfold add_to_rowbuf
    dsimp only
    rw [hw, if_pos (by omega), row_complete_offset]

/-- The offset after `handle_packet`. -/
theorem handle_packet_offset (s : sonly_dev) (data : List Nat)
    (h : s.rowbuf_offset = -1 ∨ (0 ≤ s.rowbuf_offset ∧ s.rowbuf_offset < (IMG_WIDTH : Int))) :
    (handle_packet s data).rowbuf_offset =
      (if s.rowbuf_offset = -1 then
        (if abs_base_addr s data % (IMG_WIDTH : Int) = 0 then 62
         else if ((abs_base_addr s data / (IMG_WIDTH : Int)) + 1) * (IMG_WIDTH : Int)
            - abs_base_addr s data < 62 then
          62 - (((abs_base_addr s data / (IMG_WIDTH : Int)) + 1) * (IMG_WIDTH : Int)
            - abs_base_addr s data)
         else -1)
       else if s.rowbuf_offset + 62 < (IMG_WIDTH : Int) then s.rowbuf_offset + 62 else -1) := by
  have hf := wrap_account_fields s data
  rw [handle_packet_eq]
  rcases h with h | ⟨h0, h1⟩
  · have hr : rowbuf_remaining (wrap_account s data) = -1 := by
      unfold rowbuf_remaining
      rw [if_pos (by rw [hf.1, h])]
    rw [if_neg (by rw [hr]; simp), if_pos h]
    split
    · rfl
    · split
      · rfl
      · rw [hf.1, h]
  · have h0' : 0 ≤ (wrap_account s data).rowbuf_offset := by rw [hf.1]; exact h0
    have h1' : (wrap_account s data).rowbuf_offset < (IMG_WIDTH : Int) := by rw [hf.1]; exact h1
    obtain ⟨hne, ho⟩ := add_to_rowbuf_offset (wrap_account s data) (data.drop 2) h0' h1'
    have hn1 : ¬ s.rowbuf_offset = -1 := by omega
    rw [if_pos hne, ho, hf.1, if_neg hn1]

/-- After `handle_packet` the offset is -1 or strictly inside the row. -/
theorem handle_packet_offset_range (s : sonly_dev) (data : List Nat)
    (h : s.rowbuf_offset = -1 ∨ (0 ≤ s.rowbuf_offset ∧ s.rowbuf_offset < (IMG_WIDTH : Int))) :
    (handle_packet s data).rowbuf_offset = -1 ∨
      (0 < (handle_packet s data).rowbuf_offset ∧
        (handle_packet s data).rowbuf_offset < (IMG_WIDTH : Int)) := by
  have ho := handle_packet_offset s data h
  have hw : (IMG_WIDTH : Int) = 288 := rfl
  rw [ho, hw]
  rw [hw] at h
  split
  · split
    · right; omega
    · split
      · have hm := Int.emod_nonneg (abs_base_addr s data) (by decide : (288 : Int) ≠ 0)
        have hl := Int.emod_lt_of_pos (abs_base_addr s data) (by decide : (0 : Int) < 288)
        have hd := Int.emod_add_ediv (abs_base_addr s data) 288
        right
        constructor <;> omega
      · left; rfl
  · split
    · right; omega
    · left; rfl

/-- C13: for every packet handed to `handle_packet` in a state whose
`rowbuf_offset` is -1 or in `[0, IMG_WIDTH)`: afterwards `rowbuf_offset` is -1
exactly when no row is in progress (`rowbuf_remaining` answers -1), which is the
case when a row in progress was completed by this packet, or when no row was
in progress and the packet neither starts on nor spans a row boundary; otherwise
it is the number of bytes of the row in progress, with
`0 ≤ rowbuf_offset ≤ IMG_WIDTH` (in fact `0 < rowbuf_offset < IMG_WIDTH`). -/
theorem C13_row_offset_range (s : sonly_dev) (data : List Nat)
    (h : s.rowbuf_offset = -1 ∨ (0 ≤ s.rowbuf_offset ∧ s.rowbuf_offset < (IMG_WIDTH : Int))) :
    ((handle_packet s data).rowbuf_offset = -1 ↔ rowbuf_remaining (handle_packet s data) = -1) ∧
    ((handle_packet s data).rowbuf_offset ≠ -1 →
      0 ≤ (handle_packet s data).rowbuf_offset ∧
      (handle_packet s data).rowbuf_offset ≤ (IMG_WIDTH : Int) ∧
      0 < (handle_packet s data).rowbuf_offset ∧
      (handle_packet s data).rowbuf_offset < (IMG_WIDTH : Int)) ∧
    (0 ≤ s.rowbuf_offset →
      (handle_packet s data).rowbuf_offset =
        if s.rowbuf_offset + 62 < (IMG_WIDTH : Int) then s.rowbuf_offset + 62 else -1) ∧
    (s.rowbuf_offset = -1 →
      (handle_packet s data).rowbuf_offset =
        if abs_base_addr s data % (IMG_WIDTH : Int) = 0 then 62
        else if ((abs_base_addr s data / (IMG_WIDTH : Int)) + 1) * (IMG_WIDTH : Int)
            - abs_base_addr s data < 62 then
          62 - (((abs_base_addr s data / (IMG_WIDTH : Int)) + 1) * (IMG_WIDTH : Int)
            - abs_base_addr s data)
        else -1) := by
  have ho := handle_packet_offset s data h
  have hw : (IMG_WIDTH : Int) = 288 := rfl
  have hrange := handle_packet_offset_range s data h
  refine ⟨?_, ?_, ?_, ?_⟩
  · unfold rowbuf_remaining
    constructor
    · intro e
      rw [if_pos e]
    · intro e
      by_contra hne
      rw [if_neg hne] at e
      rcases hrange with h1 | ⟨h1, h2⟩
      · exact hne h1
      · rw [hw] at e h2
        dsimp only at e
        split at e <;> omega
  · intro hne
    rcases hrange with h1 | ⟨h1, h2⟩
    · exact absurd h1 hne
    · exact ⟨by omega, by omega, h1, h2⟩
  · intro h0
    rw [ho, if_neg (by omega)]
  · intro h1
    rw [ho, if_pos h1]

/-- Witness of C13: the first packet of a capture, with sequence number 0,
starts a row of which it fills 62 bytes. -/
theorem C13_row_offset_range_witness :
    (handle_packet (capsm_init example_fresh) (example_packet 0)).rowbuf_offset = 62 := by
  have h := (C13_row_offset_range (capsm_init example_fresh) (example_packet 0)
    (Or.inl rfl)).2.2.2 rfl
  rw [h]
  decide

end Libfprint.Upeksonly
namespace Libfprint.Upeksonly

open sonly_kill_transfers_action

/-! ## Swipe driver: wrap accounting and the absolute address -/

theorem add_to_rowbuf_seq_fields (s : sonly_dev) (data : List Nat) (size : Int) :
    (add_to_rowbuf s data size).wraparounds = s.wraparounds ∧
    (add_to_rowbuf s data size).last_seqnum = s.last_seqnum := by
  unfold add_to_rowbuf
  dsimp only
  split
  · exact row_complete_seq_fields _
  · exact ⟨rfl, rfl⟩

theorem handle_packet_seq_fields (s : sonly_dev) (data : List Nat) :
    (handle_packet s data).wraparounds = (wrap_account s data).wraparounds ∧
    (handle_packet s data).last_seqnum = packet_seqnum data := by
  have hf := (wrap_account_fields s data).2.2.1
  rw [handle_packet_eq]
  split
  · rw [(add_to_rowbuf_seq_fields _ _ _).1, (add_to_rowbuf_seq_fields _ _ _).2]
    exact ⟨rfl, hf⟩
  · split
    · exact ⟨rfl, hf⟩
    · split
      · exact ⟨rfl, hf⟩
      · exact ⟨rfl, hf⟩

/-- C14: the value `handle_packet` computes for `abs_base_addr` is
`((seqnum + wraparounds * 16384) mod 2^16) * 62`, because the sum is stored in
the `uint16_t seqnum`; it is the exact integer `(seqnum + wraparounds * 16384) * 62`
only while that sum is below 65536.  In a capture whose counter wraps for the
fifth time (`wraparounds` becomes 4 on the packet with sequence number 0 that
follows 16383), the computed address is 0 instead of 4063232: the packet is taken
as the start of a row, although by its exact address (128 mod 288, with 160 bytes
to the next row) it holds no byte of a row start. -/
theorem C14_abs_base_addr_truncated :
    (∀ s data, abs_base_addr s data =
      ((packet_seqnum data + (wrap_account s data).wraparounds * 16384) % 65536) * 62) ∧
    (∀ s data, 0 ≤ packet_seqnum data + (wrap_account s data).wraparounds * 16384 →
      packet_seqnum data + (wrap_account s data).wraparounds * 16384 < 65536 →
      abs_base_addr s data = abs_base_addr_exact s data) ∧
    (handle_packet example_wrapped (example_packet 16383)).wraparounds = 3 ∧
    (handle_packet example_wrapped (example_packet 16383)).last_seqnum = 16383 ∧
    (handle_packet example_wrapped (example_packet 16383)).rowbuf_offset = -1 ∧
    (wrap_account (handle_packet example_wrapped (example_packet 16383))
      (example_packet 0)).wraparounds = 4 ∧
    abs_base_addr (handle_packet example_wrapped (example_packet 16383)) (example_packet 0) = 0 ∧
    abs_base_addr_exact (handle_packet example_wrapped (example_packet 16383))
      (example_packet 0) = 4063232 ∧
    (handle_packet (handle_packet example_wrapped (example_packet 16383))
      (example_packet 0)).rowbuf_offset = 62 ∧
    (4063232 : Int) % (IMG_WIDTH : Int) = 128 ∧
    ¬ ((4063232 / (IMG_WIDTH : Int)) + 1) * (IMG_WIDTH : Int) - 4063232 < 62 := by
  refine ⟨fun _ _ => rfl, ?_, by decide, by decide, by decide, by decide, by decide, by decide,
    by decide, by decide, by decide⟩
  intro s data h0 h1
  unfold abs_base_addr abs_base_addr_exact
  rw [Int.emod_eq_of_lt h0 h1]

/-- C15: in a state with `last_seqnum = 16383`, a packet with sequence number 0
increments `wraparounds` by exactly 1, whatever its value.  Its `abs_base_addr`
is 62 more than that of the preceding packet (sequence number 16383) when the
wrap count at the preceding packet is 0, 1 or 2; when it is 3, the `uint16_t`
sum `0 + 4 * 16384` is reduced to 0, and the address falls from 4063170 to 0. -/
theorem C15_wrap_not_monotone :
    (∀ s data, s.last_seqnum = 16383 → packet_seqnum data = 0 →
      (handle_packet s data).wraparounds = s.wraparounds + 1) ∧
    (∀ s p q, packet_seqnum p = 16383 → packet_seqnum q = 0 → s.last_seqnum < 16383 →
      0 ≤ s.wraparounds → s.wraparounds ≤ 2 →
      abs_base_addr (handle_packet s p) q = abs_base_addr s p + 62) ∧
    example_wrapped.wraparounds = 3 ∧ example_wrapped.last_seqnum = 16382 ∧
    packet_seqnum (example_packet 16383) = 16383 ∧ packet_seqnum (example_packet 0) = 0 ∧
    abs_base_addr example_wrapped (example_packet 16383) = 4063170 ∧
    (handle_packet example_wrapped (example_packet 16383)).last_seqnum = 16383 ∧
    (handle_packet (handle_packet example_wrapped (example_packet 16383))
      (example_packet 0)).wraparounds = 4 ∧
    abs_base_addr (handle_packet example_wrapped (example_packet 16383)) (example_packet 0) = 0 ∧
    ¬ abs_base_addr example_wrapped (example_packet 16383) <
      abs_base_addr (handle_packet example_wrapped (example_packet 16383))
        (example_packet 0) := by
  refine ⟨?_, ?_, by decide, by decide, by decide, by decide, by decide, by decide, by decide,
    by decide, by decide⟩
  · intro s data hl hq
    rw [(handle_packet_seq_fields s data).1, (wrap_account_fields s data).2.2.2, hq, hl]
    rfl
  · intro s p q hp hq hl h0 h2
    have e1 := (wrap_account_fields s p).2.2.2
    have e2 := (wrap_account_fields (handle_packet s p) q).2.2.2
    rw [(handle_packet_seq_fields s p).1, (handle_packet_seq_fields s p).2, e1, hp, hq,
      if_neg (by omega)] at e2
    rw [hp, if_neg (by omega)] at e1
    unfold abs_base_addr
    rw [e1, e2, hp, hq]
    simp only [add_zero, if_pos (by decide : (0 : Int) ≤ 16383)]
    omega

end Libfprint.Upeksonly
namespace Libfprint.Upeksonly

open sonly_kill_transfers_action

/-! ## Swipe driver: the row buffer and the row offset -/

theorem handle_packet_rowbuf (s : sonly_dev) (data : List Nat) (h : RowbufInv s) :
    RowbufInv (handle_packet s data) := by
  refine ⟨?_, ?_⟩
  · rcases handle_packet_offset_range s data h.1 with h1 | ⟨h1, h2⟩
    · exact Or.inl h1
    · exact Or.inr ⟨by omega, h2⟩
  · have hf := wrap_account_fields s data
    rw [handle_packet_eq]
    split
    · rename_i hrem
      have hoff : s.rowbuf_offset ≠ -1 := by
        have := rowbuf_remaining_ne _ hrem
        rwa [hf.1] at this
      have hsome := h.2 hoff
      unfold add_to_rowbuf
      dsimp only
      split
      · intro hne
        exact absurd (row_complete_offset _) hne
      · intro _
        rw [hf.2.1]
        cases hb : s.rowbuf with
        | none => exact absurd hb hsome
        | some b => simp
    · split
      · intro _
        simp [start_new_row]
      · split
        · intro _
          simp [start_new_row]
        · rw [hf.1, hf.2.1]
          exact h.2

theorem feed_packets_rowbuf (ps : List (List Nat)) :
    ∀ s, RowbufInv s → RowbufInv (feed_packets s ps) := by
  induction ps with
  | nil => intro s h; exact h
  | cons p ps ih =>
    intro s h
    show RowbufInv (feed_packets (if is_capturing s then handle_packet s p else s) ps)
    apply ih
    split
    · exact handle_packet_rowbuf s p h
    · exact h

/-- C12 (as stated) fails: the capture of `example_fresh` (row buffer null) is
fed the packets with sequence numbers 0 to 13 and dark pixels.  Packets 0 to 4
make the first row, which is kept; packets 9 to 13 make the second row, which
equals the first and is dropped: `row_complete` leaves the buffer allocated, for
the next row, and `rowbuf_offset` is -1. -/
theorem C12_counterexample :
    example_fresh.rowbuf = none ∧
    ¬ ((feed_packets (capsm_init example_fresh)
          ((List.range 14).map example_packet)).rowbuf ≠ none ↔
        0 ≤ (feed_packets (capsm_init example_fresh)
          ((List.range 14).map example_packet)).rowbuf_offset ∧
        (feed_packets (capsm_init example_fresh)
          ((List.range 14).map example_packet)).rowbuf_offset < (IMG_WIDTH : Int)) := by
  decide!

/-- C12 (amended): in every state of a capture reached from `CAPSM_INIT` by
calls of `handle_packet`, `rowbuf_offset` is -1 or in `[0, IMG_WIDTH)`, and
`rowbuf` is non-null whenever `0 ≤ rowbuf_offset < IMG_WIDTH`; a null `rowbuf`
implies `rowbuf_offset = -1`, not the other way round. -/
theorem C12_rowbuf_when_offset (s0 : sonly_dev) (ps : List (List Nat)) :
    ((feed_packets (capsm_init s0) ps).rowbuf_offset = -1 ∨
      (0 ≤ (feed_packets (capsm_init s0) ps).rowbuf_offset ∧
        (feed_packets (capsm_init s0) ps).rowbuf_offset < (IMG_WIDTH : Int))) ∧
    (0 ≤ (feed_packets (capsm_init s0) ps).rowbuf_offset ∧
      (feed_packets (capsm_init s0) ps).rowbuf_offset < (IMG_WIDTH : Int) →
        (feed_packets (capsm_init s0) ps).rowbuf ≠ none) ∧
    ((feed_packets (capsm_init s0) ps).rowbuf = none →
      (feed_packets (capsm_init s0) ps).rowbuf_offset = -1) := by
  have h : RowbufInv (feed_packets (capsm_init s0) ps) :=
    feed_packets_rowbuf ps _ ⟨Or.inl rfl, fun hne => absurd rfl hne⟩
  refine ⟨h.1, ?_, ?_⟩
  · intro hr
    exact h.2 (by omega)
  · intro hn
    by_contra hne
    exact h.2 hne hn

end Libfprint.Upeksonly
namespace Libfprint.Upeksonly

open sonly_kill_transfers_action

/-! ## Swipe driver: blank rows and finger removal -/

theorem compute_rows_loop_snd (a b : List Nat) (n : Nat) :
    (compute_rows_loop a b n).2 = ∑ i in Finset.range n, (b.getD i 0 : Int) := by
  induction n with
  | zero => simp [compute_rows_loop]
  | succ n ih =>
    rw [Finset.sum_range_succ, ← ih]
    simp only [compute_rows_loop]

theorem compute_rows_snd (a b : List Nat) : (compute_rows a b).2 = row_total b :=
  compute_rows_loop_snd a b IMG_WIDTH

/-- The function `feed_row` when rows are stored already. -/
theorem feed_row_eq (s : sonly_dev) (b : List Nat) (hn : 0 < s.num_rows) :
    feed_row s b =
      (if row_total b < 52000 then
        (if abs_diff_sum (s.rows.headD []) b < 3000 then
          { s with rowbuf := some b, rowbuf_offset := -1, num_blank := 0 }
         else row_accept { s with rowbuf := some b, rowbuf_offset := -1, num_blank := 0 })
       else if s.num_blank + 1 > 500 then
        handoff_img { s with rowbuf := some b, rowbuf_offset := -1,
                             num_blank := s.num_blank + 1, finger_removed := 1 }
       else if abs_diff_sum (s.rows.headD []) b < 3000 then
          { s with rowbuf := some b, rowbuf_offset := -1, num_blank := s.num_blank + 1 }
       else row_accept { s with rowbuf := some b, rowbuf_offset := -1,
                                num_blank := s.num_blank + 1 }) := by
  unfold feed_row row_complete
  have hpos : ({ s with rowbuf := some b, rowbuf_offset := (-1 : Int) } : sonly_dev).num_rows > 0 :=
    hn
  simp only [hpos, if_true, sonly_dev.rowbuf_data, Option.getD_some, compute_rows_snd,
    compute_rows_fst]

theorem row_accept_below (s : sonly_dev) (h : s.num_rows + 1 < MAX_ROWS) :
    row_accept s =
      { s with rows := s.rowbuf_data :: s.rows, num_rows := s.num_rows + 1, rowbuf := none,
               trace := s.trace ++ [Event.g_slist_prepend s.rowbuf_data] } := by
  unfold row_accept
  dsimp only
  rw [if_neg (by show ¬ s.num_rows + 1 ≥ MAX_ROWS; omega)]
  rfl

/-- One blank row, short of the 501st: it is counted, and nothing is handed off
unless it is the row that meets the row limit. -/
theorem feed_row_blank (s : sonly_dev) (b : List Nat) (hn : 0 < s.num_rows)
    (hl : s.rows.length = s.num_rows) (hf : s.finger_removed = 0)
    (hb : 52000 ≤ row_total b) (hk : s.num_blank < 500)
    (hmax : (feed_row s b).num_rows < MAX_ROWS) :
    (feed_row s b).num_blank = s.num_blank + 1 ∧ 0 < (feed_row s b).num_rows ∧
    (feed_row s b).rows.length = (feed_row s b).num_rows ∧
    (feed_row s b).finger_removed = 0 ∧
    handoffs (feed_row s b).trace = handoffs s.trace := by
  rw [feed_row_eq s b hn, if_neg (by omega), if_neg (by omega)] at hmax ⊢
  by_cases hd : abs_diff_sum (s.rows.headD []) b < 3000
  · rw [if_pos hd]
    exact ⟨rfl, hn, hl, hf, rfl⟩
  · rw [if_neg hd] at hmax ⊢
    rw [(row_accept_row_fields _).2.2.1] at hmax
    rw [row_accept_below _ hmax]
    refine ⟨rfl, Nat.succ_pos _, ?_, hf, ?_⟩
    · show (b :: s.rows).length = s.num_rows + 1
      rw [List.length_cons, hl]
    · show handoffs (s.trace ++ [Event.g_slist_prepend b]) = handoffs s.trace
      rw [handoffs_append]
      simp [handoffs]

/-- The blank row that brings `num_blank` to 501: the finger is taken as
removed and the image is handed off. -/
theorem feed_row_removed (s : sonly_dev) (b : List Nat) (hn : 0 < s.num_rows)
    (hl : s.rows.length = s.num_rows) (hb : 52000 ≤ row_total b) (hk : s.num_blank = 500) :
    (feed_row s b).finger_removed = 1 ∧ (feed_row s b).num_blank = 501 ∧
    handoffs (feed_row s b).trace =
      handoffs s.trace ++ [(s.num_rows, IMG_WIDTH * s.num_rows,
        handoff_copy s.rows 0 (g_malloc (IMG_WIDTH * s.num_rows)))] := by
  rw [feed_row_eq s b hn, if_neg (by omega), if_pos (by omega)]
  have hne : s.rows ≠ [] := by
    intro h
    rw [h] at hl
    simp at hl
    omega
  refine ⟨?_, ?_, ?_⟩
  · rw [(handoff_img_row_fields _).2.2.2.2.1]
  · rw [(handoff_img_row_fields _).2.2.2.1]
    show s.num_blank + 1 = 501
    omega
  · have hne2 : ({ s with rowbuf := some b, rowbuf_offset := -1,
                          num_blank := s.num_blank + 1, finger_removed := 1 } : sonly_dev).rows
        ≠ [] := hne
    exact (handoff_img_obs _ hne2).1

theorem feed_rows_blank (bs : List (List Nat)) :
    ∀ (s : sonly_dev), 0 < s.num_rows → s.rows.length = s.num_rows → s.finger_removed = 0 →
      (∀ r ∈ bs, 52000 ≤ row_total r) → s.num_blank + bs.length ≤ 500 →
      (∀ k, k ≤ bs.length → ((bs.take k).foldl feed_row s).num_rows < MAX_ROWS) →
      (bs.foldl feed_row s).num_blank = s.num_blank + bs.length ∧
      0 < (bs.foldl feed_row s).num_rows ∧
      (bs.foldl feed_row s).rows.length = (bs.foldl feed_row s).num_rows ∧
      (bs.foldl feed_row s).finger_removed = 0 ∧
      handoffs (bs.foldl feed_row s).trace = handoffs s.trace := by
  induction bs with
  | nil =>
    intro s hn hl hf _ _ _
    exact ⟨by simp, hn, hl, hf, rfl⟩
  | cons b bs ih =>
    intro s hn hl hf hb hk hmax
    have hlen : ((b :: bs).length : Int) = (bs.length : Int) + 1 := by simp
    have h1 := feed_row_blank s b hn hl hf (hb b (List.mem_cons_self _ _)) (by omega)
      (hmax 1 (by simp))
    obtain ⟨e1, e2, e3, e4, e5⟩ := h1
    have h2 := ih (feed_row s b) e2 e3 e4 (fun r hr => hb r (List.mem_cons_of_mem _ hr))
      (by rw [e1]; omega)
      (fun k hk2 => hmax (k + 1) (by simp; omega))
    obtain ⟨f1, f2, f3, f4, f5⟩ := h2
    rw [List.foldl_cons]
    refine ⟨?_, f2, f3, f4, by rw [f5, e5]⟩
    rw [f1, e1]
    omega

/-- C16: with at least one stored row, a completed row with total below 52000
resets `num_blank` to 0 and one with total at least 52000 increments it.
Starting from `num_blank = 0`, and as long as the row limit is not reached, the
first 500 consecutive rows with total at least 52000 leave `finger_removed` at
0 and hand off nothing; the 501st sets `finger_removed` to 1 and hands off the
image of the stored rows. -/
theorem C16_finger_removal (s : sonly_dev) (bs : List (List Nat)) (b : List Nat)
    (h0 : s.num_blank = 0) (hn : 0 < s.num_rows) (hl : s.rows.length = s.num_rows)
    (hf : s.finger_removed = 0) (hlen : bs.length = 500)
    (hb : ∀ r ∈ bs, 52000 ≤ row_total r) (hb1 : 52000 ≤ row_total b)
    (hmax : ∀ k, k ≤ 500 → ((bs.take k).foldl feed_row s).num_rows < MAX_ROWS) :
    (∀ k, k ≤ 500 →
      ((bs.take k).foldl feed_row s).num_blank = k ∧
      ((bs.take k).foldl feed_row s).finger_removed = 0 ∧
      handoffs ((bs.take k).foldl feed_row s).trace = handoffs s.trace) ∧
    (feed_row (bs.foldl feed_row s) b).finger_removed = 1 ∧
    handoffs (feed_row (bs.foldl feed_row s) b).trace =
      handoffs s.trace ++ [((bs.foldl feed_row s).num_rows,
        IMG_WIDTH * (bs.foldl feed_row s).num_rows,
        handoff_copy (bs.foldl feed_row s).rows 0
          (g_malloc (IMG_WIDTH * (bs.foldl feed_row s).num_rows)))] ∧
    (∀ (t : sonly_dev) (r : List Nat), 0 < t.num_rows → row_total r < 52000 →
      (feed_row t r).num_blank = 0) ∧
    (∀ (t : sonly_dev) (r : List Nat), 0 < t.num_rows → 52000 ≤ row_total r →
      (feed_row t r).num_blank = t.num_blank + 1) := by
  have hpre : ∀ k, k ≤ 500 →
      ((bs.take k).foldl feed_row s).num_blank = k ∧
      0 < ((bs.take k).foldl feed_row s).num_rows ∧
      ((bs.take k).foldl feed_row s).rows.length = ((bs.take k).foldl feed_row s).num_rows ∧
      ((bs.take k).foldl feed_row s).finger_removed = 0 ∧
      handoffs ((bs.take k).foldl feed_row s).trace = handoffs s.trace := by
    intro k hk
    have hlk : (bs.take k).length = k := by rw [List.length_take, hlen]; omega
    have h := feed_rows_blank (bs.take k) s hn hl hf
      (fun r hr => hb r (List.mem_of_mem_take hr)) (by rw [h0, hlk]; omega)
      (fun j hj => by
        rw [List.take_take]
        exact hmax _ (by rw [hlk] at hj; omega))
    rw [h0, hlk] at h
    simpa using h
  have h500 : bs.take 500 = bs := by rw [← hlen, List.take_length]
  have h := hpre 500 (le_refl _)
  rw [h500] at h
  refine ⟨fun k hk => ⟨(hpre k hk).1, (hpre k hk).2.2.2.1, (hpre k hk).2.2.2.2⟩, ?_, ?_, ?_, ?_⟩
  · exact (feed_row_removed _ b h.2.1 h.2.2.1 hb1 (by rw [h.1]; rfl)).1
  · rw [(feed_row_removed _ b h.2.1 h.2.2.1 hb1 (by rw [h.1]; rfl)).2.2, h.2.2.2.2]
  · intro t r ht hr
    rw [feed_row_eq t r ht, if_pos hr]
    split
    · rfl
    · rw [(row_accept_row_fields _).2.2.2.1]
  · intro t r ht hr
    rw [feed_row_eq t r ht, if_neg (by omega)]
    split
    · rw [(handoff_img_row_fields _).2.2.2.1]
    · split
      · rfl
      · rw [(row_accept_row_fields _).2.2.2.1]

end Libfprint.Upeksonly
namespace Libfprint.Upeksonly

open sonly_kill_transfers_action

theorem example_first_row_fields :
    example_first_row.num_blank = 0 ∧ 0 < example_first_row.num_rows ∧
    example_first_row.rows.length = example_first_row.num_rows ∧
    example_first_row.finger_removed = 0 := by
  decide

theorem example_rowB_total : row_total example_rowB = 73440 := by
  rw [← compute_rows_snd example_rowB example_rowB, example_compute_rows.1]

/-- Bright rows after `example_first_row`: the first is stored, the others are
dropped as duplicates, so that the row limit stays far. -/
theorem example_first_row_blank (k : Nat) (hk : k ≤ 500) :
    ((List.replicate k example_rowB).foldl feed_row example_first_row).num_rows < MAX_ROWS := by
  have h2 : feed_row example_first_row example_rowB =
      { example_end_of_swipe with rowbuf := none, rowbuf_offset := -1, num_blank := 1 } := by
    set_option maxRecDepth 100000 in decide
  cases k with
  | zero => decide
  | succ k =>
    rw [List.replicate_succ, List.foldl_cons, h2]
    cases k with
    | zero => decide
    | succ k =>
      rw [List.replicate_succ, List.foldl_cons,
        feed_row_duplicate _ [example_rowA] rfl (by decide) (by decide),
        feed_row_duplicates k _ [example_rowA] rfl (by decide) rfl rfl
          (by show (1 : Int) + 1 + (k : Int) ≤ 500; omega)]
      show 2 < MAX_ROWS
      decide

/-- Witness of C16: after the dark first row, 501 bright rows; the 501st sets
`finger_removed`. -/
theorem C16_finger_removal_witness :
    (feed_row ((List.replicate 500 example_rowB).foldl feed_row example_first_row)
      example_rowB).finger_removed = 1 :=
  (C16_finger_removal example_first_row (List.replicate 500 example_rowB) example_rowB
    example_first_row_fields.1 example_first_row_fields.2.1 example_first_row_fields.2.2.1
    example_first_row_fields.2.2.2 (List.length_replicate _ _)
    (fun r hr => by rw [List.eq_of_mem_replicate hr, example_rowB_total]; decide)
    (by rw [example_rowB_total]; decide)
    (fun k hk => by
      rw [List.take_replicate, Nat.min_eq_left hk]
      exact example_first_row_blank k hk)).2.1

end Libfprint.Upeksonly
namespace Libfprint.Upeksonly

open sonly_kill_transfers_action

/-! ## Swipe driver: the row limit -/

/-- The row that meets the row limit is handed off with the others. -/
theorem row_accept_full (s : sonly_dev) (hn : s.num_rows + 1 = MAX_ROWS) :
    handoffs (row_accept s).trace =
      handoffs s.trace ++ [(MAX_ROWS, IMG_WIDTH * MAX_ROWS,
        handoff_copy (s.rowbuf_data :: s.rows) 0 (g_malloc (IMG_WIDTH * MAX_ROWS)))] ∧
    prepends (row_accept s).trace = prepends s.trace ++ [s.rowbuf_data] ∧
    (row_accept s).killing_transfers = ITERATE_SSM := by
  have hne : ({ s.emit (Event.g_slist_prepend s.rowbuf_data) with
      rows := s.rowbuf_data :: s.rows, num_rows := s.num_rows + 1, rowbuf := none }
      : sonly_dev).rows ≠ [] := by simp
  unfold row_accept
  dsimp only
  rw [if_pos (by show s.num_rows + 1 ≥ MAX_ROWS; omega)]
  obtain ⟨o1, o2, _⟩ := handoff_img_obs _ hne
  refine ⟨o1.trans ?_, o2.trans ?_, handoff_img_killing _ hne⟩
  · show handoffs (s.trace ++ [Event.g_slist_prepend s.rowbuf_data]) ++
      [(s.num_rows + 1, IMG_WIDTH * (s.num_rows + 1),
        handoff_copy (s.rowbuf_data :: s.rows) 0 (g_malloc (IMG_WIDTH * (s.num_rows + 1))))] = _
    rw [hn, handoffs_append]
    simp [handoffs]
  · show prepends (s.trace ++ [Event.g_slist_prepend s.rowbuf_data]) = _
    rw [prepends_append]
    simp [prepends]

/-- When `row_complete` stores the row that brings `num_rows` to the limit, it
hands off the image within the call. -/
theorem row_complete_full (s : sonly_dev) (hn : s.num_rows + 1 = MAX_ROWS)
    (hacc : (row_complete s).num_rows = MAX_ROWS) :
    handoffs (row_complete s).trace =
      handoffs s.trace ++ [(MAX_ROWS, IMG_WIDTH * MAX_ROWS,
        handoff_copy (s.rowbuf_data :: s.rows) 0 (g_malloc (IMG_WIDTH * MAX_ROWS)))] ∧
    prepends (row_complete s).trace = prepends s.trace ++ [s.rowbuf_data] ∧
    (row_complete s).killing_transfers = ITERATE_SSM ∧
    (row_complete s).finger_removed = s.finger_removed := by
  have hlt : s.num_rows ≠ MAX_ROWS := by omega
  unfold row_complete at hacc ⊢
  dsimp only at hacc ⊢
  split at hacc
  · rw [if_pos (by assumption)]
    split at hacc
    · rw [if_pos (by assumption)]
      split at hacc
      · exact absurd hacc hlt
      · rw [if_neg (by assumption)]
        obtain ⟨a1, a2, a3⟩ := row_accept_full
          { s with rowbuf_offset := -1, num_blank := 0 } hn
        exact ⟨a1, a2, a3, (row_accept_row_fields _).2.2.2.2.1⟩
    · rw [if_neg (by assumption)]
      split at hacc
      · rw [(handoff_img_row_fields _).2.2.1] at hacc
        exact absurd hacc hlt
      · rw [if_neg (by assumption)]
        split at hacc
        · exact absurd hacc hlt
        · rw [if_neg (by assumption)]
          obtain ⟨a1, a2, a3⟩ := row_accept_full
            { s with rowbuf_offset := -1, num_blank := s.num_blank + 1 } hn
          exact ⟨a1, a2, a3, (row_accept_row_fields _).2.2.2.2.1⟩
  · rw [if_neg (by assumption)]
    obtain ⟨a1, a2, a3⟩ := row_accept_full { s with rowbuf_offset := -1 } hn
    exact ⟨a1, a2, a3, (row_accept_row_fields _).2.2.2.2.1⟩

/-- A completion while a tear-down is pending leaves the row assembly alone. -/
theorem img_data_cb_killing_core (s : sonly_dev) (hk : s.killing_transfers ≠ NOT_KILLING)
    (idx : Nat) (status : Int) (buffer : List Nat) (r : Int) :
    core (img_data_cb s idx status buffer r) = { core s with num_flying := s.num_flying - 1 } ∧
    handoffs (img_data_cb s idx status buffer r).trace = handoffs s.trace ∧
    prepends (img_data_cb s idx status buffer r).trace = prepends s.trace := by
  obtain ⟨_, l2, l3, _⟩ := img_data_cb_landed_fields s idx
  have hc : core (img_data_cb_landed s idx) = { core s with num_flying := s.num_flying - 1 } := by
    have c := (set_idata_core s idx fun d => { d with flying := false, cancelling := false }).1
    unfold img_data_cb_landed
    show ({ core (set_idata s idx _) with num_flying := (set_idata s idx _).num_flying - 1 }
      : sonly_dev) = _
    have e6 := congrArg sonly_dev.num_flying c
    rw [c]
    exact congrArg (fun n => ({ core s with num_flying := n - 1 } : sonly_dev)) e6
  unfold img_data_cb
  simp only []
  rw [if_pos (by rw [l2]; exact hk)]
  split
  · obtain ⟨o1, o2, _⟩ := last_transfer_killed_obs (img_data_cb_landed s idx)
    exact ⟨by rw [last_transfer_killed_core, hc], by rw [o1, l3], by rw [o2, l3]⟩
  · exact ⟨hc, by rw [l3], by rw [l3]⟩

theorem run_killing_core (cs : List Completion) :
    ∀ s : sonly_dev, s.killing_transfers ≠ NOT_KILLING →
      core (run s cs) = { core s with num_flying := s.num_flying - cs.length } ∧
      handoffs (run s cs).trace = handoffs s.trace ∧
      prepends (run s cs).trace = prepends s.trace := by
  induction cs with
  | nil =>
    intro s _
    refine ⟨?_, rfl, rfl⟩
    cases s
    simp [core, run]
  | cons c cs ih =>
    intro s hk
    obtain ⟨a1, a2, a3⟩ := img_data_cb_killing_core s hk c.idx c.status c.buffer c.resubmit_r
    have hk2 := (img_data_cb_killing s hk c.idx c.status c.buffer c.resubmit_r).2.1
    have hnf := (img_data_cb_killing s hk c.idx c.status c.buffer c.resubmit_r).1
    obtain ⟨b1, b2, b3⟩ := ih (img_data_cb s c.idx c.status c.buffer c.resubmit_r)
      (by rw [hk2]; exact hk)
    rw [run_cons]
    refine ⟨?_, by rw [b2, a2], by rw [b3, a3]⟩
    rw [b1, a1, hnf]
    simp only [List.length_cons, Nat.cast_add, Nat.cast_one]
    congr 1
    ring

end Libfprint.Upeksonly
namespace Libfprint.Upeksonly

open sonly_kill_transfers_action

theorem feed_packets_inv (ps : List (List Nat)) :
    ∀ s, CaptureInv s → CaptureInv (feed_packets s ps) := by
  induction ps with
  | nil => intro s h; exact h
  | cons p ps ih =>
    intro s h
    show CaptureInv (feed_packets (if is_capturing s then handle_packet s p else s) ps)
    apply ih
    by_cases hc : is_capturing s = true
    · rw [if_pos hc]
      exact handle_packet_inv s h hc p
    · rw [if_neg hc]
      exact h

/-- C17: in a capture started at `CAPSM_INIT`, `num_rows` is at most `MAX_ROWS`
(700) after any packets and after any completions.  When `row_complete` stores
the row that brings `num_rows` from 699 to `MAX_ROWS` (with `finger_removed`
0), the image of the 700 rows is handed off within that call, and capturing
is over: the packet loop of `img_data_cb` returns before the next packet, no
transfer is resubmitted, and the completions that follow hand no packet to
`handle_packet` (the row assembly and the sequence accounting stay as they are)
and submit no transfer. -/
theorem C17_row_cap (s0 : sonly_dev) (hrows : s0.rows = []) (htrace : s0.trace = [])
    (hbuf : ∀ b, s0.rowbuf = some b → b.length = IMG_WIDTH) (cs : List Completion)
    (ps : List (List Nat)) (s : sonly_dev) (hn : s.num_rows + 1 = MAX_ROWS)
    (hf : s.finger_removed = 0) (hacc : (row_complete s).num_rows = MAX_ROWS)
    (cs2 : List Completion) (buffer : List Nat) (n idx : Nat) (r : Int) :
    (run (capsm_init s0) cs).num_rows ≤ MAX_ROWS ∧
    (feed_packets (capsm_init s0) ps).num_rows ≤ MAX_ROWS ∧ MAX_ROWS = 700 ∧
    handoffs (row_complete s).trace =
      handoffs s.trace ++ [(MAX_ROWS, IMG_WIDTH * MAX_ROWS,
        handoff_copy (s.rowbuf_data :: s.rows) 0 (g_malloc (IMG_WIDTH * MAX_ROWS)))] ∧
    (row_complete s).finger_removed = 0 ∧
    is_capturing (row_complete s) = false ∧
    packet_loop buffer (n + 1) (row_complete s) = (row_complete s, true) ∧
    img_data_cb_resubmit (row_complete s) idx r = row_complete s ∧
    submits (run (row_complete s) cs2).trace = submits (row_complete s).trace ∧
    prepends (run (row_complete s) cs2).trace = prepends (row_complete s).trace ∧
    handoffs (run (row_complete s) cs2).trace = handoffs (row_complete s).trace ∧
    (run (row_complete s) cs2).num_rows = MAX_ROWS ∧
    (run (row_complete s) cs2).rowbuf = (row_complete s).rowbuf ∧
    (run (row_complete s) cs2).rowbuf_offset = (row_complete s).rowbuf_offset ∧
    (run (row_complete s) cs2).last_seqnum = (row_complete s).last_seqnum ∧
    (run (row_complete s) cs2).wraparounds = (row_complete s).wraparounds := by
  obtain ⟨a1, _, a3, a4⟩ := row_complete_full s hn hacc
  have hk : (row_complete s).killing_transfers ≠ NOT_KILLING := by rw [a3]; decide
  have hcap : is_capturing (row_complete s) = false := by
    unfold is_capturing
    rw [hacc]
    simp
  obtain ⟨c1, c2, c3⟩ := run_killing_core cs2 (row_complete s) hk
  have e1 := congrArg sonly_dev.num_rows c1
  have e2 := congrArg sonly_dev.rowbuf c1
  have e3 := congrArg sonly_dev.rowbuf_offset c1
  have e4 := congrArg sonly_dev.last_seqnum c1
  have e5 := congrArg sonly_dev.wraparounds c1
  refine ⟨(capture_run_inv s0 hrows htrace hbuf cs).num_rows_le,
    (feed_packets_inv ps _ (capsm_init_inv s0 hrows htrace hbuf)).num_rows_le, rfl, a1,
    by rw [a4, hf], hcap, ?_, ?_,
    (run_killing cs2 (row_complete s) _ hk rfl).2.2, c3, c2, e1.trans hacc, e2, e3, e4, e5⟩
  · show (if !is_capturing (row_complete s) then (row_complete s, true) else _) = _
    rw [hcap]
    rfl
  · unfold img_data_cb_resubmit
    rw [hcap]
    rfl

/-- Witness of C17: `example_last_row`, where the 700th row is complete in the
row buffer. -/
theorem C17_row_cap_witness :
    (row_complete example_last_row).finger_removed = 0 ∧
    is_capturing (row_complete example_last_row) = false := by
  have h := C17_row_cap example_fresh rfl rfl (fun b hb => by cases hb) [] [] example_last_row
    rfl rfl (by decide!) [] [] 0 0 0
  exact ⟨h.2.2.2.2.1, h.2.2.2.2.2.1⟩

end Libfprint.Upeksonly
namespace Libfprint.Upeksonly

open sonly_kill_transfers_action

/-! ## Swipe driver: the count of flying transfers -/

theorem Frame.flyinv {s t : sonly_dev} (h : Frame s t) (hi : FlyInv s) : FlyInv t := by
  unfold FlyInv count_flying at *
  rw [h.flags, h.num_flying]
  exact hi

theorem FlyInv.of_eq {s t : sonly_dev} (hi : FlyInv s) (hf : flying_flags t = flying_flags s)
    (hn : t.num_flying = s.num_flying) : FlyInv t := by
  unfold FlyInv count_flying at *
  rw [hf, hn]
  exact hi

theorem img_data_cb_status_flags (s : sonly_dev) (status : Int) :
    flying_flags (img_data_cb_status s status) = flying_flags s ∧
    (img_data_cb_status s status).num_flying = s.num_flying := by
  unfold img_data_cb_status
  split
  · have h := cancel_img_transfers_frame
      { s with killing_transfers := IMG_SESSION_ERROR, kill_status_code := status }
    exact ⟨h.flags, h.num_flying⟩
  · exact ⟨rfl, rfl⟩

theorem img_data_cb_resubmit_flyinv (s : sonly_dev) (idx : Nat) (r : Int) (hi : FlyInv s)
    (hidx : idx < (flying_flags s).length) (hf : (flying_flags s)[idx] = false) :
    FlyInv (img_data_cb_resubmit s idx r) := by
  by_cases hcap : is_capturing s = true
  · by_cases hr : r < 0
    · unfold img_data_cb_resubmit
      rw [if_pos hcap]
      dsimp only
      rw [if_pos hr]
      have h := cancel_img_transfers_frame
        { s.emit (Event.submit_transfer idx r s.killing_transfers) with
          killing_transfers := IMG_SESSION_ERROR, kill_status_code := r }
      exact hi.of_eq h.flags h.num_flying
    · obtain ⟨e1, e2, _⟩ := img_data_cb_resubmit_ok s idx r hcap hr hidx
      unfold FlyInv count_flying at hi ⊢
      rw [e1, e2, List.length_set, count_set_true _ _ hidx hf, hi.2]
      refine ⟨hi.1, ?_⟩
      push_cast
      rfl
  · unfold img_data_cb_resubmit
    rw [if_neg hcap]
    exact hi

theorem img_data_cb_flyinv (s : sonly_dev) (idx : Nat) (status : Int) (buffer : List Nat)
    (r : Int) (hi : FlyInv s) (hv : (flying_flags s).getD idx false = true) :
    FlyInv (img_data_cb s idx status buffer r) := by
  obtain ⟨hidx, _⟩ := getD_true_lt _ _ hv
  obtain ⟨lf, lc⟩ := img_data_cb_landed_flags s idx hv
  have l1 := (img_data_cb_landed_fields s idx).1
  have hl : FlyInv (img_data_cb_landed s idx) := by
    unfold FlyInv at hi ⊢
    refine ⟨by rw [lf, List.length_set]; exact hi.1, ?_⟩
    rw [l1, hi.2]
    omega
  have hidx1 : idx < (flying_flags (img_data_cb_landed s idx)).length := by
    rw [lf, List.length_set]; exact hidx
  have hf1 : (flying_flags (img_data_cb_landed s idx))[idx] = false := by
    simp only [lf, List.getElem_set_self]
  unfold img_data_cb
  simp only []
  split
  · split
    · apply hl.of_eq
      · unfold flying_flags
        rw [last_transfer_killed_pool]
      · exact (last_transfer_killed_fields _).1
    · exact hl
  · obtain ⟨sf, sn⟩ := img_data_cb_status_flags (img_data_cb_landed s idx) status
    have hp := packet_loop_frame buffer 64 (img_data_cb_status (img_data_cb_landed s idx) status)
    have h2 : FlyInv (packet_loop buffer 64
        (img_data_cb_status (img_data_cb_landed s idx) status)).1 :=
      hp.flyinv (hl.of_eq sf sn)
    have hfl : flying_flags (packet_loop buffer 64
        (img_data_cb_status (img_data_cb_landed s idx) status)).1 =
        flying_flags (img_data_cb_landed s idx) := by rw [hp.flags, sf]
    split
    · exact h2
    · apply img_data_cb_resubmit_flyinv _ idx r h2 (by rw [hfl]; exact hidx1)
      simp only [hfl]
      exact hf1

end Libfprint.Upeksonly
namespace Libfprint.Upeksonly

open sonly_kill_transfers_action

theorem fire_bulk_loop_flyinv (submit_r : Nat → Int) (n : Nat) :
    ∀ (i : Nat) (s : sonly_dev), FlyInv s → i + n ≤ NUM_BULK_TRANSFERS →
      (∀ j, i ≤ j → j < NUM_BULK_TRANSFERS → (flying_flags s).getD j false = true →
        submit_r j < 0) →
      FlyInv (fire_bulk_loop submit_r n i s).1 := by
  induction n with
  | zero =>
    intro i s hi _ _
    exact hi
  | succ n ih =>
    intro i s hi hle hbusy
    unfold fire_bulk_loop
    dsimp only
    by_cases hr : submit_r i < 0
    · rw [if_pos hr]
      split
      · exact hi.of_eq rfl rfl
      · have h := cancel_img_transfers_frame
          { s.emit (Event.submit_transfer i (submit_r i) s.killing_transfers) with
            killing_transfers := ABORT_SSM, kill_ssm := SsmRef.capsm,
            kill_status_code := submit_r i }
        exact hi.of_eq h.flags h.num_flying
    · rw [if_neg hr]
      have hlen : i < (flying_flags s).length := by rw [hi.1]; omega
      have hfi : (flying_flags s)[i] = false := by
        cases hb : (flying_flags s)[i] with
        | false => rfl
        | true =>
          exfalso
          apply hr
          apply hbusy i (le_refl _) (by omega)
          rw [List.getD_eq_getElem _ _ hlen, hb]
      have hi1 : i < (flying_flags (s.emit (Event.submit_transfer i (submit_r i)
          s.killing_transfers))).length := hlen
      obtain ⟨cc, _⟩ := set_idata_core
        (s.emit (Event.submit_transfer i (submit_r i) s.killing_transfers)) i
        fun d => { d with flying := true }
      have hfl := set_idata_flags
        (s.emit (Event.submit_transfer i (submit_r i) s.killing_transfers)) i
        (fun d => { d with flying := true }) true (fun _ => rfl) hi1
      have hfl2 : flying_flags
          { set_idata (s.emit (Event.submit_transfer i (submit_r i) s.killing_transfers)) i
              (fun d => { d with flying := true }) with
            num_flying := (set_idata (s.emit (Event.submit_transfer i (submit_r i)
              s.killing_transfers)) i (fun d => { d with flying := true })).num_flying + 1 } =
          (flying_flags s).set i true := by
        show flying_flags (set_idata _ i _) = _
        rw [hfl]
        rfl
      have hnf : (set_idata (s.emit (Event.submit_transfer i (submit_r i)
          s.killing_transfers)) i (fun d => { d with flying := true })).num_flying =
          s.num_flying := by
        have e := congrArg sonly_dev.num_flying cc
        exact e
      apply ih (i + 1) _ _ (by omega)
      · intro j hj hj2 hfj
        apply hbusy j (by omega) hj2
        rw [hfl2] at hfj
        rw [List.getD_eq_getElem?_getD] at hfj ⊢
        rwa [List.getElem?_set_ne (by omega)] at hfj
      · unfold FlyInv count_flying at hi ⊢
        rw [hfl2, List.length_set, count_set_true _ _ hlen hfi]
        refine ⟨hi.1, ?_⟩
        show (set_idata _ i _).num_flying + 1 = _
        rw [hnf, hi.2]
        push_cast
        rfl

theorem capsm_fire_bulk_flyinv (s : sonly_dev) (submit_r : Nat → Int) (hi : FlyInv s)
    (hbusy : ∀ j, j < NUM_BULK_TRANSFERS → (flying_flags s).getD j false = true →
      submit_r j < 0) :
    FlyInv (capsm_fire_bulk s submit_r) := by
  have h := fire_bulk_loop_flyinv submit_r NUM_BULK_TRANSFERS 0 s hi (by omega)
    (fun j _ hj hf => hbusy j hj hf)
  unfold capsm_fire_bulk
  dsimp only
  split
  · exact h
  · exact h.of_eq rfl rfl

theorem step_flyinv (s : sonly_dev) (x : Step) (hi : FlyInv s) (hok : step_ok s x) :
    FlyInv (step s x) := by
  cases x with
  | capsm_init => exact hi.of_eq rfl rfl
  | capsm_fire_bulk submit_r => exact capsm_fire_bulk_flyinv s submit_r hi hok
  | img_data_cb c => exact img_data_cb_flyinv s c.idx c.status c.buffer c.resubmit_r hi hok
  | cancel_img_transfers => exact (cancel_img_transfers_frame s).flyinv hi

theorem steps_flyinv (l : List Step) :
    ∀ s, FlyInv s → steps_ok s l → FlyInv (steps s l) := by
  induction l with
  | nil => intro s hi _; exact hi
  | cons x l ih =>
    intro s hi hok
    exact ih (step s x) (step_flyinv s x hi hok.1) hok.2

theorem dev_activate_flyinv (s : sonly_dev) (alloc_ok : Nat → Bool)
    (h : (dev_activate s alloc_ok).2 = 0) : FlyInv (dev_activate s alloc_ok).1 := by
  unfold dev_activate at h ⊢
  dsimp only at h ⊢
  split at h
  · rw [if_pos (by assumption)]
    unfold FlyInv count_flying flying_flags
    simp [List.count_replicate]
  · have h2 : (-ENOMEM : Int) = 0 := h
    exact absurd h2 (by decide)

/-- C11: in every state reached from a successful `dev_activate` by steps
`CAPSM_INIT`, `CAPSM_FIRE_BULK`, `img_data_cb` and `cancel_img_transfers`
(a completion being delivered only for a transfer in flight, and libusb refusing
to submit a transfer that is in flight), the number of pool transfers whose
`flying` flag is set equals `num_flying`, and `0 ≤ num_flying ≤ 24`. -/
theorem C11_flying_count (s : sonly_dev) (alloc_ok : Nat → Bool) (l : List Step)
    (hact : (dev_activate s alloc_ok).2 = 0)
    (hok : steps_ok (dev_activate s alloc_ok).1 l) :
    (steps (dev_activate s alloc_ok).1 l).num_flying =
      (count_flying (steps (dev_activate s alloc_ok).1 l) : Int) ∧
    0 ≤ (steps (dev_activate s alloc_ok).1 l).num_flying ∧
    (steps (dev_activate s alloc_ok).1 l).num_flying ≤ (NUM_BULK_TRANSFERS : Int) ∧
    NUM_BULK_TRANSFERS = 24 := by
  have h := steps_flyinv l _ (dev_activate_flyinv s alloc_ok hact) hok
  have hc : count_flying (steps (dev_activate s alloc_ok).1 l) ≤ NUM_BULK_TRANSFERS := by
    rw [← h.1]
    exact List.count_le_length _ _
  refine ⟨h.2, ?_, ?_, rfl⟩
  · rw [h.2]
    exact Int.natCast_nonneg _
  · rw [h.2]
    exact_mod_cast hc

theorem example_steps_ok :
    steps_ok (dev_activate example_fresh fun _ => true).1
      [Step.capsm_init, Step.capsm_fire_bulk fun _ => 0,
        Step.img_data_cb ⟨3, LIBUSB_TRANSFER_CANCELLED, [], 0⟩] := by
  show True ∧ (∀ i, i < NUM_BULK_TRANSFERS →
      (flying_flags (step (dev_activate example_fresh fun _ => true).1
        Step.capsm_init)).getD i false = true → (0 : Int) < 0) ∧
    (flying_flags (steps (dev_activate example_fresh fun _ => true).1
      [Step.capsm_init, Step.capsm_fire_bulk fun _ => 0])).getD 3 false = true ∧ True
  refine ⟨trivial, ?_, by decide, trivial⟩
  intro i _ hf
  have hfl : flying_flags (step (dev_activate example_fresh fun _ => true).1
      Step.capsm_init) = List.replicate 24 false := by decide
  rw [hfl, List.getD_eq_getElem?_getD, List.getElem?_replicate] at hf
  split at hf <;> cases hf

/-- Witness of C11: an activation, the start of a capture with all 24
submissions accepted, and the completion of transfer 3. -/
theorem C11_flying_count_witness :
    (steps (dev_activate example_fresh fun _ => true).1
      [Step.capsm_init, Step.capsm_fire_bulk fun _ => 0,
        Step.img_data_cb ⟨3, LIBUSB_TRANSFER_CANCELLED, [], 0⟩]).num_flying ≤ 24 :=
  (C11_flying_count example_fresh (fun _ => true)
    [Step.capsm_init, Step.capsm_fire_bulk fun _ => 0,
      Step.img_data_cb ⟨3, LIBUSB_TRANSFER_CANCELLED, [], 0⟩]
    (by decide) example_steps_ok).2.2.1

end Libfprint.Upeksonly
namespace Libfprint.Uru4000

/-! ## Press driver: status of register transfers -/

/-- C18: a register write or read that was submitted has its callback invoked
once, on completion; the status passed is 0 iff the transfer status is
`LIBUSB_TRANSFER_COMPLETED` and the actual length is the requested `wLength`,
`-EIO` for every other transfer status, and `-EPROTO` for a completed transfer
of another length; a read passes a data pointer exactly when the status is 0,
and it is then the data of the transfer. -/
theorem C18_register_io_status (s : uru4k_dev) (reg n : Nat) (values : List Nat) (io : IoReply)
    (ha : io.alloc_ok = true) (hs : ¬ io.submit_r < 0) :
    (∃ st, (write_regs s reg n values io).2.2 = some st ∧
      (st = 0 ↔ io.status = LIBUSB_TRANSFER_COMPLETED ∧ io.actual_length = n) ∧
      (io.status ≠ LIBUSB_TRANSFER_COMPLETED → st = - EIO) ∧
      (io.status = LIBUSB_TRANSFER_COMPLETED → io.actual_length ≠ n → st = -EPROTO)) ∧
    (∃ st data, (read_regs s reg n io).2.2 = some (st, data) ∧
      (st = 0 ↔ io.status = LIBUSB_TRANSFER_COMPLETED ∧ io.actual_length = n) ∧
      (io.status ≠ LIBUSB_TRANSFER_COMPLETED → st = - EIO) ∧
      (io.status = LIBUSB_TRANSFER_COMPLETED → io.actual_length ≠ n → st = -EPROTO) ∧
      (data ≠ none ↔ st = 0) ∧ (st = 0 → data = some io.data)) ∧
    EIO = 5 ∧ EPROTO = 71 := by
  refine ⟨⟨_, by rw [write_regs_ok s reg n values io ha hs], ?_, ?_, ?_⟩,
    ⟨_, _, by rw [read_regs_ok s reg n io ha hs], ?_, ?_, ?_, ?_, ?_⟩, rfl, rfl⟩
  · unfold write_regs_cb
    by_cases h1 : io.status = LIBUSB_TRANSFER_COMPLETED
    · by_cases h2 : io.actual_length = n
      · simp [h1, h2]
      · simp [h1, h2, EPROTO]
    · simp [h1, EIO]
  · intro h1
    simp [write_regs_cb, h1]
  · intro h1 h2
    simp [write_regs_cb, h1, h2]
  · unfold read_regs_cb
    by_cases h1 : io.status = LIBUSB_TRANSFER_COMPLETED
    · by_cases h2 : io.actual_length = n
      · simp [h1, h2]
      · simp [h1, h2, EPROTO]
    · simp [h1, EIO]
  · intro h1
    simp [read_regs_cb, h1]
  · intro h1 h2
    simp [read_regs_cb, h1, h2]
  · unfold read_regs_cb
    by_cases h1 : io.status = LIBUSB_TRANSFER_COMPLETED
    · by_cases h2 : io.actual_length = n
      · simp [h1, h2]
      · simp [h1, h2, EPROTO]
    · simp [h1, EIO]
  · unfold read_regs_cb
    by_cases h1 : io.status = LIBUSB_TRANSFER_COMPLETED
    · by_cases h2 : io.actual_length = n
      · simp [h1, h2]
      · simp [h1, h2, EPROTO]
    · simp [h1, EIO]

/-- Witness of C18: a one-byte transfer that completes in full. -/
theorem C18_register_io_status_witness :
    (write_regs example_press_ctx REG_MODE 1 [0x10] (read_ok [0x10] 1)).2.2 = some 0 ∧
    (read_regs example_press_ctx REG_MODE 1 (read_ok [0x10] 1)).2.2 = some (0, some [0x10]) := by
  obtain ⟨⟨st, h1, h2, -⟩, ⟨st2, d, h3, h4, -, -, -, h5⟩, -⟩ :=
    C18_register_io_status example_press_ctx REG_MODE 1 [0x10] (read_ok [0x10] 1) rfl
      (Int.lt_irrefl 0)
  have e1 : st = 0 := h2.2 ⟨rfl, rfl⟩
  have e2 : st2 = 0 := h4.2 ⟨rfl, rfl⟩
  rw [h1, h3, h5 e2, e1, e2]
  exact ⟨rfl, rfl⟩

/-! ## Press driver: state changes -/

theorem stop_imaging_loop_fields (s : uru4k_dev) :
    (stop_imaging_loop s).irq_transfer = s.irq_transfer ∧
    (stop_imaging_loop s).irq_cb = s.irq_cb ∧
    ((stop_imaging_loop s).trace = s.trace ∨
      (stop_imaging_loop s).trace = s.trace ++ [Event.cancel_img_transfer]) := by
  unfold stop_imaging_loop
  cases s.img_transfer
  · exact ⟨rfl, rfl, Or.inl rfl⟩
  · exact ⟨rfl, rfl, Or.inr rfl⟩

/-- C19: `dev_change_state` first stops the imaging loop (context `s1`); then,
for `AWAIT_FINGER_ON`, `CAPTURE` and `AWAIT_FINGER_OFF` it submits one write of
one byte to `REG_MODE` (0x4E) with the value 0x10, 0x20 and 0x12, installing
`finger_presence_irq_cb` for the two await states and clearing `irq_cb` for
`CAPTURE` (where it also restarts the imaging loop); for any other state it
returns `-EINVAL` and for an await state without a running interrupt listener
`-EIO`, in both cases leaving `s1` as it is, so without a register write. -/
theorem C19_press_change_state (s : uru4k_dev) (io_img io_wr : IoReply)
    (ha : io_wr.alloc_ok = true) :
    (s.irq_transfer = true →
      (dev_change_state s fp_imgdev_state.IMGDEV_STATE_AWAIT_FINGER_ON io_img io_wr).1 =
        { stop_imaging_loop s with
          irq_cb := some irq_cb_fn.finger_presence_irq_cb,
          trace := (stop_imaging_loop s).trace ++ [Event.ctrl_out 0x4E 1 [0x10] io_wr.submit_r] } ∧
      (dev_change_state s fp_imgdev_state.IMGDEV_STATE_AWAIT_FINGER_OFF io_img io_wr).1 =
        { stop_imaging_loop s with
          irq_cb := some irq_cb_fn.finger_presence_irq_cb,
          trace := (stop_imaging_loop s).trace ++
            [Event.ctrl_out 0x4E 1 [0x12] io_wr.submit_r] }) ∧
    (dev_change_state s fp_imgdev_state.IMGDEV_STATE_CAPTURE io_img io_wr).1 =
      { (start_imaging_loop { stop_imaging_loop s with irq_cb := none } io_img).1 with
        trace := (start_imaging_loop { stop_imaging_loop s with irq_cb := none } io_img).1.trace
          ++ [Event.ctrl_out 0x4E 1 [0x20] io_wr.submit_r] } ∧
    (start_imaging_loop { stop_imaging_loop s with irq_cb := none } io_img).1.irq_cb = none ∧
    (∀ v, dev_change_state s (fp_imgdev_state.other v) io_img io_wr =
      (stop_imaging_loop s, -EINVAL, none)) ∧
    (s.irq_transfer = false →
      dev_change_state s fp_imgdev_state.IMGDEV_STATE_AWAIT_FINGER_ON io_img io_wr =
        (stop_imaging_loop s, - EIO, none) ∧
      dev_change_state s fp_imgdev_state.IMGDEV_STATE_AWAIT_FINGER_OFF io_img io_wr =
        (stop_imaging_loop s, - EIO, none)) ∧
    ((stop_imaging_loop s).trace = s.trace ∨
      (stop_imaging_loop s).trace = s.trace ++ [Event.cancel_img_transfer]) ∧
    REG_MODE = 0x4E ∧ EINVAL = 22 ∧ EIO = 5 := by
  have hf := stop_imaging_loop_fields s
  refine ⟨?_, ?_, ?_, ?_, ?_, hf.2.2, rfl, rfl, rfl⟩
  · intro hi
    have hi2 : (stop_imaging_loop s).irq_transfer = true := by rw [hf.1, hi]
    constructor
    · simp [dev_change_state, hi2, write_reg, write_regs, ha, uru4k_dev.emit]
      split <;> rfl
    · simp [dev_change_state, hi2, write_reg, write_regs, ha, uru4k_dev.emit]
      split <;> rfl
  · simp [dev_change_state, write_reg, write_regs, ha, uru4k_dev.emit]
    split <;> rfl
  · unfold start_imaging_loop
    cases io_img.alloc_ok <;> rfl
  · intro v
    rfl
  · intro hi
    have hi2 : (stop_imaging_loop s).irq_transfer = false := by rw [hf.1, hi]
    simp [dev_change_state, hi2]

/-- Witness of C19: the context left by `dev_init`, which has no interrupt
listener and no image transfer; the change to `CAPTURE` writes 0x20. -/
theorem C19_press_change_state_witness :
    (dev_change_state example_press_ctx fp_imgdev_state.IMGDEV_STATE_CAPTURE
      (read_ok [] 0) (write_ok 1)).1.trace =
      [Event.bulk_in 0x82 0x1b340 0, Event.ctrl_out 0x4E 1 [0x20] 0] := by
  have h := (C19_press_change_state example_press_ctx (read_ok [] 0) (write_ok 1) rfl).2.1
  rw [h]
  rfl

/-! ## Press driver: the first image after the change to `CAPTURE` -/

/-- C20 (as stated) fails: in `example_capture_ctx`, an image transfer that
completes with the full requested length 0x1B340 leads to no image: the only
call is `session_error (-EPROTO)`. -/
theorem C20_counterexample :
    DATABLK_RQLEN = 0x1B340 ∧ example_full_buffer.length = DATABLK_RQLEN ∧
    (image_cb example_capture_ctx LIBUSB_TRANSFER_COMPLETED DATABLK_RQLEN example_full_buffer
      (read_ok [] 0)).trace = example_capture_ctx.trace ++ [Event.session_error (-71)] ∧
    ∀ d f, Event.image_captured d f ∉
      (image_cb example_capture_ctx LIBUSB_TRANSFER_COMPLETED DATABLK_RQLEN example_full_buffer
        (read_ok [] 0)).trace := by
  have h : (image_cb example_capture_ctx LIBUSB_TRANSFER_COMPLETED DATABLK_RQLEN
      example_full_buffer (read_ok [] 0)).trace =
      example_capture_ctx.trace ++ [Event.session_error (-71)] := by
    unfold image_cb
    dsimp only
    rw [if_neg (by decide), if_neg (by simp), if_neg (by decide), if_pos (by decide),
      image_cb_out_error _ _ (by decide)]
    rfl
  refine ⟨rfl, List.length_replicate _ _, h, ?_⟩
  intro d f hm
  rw [h] at hm
  have ht : example_capture_ctx.trace =
      [Event.bulk_in 0x82 0x1b340 0, Event.ctrl_out 0x4E 1 [0x20] 0] := rfl
  rw [ht] at hm
  simp at hm

/-- C20 (amended): after `dev_change_state` to `CAPTURE` (which requests
`DATABLK_RQLEN` = 0x1B340 bytes), an image transfer that completes with
`DATABLK_EXPECT` = 0x1B1C0 bytes yields the image `buffer[64 ..]` with the press
flags through `image_captured`, one of 0x1B180 bytes yields the image
`buffer[0 ..]`, and one of the full requested 0x1B340 bytes yields no image but
`session_error (-EPROTO)`. -/
theorem C20_press_first_image (s : uru4k_dev) (buffer : List Nat) (io_img io_wr io : IoReply) :
    (image_cb (dev_change_state s fp_imgdev_state.IMGDEV_STATE_CAPTURE io_img io_wr).1
        LIBUSB_TRANSFER_COMPLETED DATABLK_EXPECT buffer io).trace =
      (dev_change_state s fp_imgdev_state.IMGDEV_STATE_CAPTURE io_img io_wr).1.trace ++
        Event.image_captured (framed buffer 64) press_flags :: restart_events io ∧
    (image_cb (dev_change_state s fp_imgdev_state.IMGDEV_STATE_CAPTURE io_img io_wr).1
        LIBUSB_TRANSFER_COMPLETED (DATABLK_EXPECT - 64) buffer io).trace =
      (dev_change_state s fp_imgdev_state.IMGDEV_STATE_CAPTURE io_img io_wr).1.trace ++
        Event.image_captured (framed buffer 0) press_flags :: restart_events io ∧
    (image_cb (dev_change_state s fp_imgdev_state.IMGDEV_STATE_CAPTURE io_img io_wr).1
        LIBUSB_TRANSFER_COMPLETED DATABLK_RQLEN buffer io).trace =
      (dev_change_state s fp_imgdev_state.IMGDEV_STATE_CAPTURE io_img io_wr).1.trace ++
        [Event.session_error (-EPROTO)] ∧
    (io_img.alloc_ok = true → Event.bulk_in EP_DATA DATABLK_RQLEN io_img.submit_r ∈
      (dev_change_state s fp_imgdev_state.IMGDEV_STATE_CAPTURE io_img io_wr).1.trace) ∧
    DATABLK_EXPECT = 0x1B1C0 ∧ DATABLK_RQLEN = 0x1B340 ∧
    press_flags = [ImgFlag.FP_IMG_V_FLIPPED, ImgFlag.FP_IMG_H_FLIPPED,
      ImgFlag.FP_IMG_COLORS_INVERTED] := by
  refine ⟨?_, ?_, ?_, ?_, rfl, rfl, rfl⟩
  · unfold image_cb
    dsimp only
    rw [if_neg (by decide), if_neg (by simp), if_neg (by decide), if_neg (by simp),
      image_cb_capture_trace]
    rfl
  · unfold image_cb
    dsimp only
    rw [if_neg (by decide), if_neg (by simp), if_pos (by decide), image_cb_capture_trace]
  · unfold image_cb
    dsimp only
    rw [if_neg (by decide), if_neg (by simp), if_neg (by decide), if_pos (by decide),
      image_cb_out_error _ _ (by decide)]
  · intro ha
    unfold dev_change_state
    dsimp only
    unfold write_reg write_regs start_imaging_loop
    simp only [ha]
    cases io_wr.alloc_ok
    · simp [uru4k_dev.emit]
    · simp only [Bool.not_true, Bool.false_eq_true, if_false]
      split <;> simp [uru4k_dev.emit]

end Libfprint.Uru4000

namespace Libfprint.Uru4000

/-! ## Press driver: the interrupt handler -/

theorem start_irq_handler_ok (s : uru4k_dev) (io : IoReply) (ha : io.alloc_ok = true)
    (hr : io.submit_r = 0) :
    start_irq_handler s io =
      ({ s with irq_transfer := true,
                trace := s.trace ++ [Event.bulk_in EP_INTR IRQ_LENGTH 0] }, 0) := by
  unfold start_irq_handler
  simp [ha, hr, uru4k_dev.emit]

theorem irq_handler_completed (host : uru4k_dev → IrqCall → uru4k_dev) (s : uru4k_dev)
    (data : List Nat) (io : IoReply) :
    irq_handler host s LIBUSB_TRANSFER_COMPLETED IRQ_LENGTH data io =
      if (start_irq_handler (irq_handler_dispatch host s
          ((data.getD 0 0 * 256 + data.getD 1 0) % 65536)).1 io).2 = 0 then
        ((start_irq_handler (irq_handler_dispatch host s
          ((data.getD 0 0 * 256 + data.getD 1 0) % 65536)).1 io).1,
          (irq_handler_dispatch host s ((data.getD 0 0 * 256 + data.getD 1 0) % 65536)).2)
      else
        irq_handler_err host
          (start_irq_handler (irq_handler_dispatch host s
            ((data.getD 0 0 * 256 + data.getD 1 0) % 65536)).1 io).1
          (irq_handler_dispatch host s ((data.getD 0 0 * 256 + data.getD 1 0) % 65536)).2
          (start_irq_handler (irq_handler_dispatch host s
            ((data.getD 0 0 * 256 + data.getD 1 0) % 65536)).1 io).2 := by
  unfold irq_handler
  rw [if_neg (by decide), if_neg (by simp), if_neg (by simp)]

theorem dispatched_dispatch (host : uru4k_dev → IrqCall → uru4k_dev) (s : uru4k_dev)
    (type : Nat) :
    dispatched (irq_handler_dispatch host s type).2 = (irq_handler_dispatch host s type).2 := by
  unfold irq_handler_dispatch dispatched
  cases s.irq_cb <;> simp

theorem dispatched_err (host : uru4k_dev → IrqCall → uru4k_dev) (s : uru4k_dev)
    (calls : List IrqCall) (r : Int) (hr : r ≠ 0) :
    dispatched (irq_handler_err host s calls r).2 = dispatched calls := by
  unfold irq_handler_err dispatched
  cases s.irq_cb <;> simp [hr]

/-- C24: for an interrupt transfer that completes with status COMPLETED and
full length, and whose first two bytes are `b0`, `b1`: `irq_cb`, if set, is
called with status 0 and type `256 * b0 + b1`, and that is the only call that
reports status 0, whatever the re-arming gives; then one interrupt transfer is
submitted (here allocated and accepted), and the listener keeps running.  With
`irq_cb` null nothing is called and the transfer is submitted all the same.
The type `IRQDATA_DEATH` (0x0800) is treated like any other: neither
`finger_presence_irq_cb` nor `init_scanpwr_irq_cb` reports an error for it. -/
theorem C24_irq_dispatch (host : uru4k_dev → IrqCall → uru4k_dev) (s : uru4k_dev)
    (b0 b1 : Nat) (rest : List Nat) (io : IoReply) (hb0 : b0 < 256) (hb1 : b1 < 256)
    (ha : io.alloc_ok = true) (hr : io.submit_r = 0) :
    (∀ f, s.irq_cb = some f →
      irq_handler host s LIBUSB_TRANSFER_COMPLETED IRQ_LENGTH (b0 :: b1 :: rest) io =
        ({ host s (IrqCall.irq_cb f 0 (256 * b0 + b1)) with
            irq_transfer := true,
            trace := (host s (IrqCall.irq_cb f 0 (256 * b0 + b1))).trace ++
              [Event.bulk_in EP_INTR IRQ_LENGTH 0] },
          [IrqCall.irq_cb f 0 (256 * b0 + b1)])) ∧
    (s.irq_cb = none →
      irq_handler host s LIBUSB_TRANSFER_COMPLETED IRQ_LENGTH (b0 :: b1 :: rest) io =
        ({ s with irq_transfer := true,
                  trace := s.trace ++ [Event.bulk_in EP_INTR IRQ_LENGTH 0] }, [])) ∧
    (∀ io2 : IoReply,
      dispatched (irq_handler host s LIBUSB_TRANSFER_COMPLETED IRQ_LENGTH
          (b0 :: b1 :: rest) io2).2 =
        match s.irq_cb with
        | some f => [IrqCall.irq_cb f 0 (256 * b0 + b1)]
        | none => []) ∧
    (∀ t : uru4k_dev, finger_presence_irq_cb t 0 IRQDATA_DEATH = t) ∧
    (∀ n, init_scanpwr_irq_cb n 0 IRQDATA_DEATH = []) ∧
    IRQDATA_DEATH = 0x0800 ∧ EP_INTR = 0x81 := by
  have hty : ((b0 :: b1 :: rest).getD 0 0 * 256 + (b0 :: b1 :: rest).getD 1 0) % 65536 =
      256 * b0 + b1 := by
    simp only [List.getD_cons_zero, List.getD_cons_succ]
    omega
  refine ⟨?_, ?_, ?_, fun t => by unfold finger_presence_irq_cb; simp [IRQDATA_DEATH, IRQDATA_FINGER_ON, IRQDATA_FINGER_OFF], fun n => rfl, rfl, rfl⟩
  · intro f hf
    rw [irq_handler_completed, hty]
    have hd : irq_handler_dispatch host s (256 * b0 + b1) =
        (host s (IrqCall.irq_cb f 0 (256 * b0 + b1)), [IrqCall.irq_cb f 0 (256 * b0 + b1)]) := by
      unfold irq_handler_dispatch
      rw [hf]
    rw [hd, start_irq_handler_ok _ io ha hr]
    rfl
  · intro hn
    rw [irq_handler_completed, hty]
    have hd : irq_handler_dispatch host s (256 * b0 + b1) = (s, []) := by
      unfold irq_handler_dispatch
      rw [hn]
    rw [hd, start_irq_handler_ok _ io ha hr]
    rfl
  · intro io2
    rw [irq_handler_completed, hty]
    have hd : (irq_handler_dispatch host s (256 * b0 + b1)).2 =
        match s.irq_cb with
        | some f => [IrqCall.irq_cb f 0 (256 * b0 + b1)]
        | none => [] := by
      unfold irq_handler_dispatch
      cases s.irq_cb <;> rfl
    split
    · rw [dispatched_dispatch, hd]
    · rename_i hne
      rw [dispatched_err _ _ _ _ hne, dispatched_dispatch, hd]

/-- Witness of C24: the interrupt `01 01` (finger on) while
`finger_presence_irq_cb` is installed. -/
theorem C24_irq_dispatch_witness :
    (irq_handler driver_callbacks example_listening LIBUSB_TRANSFER_COMPLETED IRQ_LENGTH
      (1 :: 1 :: List.replicate 62 0) (read_ok [] 64)).2 =
      [IrqCall.irq_cb irq_cb_fn.finger_presence_irq_cb 0 257] := by
  have h := (C24_irq_dispatch driver_callbacks example_listening 1 1 (List.replicate 62 0)
    (read_ok [] 64) (by decide) (by decide) rfl rfl).1 irq_cb_fn.finger_presence_irq_cb
    (by decide)
  rw [h]

/-- C25: when the interrupt transfer completes with status CANCELLED,
`irqs_stopped_cb`, if set, is called once and cleared, `irq_cb` is not called,
no interrupt transfer is submitted (the context is the one the callback left,
or the old one), and `irq_transfer` is null. -/
theorem C25_irq_cancelled (host : uru4k_dev → IrqCall → uru4k_dev) (s : uru4k_dev)
    (actual_length : Nat) (data : List Nat) (io : IoReply) :
    (∀ f, s.irqs_stopped_cb = some f →
      irq_handler host s LIBUSB_TRANSFER_CANCELLED actual_length data io =
        ({ host s (IrqCall.irqs_stopped_cb f) with
            irqs_stopped_cb := none, irq_transfer := false },
          [IrqCall.irqs_stopped_cb f])) ∧
    (s.irqs_stopped_cb = none →
      irq_handler host s LIBUSB_TRANSFER_CANCELLED actual_length data io =
        ({ s with irqs_stopped_cb := none, irq_transfer := false }, [])) ∧
    (irq_handler host s LIBUSB_TRANSFER_CANCELLED actual_length data io).1.irq_transfer
      = false ∧
    (irq_handler host s LIBUSB_TRANSFER_CANCELLED actual_length data io).1.irqs_stopped_cb
      = none ∧
    (∀ f st ty, IrqCall.irq_cb f st ty ∉
      (irq_handler host s LIBUSB_TRANSFER_CANCELLED actual_length data io).2) ∧
    (∀ t : uru4k_dev, t.irq_transfer = true →
      (irq_handler driver_callbacks (stop_irq_handler t irqs_stopped_cb_fn.deactivate_irqs_stopped)
        LIBUSB_TRANSFER_CANCELLED actual_length data io).1.trace =
        t.trace ++ [Event.cancel_irq_transfer, Event.deactivate_complete]) := by
  refine ⟨?_, ?_, ?_, ?_, ?_, ?_⟩
  · intro f hf
    unfold irq_handler
    rw [if_pos rfl, hf]
  · intro hn
    unfold irq_handler
    rw [if_pos rfl, hn]
  · unfold irq_handler
    rw [if_pos rfl]
    cases s.irqs_stopped_cb <;> rfl
  · unfold irq_handler
    rw [if_pos rfl]
    cases s.irqs_stopped_cb <;> rfl
  · intro f st ty
    unfold irq_handler
    rw [if_pos rfl]
    cases s.irqs_stopped_cb <;> simp
  · intro t ht
    unfold irq_handler stop_irq_handler
    rw [if_pos rfl, if_pos ht]
    simp [driver_callbacks, deactivate_irqs_stopped, uru4k_dev.emit]

end Libfprint.Uru4000

namespace Libfprint.Uru4000

/-! ## Press driver: deactivation -/

theorem sm_write_reg_ok (s : uru4k_dev) (reg value : Nat) :
    sm_write_reg s reg value (write_ok 1) =
      (s.emit (Event.ctrl_out reg 1 [value] 0), [SsmCall.next_state]) := by
  unfold sm_write_reg write_reg
  rw [write_regs_ok _ _ _ _ _ rfl (Int.lt_irrefl 0)]
  rfl

/-- The deinit machine when both writes are accepted and complete. -/
theorem deinit_exec_ok (io : Nat → Nat → IoReply) (f : Nat) (s : uru4k_dev)
    (h0 : io 0 0 = write_ok 1) (h1 : io 1 0 = write_ok 1) :
    ssm_exec DEINIT_NUM_STATES deinit_run_state io (f + 2) s DEINIT_SET_MODE_INIT =
      ({ s with trace := s.trace ++
          [Event.ctrl_out REG_MODE 1 [0x00] 0, Event.ctrl_out REG_HWSTAT 1 [0x80] 0] },
        some SsmOutcome.completed) := by
  rw [ssm_exec]
  simp only [deinit_run_state, sm_set_mode, h0, sm_write_reg_ok, if_pos, DEINIT_SET_MODE_INIT]
  rw [if_neg (by decide), ssm_exec]
  simp only [deinit_run_state, sm_set_hwstat, h1, sm_write_reg_ok, DEINIT_SET_MODE_INIT,
    DEINIT_POWERDOWN]
  simp [DEINIT_NUM_STATES, uru4k_dev.emit, MODE_INIT]

theorem dev_deactivate_ok (io : Nat → Nat → IoReply) (f : Nat) (s : uru4k_dev)
    (h0 : io 0 0 = write_ok 1) (h1 : io 1 0 = write_ok 1) :
    dev_deactivate s io (f + 2) =
      (stop_irq_handler
        { stop_imaging_loop s with
          irq_cb := none,
          trace := (stop_imaging_loop s).trace ++
            [Event.ctrl_out REG_MODE 1 [0x00] 0, Event.ctrl_out REG_HWSTAT 1 [0x80] 0] }
        irqs_stopped_cb_fn.deactivate_irqs_stopped, some SsmOutcome.completed) := by
  unfold dev_deactivate
  dsimp only
  rw [deinit_exec_ok io f _ h0 h1]
  rfl

/-- C26: with both register writes accepted and completing, `dev_deactivate`
writes 0x00 to `REG_MODE` and then 0x80 to `REG_HWSTAT`.  When the interrupt
listener is running it is then cancelled, and the completion of the cancelled
transfer reports `deactivate_complete`, once.  When the listener is not running
(`irq_transfer` null, as in `example_irq_failed`, after an interrupt transfer
that completed with an error), `stop_irq_handler` does nothing: no callback is
installed, no transfer is pending, and `deactivate_complete` is not reported. -/
theorem C26_deactivate_without_listener :
    (∀ (s : uru4k_dev) (io : Nat → Nat → IoReply) (f : Nat) (len : Nat) (data : List Nat)
        (io2 : IoReply),
      io 0 0 = write_ok 1 → io 1 0 = write_ok 1 → s.irq_transfer = true →
      (dev_deactivate s io (f + 2)).1.trace =
        (stop_imaging_loop s).trace ++
          [Event.ctrl_out 0x4E 1 [0x00] 0, Event.ctrl_out 0x07 1 [0x80] 0,
            Event.cancel_irq_transfer] ∧
      (irq_handler driver_callbacks (dev_deactivate s io (f + 2)).1
          LIBUSB_TRANSFER_CANCELLED len data io2).1.trace =
        (stop_imaging_loop s).trace ++
          [Event.ctrl_out 0x4E 1 [0x00] 0, Event.ctrl_out 0x07 1 [0x80] 0,
            Event.cancel_irq_transfer, Event.deactivate_complete]) ∧
    (∀ (s : uru4k_dev) (io : Nat → Nat → IoReply) (f : Nat),
      io 0 0 = write_ok 1 → io 1 0 = write_ok 1 → s.irq_transfer = false →
      (dev_deactivate s io (f + 2)).1.trace =
        (stop_imaging_loop s).trace ++
          [Event.ctrl_out 0x4E 1 [0x00] 0, Event.ctrl_out 0x07 1 [0x80] 0] ∧
      (dev_deactivate s io (f + 2)).1.irqs_stopped_cb = s.irqs_stopped_cb ∧
      (dev_deactivate s io (f + 2)).1.irq_transfer = false) ∧
    example_irq_failed.irq_transfer = false ∧
    example_irq_failed.irqs_stopped_cb = none ∧
    (dev_deactivate example_irq_failed (fun _ _ => write_ok 1) 2).1.trace =
      example_irq_failed.trace ++
        [Event.ctrl_out 0x4E 1 [0x00] 0, Event.ctrl_out 0x07 1 [0x80] 0] ∧
    (dev_deactivate example_irq_failed (fun _ _ => write_ok 1) 2).1.irqs_stopped_cb = none ∧
    (dev_deactivate example_irq_failed (fun _ _ => write_ok 1) 2).1.irq_transfer = false ∧
    Event.deactivate_complete ∉
      (dev_deactivate example_irq_failed (fun _ _ => write_ok 1) 2).1.trace := by
  have hst : ∀ s : uru4k_dev, (stop_imaging_loop s).irq_transfer = s.irq_transfer ∧
      (stop_imaging_loop s).irqs_stopped_cb = s.irqs_stopped_cb := by
    intro s
    unfold stop_imaging_loop
    cases s.img_transfer <;> exact ⟨rfl, rfl⟩
  refine ⟨?_, ?_, by decide, by decide, by decide, by decide, by decide, by decide⟩
  · intro s io f len data io2 h0 h1 hirq
    rw [dev_deactivate_ok io f s h0 h1]
    have hrun : ({ stop_imaging_loop s with
          irq_cb := none,
          trace := (stop_imaging_loop s).trace ++
            [Event.ctrl_out REG_MODE 1 [0x00] 0, Event.ctrl_out REG_HWSTAT 1 [0x80] 0] }
        : uru4k_dev).irq_transfer = true := by
      show (stop_imaging_loop s).irq_transfer = true
      rw [(hst s).1, hirq]
    constructor
    · unfold stop_irq_handler
      rw [if_pos hrun]
      simp [uru4k_dev.emit, REG_MODE, REG_HWSTAT]
    · unfold irq_handler stop_irq_handler
      rw [if_pos rfl, if_pos hrun]
      simp [driver_callbacks, deactivate_irqs_stopped, uru4k_dev.emit, REG_MODE,
        REG_HWSTAT]
  · intro s io f h0 h1 hirq
    rw [dev_deactivate_ok io f s h0 h1]
    have hrun : ¬ ({ stop_imaging_loop s with
          irq_cb := none,
          trace := (stop_imaging_loop s).trace ++
            [Event.ctrl_out REG_MODE 1 [0x00] 0, Event.ctrl_out REG_HWSTAT 1 [0x80] 0] }
        : uru4k_dev).irq_transfer = true := by
      show ¬ (stop_imaging_loop s).irq_transfer = true
      rw [(hst s).1, hirq]
      decide
    unfold stop_irq_handler
    rw [if_neg hrun]
    exact ⟨rfl, (hst s).2, by show (stop_imaging_loop s).irq_transfer = false; rw [(hst s).1, hirq]⟩

end Libfprint.Uru4000

namespace Libfprint.Uru4000

/-! ## Press driver: opening the device -/

/-- What `find_interface` finds is the first altsetting of an interface of the
list, with class, subclass and protocol 255. -/
theorem find_interface_some (l : List libusb_interface) (d : libusb_interface_descriptor)
    (h : find_interface l = some d) :
    (∃ i ∈ l, i.altsetting.head? = some d) ∧
    d.bInterfaceClass = 255 ∧ d.bInterfaceSubClass = 255 ∧ d.bInterfaceProtocol = 255 := by
  induction l with
  | nil => simp [find_interface] at h
  | cons i rest ih =>
    unfold find_interface at h
    cases ha : i.altsetting with
    | nil =>
      rw [ha] at h
      obtain ⟨⟨j, hj, hd⟩, hc⟩ := ih h
      exact ⟨⟨j, List.mem_cons_of_mem _ hj, hd⟩, hc⟩
    | cons a as =>
      rw [ha] at h
      dsimp only at h
      split at h
      · rename_i hc
        cases h
        exact ⟨⟨i, List.mem_cons_self _ _, by rw [ha]; rfl⟩, hc⟩
      · obtain ⟨⟨j, hj, hd⟩, hc⟩ := ih h
        exact ⟨⟨j, List.mem_cons_of_mem _ hj, hd⟩, hc⟩

/-- An interface list with a vendor-specific first altsetting has one found. -/
theorem find_interface_none (l : List libusb_interface) (h : find_interface l = none)
    (i : libusb_interface) (hi : i ∈ l) (d : libusb_interface_descriptor)
    (hd : i.altsetting.head? = some d) :
    ¬ (d.bInterfaceClass = 255 ∧ d.bInterfaceSubClass = 255 ∧ d.bInterfaceProtocol = 255) := by
  induction l with
  | nil => cases hi
  | cons j rest ih =>
    unfold find_interface at h
    cases ha : j.altsetting with
    | nil =>
      rw [ha] at h
      rcases List.mem_cons.mp hi with rfl | hi2
      · rw [ha] at hd
        cases hd
      · exact ih h hi2
    | cons a as =>
      rw [ha] at h
      dsimp only at h
      split at h
      · cases h
      · rename_i hc
        rcases List.mem_cons.mp hi with rfl | hi2
        · rw [ha] at hd
          cases hd
          exact hc
        · exact ih h hi2

/-- The endpoint checks of `dev_init` pass exactly for a fingerprint interface. -/
theorem dev_init_found (aes : Aes) (auth_cr : Bool) (config : libusb_config_descriptor)
    (claim_r : Int) (d : libusb_interface_descriptor)
    (h : find_interface config.interface = some d) :
    dev_init aes auth_cr (Except.ok config) claim_r =
      if fingerprint_interface d then
        (if claim_r < 0 then
          (claim_r, [InitCall.claim_interface d.bInterfaceNumber claim_r], none)
        else
          (claim_r, [InitCall.claim_interface d.bInterfaceNumber claim_r,
            InitCall.open_complete 0], some (dev_init_context aes auth_cr)))
      else (-ENODEV, [], none) := by
  obtain ⟨_, hc1, hc2, hc3⟩ := find_interface_some _ _ h
  unfold dev_init
  simp only [h]
  by_cases hfp : fingerprint_interface d
  · have hfp2 := hfp
    obtain ⟨_, _, _, g0, g1, g2, g3, g4⟩ := hfp2
    rw [if_neg (by rw [g0]; decide),
      if_neg (fun hh => hh.elim (fun h1 => h1 g1) (fun h2 => h2 g2)),
      if_neg (fun hh => hh.elim (fun h1 => h1 g3) (fun h2 => h2 g4)),
      if_pos hfp]
  · rw [if_neg hfp]
    by_cases hl : d.endpoint.length ≠ 2
    · rw [if_pos hl]
    · rw [if_neg hl]
      by_cases h1 : (d.endpoint.getD 0 default).bEndpointAddress ≠ EP_INTR
          ∨ (d.endpoint.getD 0 default).bmAttributes &&& LIBUSB_TRANSFER_TYPE_MASK
            ≠ LIBUSB_TRANSFER_TYPE_INTERRUPT
      · rw [if_pos h1]
      · rw [if_neg h1]
        by_cases h2 : (d.endpoint.getD 1 default).bEndpointAddress ≠ EP_DATA
            ∨ (d.endpoint.getD 1 default).bmAttributes &&& LIBUSB_TRANSFER_TYPE_MASK
              ≠ LIBUSB_TRANSFER_TYPE_BULK
        · rw [if_pos h2]
        · exfalso
          apply hfp
          simp only [not_or, not_not, ne_eq] at h1 h2 hl
          exact ⟨hc1, hc2, hc3, hl, h1.1, h1.2, h2.1, h2.2⟩

/-- C28 (as stated) fails: `example_config` contains a fingerprint interface
(its second interface), but `dev_init` stops at the first interface with class,
subclass and protocol 255, which has a single endpoint, and returns `-ENODEV`
without claiming an interface. -/
theorem C28_counterexample :
    has_fingerprint_interface example_config ∧
    dev_init example_aes false (Except.ok example_config) 0 = (-19, [], none) := by
  refine ⟨⟨example_fp_interface 1, by simp [example_config], _, rfl, ?_⟩, by decide⟩
  decide

/-- C28 (amended): `dev_init` looks at the first interface (in index order)
whose first altsetting has class, subclass and protocol 255.  When that
altsetting has exactly two endpoints, an interrupt endpoint at 0x81 followed by
a bulk endpoint at 0x82, and `libusb_claim_interface` succeeds, `dev_init`
claims that interface and reports open complete with status 0; when there is
no such interface or its endpoints are different, it returns `-ENODEV` and
makes no call.  In particular it returns `-ENODEV` without a claim when the
configuration contains no fingerprint interface. -/
theorem C28_open_first_interface (aes : Aes) (auth_cr : Bool)
    (config : libusb_config_descriptor) (claim_r : Int) (hclaim : ¬ claim_r < 0) :
    (∀ d, find_interface config.interface = some d → fingerprint_interface d →
      dev_init aes auth_cr (Except.ok config) claim_r =
        (claim_r, [InitCall.claim_interface d.bInterfaceNumber claim_r,
          InitCall.open_complete 0], some (dev_init_context aes auth_cr))) ∧
    (∀ d, find_interface config.interface = some d → ¬ fingerprint_interface d →
      dev_init aes auth_cr (Except.ok config) claim_r = (-ENODEV, [], none)) ∧
    (find_interface config.interface = none →
      dev_init aes auth_cr (Except.ok config) claim_r = (-ENODEV, [], none)) ∧
    (¬ has_fingerprint_interface config →
      dev_init aes auth_cr (Except.ok config) claim_r = (-ENODEV, [], none)) ∧
    (∀ d, find_interface config.interface = some d →
      ∃ i ∈ config.interface, i.altsetting.head? = some d) ∧
    ENODEV = 19 := by
  refine ⟨?_, ?_, ?_, ?_, fun d h => (find_interface_some _ _ h).1, rfl⟩
  · intro d h hfp
    rw [dev_init_found aes auth_cr config claim_r d h, if_pos hfp, if_neg hclaim]
  · intro d h hfp
    rw [dev_init_found aes auth_cr config claim_r d h, if_neg hfp]
  · intro h
    unfold dev_init
    simp only [h]
  · intro hno
    cases h : find_interface config.interface with
    | none =>
      unfold dev_init
      simp only [h]
    | some d =>
      rw [dev_init_found aes auth_cr config claim_r d h, if_neg]
      intro hfp
      obtain ⟨⟨i, hi, hd⟩, _⟩ := find_interface_some _ _ h
      exact hno ⟨i, hi, d, hd, hfp⟩

/-- Witness of C28 (amended): a configuration whose only interface is the
reader. -/
theorem C28_open_first_interface_witness :
    dev_init example_aes false (Except.ok { interface := [example_fp_interface 0] }) 0 =
      (0, [InitCall.claim_interface 0 0, InitCall.open_complete 0],
        some (dev_init_context example_aes false)) :=
  (C28_open_first_interface example_aes false { interface := [example_fp_interface 0] } 0
    (Int.lt_irrefl 0)).1 _ rfl (by decide)

end Libfprint.Uru4000

namespace Libfprint.Uru4000

/-! ## Press driver: the reboot-power machine -/

theorem sm_read_reg_ok (s : uru4k_dev) (reg b : Nat) :
    sm_read_reg s reg (read_ok [b] 1) =
      ({ s.emit (Event.ctrl_in reg 1 0) with last_reg_rd := b }, [SsmCall.next_state]) := by
  unfold sm_read_reg read_reg
  rw [read_regs_ok _ _ _ _ rfl (Int.lt_irrefl 0)]
  simp [read_ok, read_regs_cb, sm_read_reg_cb]

theorem polls_needed_le (limit : Nat) : ∀ ok : Nat → Bool, polls_needed ok limit ≤ limit := by
  induction limit with
  | zero => intro ok; simp [polls_needed]
  | succ l ih =>
    intro ok
    unfold polls_needed
    split
    · omega
    · have := ih (fun j => ok (j + 1)); omega

theorem polls_needed_fail (limit : Nat) :
    ∀ (ok : Nat → Bool) (j : Nat), j < polls_needed ok limit → ok j = false := by
  induction limit with
  | zero => intro ok j h; simp [polls_needed] at h
  | succ l ih =>
    intro ok j h
    unfold polls_needed at h
    by_cases h0 : ok 0 = true
    · rw [if_pos h0] at h; omega
    · rw [if_neg h0] at h
      cases j with
      | zero => simpa using h0
      | succ j => exact ih (fun j => ok (j + 1)) j (by omega)

theorem polls_needed_good (limit : Nat) :
    ∀ ok : Nat → Bool, polls_needed ok limit < limit → ok (polls_needed ok limit) = true := by
  induction limit with
  | zero => intro ok h; simp [polls_needed] at h
  | succ l ih =>
    intro ok h
    unfold polls_needed at h ⊢
    by_cases h0 : ok 0 = true
    · rw [if_pos h0]; exact h0
    · rw [if_neg h0] at h ⊢
      exact ih (fun j => ok (j + 1)) (by omega)

theorem reboot_polls_succ (n : Nat) :
    reboot_polls (n + 1) =
      [Event.ctrl_in REG_HWSTAT 1 0, Event.timeout_add 10] ++ reboot_polls n := by
  simp [reboot_polls, List.replicate_succ]

theorem reads_append (a b : List Event) : reads (a ++ b) = reads a + reads b := by
  simp [reads]

theorem writes_append (a b : List Event) : writes (a ++ b) = writes a + writes b := by
  simp [writes]

theorem reboot_polls_reads (n : Nat) : reads (reboot_polls n) = n ∧ writes (reboot_polls n) = 0 := by
  induction n with
  | zero => exact ⟨rfl, rfl⟩
  | succ n ih =>
    rw [reboot_polls_succ, reads_append, writes_append, ih.1, ih.2]
    constructor
    · show 1 + n = n + 1
      omega
    · rfl

/-! ### Steps of the state-machine runtime -/

theorem ssm_exec_next (nr : Nat)
    (handler : uru4k_dev → Nat → (Nat → IoReply) → uru4k_dev × List SsmCall)
    (io : Nat → Nat → IoReply) (f : Nat) (s t : uru4k_dev) (cur nx : Nat)
    (h : handler s cur (io 0) = (t, [SsmCall.next_state])) (hnx : cur + 1 = nx)
    (hne : nx ≠ nr) :
    ssm_exec nr handler io (f + 1) s cur =
      ssm_exec nr handler (fun k => io (k + 1)) f t nx := by
  subst hnx
  rw [ssm_exec, h]
  simp [hne]

theorem ssm_exec_last (nr : Nat)
    (handler : uru4k_dev → Nat → (Nat → IoReply) → uru4k_dev × List SsmCall)
    (io : Nat → Nat → IoReply) (f : Nat) (s t : uru4k_dev) (cur : Nat)
    (h : handler s cur (io 0) = (t, [SsmCall.next_state])) (hne : cur + 1 = nr) :
    ssm_exec nr handler io (f + 1) s cur = (t, some SsmOutcome.completed) := by
  rw [ssm_exec, h]
  simp [hne]

theorem ssm_exec_jump (nr : Nat)
    (handler : uru4k_dev → Nat → (Nat → IoReply) → uru4k_dev × List SsmCall)
    (io : Nat → Nat → IoReply) (f : Nat) (s t : uru4k_dev) (cur n : Nat)
    (h : handler s cur (io 0) = (t, [SsmCall.jump_to_state n])) :
    ssm_exec nr handler io (f + 1) s cur =
      ssm_exec nr handler (fun k => io (k + 1)) f t n := by
  rw [ssm_exec, h]

theorem ssm_exec_completed (nr : Nat)
    (handler : uru4k_dev → Nat → (Nat → IoReply) → uru4k_dev × List SsmCall)
    (io : Nat → Nat → IoReply) (f : Nat) (s t : uru4k_dev) (cur : Nat)
    (h : handler s cur (io 0) = (t, [SsmCall.mark_completed])) :
    ssm_exec nr handler io (f + 1) s cur = (t, some SsmOutcome.completed) := by
  rw [ssm_exec, h]

theorem ssm_exec_aborted (nr : Nat)
    (handler : uru4k_dev → Nat → (Nat → IoReply) → uru4k_dev × List SsmCall)
    (io : Nat → Nat → IoReply) (f : Nat) (s t : uru4k_dev) (cur : Nat) (e : Int)
    (h : handler s cur (io 0) = (t, [SsmCall.mark_aborted e])) :
    ssm_exec nr handler io (f + 1) s cur = (t, some (SsmOutcome.aborted e)) := by
  rw [ssm_exec, h]

theorem ssm_exec_parked (nr : Nat)
    (handler : uru4k_dev → Nat → (Nat → IoReply) → uru4k_dev × List SsmCall)
    (io : Nat → Nat → IoReply) (f : Nat) (s t : uru4k_dev) (cur : Nat)
    (h : handler s cur (io 0) = (t, [])) :
    ssm_exec nr handler io (f + 1) s cur = (t, some (SsmOutcome.parked cur)) := by
  rw [ssm_exec, h]

/-! ### The states of the reboot-power machine -/

theorem rebootpwr_set (s : uru4k_dev) (io : Nat → IoReply) (h : io 0 = write_ok 1) :
    rebootpwr_run_state s REBOOTPWR_SET_HWSTAT io =
      ({ s with rebootpwr_ctr := 100,
                trace := s.trace ++ [Event.ctrl_out REG_HWSTAT 1 [s.last_hwstat &&& 0xf] 0] },
        [SsmCall.next_state]) := by
  unfold rebootpwr_run_state
  rw [if_pos rfl]
  dsimp only
  unfold sm_set_hwstat
  rw [h, sm_write_reg_ok]
  rfl

theorem rebootpwr_get (s : uru4k_dev) (io : Nat → IoReply) (b : Nat) (h : io 0 = read_ok [b] 1) :
    rebootpwr_run_state s REBOOTPWR_GET_HWSTAT io =
      ({ s with last_reg_rd := b, trace := s.trace ++ [Event.ctrl_in REG_HWSTAT 1 0] },
        [SsmCall.next_state]) := by
  unfold rebootpwr_run_state
  rw [if_neg (by decide), if_pos rfl, h, sm_read_reg_ok]
  rfl

theorem rebootpwr_check (s : uru4k_dev) (io : Nat → IoReply) :
    rebootpwr_run_state s REBOOTPWR_CHECK_HWSTAT io =
      ({ s with last_hwstat := s.last_reg_rd },
        if s.last_reg_rd &&& 0x1 ≠ 0 then [SsmCall.mark_completed] else [SsmCall.next_state]) := by
  unfold rebootpwr_run_state
  rw [if_neg (by decide), if_neg (by decide), if_pos rfl]
  dsimp only
  split <;> rfl

theorem rebootpwr_pause (s : uru4k_dev) (io : Nat → IoReply) (h : (io 0).alloc_ok = true) :
    rebootpwr_run_state s REBOOTPWR_PAUSE io =
      ({ s with rebootpwr_ctr := s.rebootpwr_ctr - 1,
                trace := s.trace ++ [Event.timeout_add 10] },
        if s.rebootpwr_ctr - 1 = 0 then [SsmCall.mark_aborted (-5)]
        else [SsmCall.jump_to_state REBOOTPWR_GET_HWSTAT]) := by
  unfold rebootpwr_run_state
  rw [if_neg (by decide), if_neg (by decide), if_neg (by decide), if_pos rfl]
  dsimp only
  rw [h, if_neg (by decide)]
  unfold rebootpwr_pause_cb uru4k_dev.emit
  dsimp only
  by_cases h0 : s.rebootpwr_ctr - 1 = 0
  · rw [if_pos h0, if_pos h0]
    rfl
  · rw [if_neg h0, if_neg h0]

theorem rebootpwr_exec_set (io : Nat → Nat → IoReply) (f : Nat) (s : uru4k_dev)
    (h : io 0 0 = write_ok 1) :
    ssm_exec REBOOTPWR_NUM_STATES rebootpwr_run_state io (f + 1) s REBOOTPWR_SET_HWSTAT =
      ssm_exec REBOOTPWR_NUM_STATES rebootpwr_run_state (fun k => io (k + 1)) f
        { s with rebootpwr_ctr := 100,
                 trace := s.trace ++ [Event.ctrl_out REG_HWSTAT 1 [s.last_hwstat &&& 0xf] 0] }
        REBOOTPWR_GET_HWSTAT :=
  ssm_exec_next _ _ io f s _ _ _ (rebootpwr_set s (io 0) h) rfl (by decide)

/-- A read that finds bit 0 set completes the machine. -/
theorem rebootpwr_exec_good (io : Nat → Nat → IoReply) (f : Nat) (s : uru4k_dev) (b : Nat)
    (h : io 0 0 = read_ok [b] 1) (hb : b &&& 0x1 ≠ 0) :
    ssm_exec REBOOTPWR_NUM_STATES rebootpwr_run_state io (f + 2) s REBOOTPWR_GET_HWSTAT =
      ({ s with last_reg_rd := b, last_hwstat := b,
                trace := s.trace ++ [Event.ctrl_in REG_HWSTAT 1 0] },
        some SsmOutcome.completed) := by
  refine (ssm_exec_next _ _ io (f + 1) s _ _ REBOOTPWR_CHECK_HWSTAT
    (rebootpwr_get s (io 0) b h) rfl (by decide)).trans ?_
  refine ssm_exec_completed _ _ _ f _ _ _ ?_
  rw [rebootpwr_check]
  dsimp only
  rw [if_pos hb]

/-- A read that finds bit 0 clear is followed by a pause; the machine is aborted
after the pause that brings the counter to 0. -/
theorem rebootpwr_exec_fail (io : Nat → Nat → IoReply) (f : Nat) (s : uru4k_dev) (b : Nat)
    (h : io 0 0 = read_ok [b] 1) (hb : b &&& 0x1 = 0) (ht : (io 2 0).alloc_ok = true) :
    ssm_exec REBOOTPWR_NUM_STATES rebootpwr_run_state io (f + 3) s REBOOTPWR_GET_HWSTAT =
      if s.rebootpwr_ctr - 1 = 0 then
        ({ s with last_reg_rd := b, last_hwstat := b, rebootpwr_ctr := s.rebootpwr_ctr - 1,
                  trace := s.trace ++ [Event.ctrl_in REG_HWSTAT 1 0, Event.timeout_add 10] },
          some (SsmOutcome.aborted (-5)))
      else
        ssm_exec REBOOTPWR_NUM_STATES rebootpwr_run_state (fun k => io (k + 3)) f
          { s with last_reg_rd := b, last_hwstat := b, rebootpwr_ctr := s.rebootpwr_ctr - 1,
                   trace := s.trace ++ [Event.ctrl_in REG_HWSTAT 1 0, Event.timeout_add 10] }
          REBOOTPWR_GET_HWSTAT := by
  refine (ssm_exec_next _ _ io (f + 2) s _ _ REBOOTPWR_CHECK_HWSTAT
    (rebootpwr_get s (io 0) b h) rfl (by decide)).trans ?_
  have hc : rebootpwr_run_state
      { s with last_reg_rd := b, trace := s.trace ++ [Event.ctrl_in REG_HWSTAT 1 0] }
      REBOOTPWR_CHECK_HWSTAT (io 1) =
      ({ s with last_reg_rd := b, last_hwstat := b,
                trace := s.trace ++ [Event.ctrl_in REG_HWSTAT 1 0] }, [SsmCall.next_state]) := by
    rw [rebootpwr_check]
    dsimp only
    rw [if_neg (by simp [hb])]
  refine (ssm_exec_next _ _ _ (f + 1) _ _ _ REBOOTPWR_PAUSE hc rfl (by decide)).trans ?_
  have hp := rebootpwr_pause
    { s with last_reg_rd := b, last_hwstat := b,
             trace := s.trace ++ [Event.ctrl_in REG_HWSTAT 1 0] } (io 2) ht
  simp only [List.append_assoc, List.cons_append, List.nil_append] at hp
  by_cases h0 : s.rebootpwr_ctr - 1 = 0
  · rw [if_pos h0]
    rw [if_pos h0] at hp
    exact ssm_exec_aborted _ _ _ f _ _ _ _ hp
  · rw [if_neg h0]
    rw [if_neg h0] at hp
    exact ssm_exec_jump _ _ _ f _ _ _ _ hp

theorem last_read_succ (rd : Nat → Nat) (n d : Nat) : last_read rd (n + 1) d = rd n := by
  simp [last_read]

theorem last_read_shift (rd : Nat → Nat) (n : Nat) :
    last_read (fun j => rd (j + 1)) n (rd 0) = rd n := by
  cases n <;> simp [last_read]

/-- Reads that find bit 0 clear, each followed by a pause, while the counter
lasts. -/
theorem rebootpwr_exec_polls (n : Nat) :
    ∀ (rd : Nat → Nat) (s : uru4k_dev) (io : Nat → Nat → IoReply) (f c : Nat),
      s.rebootpwr_ctr = (c : Int) → n < c →
      (∀ j, j < n → io (3 * j) 0 = read_ok [rd j] 1 ∧ rd j &&& 0x1 = 0 ∧
        (io (3 * j + 2) 0).alloc_ok = true) →
      ssm_exec REBOOTPWR_NUM_STATES rebootpwr_run_state io (3 * n + f) s REBOOTPWR_GET_HWSTAT =
        ssm_exec REBOOTPWR_NUM_STATES rebootpwr_run_state (fun k => io (k + 3 * n)) f
          { s with last_reg_rd := last_read rd n s.last_reg_rd,
                   last_hwstat := last_read rd n s.last_hwstat,
                   rebootpwr_ctr := ((c - n : Nat) : Int),
                   trace := s.trace ++ reboot_polls n } REBOOTPWR_GET_HWSTAT := by
  induction n with
  | zero =>
    intro rd s io f c hc _ _
    have : ({ s with last_reg_rd := last_read rd 0 s.last_reg_rd,
                     last_hwstat := last_read rd 0 s.last_hwstat,
                     rebootpwr_ctr := ((c - 0 : Nat) : Int),
                     trace := s.trace ++ reboot_polls 0 } : uru4k_dev) = s := by
      cases s
      simp only [last_read, reboot_polls, List.replicate_zero, List.flatten_nil, List.append_nil,
        if_pos, Nat.sub_zero] at hc ⊢
      simp only [uru4k_dev.mk.injEq, true_and, and_true]
      exact hc.symm
    rw [this]
    simp
  | succ n ih =>
    intro rd s io f c hc hn hio
    have e : 3 * (n + 1) + f = (3 * n + f) + 3 := by omega
    have h0 := hio 0 (by omega)
    have hne : ¬ (s.rebootpwr_ctr - 1 = 0) := by rw [hc]; omega
    rw [e, rebootpwr_exec_fail io (3 * n + f) s (rd 0) h0.1 h0.2.1 h0.2.2, if_neg hne]
    rw [ih (fun j => rd (j + 1)) _ (fun k => io (k + 3)) f (c - 1)
      (by show s.rebootpwr_ctr - 1 = ((c - 1 : Nat) : Int); rw [hc]; omega) (by omega)
      (fun j hj => by
        have := hio (j + 1) (by omega)
        have e1 : 3 * (j + 1) = 3 * j + 3 := by omega
        have e2 : 3 * j + 3 + 2 = 3 * j + 2 + 3 := by omega
        rw [e1, e2] at this
        exact this)]
    have e3 : c - 1 - n = c - (n + 1) := by omega
    have e4 : (fun k => io (k + 3 * n + 3)) = (fun k => io (k + 3 * (n + 1))) := by
      funext k
      congr 1
    simp only [last_read_succ, last_read_shift, reboot_polls_succ, e3, e4, List.append_assoc]

theorem reboot_polls_succ_right (n : Nat) :
    reboot_polls (n + 1) =
      reboot_polls n ++ [Event.ctrl_in REG_HWSTAT 1 0, Event.timeout_add 10] := by
  unfold reboot_polls
  rw [List.replicate_succ', List.flatten_append]
  simp

/-- The run of the reboot-power machine when the first `n` reads find bit 0
clear and, for `n < 100`, read `n` finds it set. -/
theorem rebootpwr_exec_run (rd : Nat → Nat) (io : Nat → Nat → IoReply) (fuel : Nat)
    (s : uru4k_dev) (n : Nat) (hle : n ≤ 100)
    (hclear : ∀ j, j < n → rd j &&& 0x1 = 0) (hset : n < 100 → rd n &&& 0x1 ≠ 0)
    (hfuel : 3 * n + 3 ≤ fuel) (hwrite : io 0 0 = write_ok 1)
    (hreads : ∀ j, j ≤ n → j < 100 → io (3 * j + 1) 0 = read_ok [rd j] 1)
    (hpause : ∀ j, j < n → (io (3 * j + 3) 0).alloc_ok = true) :
    rebootpwr_exec io fuel s =
      ({ s with
          last_reg_rd := rd (min n 99)
          last_hwstat := rd (min n 99)
          rebootpwr_ctr := ((100 - n : Nat) : Int)
          trace := s.trace ++ Event.ctrl_out 0x07 1 [s.last_hwstat &&& 0xf] 0 ::
            (reboot_polls n ++ if n < 100 then [Event.ctrl_in 0x07 1 0] else []) },
        some (if n < 100 then SsmOutcome.completed else SsmOutcome.aborted (-5))) := by
  unfold rebootpwr_exec
  by_cases hlt : n < 100
  · obtain ⟨g, rfl⟩ : ∃ g, fuel = (3 * n + (g + 2)) + 1 := ⟨fuel - 3 * n - 3, by omega⟩
    rw [rebootpwr_exec_set io _ s hwrite]
    rw [rebootpwr_exec_polls n rd _ (fun k => io (k + 1)) (g + 2) 100 rfl hlt
      (fun j hj => ⟨hreads j (by omega) (by omega), hclear j hj, hpause j hj⟩)]
    rw [rebootpwr_exec_good _ g _ (rd n)
      (by
        show io (0 + 3 * n + 1) 0 = _
        rw [Nat.zero_add]
        exact hreads n (Nat.le_refl n) hlt) (hset hlt)]
    have hmin : min n 99 = n := by omega
    simp [hlt, hmin, REG_HWSTAT]
  · have h100 : n = 100 := by omega
    subst h100
    obtain ⟨g, rfl⟩ : ∃ g, fuel = (3 * 99 + (g + 3)) + 1 := ⟨fuel - 301, by omega⟩
    rw [rebootpwr_exec_set io _ s hwrite]
    rw [rebootpwr_exec_polls 99 rd _ (fun k => io (k + 1)) (g + 3) 100 rfl (by decide)
      (fun j hj => ⟨hreads j (by omega) (by omega), hclear j (by omega), hpause j (by omega)⟩)]
    rw [rebootpwr_exec_fail _ g _ (rd 99) (hreads 99 (by decide) (by decide))
      (hclear 99 (by decide)) (hpause 99 (by decide))]
    have h100 : reboot_polls 100 =
        reboot_polls 99 ++ [Event.ctrl_in REG_HWSTAT 1 0, Event.timeout_add 10] :=
      reboot_polls_succ_right 99
    simp [REG_HWSTAT, h100]

/-- C21: the reboot-power machine writes `last_hwstat & 0x0F` to `REG_HWSTAT`
once and then polls `REG_HWSTAT` (transfers and timers succeeding).  With `n`
the number of reads with bit 0 clear before the first read with bit 0 set, among
the first 100 reads (`n = 100` if none has it set): for `n < 100` the machine
completes on read `n`, after `n` reads each followed by a pause of 10 ms; for
`n = 100` it makes exactly 100 reads, each followed by a pause of 10 ms, and is
aborted with `-EIO`.  It makes `min (n + 1) 100` reads, never more than 100, and
one write. -/
theorem C21_rebootpwr (rd : Nat → Nat) (io : Nat → Nat → IoReply) (fuel : Nat) (s : uru4k_dev)
    (n : Nat) (hn : n = polls_needed (fun j => decide (rd j &&& 0x1 ≠ 0)) 100)
    (hfuel : 3 * n + 3 ≤ fuel) (hwrite : io 0 0 = write_ok 1)
    (hreads : ∀ j, j ≤ n → j < 100 → io (3 * j + 1) 0 = read_ok [rd j] 1)
    (hpause : ∀ j, j < n → (io (3 * j + 3) 0).alloc_ok = true) :
    rebootpwr_exec io fuel s =
      ({ s with
          last_reg_rd := rd (min n 99)
          last_hwstat := rd (min n 99)
          rebootpwr_ctr := ((100 - n : Nat) : Int)
          trace := s.trace ++ Event.ctrl_out 0x07 1 [s.last_hwstat &&& 0xf] 0 ::
            (reboot_polls n ++ if n < 100 then [Event.ctrl_in 0x07 1 0] else []) },
        some (if n < 100 then SsmOutcome.completed else SsmOutcome.aborted (-5))) ∧
    n ≤ 100 ∧ (∀ j, j < n → rd j &&& 0x1 = 0) ∧ (n < 100 → rd n &&& 0x1 ≠ 0) ∧
    reads (Event.ctrl_out 0x07 1 [s.last_hwstat &&& 0xf] 0 ::
      (reboot_polls n ++ if n < 100 then [Event.ctrl_in 0x07 1 0] else [])) = min (n + 1) 100 ∧
    writes (Event.ctrl_out 0x07 1 [s.last_hwstat &&& 0xf] 0 ::
      (reboot_polls n ++ if n < 100 then [Event.ctrl_in 0x07 1 0] else [])) = 1 := by
  have hle : n ≤ 100 := by rw [hn]; exact polls_needed_le 100 _
  have hclear : ∀ j, j < n → rd j &&& 0x1 = 0 := by
    intro j hj
    have := polls_needed_fail 100 (fun j => decide (rd j &&& 0x1 ≠ 0)) j (by rw [← hn]; exact hj)
    simpa using this
  have hset : n < 100 → rd n &&& 0x1 ≠ 0 := by
    intro hlt
    have := polls_needed_good 100 (fun j => decide (rd j &&& 0x1 ≠ 0)) (by rw [← hn]; exact hlt)
    rw [← hn] at this
    simpa using this
  have hcount : ∀ l : List Event,
      reads (Event.ctrl_out 0x07 1 [s.last_hwstat &&& 0xf] 0 :: l) = reads l ∧
      writes (Event.ctrl_out 0x07 1 [s.last_hwstat &&& 0xf] 0 :: l) = writes l + 1 := by
    intro l
    simp [reads, writes]
  refine ⟨?_, hle, hclear, hset, ?_, ?_⟩
  · exact rebootpwr_exec_run rd io fuel s n hle hclear hset hfuel hwrite hreads hpause
  · rw [(hcount _).1, reads_append, (reboot_polls_reads n).1]
    by_cases hlt : n < 100
    · rw [if_pos hlt]
      show n + 1 = _
      omega
    · rw [if_neg hlt]
      show n + 0 = _
      omega
  · rw [(hcount _).2, writes_append, (reboot_polls_reads n).2]
    by_cases hlt : n < 100
    · rw [if_pos hlt]
      rfl
    · rw [if_neg hlt]
      rfl

/-- Witness of C21: bit 0 is set from the third read on; the machine completes
on the third read, after two pauses. -/
theorem C21_rebootpwr_witness :
    rebootpwr_exec (reboot_io example_reboot_rd) 9 example_press_ctx =
      ({ example_press_ctx with
          last_reg_rd := 0x85
          last_hwstat := 0x85
          rebootpwr_ctr := 98
          trace := example_press_ctx.trace ++
            [Event.ctrl_out 0x07 1 [example_press_ctx.last_hwstat &&& 0xf] 0,
              Event.ctrl_in 0x07 1 0, Event.timeout_add 10,
              Event.ctrl_in 0x07 1 0, Event.timeout_add 10, Event.ctrl_in 0x07 1 0] },
        some SsmOutcome.completed) :=
  (C21_rebootpwr example_reboot_rd (reboot_io example_reboot_rd) 9 example_press_ctx 2
    (by decide) (by decide) rfl
    (fun j _ _ => by
      have e : (3 * j + 1 - 1) / 3 = j := by omega
      simp [reboot_io, e])
    (fun j _ => by simp [reboot_io, read_ok])).1

end Libfprint.Uru4000

namespace Libfprint.Uru4000

/-! ## Press driver: the power-up machine -/

theorem sm_do_challenge_response_ok (aes : Aes) (s : uru4k_dev) (c : List Nat) :
    sm_do_challenge_response aes s (read_ok c 16) (write_ok 16) =
      ({ s with trace := s.trace ++ cr_exchange aes s.aeskey c }, [SsmCall.next_state]) := by
  rw [sm_do_challenge_response_read_ok]
  unfold challenge_cb
  simp only [ne_eq, not_true_eq_false, if_false, Option.getD_some]
  rw [write_regs_ok _ _ _ _ _ rfl (Int.lt_irrefl 0)]
  simp [write_ok, write_regs_cb, response_cb, uru4k_dev.emit, cr_exchange, CR_LENGTH,
    REG_CHALLENGE, REG_RESPONSE]

theorem powerup_init (aes : Aes) (s : uru4k_dev) (io : Nat → IoReply) :
    powerup_run_state aes s POWERUP_INIT io =
      ({ s with powerup_ctr := 100, powerup_hwstat := s.last_hwstat &&& 0xf },
        [SsmCall.next_state]) := by
  unfold powerup_run_state
  rw [if_pos rfl]

theorem powerup_set (aes : Aes) (s : uru4k_dev) (io : Nat → IoReply) (h : io 0 = write_ok 1) :
    powerup_run_state aes s POWERUP_SET_HWSTAT io =
      ({ s with trace := s.trace ++ [Event.ctrl_out REG_HWSTAT 1 [s.powerup_hwstat] 0] },
        [SsmCall.next_state]) := by
  unfold powerup_run_state
  rw [if_neg (by decide), if_pos rfl]
  unfold sm_set_hwstat
  rw [h, sm_write_reg_ok]
  rfl

theorem powerup_get (aes : Aes) (s : uru4k_dev) (io : Nat → IoReply) (b : Nat)
    (h : io 0 = read_ok [b] 1) :
    powerup_run_state aes s POWERUP_GET_HWSTAT io =
      ({ s with last_reg_rd := b, trace := s.trace ++ [Event.ctrl_in REG_HWSTAT 1 0] },
        [SsmCall.next_state]) := by
  unfold powerup_run_state
  rw [if_neg (by decide), if_neg (by decide), if_pos rfl, h, sm_read_reg_ok]
  rfl

theorem powerup_check (aes : Aes) (s : uru4k_dev) (io : Nat → IoReply) :
    powerup_run_state aes s POWERUP_CHECK_HWSTAT io =
      ({ s with last_hwstat := s.last_reg_rd },
        if s.last_reg_rd &&& 0x80 = 0 then [SsmCall.mark_completed]
        else [SsmCall.next_state]) := by
  unfold powerup_run_state
  rw [if_neg (by decide), if_neg (by decide), if_neg (by decide), if_pos rfl]
  dsimp only
  split <;> rfl

theorem powerup_pause (aes : Aes) (s : uru4k_dev) (io : Nat → IoReply)
    (h : (io 0).alloc_ok = true) :
    powerup_run_state aes s POWERUP_PAUSE io =
      ({ s with powerup_ctr := s.powerup_ctr - 1,
                trace := s.trace ++ [Event.timeout_add 10] },
        if s.powerup_ctr - 1 = 0 then [SsmCall.mark_aborted (-5)]
        else if s.auth_cr = false then [SsmCall.jump_to_state POWERUP_SET_HWSTAT]
        else [SsmCall.next_state]) := by
  unfold powerup_run_state
  rw [if_neg (by decide), if_neg (by decide), if_neg (by decide), if_neg (by decide), if_pos rfl]
  dsimp only
  rw [h, if_neg (by decide)]
  unfold powerup_pause_cb uru4k_dev.emit
  dsimp only
  by_cases h0 : s.powerup_ctr - 1 = 0
  · rw [if_pos h0, if_pos h0]
    rfl
  · rw [if_neg h0, if_neg h0]
    cases ha : s.auth_cr <;> simp

theorem powerup_cr (aes : Aes) (s : uru4k_dev) (io : Nat → IoReply) (c : List Nat)
    (h0 : io 0 = read_ok c 16) (h1 : io 1 = write_ok 16) :
    powerup_run_state aes s POWERUP_CHALLENGE_RESPONSE io =
      ({ s with trace := s.trace ++ cr_exchange aes s.aeskey c }, [SsmCall.next_state]) := by
  unfold powerup_run_state
  rw [if_neg (by decide), if_neg (by decide), if_neg (by decide), if_neg (by decide),
    if_neg (by decide), if_pos rfl, h0, h1, sm_do_challenge_response_ok]

theorem powerup_cr_success (aes : Aes) (s : uru4k_dev) (io : Nat → IoReply) :
    powerup_run_state aes s POWERUP_CHALLENGE_RESPONSE_SUCCESS io =
      (s, [SsmCall.jump_to_state POWERUP_SET_HWSTAT]) := by
  unfold powerup_run_state
  rw [if_neg (by decide), if_neg (by decide), if_neg (by decide), if_neg (by decide),
    if_neg (by decide), if_neg (by decide), if_pos rfl]

/-! ### Iterations of the power-up machine -/

/-- A write and a read that finds bit 7 clear complete the machine. -/
theorem powerup_exec_good (aes : Aes) (io : Nat → Nat → IoReply) (f : Nat) (s : uru4k_dev)
    (b : Nat) (h0 : io 0 0 = write_ok 1) (h1 : io 1 0 = read_ok [b] 1) (hb : b &&& 0x80 = 0) :
    ssm_exec POWERUP_NUM_STATES (powerup_run_state aes) io (f + 3) s POWERUP_SET_HWSTAT =
      ({ s with last_reg_rd := b, last_hwstat := b,
                trace := s.trace ++ [Event.ctrl_out REG_HWSTAT 1 [s.powerup_hwstat] 0,
                  Event.ctrl_in REG_HWSTAT 1 0] },
        some SsmOutcome.completed) := by
  refine (ssm_exec_next _ _ io (f + 2) s _ _ POWERUP_GET_HWSTAT
    (powerup_set aes s (io 0) h0) rfl (by decide)).trans ?_
  refine (ssm_exec_next _ _ _ (f + 1) _ _ _ POWERUP_CHECK_HWSTAT
    (powerup_get aes _ _ b h1) rfl (by decide)).trans ?_
  have hc : powerup_run_state aes
      { s with last_reg_rd := b,
               trace := s.trace ++ [Event.ctrl_out REG_HWSTAT 1 [s.powerup_hwstat] 0] ++
                 [Event.ctrl_in REG_HWSTAT 1 0] }
      POWERUP_CHECK_HWSTAT (io 2) =
      ({ s with last_reg_rd := b, last_hwstat := b,
                trace := s.trace ++ [Event.ctrl_out REG_HWSTAT 1 [s.powerup_hwstat] 0,
                  Event.ctrl_in REG_HWSTAT 1 0] }, [SsmCall.mark_completed]) := by
    rw [powerup_check]
    dsimp only
    rw [if_pos hb]
    simp
  exact ssm_exec_completed _ _ _ f _ _ _ hc

/-- A write and a read that finds bit 7 set are followed by a pause. -/
theorem powerup_exec_to_pause (aes : Aes) (io : Nat → Nat → IoReply) (f : Nat) (s : uru4k_dev)
    (b : Nat) (h0 : io 0 0 = write_ok 1) (h1 : io 1 0 = read_ok [b] 1) (hb : b &&& 0x80 ≠ 0)
    (ht : (io 3 0).alloc_ok = true) :
    ssm_exec POWERUP_NUM_STATES (powerup_run_state aes) io (f + 4) s POWERUP_SET_HWSTAT =
      match (if s.powerup_ctr - 1 = 0 then [SsmCall.mark_aborted (-5)]
        else if s.auth_cr = false then [SsmCall.jump_to_state POWERUP_SET_HWSTAT]
        else [SsmCall.next_state]) with
      | [SsmCall.mark_aborted e] =>
        ({ s with last_reg_rd := b, last_hwstat := b, powerup_ctr := s.powerup_ctr - 1,
                  trace := s.trace ++ [Event.ctrl_out REG_HWSTAT 1 [s.powerup_hwstat] 0,
                    Event.ctrl_in REG_HWSTAT 1 0, Event.timeout_add 10] },
          some (SsmOutcome.aborted e))
      | [SsmCall.jump_to_state n] =>
        ssm_exec POWERUP_NUM_STATES (powerup_run_state aes) (fun k => io (k + 4)) f
          { s with last_reg_rd := b, last_hwstat := b, powerup_ctr := s.powerup_ctr - 1,
                   trace := s.trace ++ [Event.ctrl_out REG_HWSTAT 1 [s.powerup_hwstat] 0,
                     Event.ctrl_in REG_HWSTAT 1 0, Event.timeout_add 10] } n
      | _ =>
        ssm_exec POWERUP_NUM_STATES (powerup_run_state aes) (fun k => io (k + 4)) f
          { s with last_reg_rd := b, last_hwstat := b, powerup_ctr := s.powerup_ctr - 1,
                   trace := s.trace ++ [Event.ctrl_out REG_HWSTAT 1 [s.powerup_hwstat] 0,
                     Event.ctrl_in REG_HWSTAT 1 0, Event.timeout_add 10] }
          POWERUP_CHALLENGE_RESPONSE := by
  refine (ssm_exec_next _ _ io (f + 3) s _ _ POWERUP_GET_HWSTAT
    (powerup_set aes s (io 0) h0) rfl (by decide)).trans ?_
  refine (ssm_exec_next _ _ _ (f + 2) _ _ _ POWERUP_CHECK_HWSTAT
    (powerup_get aes _ _ b h1) rfl (by decide)).trans ?_
  have hc : powerup_run_state aes
      { s with last_reg_rd := b,
               trace := s.trace ++ [Event.ctrl_out REG_HWSTAT 1 [s.powerup_hwstat] 0] ++
                 [Event.ctrl_in REG_HWSTAT 1 0] }
      POWERUP_CHECK_HWSTAT (io 2) =
      ({ s with last_reg_rd := b, last_hwstat := b,
                trace := s.trace ++ [Event.ctrl_out REG_HWSTAT 1 [s.powerup_hwstat] 0,
                  Event.ctrl_in REG_HWSTAT 1 0] }, [SsmCall.next_state]) := by
    rw [powerup_check]
    dsimp only
    rw [if_neg hb]
    simp
  refine (ssm_exec_next _ _ _ (f + 1) _ _ _ POWERUP_PAUSE hc rfl (by decide)).trans ?_
  have hp := powerup_pause aes
    { s with last_reg_rd := b, last_hwstat := b,
             trace := s.trace ++ [Event.ctrl_out REG_HWSTAT 1 [s.powerup_hwstat] 0,
               Event.ctrl_in REG_HWSTAT 1 0] } (io 3) ht
  simp only [List.append_assoc, List.cons_append, List.nil_append] at hp
  by_cases h0 : s.powerup_ctr - 1 = 0
  · rw [if_pos h0]
    rw [if_pos h0] at hp
    exact ssm_exec_aborted _ _ _ f _ _ _ _ hp
  · rw [if_neg h0]
    rw [if_neg h0] at hp
    by_cases ha : s.auth_cr = false
    · rw [if_pos ha]
      rw [if_pos ha] at hp
      exact ssm_exec_jump _ _ _ f _ _ _ _ hp
    · rw [if_neg ha]
      rw [if_neg ha] at hp
      exact ssm_exec_next _ _ _ f _ _ _ POWERUP_CHALLENGE_RESPONSE hp rfl (by decide)

/-- One iteration that finds bit 7 set and is followed by another one. -/
theorem powerup_exec_iter (aes : Aes) (io : Nat → Nat → IoReply) (f : Nat) (s : uru4k_dev)
    (b : Nat) (c : List Nat) (a : Bool) (ha : s.auth_cr = a)
    (h0 : io 0 0 = write_ok 1) (h1 : io 1 0 = read_ok [b] 1) (hb : b &&& 0x80 ≠ 0)
    (ht : (io 3 0).alloc_ok = true) (hc : ¬ (s.powerup_ctr - 1 = 0))
    (hcr : a = true → io 4 0 = read_ok c 16 ∧ io 4 1 = write_ok 16) :
    ssm_exec POWERUP_NUM_STATES (powerup_run_state aes) io (powerup_stride a + f) s
        POWERUP_SET_HWSTAT =
      ssm_exec POWERUP_NUM_STATES (powerup_run_state aes) (fun k => io (k + powerup_stride a)) f
        { s with last_reg_rd := b, last_hwstat := b, powerup_ctr := s.powerup_ctr - 1,
                 trace := s.trace ++
                   ([Event.ctrl_out REG_HWSTAT 1 [s.powerup_hwstat] 0,
                     Event.ctrl_in REG_HWSTAT 1 0, Event.timeout_add 10] ++
                     if a then cr_exchange aes s.aeskey c else []) }
        POWERUP_SET_HWSTAT := by
  cases a with
  | false =>
    have e : powerup_stride false + f = f + 4 := by
      show 4 + f = f + 4
      omega
    rw [e, powerup_exec_to_pause aes io f s b h0 h1 hb ht, if_neg hc, if_pos ha]
    simp [powerup_stride]
  | true =>
    have e : powerup_stride true + f = (f + 2) + 4 := by
      show 6 + f = f + 2 + 4
      omega
    have hna : ¬ (s.auth_cr = false) := by rw [ha]; decide
    rw [e, powerup_exec_to_pause aes io (f + 2) s b h0 h1 hb ht, if_neg hc, if_neg hna]
    have h4 := hcr rfl
    refine (ssm_exec_next _ _ _ (f + 1) _ _ _ POWERUP_CHALLENGE_RESPONSE_SUCCESS
      (powerup_cr aes _ _ c h4.1 h4.2) rfl (by decide)).trans ?_
    refine (ssm_exec_jump _ _ _ f _ _ _ _ (powerup_cr_success aes _ _)).trans ?_
    simp [powerup_stride]

/-- Iterations that find bit 7 set, while the counter lasts. -/
theorem powerup_exec_polls (aes : Aes) (a : Bool) (key : List Nat) (hw : Nat) (n : Nat) :
    ∀ (rd : Nat → Nat) (ch : Nat → List Nat) (s : uru4k_dev) (io : Nat → Nat → IoReply)
      (f c : Nat),
      s.auth_cr = a → s.aeskey = key → s.powerup_hwstat = hw →
      s.powerup_ctr = (c : Int) → n < c →
      (∀ j, j < n →
        io (powerup_stride a * j) 0 = write_ok 1 ∧
        io (powerup_stride a * j + 1) 0 = read_ok [rd j] 1 ∧ rd j &&& 0x80 ≠ 0 ∧
        (io (powerup_stride a * j + 3) 0).alloc_ok = true ∧
        (a = true → io (powerup_stride a * j + 4) 0 = read_ok (ch j) 16 ∧
          io (powerup_stride a * j + 4) 1 = write_ok 16)) →
      ssm_exec POWERUP_NUM_STATES (powerup_run_state aes) io (powerup_stride a * n + f) s
          POWERUP_SET_HWSTAT =
        ssm_exec POWERUP_NUM_STATES (powerup_run_state aes)
          (fun k => io (k + powerup_stride a * n)) f
          { s with last_reg_rd := last_read rd n s.last_reg_rd,
                   last_hwstat := last_read rd n s.last_hwstat,
                   powerup_ctr := ((c - n : Nat) : Int),
                   trace := s.trace ++ powerup_polls aes key a hw ch n } POWERUP_SET_HWSTAT := by
  induction n with
  | zero =>
    intro rd ch s io f c _ _ _ hc _ _
    have : ({ s with last_reg_rd := last_read rd 0 s.last_reg_rd,
                     last_hwstat := last_read rd 0 s.last_hwstat,
                     powerup_ctr := ((c - 0 : Nat) : Int),
                     trace := s.trace ++ powerup_polls aes key a hw ch 0 } : uru4k_dev) = s := by
      cases s
      simp only [last_read, powerup_polls, List.append_nil, if_pos, Nat.sub_zero] at hc ⊢
      simp only [uru4k_dev.mk.injEq, true_and, and_true]
      exact hc.symm
    rw [this]
    simp
  | succ n ih =>
    intro rd ch s io f c ha hkey hhw hc hn hio
    have e : powerup_stride a * (n + 1) + f = powerup_stride a + (powerup_stride a * n + f) := by
      rw [Nat.mul_succ]
      omega
    have h0 := hio 0 (by omega)
    rw [Nat.mul_zero] at h0
    have hne : ¬ (s.powerup_ctr - 1 = 0) := by rw [hc]; omega
    rw [e]
    refine (powerup_exec_iter aes io _ s (rd 0) (ch 0) a ha h0.1 h0.2.1 h0.2.2.1 h0.2.2.2.1 hne
      h0.2.2.2.2).trans ?_
    refine (ih (fun j => rd (j + 1)) (fun j => ch (j + 1)) _ (fun k => io (k + powerup_stride a)) f
      (c - 1) ?_ ?_ ?_ ?_ ?_ ?_).trans ?_
    · exact ha
    · exact hkey
    · exact hhw
    · show s.powerup_ctr - 1 = ((c - 1 : Nat) : Int)
      rw [hc]
      omega
    · omega
    · intro j hj
      have h := hio (j + 1) (by omega)
      rw [Nat.mul_succ] at h
      have e1 : powerup_stride a * j + powerup_stride a + 1 =
          powerup_stride a * j + 1 + powerup_stride a := by omega
      have e3 : powerup_stride a * j + powerup_stride a + 3 =
          powerup_stride a * j + 3 + powerup_stride a := by omega
      have e4 : powerup_stride a * j + powerup_stride a + 4 =
          powerup_stride a * j + 4 + powerup_stride a := by omega
      rw [e1, e3, e4] at h
      exact h
    · have e3 : c - 1 - n = c - (n + 1) := by omega
      have e4 : (fun k => io (k + powerup_stride a * n + powerup_stride a)) =
          (fun k => io (k + powerup_stride a * (n + 1))) := by
        funext k
        rw [Nat.mul_succ, Nat.add_assoc]
      simp only [last_read_succ, last_read_shift, powerup_polls, e3, e4, List.append_assoc, hkey,
        hhw]

theorem hwstat_writes_append (x y : List Event) :
    hwstat_writes (x ++ y) = hwstat_writes x ++ hwstat_writes y := by
  simp [hwstat_writes]

theorem challenge_reads_append (x y : List Event) :
    challenge_reads (x ++ y) = challenge_reads x + challenge_reads y := by
  simp [challenge_reads]

theorem powerup_polls_counts (aes : Aes) (key : List Nat) (a : Bool) (hw : Nat) (n : Nat) :
    ∀ ch : Nat → List Nat,
      hwstat_writes (powerup_polls aes key a hw ch n) = List.replicate n [hw] ∧
      challenge_reads (powerup_polls aes key a hw ch n) = if a then n else 0 := by
  induction n with
  | zero => intro ch; cases a <;> exact ⟨rfl, rfl⟩
  | succ n ih =>
    intro ch
    have h := ih (fun j => ch (j + 1))
    unfold powerup_polls
    rw [hwstat_writes_append, hwstat_writes_append, challenge_reads_append,
      challenge_reads_append, h.1, h.2]
    cases a
    · constructor
      · simp [hwstat_writes, List.replicate_succ]
      · simp [challenge_reads, REG_HWSTAT, REG_CHALLENGE]
    · constructor
      · simp [hwstat_writes, List.replicate_succ, cr_exchange, REG_RESPONSE, REG_HWSTAT]
      · simp [challenge_reads, cr_exchange, REG_HWSTAT, REG_CHALLENGE]
        omega

/-- C22: the power-up machine writes the byte `(last_hwstat at entry) & 0x0F` to
`REG_HWSTAT` on every iteration and reads `REG_HWSTAT` back (transfers and timers
succeeding).  With `n` the number of reads that find bit 7 set before the first
one that finds it clear, among the first 100 (`n = 100` if there is none): for
`n < 100` the machine completes on read `n`; for `n = 100` it is aborted with
`-EIO` after 100 iterations.  It makes `min (n + 1) 100` writes to `REG_HWSTAT`,
all of the same byte, and between two iterations a pause and, if and only if the
profile has `auth_cr`, one challenge/response exchange. -/
theorem C22_powerup (aes : Aes) (rd : Nat → Nat) (ch : Nat → List Nat)
    (io : Nat → Nat → IoReply) (fuel : Nat) (s : uru4k_dev) (n : Nat)
    (hn : n = polls_needed (fun j => decide (rd j &&& 0x80 = 0)) 100)
    (hfuel : powerup_stride s.auth_cr * n + 5 ≤ fuel)
    (hwrite : ∀ j, j ≤ n → j < 100 → io (powerup_stride s.auth_cr * j + 1) 0 = write_ok 1)
    (hreads : ∀ j, j ≤ n → j < 100 →
      io (powerup_stride s.auth_cr * j + 2) 0 = read_ok [rd j] 1)
    (hpause : ∀ j, j < n → (io (powerup_stride s.auth_cr * j + 4) 0).alloc_ok = true)
    (hcr : s.auth_cr = true → ∀ j, j < n → j < 99 →
      io (powerup_stride s.auth_cr * j + 5) 0 = read_ok (ch j) 16 ∧
      io (powerup_stride s.auth_cr * j + 5) 1 = write_ok 16) :
    powerup_exec aes io fuel s =
      ({ s with
          last_reg_rd := rd (min n 99)
          last_hwstat := rd (min n 99)
          powerup_ctr := ((100 - n : Nat) : Int)
          powerup_hwstat := s.last_hwstat &&& 0xf
          trace := s.trace ++
            (powerup_polls aes s.aeskey s.auth_cr (s.last_hwstat &&& 0xf) ch (min n 99) ++
              if n < 100 then
                [Event.ctrl_out 0x07 1 [s.last_hwstat &&& 0xf] 0, Event.ctrl_in 0x07 1 0]
              else
                [Event.ctrl_out 0x07 1 [s.last_hwstat &&& 0xf] 0, Event.ctrl_in 0x07 1 0,
                  Event.timeout_add 10]) },
        some (if n < 100 then SsmOutcome.completed else SsmOutcome.aborted (-5))) ∧
    n ≤ 100 ∧ (∀ j, j < n → rd j &&& 0x80 ≠ 0) ∧ (n < 100 → rd n &&& 0x80 = 0) ∧
    hwstat_writes
      (powerup_polls aes s.aeskey s.auth_cr (s.last_hwstat &&& 0xf) ch (min n 99) ++
        if n < 100 then
          [Event.ctrl_out 0x07 1 [s.last_hwstat &&& 0xf] 0, Event.ctrl_in 0x07 1 0]
        else
          [Event.ctrl_out 0x07 1 [s.last_hwstat &&& 0xf] 0, Event.ctrl_in 0x07 1 0,
            Event.timeout_add 10]) =
      List.replicate (min (n + 1) 100) [s.last_hwstat &&& 0xf] ∧
    challenge_reads
      (powerup_polls aes s.aeskey s.auth_cr (s.last_hwstat &&& 0xf) ch (min n 99) ++
        if n < 100 then
          [Event.ctrl_out 0x07 1 [s.last_hwstat &&& 0xf] 0, Event.ctrl_in 0x07 1 0]
        else
          [Event.ctrl_out 0x07 1 [s.last_hwstat &&& 0xf] 0, Event.ctrl_in 0x07 1 0,
            Event.timeout_add 10]) =
      if s.auth_cr then min n 99 else 0 := by
  have hle : n ≤ 100 := by rw [hn]; exact polls_needed_le 100 _
  have hset : ∀ j, j < n → rd j &&& 0x80 ≠ 0 := by
    intro j hj
    have := polls_needed_fail 100 (fun j => decide (rd j &&& 0x80 = 0)) j (by rw [← hn]; exact hj)
    simpa using this
  have hclear : n < 100 → rd n &&& 0x80 = 0 := by
    intro hlt
    have := polls_needed_good 100 (fun j => decide (rd j &&& 0x80 = 0)) (by rw [← hn]; exact hlt)
    rw [← hn] at this
    simpa using this
  have hinit : ∀ f, ssm_exec POWERUP_NUM_STATES (powerup_run_state aes) io (f + 1) s POWERUP_INIT =
      ssm_exec POWERUP_NUM_STATES (powerup_run_state aes) (fun k => io (k + 1)) f
        { s with powerup_ctr := 100, powerup_hwstat := s.last_hwstat &&& 0xf }
        POWERUP_SET_HWSTAT :=
    fun f => ssm_exec_next _ _ io f s _ _ _ (powerup_init aes s (io 0)) rfl (by decide)
  have hpolls : ∀ m f, m ≤ n → m < 100 →
      ssm_exec POWERUP_NUM_STATES (powerup_run_state aes) (fun k => io (k + 1))
          (powerup_stride s.auth_cr * m + f)
          { s with powerup_ctr := 100, powerup_hwstat := s.last_hwstat &&& 0xf }
          POWERUP_SET_HWSTAT =
        ssm_exec POWERUP_NUM_STATES (powerup_run_state aes)
          (fun k => io (k + powerup_stride s.auth_cr * m + 1)) f
          { s with last_reg_rd := last_read rd m s.last_reg_rd,
                   last_hwstat := last_read rd m s.last_hwstat,
                   powerup_ctr := ((100 - m : Nat) : Int),
                   powerup_hwstat := s.last_hwstat &&& 0xf,
                   trace := s.trace ++
                     powerup_polls aes s.aeskey s.auth_cr (s.last_hwstat &&& 0xf) ch m }
          POWERUP_SET_HWSTAT := by
    intro m f hm hm100
    exact powerup_exec_polls aes s.auth_cr s.aeskey (s.last_hwstat &&& 0xf) m rd ch
      { s with powerup_ctr := 100, powerup_hwstat := s.last_hwstat &&& 0xf }
      (fun k => io (k + 1)) f 100 rfl rfl rfl rfl hm100
      (fun j hj => ⟨hwrite j (by omega) (by omega), hreads j (by omega) (by omega),
        hset j (by omega), hpause j (by omega), fun ha => hcr ha j (by omega) (by omega)⟩)
  refine ⟨?_, hle, hset, hclear, ?_, ?_⟩
  · unfold powerup_exec
    by_cases hlt : n < 100
    · obtain ⟨g, rfl⟩ : ∃ g, fuel = (powerup_stride s.auth_cr * n + (g + 3)) + 1 :=
        ⟨fuel - powerup_stride s.auth_cr * n - 4, by omega⟩
      rw [hinit, hpolls n (g + 3) (Nat.le_refl n) hlt]
      rw [powerup_exec_good aes _ g _ (rd n)
        (by
          show io (0 + powerup_stride s.auth_cr * n + 1) 0 = _
          rw [Nat.zero_add]
          exact hwrite n (Nat.le_refl n) hlt)
        (by
          show io (1 + powerup_stride s.auth_cr * n + 1) 0 = _
          rw [Nat.add_comm 1, Nat.add_assoc]
          exact hreads n (Nat.le_refl n) hlt)
        (hclear hlt)]
      have hmin : min n 99 = n := by omega
      simp [hlt, hmin, REG_HWSTAT]
    · have h100 : n = 100 := by omega
      subst h100
      obtain ⟨g, rfl⟩ : ∃ g, fuel = (powerup_stride s.auth_cr * 99 + (g + 4)) + 1 :=
        ⟨fuel - powerup_stride s.auth_cr * 99 - 5, by
          have : powerup_stride s.auth_cr * 100 = powerup_stride s.auth_cr * 99 +
              powerup_stride s.auth_cr := Nat.mul_succ _ 99
          omega⟩
      rw [hinit, hpolls 99 (g + 4) (by decide) (by decide)]
      rw [powerup_exec_to_pause aes _ g _ (rd 99)
        (by
          show io (0 + powerup_stride s.auth_cr * 99 + 1) 0 = _
          rw [Nat.zero_add]
          exact hwrite 99 (by decide) (by decide))
        (by
          show io (1 + powerup_stride s.auth_cr * 99 + 1) 0 = _
          rw [Nat.add_comm 1, Nat.add_assoc]
          exact hreads 99 (by decide) (by decide))
        (hset 99 (by decide))
        (by
          show (io (3 + powerup_stride s.auth_cr * 99 + 1) 0).alloc_ok = true
          rw [Nat.add_comm 3, Nat.add_assoc]
          exact hpause 99 (by decide))]
      simp [REG_HWSTAT]
  · rw [hwstat_writes_append, (powerup_polls_counts aes _ _ _ _ ch).1]
    by_cases hlt : n < 100
    · have hmin : min n 99 = n := by omega
      have hmin2 : min (n + 1) 100 = n + 1 := by omega
      rw [if_pos hlt, hmin, hmin2, List.replicate_succ']
      simp [hwstat_writes, REG_HWSTAT]
    · have h100 : n = 100 := by omega
      subst h100
      rw [if_neg hlt]
      have e : List.replicate (min (100 + 1) 100) [s.last_hwstat &&& 0xf] =
          List.replicate 99 [s.last_hwstat &&& 0xf] ++ [[s.last_hwstat &&& 0xf]] :=
        List.replicate_succ' 99 _
      rw [e]
      simp [hwstat_writes, REG_HWSTAT]
  · rw [challenge_reads_append, (powerup_polls_counts aes _ _ _ _ ch).2]
    have e : ∀ l : List Event, l = [Event.ctrl_out 0x07 1 [s.last_hwstat &&& 0xf] 0,
        Event.ctrl_in 0x07 1 0] ∨ l = [Event.ctrl_out 0x07 1 [s.last_hwstat &&& 0xf] 0,
        Event.ctrl_in 0x07 1 0, Event.timeout_add 10] → challenge_reads l = 0 := by
      intro l hl
      rcases hl with h | h <;> rw [h] <;> simp [challenge_reads, REG_CHALLENGE]
    rw [e _ (by by_cases hlt : n < 100 <;> simp [hlt])]
    rfl

/-- Witness of C22: a profile with `auth_cr`; bit 7 is set at the first read
and clear at the second; the machine writes 0x05 twice, with one
challenge/response exchange in between, and completes. -/
theorem C22_powerup_witness :
    powerup_exec example_aes (powerup_io example_powerup_rd) 11 example_press_auth =
      ({ example_press_auth with
          last_reg_rd := 0x05
          last_hwstat := 0x05
          powerup_ctr := 99
          powerup_hwstat := 0x05
          trace :=
            [Event.ctrl_out 0x07 1 [0x05] 0, Event.ctrl_in 0x07 1 0, Event.timeout_add 10] ++
              cr_exchange example_aes example_press_auth.aeskey (List.replicate 16 1) ++
              [Event.ctrl_out 0x07 1 [0x05] 0, Event.ctrl_in 0x07 1 0] },
        some SsmOutcome.completed) :=
  (C22_powerup example_aes example_powerup_rd (fun j => List.replicate 16 (j + 1))
    (powerup_io example_powerup_rd) 11 example_press_auth 1 (by decide) (by decide)
    (fun j _ _ => by
      show powerup_io _ (6 * j + 1) 0 = _
      have e : (6 * j + 1) % 6 = 1 := by omega
      simp [powerup_io, e])
    (fun j _ _ => by
      show powerup_io _ (6 * j + 2) 0 = _
      have e : (6 * j + 2) % 6 = 2 := by omega
      have e2 : (6 * j + 2) / 6 = j := by omega
      simp [powerup_io, e, e2])
    (fun j _ => by
      show (powerup_io _ (6 * j + 4) 0).alloc_ok = true
      have e : (6 * j + 4) % 6 = 4 := by omega
      simp [powerup_io, e, write_ok])
    (fun _ j _ _ => by
      show powerup_io _ (6 * j + 5) 0 = _ ∧ powerup_io _ (6 * j + 5) 1 = _
      have e : (6 * j + 5) % 6 = 5 := by omega
      have e2 : (6 * j + 5) / 6 = j := by omega
      simp [powerup_io, e, e2])).1

end Libfprint.Uru4000

namespace Libfprint.Uru4000

/-! ## Press driver: the init machine -/

theorem init_get (aes : Aes) (sub_io : Nat → Nat → Nat → IoReply) (sub_fuel : Nat)
    (s : uru4k_dev) (io : Nat → IoReply) (b : Nat) (h : io 0 = read_ok [b] 1) :
    init_run_state aes sub_io sub_fuel s INIT_GET_HWSTAT io =
      ({ s with last_reg_rd := b, trace := s.trace ++ [Event.ctrl_in REG_HWSTAT 1 0] },
        [SsmCall.next_state]) := by
  unfold init_run_state
  rw [if_pos rfl, h, sm_read_reg_ok]
  rfl

theorem init_check_reboot (aes : Aes) (sub_io : Nat → Nat → Nat → IoReply) (sub_fuel : Nat)
    (s : uru4k_dev) (io : Nat → IoReply) :
    init_run_state aes sub_io sub_fuel s INIT_CHECK_HWSTAT_REBOOT io =
      ({ s with last_hwstat := s.last_reg_rd },
        if s.last_reg_rd &&& 0x84 = 0x84 then [SsmCall.next_state]
        else [SsmCall.jump_to_state INIT_CHECK_HWSTAT_POWERDOWN]) := by
  unfold init_run_state
  rw [if_neg (by decide), if_pos rfl]
  dsimp only
  split <;> rfl

theorem init_reboot_power (aes : Aes) (sub_io : Nat → Nat → Nat → IoReply) (sub_fuel : Nat)
    (s : uru4k_dev) (io : Nat → IoReply) :
    init_run_state aes sub_io sub_fuel s INIT_REBOOT_POWER io =
      ((rebootpwr_exec (sub_io INIT_REBOOT_POWER) sub_fuel s).1,
        subsm_calls (rebootpwr_exec (sub_io INIT_REBOOT_POWER) sub_fuel s).2) := by
  unfold init_run_state
  rw [if_neg (by decide), if_neg (by decide), if_pos rfl]

theorem init_check_powerdown (aes : Aes) (sub_io : Nat → Nat → Nat → IoReply) (sub_fuel : Nat)
    (s : uru4k_dev) (io : Nat → IoReply) (h : io 0 = write_ok 1) :
    init_run_state aes sub_io sub_fuel s INIT_CHECK_HWSTAT_POWERDOWN io =
      ({ s with trace := s.trace ++ powerdown_write s.last_hwstat }, [SsmCall.next_state]) := by
  unfold init_run_state powerdown_write
  rw [if_neg (by decide), if_neg (by decide), if_neg (by decide), if_pos rfl]
  by_cases hb : s.last_hwstat &&& 0x80 = 0
  · rw [if_pos hb, if_pos hb]
    unfold sm_set_hwstat
    rw [h, sm_write_reg_ok]
    rfl
  · rw [if_neg hb, if_neg hb]
    simp

/-- The init machine from its first state to the power-down check, when the
status byte does not ask for a reboot of the power. -/
theorem init_exec_skip_reboot (aes : Aes) (sub_io : Nat → Nat → Nat → IoReply) (sub_fuel : Nat)
    (io : Nat → Nat → IoReply) (f : Nat) (s : uru4k_dev) (h : Nat)
    (hread : io 0 0 = read_ok [h] 1) (hb : ¬ (h &&& 0x84 = 0x84)) :
    ssm_exec INIT_NUM_STATES (init_run_state aes sub_io sub_fuel) io (f + 2) s INIT_GET_HWSTAT =
      ssm_exec INIT_NUM_STATES (init_run_state aes sub_io sub_fuel) (fun k => io (k + 2)) f
        { s with last_reg_rd := h, last_hwstat := h,
                 trace := s.trace ++ [Event.ctrl_in REG_HWSTAT 1 0] }
        INIT_CHECK_HWSTAT_POWERDOWN := by
  refine (ssm_exec_next _ _ io (f + 1) s _ _ INIT_CHECK_HWSTAT_REBOOT
    (init_get aes sub_io sub_fuel s (io 0) h hread) rfl (by decide)).trans ?_
  refine ssm_exec_jump _ _ _ f _ _ _ _ ?_
  rw [init_check_reboot]
  dsimp only
  rw [if_neg hb]

/-- The init machine from its first state to the end of the reboot-power
machine, when the status byte asks for a reboot of the power. -/
theorem init_exec_reboot (aes : Aes) (sub_io : Nat → Nat → Nat → IoReply) (sub_fuel : Nat)
    (io : Nat → Nat → IoReply) (f : Nat) (s : uru4k_dev) (h : Nat)
    (hread : io 0 0 = read_ok [h] 1) (hb : h &&& 0x84 = 0x84) :
    ssm_exec INIT_NUM_STATES (init_run_state aes sub_io sub_fuel) io (f + 3) s INIT_GET_HWSTAT =
      match rebootpwr_exec (sub_io INIT_REBOOT_POWER) sub_fuel
          { s with last_reg_rd := h, last_hwstat := h,
                   trace := s.trace ++ [Event.ctrl_in REG_HWSTAT 1 0] } with
      | (t, some SsmOutcome.completed) =>
        ssm_exec INIT_NUM_STATES (init_run_state aes sub_io sub_fuel) (fun k => io (k + 3)) f t
          INIT_CHECK_HWSTAT_POWERDOWN
      | (t, some (SsmOutcome.aborted e)) => (t, some (SsmOutcome.aborted e))
      | (t, _) => (t, some (SsmOutcome.parked INIT_REBOOT_POWER)) := by
  refine (ssm_exec_next _ _ io (f + 2) s _ _ INIT_CHECK_HWSTAT_REBOOT
    (init_get aes sub_io sub_fuel s (io 0) h hread) rfl (by decide)).trans ?_
  have hc : init_run_state aes sub_io sub_fuel
      { s with last_reg_rd := h, trace := s.trace ++ [Event.ctrl_in REG_HWSTAT 1 0] }
      INIT_CHECK_HWSTAT_REBOOT (io 1) =
      ({ s with last_reg_rd := h, last_hwstat := h,
                trace := s.trace ++ [Event.ctrl_in REG_HWSTAT 1 0] }, [SsmCall.next_state]) := by
    rw [init_check_reboot]
    dsimp only
    rw [if_pos hb]
  refine (ssm_exec_next _ _ _ (f + 1) _ _ _ INIT_REBOOT_POWER hc rfl (by decide)).trans ?_
  have hr := init_reboot_power aes sub_io sub_fuel
    { s with last_reg_rd := h, last_hwstat := h,
             trace := s.trace ++ [Event.ctrl_in REG_HWSTAT 1 0] } (io 2)
  generalize rebootpwr_exec (sub_io INIT_REBOOT_POWER) sub_fuel
    { s with last_reg_rd := h, last_hwstat := h,
             trace := s.trace ++ [Event.ctrl_in REG_HWSTAT 1 0] } = r at hr ⊢
  obtain ⟨t, o⟩ := r
  cases o with
  | none => exact ssm_exec_parked _ _ _ f _ _ _ hr
  | some o =>
    cases o with
    | completed => exact ssm_exec_next _ _ _ f _ _ _ INIT_CHECK_HWSTAT_POWERDOWN hr rfl (by decide)
    | aborted e => exact ssm_exec_aborted _ _ _ f _ _ _ _ hr
    | parked n => exact ssm_exec_parked _ _ _ f _ _ _ hr
    | misuse c => exact ssm_exec_parked _ _ _ f _ _ _ hr

/-- C23: for every status byte `h` read at `INIT_GET_HWSTAT` (the read
succeeding), the init machine runs the reboot-power machine if and only if
`(h & 0x84) = 0x84`: otherwise it goes from `INIT_CHECK_HWSTAT_REBOOT` straight
to `INIT_CHECK_HWSTAT_POWERDOWN`, with `last_hwstat = h`.  At
`INIT_CHECK_HWSTAT_POWERDOWN` it writes `last_hwstat | 0x80` to `REG_HWSTAT` if
and only if bit 7 of `last_hwstat` is clear, and otherwise advances without
writing; `last_hwstat` is `h` when the reboot-power machine did not run, and the
value of its last read of `REG_HWSTAT` when it ran and completed. -/
theorem C23_init_hwstat (aes : Aes) (sub_io : Nat → Nat → Nat → IoReply) (sub_fuel : Nat)
    (io : Nat → Nat → IoReply) (f : Nat) (s : uru4k_dev) (h : Nat)
    (hread : io 0 0 = read_ok [h] 1) :
    (¬ (h &&& 0x84 = 0x84) → io 2 0 = write_ok 1 →
      ssm_exec INIT_NUM_STATES (init_run_state aes sub_io sub_fuel) io (f + 3) s
          INIT_GET_HWSTAT =
        ssm_exec INIT_NUM_STATES (init_run_state aes sub_io sub_fuel) (fun k => io (k + 3)) f
          { s with last_reg_rd := h, last_hwstat := h,
                   trace := s.trace ++ Event.ctrl_in 0x07 1 0 :: powerdown_write h }
          INIT_FIX_FIRMWARE) ∧
    (h &&& 0x84 = 0x84 →
      ssm_exec INIT_NUM_STATES (init_run_state aes sub_io sub_fuel) io (f + 3) s
          INIT_GET_HWSTAT =
        match rebootpwr_exec (sub_io INIT_REBOOT_POWER) sub_fuel
            { s with last_reg_rd := h, last_hwstat := h,
                     trace := s.trace ++ [Event.ctrl_in REG_HWSTAT 1 0] } with
        | (t, some SsmOutcome.completed) =>
          ssm_exec INIT_NUM_STATES (init_run_state aes sub_io sub_fuel) (fun k => io (k + 3)) f t
            INIT_CHECK_HWSTAT_POWERDOWN
        | (t, some (SsmOutcome.aborted e)) => (t, some (SsmOutcome.aborted e))
        | (t, _) => (t, some (SsmOutcome.parked INIT_REBOOT_POWER))) ∧
    (∀ (rd : Nat → Nat) (n : Nat), h &&& 0x84 = 0x84 → n < 100 →
      (∀ j, j < n → rd j &&& 0x1 = 0) → rd n &&& 0x1 ≠ 0 → 3 * n + 3 ≤ sub_fuel →
      sub_io INIT_REBOOT_POWER 0 0 = write_ok 1 →
      (∀ j, j ≤ n → sub_io INIT_REBOOT_POWER (3 * j + 1) 0 = read_ok [rd j] 1) →
      (∀ j, j < n → (sub_io INIT_REBOOT_POWER (3 * j + 3) 0).alloc_ok = true) →
      io 3 0 = write_ok 1 →
      ssm_exec INIT_NUM_STATES (init_run_state aes sub_io sub_fuel) io (f + 4) s
          INIT_GET_HWSTAT =
        ssm_exec INIT_NUM_STATES (init_run_state aes sub_io sub_fuel) (fun k => io (k + 4)) f
          { s with last_reg_rd := rd n, last_hwstat := rd n,
                   rebootpwr_ctr := ((100 - n : Nat) : Int),
                   trace := s.trace ++ Event.ctrl_in 0x07 1 0 ::
                     Event.ctrl_out 0x07 1 [h &&& 0xf] 0 ::
                     (reboot_polls n ++ Event.ctrl_in 0x07 1 0 :: powerdown_write (rd n)) }
          INIT_FIX_FIRMWARE) ∧
    (∀ (t : uru4k_dev) (io1 : Nat → IoReply), io1 0 = write_ok 1 →
      init_run_state aes sub_io sub_fuel t INIT_CHECK_HWSTAT_POWERDOWN io1 =
        ({ t with trace := t.trace ++ powerdown_write t.last_hwstat }, [SsmCall.next_state])) ∧
    (∀ hw : Nat, powerdown_write hw =
      if hw &&& 0x80 = 0 then [Event.ctrl_out 0x07 1 [hw ||| 0x80] 0] else []) := by
  refine ⟨?_, init_exec_reboot aes sub_io sub_fuel io f s h hread, ?_,
    fun t io1 h1 => init_check_powerdown aes sub_io sub_fuel t io1 h1, fun _ => rfl⟩
  · intro hb hw
    refine (init_exec_skip_reboot aes sub_io sub_fuel io (f + 1) s h hread hb).trans ?_
    refine (ssm_exec_next _ _ _ f _ _ _ INIT_FIX_FIRMWARE
      (init_check_powerdown aes sub_io sub_fuel _ _ hw) rfl (by decide)).trans ?_
    simp [REG_HWSTAT]
  · intro rd n hb hlt hclear hset hfuel hw0 hreads hpause hw
    refine (init_exec_reboot aes sub_io sub_fuel io (f + 1) s h hread hb).trans ?_
    rw [rebootpwr_exec_run rd (sub_io INIT_REBOOT_POWER) sub_fuel _ n (by omega) hclear
      (fun _ => hset) hfuel hw0 (fun j hj _ => hreads j hj) hpause]
    have hmin : min n 99 = n := by omega
    rw [if_pos hlt, if_pos hlt, hmin]
    refine (ssm_exec_next _ _ _ f _ _ _ INIT_FIX_FIRMWARE
      (init_check_powerdown aes sub_io sub_fuel _ _ hw) rfl (by decide)).trans ?_
    simp [REG_HWSTAT]

/-- Witness of C23: the status byte 0x04 asks for no reboot of the power and has
bit 7 clear: 0x84 is written to `REG_HWSTAT`. -/
theorem C23_init_hwstat_witness :
    ssm_exec INIT_NUM_STATES
        (init_run_state example_aes (fun _ => reboot_io example_reboot_rd) 9) (init_io 0x04) 4
        example_press_ctx INIT_GET_HWSTAT =
      ssm_exec INIT_NUM_STATES
        (init_run_state example_aes (fun _ => reboot_io example_reboot_rd) 9)
        (fun k => init_io 0x04 (k + 3)) 1
        { example_press_ctx with
          last_reg_rd := 0x04
          last_hwstat := 0x04
          trace := [Event.ctrl_in 0x07 1 0, Event.ctrl_out 0x07 1 [0x84] 0] }
        INIT_FIX_FIRMWARE :=
  (C23_init_hwstat example_aes (fun _ => reboot_io example_reboot_rd) 9 (init_io 0x04) 1
    example_press_ctx 0x04 rfl).1 (by decide) rfl

end Libfprint.Uru4000

namespace Libfprint.Upeksonly

open sonly_kill_transfers_action
open Libfprint.Uru4000 (SsmCall SsmOutcome IoReply subsm_calls)

/-! ## Swipe driver: register bursts -/

theorem burst_writes_getD (regs : List sonly_regwrite) :
    ∀ (io : Nat → IoReply) (n i : Nat), i < n → i < regs.length →
      (burst_writes regs io n).getD i Event.fp_err_no_rows =
        Event.ctrl_write (regs.getD i ⟨0, 0⟩).reg (regs.getD i ⟨0, 0⟩).value (io i).submit_r := by
  induction regs with
  | nil => intro io n i _ hi; cases hi
  | cons a rest ih =>
    intro io n i hn hi
    cases n with
    | zero => cases hn
    | succ n =>
      cases i with
      | zero => rfl
      | succ i =>
        simp only [burst_writes, List.getD_cons_succ]
        exact ih (fun j => io (j + 1)) n i (by omega) (by simpa using hi)

theorem burst_writes_length (regs : List sonly_regwrite) :
    ∀ (io : Nat → IoReply) (n : Nat), (burst_writes regs io n).length = min n regs.length := by
  induction regs with
  | nil => intro io n; cases n <;> simp [burst_writes]
  | cons a rest ih =>
    intro io n
    cases n with
    | zero => simp [burst_writes]
    | succ n =>
      simp only [burst_writes, List.length_cons, ih]
      omega

theorem write_regs_iterate_spec (regs : List sonly_regwrite) :
    ∀ (io : Nat → IoReply) (s : sonly_dev) (k : Nat), k ≤ regs.length →
      (∀ i, i < k → reply_ok (io i)) → (k = regs.length ∨ ¬ reply_ok (io k)) →
      write_regs_iterate regs io s =
        ({ s with trace := s.trace ++ burst_writes regs io (k + 1) },
          if k = regs.length then [SsmCall.next_state]
          else [SsmCall.mark_aborted (reply_error (io k))]) := by
  induction regs with
  | nil =>
    intro io s k hk _ _
    have : k = 0 := by simpa using hk
    subst this
    simp [write_regs_iterate, write_regs_finished, burst_writes]
  | cons a rest ih =>
    intro io s k hk hok hstop
    cases k with
    | zero =>
      have hbad : ¬ reply_ok (io 0) := by
        rcases hstop with h | h
        · simp at h
        · exact h
      unfold write_regs_iterate
      dsimp only
      have hne : ¬ (0 = (a :: rest).length) := by simp
      rw [if_neg hne]
      by_cases hr : (io 0).submit_r < 0
      · have hr0 : ¬ (io 0).submit_r = 0 := by omega
        rw [if_pos hr]
        simp [write_regs_finished, hr0, reply_error, hr, burst_writes, sonly_dev.emit]
      · have hst : (io 0).status ≠ LIBUSB_TRANSFER_COMPLETED := fun h => hbad ⟨hr, h⟩
        have hst0 : ¬ (io 0).status = 0 := hst
        rw [if_neg hr, if_pos hst]
        simp [write_regs_finished, hst0, reply_error, hr, burst_writes, sonly_dev.emit]
    | succ k =>
      have h0 := hok 0 (by omega)
      unfold write_regs_iterate
      dsimp only
      rw [if_neg h0.1, if_neg (by rw [h0.2]; simp)]
      rw [ih (fun j => io (j + 1)) _ k (by simpa using hk)
        (fun i hi => hok (i + 1) (by omega))
        (by
          rcases hstop with h | h
          · left; simpa using h
          · right; exact h)]
      simp [burst_writes, sonly_dev.emit]

/-- C30: `sm_write_regs` over the table `regs` submits the writes in index
order, each with `wIndex = regs[i].reg` and the payload `regs[i].value`, a write
only after the one before it was accepted and has completed.  With `k` the index
of the first write that is refused or does not complete (`k = n` if there is
none): the writes `0 .. k` are submitted and no other; for `k = n` (at once when
`n = 0`) `next_state` is called once, and otherwise the machine is aborted once,
with the result of the failed submission or the status of the failed transfer. -/
theorem C30_register_burst (s : sonly_dev) (regs : List sonly_regwrite) (io : Nat → IoReply)
    (k : Nat) (ha : (io 0).alloc_ok = true) (hk : k ≤ regs.length)
    (hok : ∀ i, i < k → reply_ok (io i)) (hstop : k = regs.length ∨ ¬ reply_ok (io k)) :
    sm_write_regs s regs io =
      ({ s with trace := s.trace ++ burst_writes regs io (k + 1) },
        if k = regs.length then [SsmCall.next_state]
        else [SsmCall.mark_aborted (reply_error (io k))]) ∧
    (burst_writes regs io (k + 1)).length = min (k + 1) regs.length ∧
    (∀ i, i < k + 1 → i < regs.length →
      (burst_writes regs io (k + 1)).getD i Event.fp_err_no_rows =
        Event.ctrl_write (regs.getD i ⟨0, 0⟩).reg (regs.getD i ⟨0, 0⟩).value
          (io i).submit_r) ∧
    sm_write_regs s [] io = (s, [SsmCall.next_state]) := by
  refine ⟨?_, burst_writes_length regs io (k + 1),
    fun i hi hl => burst_writes_getD regs io (k + 1) i hi hl, ?_⟩
  · unfold sm_write_regs
    rw [ha]
    exact write_regs_iterate_spec regs io s k hk hok hstop
  · unfold sm_write_regs
    rw [ha]
    rfl

/-- Witness of C30: the deinit burst on a device that accepts and completes
every write. -/
theorem C30_register_burst_witness :
    sm_write_regs example_fresh deinitsm_writev (fun _ => io_ok) =
      ({ example_fresh with trace :=
          [Event.ctrl_write 0x0b 0x00 0, Event.ctrl_write 0x09 0x20 0,
            Event.ctrl_write 0x13 0x45 0, Event.ctrl_write 0x13 0x45 0] },
        [SsmCall.next_state]) :=
  (C30_register_burst example_fresh deinitsm_writev (fun _ => io_ok) 4 rfl (by decide)
    (fun _ _ => (by decide : reply_ok io_ok)) (Or.inl rfl)).1

/-- C29: a single register write and a register read that complete with a
status other than COMPLETED abort their machine with `-EIO`; a write of a
register burst and the await-finger interrupt transfer abort it with the
transfer status itself (a positive `libusb_transfer_status`), not with `-EIO`:
the deinit burst whose first write completes with `LIBUSB_TRANSFER_ERROR` aborts
with 1. -/
theorem C29_swipe_failure_codes :
    (∀ status : Int, status ≠ LIBUSB_TRANSFER_COMPLETED →
      sm_write_reg_cb status = [SsmCall.mark_aborted (-5)]) ∧
    (∀ (s : sonly_dev) (status : Int) (data : List Nat), status ≠ LIBUSB_TRANSFER_COMPLETED →
      sm_read_reg_cb s status data = (s, [SsmCall.mark_aborted (-5)])) ∧
    (∀ (s : sonly_dev) (regwrite : sonly_regwrite) (rest : List sonly_regwrite)
        (io : Nat → IoReply),
      ¬ (io 0).submit_r < 0 → (io 0).status ≠ LIBUSB_TRANSFER_COMPLETED →
      (write_regs_iterate (regwrite :: rest) io s).2 = [SsmCall.mark_aborted (io 0).status]) ∧
    (∀ (s : sonly_dev) (status : Int), status ≠ LIBUSB_TRANSFER_COMPLETED →
      sm_await_intr_cb s status = (s, [SsmCall.mark_aborted status])) ∧
    (sm_write_regs example_fresh deinitsm_writev example_io_error).2 =
      [SsmCall.mark_aborted 1] ∧
    (sm_await_intr example_fresh (example_io_error 0)).2 = [SsmCall.mark_aborted 1] ∧
    LIBUSB_TRANSFER_ERROR = 1 ∧ EIO = 5 := by
  refine ⟨?_, ?_, ?_, ?_, by decide, by decide, rfl, rfl⟩
  · intro status h
    unfold sm_write_reg_cb
    rw [if_pos h]
    rfl
  · intro s status data h
    unfold sm_read_reg_cb
    rw [if_pos h]
    rfl
  · intro s regwrite rest io hr hst
    have hst0 : ¬ (io 0).status = 0 := hst
    unfold write_regs_iterate
    dsimp only
    rw [if_neg hr, if_pos hst]
    simp [write_regs_finished, hst0]
  · intro s status h
    unfold sm_await_intr_cb
    rw [if_pos h]

end Libfprint.Upeksonly

namespace Libfprint.Upeksonly

open sonly_kill_transfers_action
open Libfprint.Uru4000 (SsmCall SsmOutcome IoReply subsm_calls)

/-! ## Swipe driver: deactivation during a capture -/

theorem swipe_ssm_exec_next (nr : Nat)
    (handler : sonly_dev → Nat → (Nat → IoReply) → sonly_dev × List SsmCall)
    (io : Nat → Nat → IoReply) (f : Nat) (s t : sonly_dev) (cur nx : Nat)
    (h : handler s cur (io 0) = (t, [SsmCall.next_state])) (hnx : cur + 1 = nx)
    (hne : nx ≠ nr) :
    ssm_exec nr handler io (f + 1) s cur =
      ssm_exec nr handler (fun k => io (k + 1)) f t nx := by
  subst hnx
  rw [ssm_exec, h]
  simp [hne]

theorem swipe_ssm_exec_last (nr : Nat)
    (handler : sonly_dev → Nat → (Nat → IoReply) → sonly_dev × List SsmCall)
    (io : Nat → Nat → IoReply) (f : Nat) (s t : sonly_dev) (cur : Nat)
    (h : handler s cur (io 0) = (t, [SsmCall.next_state])) (hne : cur + 1 = nr) :
    ssm_exec nr handler io (f + 1) s cur = (t, some SsmOutcome.completed) := by
  rw [ssm_exec, h]
  simp [hne]

theorem swipe_ssm_exec_jump (nr : Nat)
    (handler : sonly_dev → Nat → (Nat → IoReply) → sonly_dev × List SsmCall)
    (io : Nat → Nat → IoReply) (f : Nat) (s t : sonly_dev) (cur n : Nat)
    (h : handler s cur (io 0) = (t, [SsmCall.jump_to_state n])) :
    ssm_exec nr handler io (f + 1) s cur =
      ssm_exec nr handler (fun k => io (k + 1)) f t n := by
  rw [ssm_exec, h]

theorem swipe_ssm_exec_completed (nr : Nat)
    (handler : sonly_dev → Nat → (Nat → IoReply) → sonly_dev × List SsmCall)
    (io : Nat → Nat → IoReply) (f : Nat) (s t : sonly_dev) (cur : Nat)
    (h : handler s cur (io 0) = (t, [SsmCall.mark_completed])) :
    ssm_exec nr handler io (f + 1) s cur = (t, some SsmOutcome.completed) := by
  rw [ssm_exec, h]

/-- The deinit machine on a device that accepts and completes every write. -/
theorem deinitsm_exec_ok (io : Nat → Nat → IoReply) (f : Nat) (s : sonly_dev)
    (h : ∀ j, io 0 j = io_ok) :
    ssm_exec DEINITSM_NUM_STATES deinitsm_run_state io (f + 1) s DEINITSM_WRITEV =
      ({ s with trace := s.trace ++ deinit_events }, some SsmOutcome.completed) := by
  refine swipe_ssm_exec_last _ _ io f s _ _ ?_ rfl
  have e : io 0 = fun _ => io_ok := funext h
  unfold deinitsm_run_state
  rw [if_pos rfl, e]
  simp [sm_write_regs, write_regs_iterate, write_regs_finished, deinitsm_writev, io_ok,
    sonly_dev.emit, deinit_events, LIBUSB_TRANSFER_COMPLETED]

/-- The loop machine, advanced from `LOOPSM_CAPTURE` while a deactivation is
pending: deinit burst, `LOOPSM_FINAL`, `LOOPSM_RUN_AWFSM`, completion. -/
theorem loopsm_resume_ok (sub_io : Nat → Nat → Nat → IoReply) (g : Nat)
    (io : Nat → Nat → IoReply) (f : Nat) (s : sonly_dev)
    (hd : s.deactivating = true) (h : ∀ j, sub_io LOOPSM_RUN_DEINITSM 0 j = io_ok) :
    loopsm_resume sub_io (g + 1) io (f + 3) s =
      (deactivate_done { s with capturing := false, trace := s.trace ++ deinit_events },
        some SsmOutcome.completed) := by
  have h1 : loopsm_run_state sub_io (g + 1) s LOOPSM_RUN_DEINITSM (io 0) =
      ({ s with capturing := false, trace := s.trace ++ deinit_events },
        [SsmCall.next_state]) := by
    unfold loopsm_run_state
    rw [if_neg (by decide), if_neg (by decide), if_neg (by decide), if_neg (by decide),
      if_pos rfl]
    dsimp only
    rw [deinitsm_exec_ok _ g _ h]
    rfl
  have h2 : ∀ (t : sonly_dev) (i : Nat → IoReply),
      loopsm_run_state sub_io (g + 1) t LOOPSM_FINAL i =
        (t, [SsmCall.jump_to_state LOOPSM_RUN_AWFSM]) := by
    intro t i
    unfold loopsm_run_state
    rw [if_neg (by decide), if_neg (by decide), if_neg (by decide), if_neg (by decide),
      if_neg (by decide), if_pos rfl]
  have h3 : ∀ (t : sonly_dev) (i : Nat → IoReply), t.deactivating = true →
      loopsm_run_state sub_io (g + 1) t LOOPSM_RUN_AWFSM i = (t, [SsmCall.mark_completed]) := by
    intro t i ht
    unfold loopsm_run_state
    rw [if_pos rfl, if_pos ht]
  have e : ssm_exec LOOPSM_NUM_STATES (loopsm_run_state sub_io (g + 1)) io (f + 3) s
      (LOOPSM_CAPTURE + 1) =
      ({ s with capturing := false, trace := s.trace ++ deinit_events },
        some SsmOutcome.completed) := by
    refine (swipe_ssm_exec_next _ _ io (f + 2) s _ _ LOOPSM_FINAL h1 rfl (by decide)).trans ?_
    refine (swipe_ssm_exec_jump _ _ _ (f + 1) _ _ _ _ (h2 _ _)).trans ?_
    exact swipe_ssm_exec_completed _ _ _ f _ _ _ (h3 _ _ hd)
  unfold loopsm_resume
  rw [e]
  show (loopsm_complete _ 0, _) = _
  unfold loopsm_complete
  rw [if_pos hd]

theorem last_transfer_killed_iterate (s : sonly_dev) (hk : s.killing_transfers = ITERATE_SSM)
    (hs : s.kill_ssm = SsmRef.loopsm) :
    (last_transfer_killed s).trace = s.trace ++ iterate_events := by
  unfold last_transfer_killed
  simp [sonly_dev.emit, hk, hs, iterate_events]

/-- The calls `cancel_one` adds are calls of `libusb_cancel_transfer`. -/
theorem cancel_fold_trace (l : List Nat) :
    ∀ s : sonly_dev, ∃ ext, (l.foldl cancel_one s).trace = s.trace ++ ext ∧
      ∀ e ∈ ext, is_cancel e = true := by
  induction l with
  | nil => intro s; exact ⟨[], by simp, by simp⟩
  | cons i l ih =>
    intro s
    obtain ⟨ext, h1, h2⟩ := ih (cancel_one s i)
    have hone : ∃ x, (cancel_one s i).trace = s.trace ++ x ∧ ∀ e ∈ x, is_cancel e = true := by
      unfold cancel_one
      split
      · exact ⟨[], by simp, by simp⟩
      · split
        · exact ⟨[], by simp, by simp⟩
        · exact ⟨[Event.cancel_transfer i], rfl, by simp [is_cancel]⟩
    obtain ⟨x, g1, g2⟩ := hone
    refine ⟨x ++ ext, ?_, ?_⟩
    · rw [List.foldl_cons, h1, g1, List.append_assoc]
    · intro e he
      rcases List.mem_append.mp he with h | h
      · exact g2 e h
      · exact h2 e h

/-- After `cancel_one` for index `i`, transfer `i` is cancelling if it is
flying; a transfer that is cancelling if flying stays so. -/
theorem cancel_one_cancelling (s : sonly_dev) (i j : Nat)
    (h : j = i ∨ ∀ d, s.img_transfer_data.get? j = some d → d.flying = true →
      d.cancelling = true) :
    ∀ d, (cancel_one s i).img_transfer_data.get? j = some d → d.flying = true →
      d.cancelling = true := by
  unfold cancel_one
  split
  · rename_i hnone
    intro d hd hf
    rcases h with h | h
    · subst h
      rw [hnone] at hd
      cases hd
    · exact h d hd hf
  · rename_i idata hsome
    split
    · rename_i hcond
      intro d hd hf
      rcases h with h | h
      · subst h
        rw [hsome] at hd
        cases hd
        cases hc : idata.cancelling
        · rw [hf, hc] at hcond
          cases hcond
        · rfl
      · exact h d hd hf
    · intro d hd hf
      by_cases hji : j = i
      · subst hji
        have hlt : j < s.img_transfer_data.length := by
          rcases List.get?_eq_some.mp hsome with ⟨hl, _⟩
          exact hl
        simp only [List.get?_eq_getElem?, List.getElem?_set_self hlt, Option.some.injEq] at hd
        rw [← hd]
      · rcases h with h | h
        · exact absurd h hji
        · simp only [List.get?_eq_getElem?, List.getElem?_set_ne (Ne.symm hji)] at hd
          exact h d (by simpa using hd) hf

theorem cancel_fold_cancelling (l : List Nat) :
    ∀ (s : sonly_dev) (j : Nat),
      (j ∈ l ∨ ∀ d, s.img_transfer_data.get? j = some d → d.flying = true →
        d.cancelling = true) →
      ∀ d, (l.foldl cancel_one s).img_transfer_data.get? j = some d → d.flying = true →
        d.cancelling = true := by
  induction l with
  | nil =>
    intro s j h
    rcases h with h | h
    · cases h
    · exact h
  | cons i l ih =>
    intro s j h
    rw [List.foldl_cons]
    apply ih (cancel_one s i) j
    rcases h with h | h
    · rcases List.mem_cons.mp h with h | h
      · exact Or.inr (cancel_one_cancelling s i j (Or.inl h))
      · exact Or.inl h
    · exact Or.inr (cancel_one_cancelling s i j (Or.inr h))

theorem count_true_zero (l : List Bool) (h : l.count true = 0) : ∀ b ∈ l, b = false := by
  intro b hb
  cases b
  · rfl
  · have := List.count_pos_iff.mpr hb
    omega

/-- After `cancel_img_transfers`, every flying transfer of the pool is
cancelling. -/
theorem cancel_img_transfers_cancelling (s : sonly_dev) (hi : FlyInv s) :
    ∀ d ∈ (cancel_img_transfers s).img_transfer_data, d.flying = true → d.cancelling = true := by
  intro d hd hf
  unfold cancel_img_transfers at hd
  by_cases h0 : s.num_flying = 0
  · rw [if_pos h0, last_transfer_killed_pool] at hd
    have hc : (flying_flags s).count true = 0 := by
      have := hi.2
      rw [h0] at this
      unfold count_flying at this
      omega
    have := count_true_zero _ hc d.flying (by
      unfold flying_flags
      exact List.mem_map.mpr ⟨d, hd, rfl⟩)
    rw [hf] at this
    cases this
  · rw [if_neg h0] at hd
    obtain ⟨j, hj, hget⟩ := List.mem_iff_getElem.mp hd
    have hlen : ((List.range NUM_BULK_TRANSFERS).foldl cancel_one s).img_transfer_data.length =
        NUM_BULK_TRANSFERS := by
      have := cancel_fold_flags (List.range NUM_BULK_TRANSFERS) s
      have h2 := congrArg List.length this
      unfold flying_flags at h2
      rw [List.length_map, List.length_map] at h2
      rw [h2]
      have := hi.1
      unfold flying_flags at this
      rw [List.length_map] at this
      exact this
    exact cancel_fold_cancelling (List.range NUM_BULK_TRANSFERS) s j
      (Or.inl (List.mem_range.mpr (by omega))) d
      (by rw [List.get?_eq_getElem?, List.getElem?_eq_getElem hj, hget]) hf

theorem img_data_cb_iterate (s : sonly_dev) (hk : s.killing_transfers = ITERATE_SSM)
    (hs : s.kill_ssm = SsmRef.loopsm) (idx : Nat) (status : Int) (buffer : List Nat) (r : Int) :
    (img_data_cb s idx status buffer r).trace =
      s.trace ++ (if s.num_flying = 1 then iterate_events else []) := by
  obtain ⟨l1, l2, l3, _⟩ := img_data_cb_landed_fields s idx
  have l4 : (img_data_cb_landed s idx).kill_ssm = SsmRef.loopsm := by
    have c := (set_idata_core s idx fun d => { d with flying := false, cancelling := false }).1
    have e := (core_fields c).2.2.2.2.2.2.2.2
    unfold img_data_cb_landed
    exact e.trans hs
  unfold img_data_cb
  simp only []
  rw [if_pos (by rw [l2, hk]; decide)]
  by_cases h0 : (img_data_cb_landed s idx).num_flying = 0
  · rw [if_pos h0, last_transfer_killed_iterate _ (l2.trans hk) l4, l3]
    have h1 : s.num_flying = 1 := by rw [l1] at h0; omega
    rw [if_pos h1]
  · rw [if_neg h0, l3]
    have h1 : ¬ s.num_flying = 1 := by rw [l1] at h0; omega
    rw [if_neg h1, List.append_nil]

/-- Completions while `ITERATE_SSM` is pending on the loop machine: the trace
gains the deferred action, at the completion that lands the last transfer. -/
theorem run_iterate (cs : List Completion) :
    ∀ (s : sonly_dev) (n : Int), s.killing_transfers = ITERATE_SSM →
      s.kill_ssm = SsmRef.loopsm → s.num_flying = n →
      (run s cs).trace =
        s.trace ++ (if 0 < n ∧ n ≤ cs.length then iterate_events else []) ∧
      (run s cs).deactivating = s.deactivating := by
  induction cs with
  | nil =>
    intro s n _ _ _
    have : ¬ (0 < n ∧ n ≤ ((([] : List Completion).length : Nat) : Int)) := by
      simp only [List.length_nil, Nat.cast_zero]; omega
    rw [if_neg this]
    simp [run]
  | cons c cs ih =>
    intro s n hk hs hn
    have hne : s.killing_transfers ≠ NOT_KILLING := by rw [hk]; decide
    obtain ⟨a1, a2, _, _⟩ := img_data_cb_killing s hne c.idx c.status c.buffer c.resubmit_r
    have hc := (img_data_cb_killing_core s hne c.idx c.status c.buffer c.resubmit_r).1
    have a5 : (img_data_cb s c.idx c.status c.buffer c.resubmit_r).kill_ssm = s.kill_ssm := by
      have e := congrArg sonly_dev.kill_ssm hc
      exact e
    have a6 : (img_data_cb s c.idx c.status c.buffer c.resubmit_r).deactivating =
        s.deactivating := by
      have e := congrArg sonly_dev.deactivating hc
      exact e
    have a7 := img_data_cb_iterate s hk hs c.idx c.status c.buffer c.resubmit_r
    obtain ⟨b1, b2⟩ := ih (img_data_cb s c.idx c.status c.buffer c.resubmit_r) (n - 1)
      (a2.trans hk) (a5.trans hs) (by rw [a1, hn])
    have hrun : run s (c :: cs) =
        run (img_data_cb s c.idx c.status c.buffer c.resubmit_r) cs := rfl
    rw [hrun]
    refine ⟨?_, b2.trans a6⟩
    rw [b1, a7, hn]
    simp only [List.length_cons, Nat.cast_add, Nat.cast_one]
    by_cases h1 : n = 1
    · subst h1
      have g1 : ¬ ((0 : Int) < 1 - 1 ∧ (1 : Int) - 1 ≤ (cs.length : Int)) := by omega
      have g2 : (0 : Int) < 1 ∧ (1 : Int) ≤ (cs.length : Int) + 1 := by omega
      rw [if_pos rfl, if_neg g1, if_pos g2, List.append_nil]
    · rw [if_neg h1, List.append_nil]
      by_cases h2 : 0 < n ∧ n ≤ (cs.length : Int) + 1
      · have g1 : 0 < n - 1 ∧ n - 1 ≤ (cs.length : Int) := by omega
        rw [if_pos h2, if_pos g1]
      · have g1 : ¬ (0 < n - 1 ∧ n - 1 ≤ (cs.length : Int)) := by omega
        rw [if_neg h2, if_neg g1]

theorem dev_deactivate_eq (s : sonly_dev) (hcap : s.capturing = true) :
    dev_deactivate s =
      cancel_img_transfers
        { s with
          deactivating := true
          killing_transfers := ITERATE_SSM
          kill_ssm := SsmRef.loopsm } := by
  unfold dev_deactivate
  rw [hcap]
  rfl

/-- The calls of `cancel_img_transfers` when `ITERATE_SSM` is pending on the
loop machine: the deferred action at once when no transfer is flying, calls of
`libusb_cancel_transfer` otherwise. -/
theorem cancel_img_transfers_iterate (t : sonly_dev) (hk : t.killing_transfers = ITERATE_SSM)
    (hs : t.kill_ssm = SsmRef.loopsm) :
    ∃ ext, (∀ e ∈ ext, is_cancel e = true) ∧
      (cancel_img_transfers t).trace =
        t.trace ++ ext ++ (if t.num_flying = 0 then iterate_events else []) := by
  unfold cancel_img_transfers
  by_cases h0 : t.num_flying = 0
  · refine ⟨[], by simp, ?_⟩
    rw [if_pos h0, if_pos h0, last_transfer_killed_iterate _ hk hs, List.append_nil]
  · obtain ⟨ext, h1, h2⟩ := cancel_fold_trace (List.range NUM_BULK_TRANSFERS) t
    refine ⟨ext, h2, ?_⟩
    rw [if_neg h0, if_neg h0, h1, List.append_nil]

/-- The fields `dev_deactivate` sets when a capture is running. -/
theorem dev_deactivate_fields (s : sonly_dev) (hcap : s.capturing = true) :
    (dev_deactivate s).deactivating = true ∧
    (dev_deactivate s).killing_transfers = ITERATE_SSM ∧
    (dev_deactivate s).kill_ssm = SsmRef.loopsm ∧
    (dev_deactivate s).num_flying = s.num_flying := by
  rw [dev_deactivate_eq s hcap]
  have hc := cancel_img_transfers_core
    { s with
      deactivating := true
      killing_transfers := ITERATE_SSM
      kill_ssm := SsmRef.loopsm }
  have e1 := congrArg sonly_dev.deactivating hc
  have e2 := congrArg sonly_dev.killing_transfers hc
  have e3 := congrArg sonly_dev.kill_ssm hc
  have e4 := congrArg sonly_dev.num_flying hc
  exact ⟨e1, e2, e3, e4⟩

theorem dev_deactivate_trace (s : sonly_dev) (hcap : s.capturing = true) :
    ∃ ext, (∀ e ∈ ext, is_cancel e = true) ∧
      (dev_deactivate s).trace =
        s.trace ++ ext ++ (if s.num_flying = 0 then iterate_events else []) := by
  rw [dev_deactivate_eq s hcap]
  exact cancel_img_transfers_iterate _ rfl rfl

/-! ## Swipe driver: the cancel calls of a tear-down -/

/-- The loop of `cancel_img_transfers` over the first `n` transfers: the calls
it makes, and the records it has not reached. -/
theorem cancel_fold_calls (s : sonly_dev) (n : Nat) :
    ((List.range n).foldl cancel_one s).trace =
      s.trace ++ ((List.range n).filter (to_cancel s)).map Event.cancel_transfer ∧
    ∀ j, n ≤ j →
      ((List.range n).foldl cancel_one s).img_transfer_data.get? j =
        s.img_transfer_data.get? j := by
  induction n with
  | zero =>
    refine ⟨?_, fun _ _ => rfl⟩
    simp
  | succ n ih =>
    obtain ⟨i1, i2⟩ := ih
    rw [List.range_succ, List.foldl_append, List.filter_append, List.map_append]
    show (cancel_one _ n).trace = _ ∧ ∀ j, n + 1 ≤ j → (cancel_one _ n).img_transfer_data.get? j = _
    have hn := i2 n (Nat.le_refl n)
    generalize (List.range n).foldl cancel_one s = t at i1 i2 hn ⊢
    unfold cancel_one
    cases hg : s.img_transfer_data.get? n with
    | none =>
      rw [hg] at hn
      rw [hn]
      have ht : to_cancel s n = false := by
        unfold to_cancel
        rw [hg]
      refine ⟨?_, fun j hj => i2 j (by omega)⟩
      simp only [List.filter_cons, List.filter_nil, ht]
      rw [i1]
      simp
    | some idata =>
      rw [hg] at hn
      rw [hn]
      dsimp only
      by_cases hc : (!idata.flying || idata.cancelling) = true
      · rw [if_pos hc]
        have ht : to_cancel s n = false := by
          unfold to_cancel
          rw [hg]
          simp only [hc, Bool.not_true]
        refine ⟨?_, fun j hj => i2 j (by omega)⟩
        simp only [List.filter_cons, List.filter_nil, ht]
        rw [i1]
        simp
      · rw [if_neg hc]
        have ht : to_cancel s n = true := by
          unfold to_cancel
          rw [hg]
          simpa using hc
        refine ⟨?_, ?_⟩
        · simp only [List.filter_cons, List.filter_nil, ht, if_true, List.map_cons, List.map_nil]
          rw [i1, List.append_assoc]
        · intro j hj
          simp only [List.get?_eq_getElem?]
          rw [List.getElem?_set_ne (by omega)]
          have := i2 j (by omega)
          simpa only [List.get?_eq_getElem?] using this

/-- With no transfer flying, the loop of `cancel_img_transfers` would make no
call. -/
theorem cancel_calls_none (s : sonly_dev) (hi : FlyInv s) (h0 : s.num_flying = 0) :
    cancel_calls s = [] := by
  have hc : (flying_flags s).count true = 0 := by
    have := hi.2
    rw [h0] at this
    unfold count_flying at this
    omega
  unfold cancel_calls
  rw [List.map_eq_nil_iff, List.filter_eq_nil_iff]
  intro i _
  unfold to_cancel
  cases hg : s.img_transfer_data.get? i with
  | none => simp
  | some idata =>
    have hm : idata ∈ s.img_transfer_data := List.get?_mem hg
    have := count_true_zero _ hc idata.flying (by
      unfold flying_flags
      exact List.mem_map.mpr ⟨idata, hm, rfl⟩)
    simp [this]

/-- The calls of `cancel_img_transfers` when `ITERATE_SSM` is pending on the
loop machine: the deferred action at once when no transfer is flying, and
otherwise one `libusb_cancel_transfer` for each transfer that is flying and not
yet cancelling. -/
theorem cancel_img_transfers_calls (t : sonly_dev) (hi : FlyInv t)
    (hk : t.killing_transfers = ITERATE_SSM) (hs : t.kill_ssm = SsmRef.loopsm) :
    (cancel_img_transfers t).trace =
      t.trace ++ cancel_calls t ++ (if t.num_flying = 0 then iterate_events else []) := by
  unfold cancel_img_transfers
  by_cases h0 : t.num_flying = 0
  · rw [if_pos h0, if_pos h0, last_transfer_killed_iterate _ hk hs, cancel_calls_none t hi h0,
      List.append_nil]
  · rw [if_neg h0, if_neg h0, (cancel_fold_calls t NUM_BULK_TRANSFERS).1, List.append_nil]
    rfl

theorem dev_deactivate_calls (s : sonly_dev) (hcap : s.capturing = true) (hi : FlyInv s) :
    (dev_deactivate s).trace =
      s.trace ++ cancel_calls s ++ (if s.num_flying = 0 then iterate_events else []) := by
  rw [dev_deactivate_eq s hcap]
  exact cancel_img_transfers_calls _ hi rfl rfl

theorem filter_getD_count (l : List Bool) :
    ((List.range l.length).filter (fun i => l.getD i false)).length = l.count true := by
  induction l using List.reverseRecOn with
  | nil => rfl
  | append_singleton l b ih =>
    rw [List.length_append, List.length_singleton, List.range_succ, List.filter_append,
      List.length_append, List.count_append]
    have h1 : (List.range l.length).filter (fun i => (l ++ [b]).getD i false) =
        (List.range l.length).filter (fun i => l.getD i false) := by
      apply List.filter_congr
      intro i hi
      rw [List.getD_append _ _ _ _ (List.mem_range.mp hi)]
    rw [h1, ih]
    have h2 : (l ++ [b]).getD l.length false = b := by
      rw [List.getD_append_right _ _ _ _ (Nat.le_refl _), Nat.sub_self]
      rfl
    cases b <;> simp [h2]

/-- The calls of `cancel_img_transfers` name exactly the transfers that are
flying and not yet cancelling; when no transfer is cancelling there are as many
of them as transfers are flying. -/
theorem cancel_calls_spec (s : sonly_dev) :
    (∀ i, Event.cancel_transfer i ∈ cancel_calls s ↔
      (i < NUM_BULK_TRANSFERS ∧ ∃ d, s.img_transfer_data.get? i = some d ∧
        d.flying = true ∧ d.cancelling = false)) ∧
    ((∀ d ∈ s.img_transfer_data, d.cancelling = false) → FlyInv s →
      cancel_calls s =
        ((List.range NUM_BULK_TRANSFERS).filter (fun i => (flying_flags s).getD i false)).map
          Event.cancel_transfer ∧
      ((cancel_calls s).length : Int) = s.num_flying) := by
  constructor
  · intro i
    unfold cancel_calls
    rw [List.mem_map]
    constructor
    · rintro ⟨j, hj, he⟩
      cases he
      obtain ⟨h1, h2⟩ := List.mem_filter.mp hj
      refine ⟨List.mem_range.mp h1, ?_⟩
      unfold to_cancel at h2
      cases hg : s.img_transfer_data.get? i with
      | none =>
        rw [hg] at h2
        cases h2
      | some d =>
        rw [hg] at h2
        refine ⟨d, rfl, ?_⟩
        cases hf : d.flying <;> cases hc : d.cancelling <;> simp [hf, hc] at h2 ⊢
    · rintro ⟨hi, d, hg, hf, hc⟩
      refine ⟨i, List.mem_filter.mpr ⟨List.mem_range.mpr hi, ?_⟩, rfl⟩
      unfold to_cancel
      rw [hg]
      simp [hf, hc]
  · intro hnc hi
    have hcongr : (List.range NUM_BULK_TRANSFERS).filter (to_cancel s) =
        (List.range NUM_BULK_TRANSFERS).filter (fun i => (flying_flags s).getD i false) := by
      apply List.filter_congr
      intro i _
      unfold to_cancel flying_flags
      rw [List.getD_eq_getElem?_getD, List.getElem?_map, ← List.get?_eq_getElem?]
      cases hg : s.img_transfer_data.get? i with
      | none => rfl
      | some d =>
        have hm : d ∈ s.img_transfer_data := List.get?_mem hg
        simp [hnc d hm]
    unfold cancel_calls
    rw [hcongr]
    refine ⟨rfl, ?_⟩
    rw [List.length_map, hi.2]
    unfold count_flying
    have := filter_getD_count (flying_flags s)
    rw [hi.1] at this
    rw [this]

/-- C27: `dev_deactivate` is called while a capture runs (the loop machine is
parked in `LOOPSM_CAPTURE`) with `k` bulk transfers flying.  Then `deactivating`
is set, `killing_transfers` is `ITERATE_SSM` for the loop machine, and every
flying transfer is cancelled: `libusb_cancel_transfer` is called, in index
order, for exactly the transfers that are flying and not yet cancelling (`k`
calls when no cancel was pending), and every flying transfer is marked
cancelling.  Whatever the status of the completions, the deferred action runs
exactly once, on the `k`-th of them (on the spot for `k = 0`), and advances the
loop machine, which runs the deinit machine: with the 4 writes of its burst
succeeding, the loop machine goes through `LOOPSM_FINAL` to `LOOPSM_RUN_AWFSM`
and completes there, without another register write, and `deactivate_complete`
is reported exactly once. -/
theorem C27_early_cancel (s : sonly_dev) (k : Nat) (cs : List Completion)
    (sub_io : Nat → Nat → Nat → IoReply) (g : Nat) (io : Nat → Nat → IoReply) (f : Nat)
    (hcap : s.capturing = true) (hi : FlyInv s) (hk : s.num_flying = k)
    (hcs : cs.length = k) (hio : ∀ j, sub_io LOOPSM_RUN_DEINITSM 0 j = io_ok) :
    (∀ (t : sonly_dev) (i : Nat → IoReply),
      loopsm_run_state sub_io (g + 1) t LOOPSM_CAPTURE i = (t, [])) ∧
    (dev_deactivate s).deactivating = true ∧
    (dev_deactivate s).killing_transfers = ITERATE_SSM ∧
    (dev_deactivate s).kill_ssm = SsmRef.loopsm ∧
    (∀ d ∈ (dev_deactivate s).img_transfer_data, d.flying = true → d.cancelling = true) ∧
    (dev_deactivate s).trace =
      s.trace ++ cancel_calls s ++ (if k = 0 then iterate_events else []) ∧
    (∀ i, Event.cancel_transfer i ∈ cancel_calls s ↔
      (i < NUM_BULK_TRANSFERS ∧ ∃ d, s.img_transfer_data.get? i = some d ∧
        d.flying = true ∧ d.cancelling = false)) ∧
    ((∀ d ∈ s.img_transfer_data, d.cancelling = false) →
      cancel_calls s =
        ((List.range NUM_BULK_TRANSFERS).filter (fun i => (flying_flags s).getD i false)).map
          Event.cancel_transfer ∧
      (cancel_calls s).length = k) ∧
    (∀ cs2 : List Completion,
      kills (run (dev_deactivate s) cs2).trace =
        kills s.trace ++ if k ≤ cs2.length then [ITERATE_SSM] else []) ∧
    (run (dev_deactivate s) cs).trace = s.trace ++ cancel_calls s ++ iterate_events ∧
    loopsm_resume sub_io (g + 1) io (f + 3) (run (dev_deactivate s) cs) =
      (deactivate_done
        { run (dev_deactivate s) cs with
          capturing := false
          trace := s.trace ++ cancel_calls s ++ iterate_events ++ deinit_events },
        some SsmOutcome.completed) ∧
    (loopsm_resume sub_io (g + 1) io (f + 3) (run (dev_deactivate s) cs)).1.trace =
      s.trace ++ cancel_calls s ++ iterate_events ++ deinit_events ++
        [Event.deactivate_complete] ∧
    deactivations
      (cancel_calls s ++ iterate_events ++ deinit_events ++ [Event.deactivate_complete]) =
        1 := by
  obtain ⟨d1, d2, d3, d4⟩ := dev_deactivate_fields s hcap
  have x2 := dev_deactivate_calls s hcap hi
  have hdd := dev_deactivate_eq s hcap
  obtain ⟨r1, r2⟩ := run_iterate cs (dev_deactivate s) (k : Int) d2 d3 (by rw [d4, hk])
  have hk0 : (s.num_flying = 0) ↔ (k = 0) := by
    rw [hk]
    omega
  have htr : (run (dev_deactivate s) cs).trace = s.trace ++ cancel_calls s ++ iterate_events := by
    rw [r1, x2, hk, hcs]
    by_cases h0 : k = 0
    · subst h0
      simp
    · have g1 : ¬ ((k : Int) = 0) := by omega
      have g2 : (0 : Int) < (k : Int) ∧ (k : Int) ≤ (k : Int) := by omega
      rw [if_neg g1, if_pos g2]
      simp
  have hres := loopsm_resume_ok sub_io g io f (run (dev_deactivate s) cs) (r2.trans d1) hio
  rw [htr] at hres
  obtain ⟨sp1, sp2⟩ := cancel_calls_spec s
  refine ⟨?_, d1, d2, d3, ?_, ?_, sp1, ?_, ?_, htr, hres, ?_, ?_⟩
  · intro t i
    unfold loopsm_run_state
    rw [if_neg (by decide), if_neg (by decide), if_neg (by decide), if_pos rfl]
  · rw [hdd]
    exact cancel_img_transfers_cancelling _ ⟨hi.1, hi.2⟩
  · rw [x2]
    by_cases h0 : k = 0
    · rw [if_pos (hk0.mpr h0), if_pos h0]
    · rw [if_neg (fun h => h0 (hk0.mp h)), if_neg h0]
  · intro hnc
    obtain ⟨q1, q2⟩ := sp2 hnc hi
    refine ⟨q1, ?_⟩
    rw [hk] at q2
    exact_mod_cast q2
  · intro cs2
    have hne : ITERATE_SSM ≠ NOT_KILLING := by decide
    have h := cancel_then_run
      { s with
        deactivating := true
        killing_transfers := ITERATE_SSM
        kill_ssm := SsmRef.loopsm } k cs2 hne hk
    rw [hdd]
    exact h.1
  · rw [hres]
    rfl
  · unfold deactivations
    have hz : (cancel_calls s).count Event.deactivate_complete = 0 := by
      apply List.count_eq_zero.mpr
      intro hmem
      unfold cancel_calls at hmem
      obtain ⟨j, _, hj⟩ := List.mem_map.mp hmem
      cases hj
    rw [List.count_append, List.count_append, List.count_append, hz]
    rfl

theorem example_armed_flyinv : FlyInv example_armed := by
  unfold FlyInv
  decide

/-- Witness of C27: all 24 transfers are flying when `dev_deactivate` is called;
each of them is cancelled, and the deferred action runs when the 24 cancelled
transfers have landed. -/
theorem C27_early_cancel_witness :
    (run (dev_deactivate example_armed) example_cancelled).trace =
      example_armed.trace ++ cancel_calls example_armed ++ iterate_events ∧
    cancel_calls example_armed = cancel_events 24 :=
  ⟨(C27_early_cancel example_armed 24 example_cancelled (fun _ _ _ => io_ok) 0
    (fun _ _ => io_ok) 0 (by decide) example_armed_flyinv (by decide) (by decide)
    (fun _ => rfl)).2.2.2.2.2.2.2.2.2.1, by decide⟩

end Libfprint.Upeksonly


namespace Libfprint.Upeksonly

open sonly_kill_transfers_action

/-! ## Swipe driver: the start of a row -/

/-- The distance to the next row boundary, as `handle_packet` computes it. -/
theorem next_row_distance (a : Int) :
    ((a / (IMG_WIDTH : Int)) + 1) * (IMG_WIDTH : Int) - a = 288 - a % 288 := by
  have hw : (IMG_WIDTH : Int) = 288 := rfl
  rw [hw]
  have hd := Int.emod_add_ediv a 288
  omega

/-- The buffer `start_new_row` leaves: `old` is the buffer before the call, or
the fresh allocation. -/
theorem start_new_row_content (s : sonly_dev) (data : List Nat) (size : Int)
    (hsize : size ≤ 62) (hwidth : ∀ b, s.rowbuf = some b → b.length = IMG_WIDTH) :
    ∃ rb, (start_new_row s data size).rowbuf = some rb ∧ rb.length = IMG_WIDTH ∧
      (start_new_row s data size).rowbuf_offset = size ∧
      (∀ i, i < 2 → rb.getD (286 + i) 0 = data.getD i 0) ∧
      (∀ i : Nat, (i : Int) < size - 2 → rb.getD i 0 = data.getD (2 + i) 0) ∧
      (∀ i : Nat, size - 2 ≤ (i : Int) → i < 286 →
        rb.getD i 0 = (s.rowbuf.getD (g_malloc IMG_WIDTH)).getD i 0) := by
  have hw : IMG_WIDTH = 288 := rfl
  have hw2 : IMG_WIDTH - 2 = 286 := rfl
  have hold : (s.rowbuf.getD (g_malloc IMG_WIDTH)).length = IMG_WIDTH := by
    cases h : s.rowbuf with
    | none => exact List.length_replicate _ _
    | some b => exact hwidth b h
  have hrb : (start_new_row s data size).rowbuf =
      some (memcpy (memcpy (s.rowbuf.getD (g_malloc IMG_WIDTH)) (IMG_WIDTH - 2) data 2) 0
        (data.drop 2) (size - 2).toNat) := by
    unfold start_new_row
    cases h : s.rowbuf <;> rfl
  have hl1 : (memcpy (s.rowbuf.getD (g_malloc IMG_WIDTH)) (IMG_WIDTH - 2) data 2).length =
      IMG_WIDTH := by
    rw [memcpy_length, hold]
  have hl2 : (memcpy (memcpy (s.rowbuf.getD (g_malloc IMG_WIDTH)) (IMG_WIDTH - 2) data 2) 0
      (data.drop 2) (size - 2).toNat).length = IMG_WIDTH := by
    rw [memcpy_length, hl1]
  have hoffs : (start_new_row s data size).rowbuf_offset = size := by
    unfold start_new_row
    rfl
  refine ⟨_, hrb, hl2, hoffs, ?_, ?_, ?_⟩
  · intro i hi
    rw [memcpy_getD _ _ _ _ _ (by rw [hl1, hw]; omega)]
    rw [if_neg (by omega)]
    rw [memcpy_getD _ _ _ _ _ (by rw [hold, hw]; omega)]
    rw [hw2, if_pos (by omega)]
    have e : 286 + i - 286 = i := by omega
    rw [e]
  · intro i hi
    rw [memcpy_getD _ _ _ _ _ (by rw [hl1, hw]; omega)]
    rw [if_pos (by omega)]
    rw [List.getD_eq_getElem?_getD, List.getElem?_drop, ← List.getD_eq_getElem?_getD]
    rfl
  · intro i h1 h2
    rw [memcpy_getD _ _ _ _ _ (by rw [hl1, hw]; omega)]
    rw [if_neg (by omega)]
    rw [memcpy_getD _ _ _ _ _ (by rw [hold, hw]; omega)]
    rw [hw2, if_neg (by omega)]

theorem wrap_account_only (s : sonly_dev) (data : List Nat) :
    { wrap_account s data with last_seqnum := s.last_seqnum, wraparounds := s.wraparounds } =
      s := by
  unfold wrap_account
  by_cases h : packet_seqnum data ≤ s.last_seqnum
  · simp [h]
  · simp [h]

/-- C31: with no row in progress (`rowbuf_offset = -1`), a packet whose
`abs_base_addr` is divisible by `IMG_WIDTH` leaves `rowbuf[286..288)` equal to
the payload bytes `[0, 2)`, `rowbuf[0..60)` equal to the payload bytes `[2, 62)`
and `rowbuf_offset = 62`.  A packet whose distance `d` to the next row boundary
is below 62 starts a row from payload offset `d`: `rowbuf_offset = 62 - d`,
`rowbuf[286..288)` holds the payload bytes `[d, d + 2)` and `rowbuf[0..60 - d)`
the payload bytes `[d + 2, 62)`; the `d` bytes before the boundary are copied
nowhere.  A packet with `d ≥ 62` changes nothing except `last_seqnum` and
`wraparounds`. -/
theorem C31_start_row (s : sonly_dev) (data : List Nat) (hoff : s.rowbuf_offset = -1)
    (hwidth : ∀ b, s.rowbuf = some b → b.length = IMG_WIDTH) :
    (abs_base_addr s data % (IMG_WIDTH : Int) = 0 →
      ∃ rb, (handle_packet s data).rowbuf = some rb ∧ rb.length = IMG_WIDTH ∧
        (handle_packet s data).rowbuf_offset = 62 ∧
        (∀ i, i < 2 → rb.getD (286 + i) 0 = (data.drop 2).getD i 0) ∧
        (∀ i, i < 60 → rb.getD i 0 = (data.drop 2).getD (2 + i) 0)) ∧
    (∀ d : Nat, abs_base_addr s data % (IMG_WIDTH : Int) ≠ 0 →
      (d : Int) = ((abs_base_addr s data / (IMG_WIDTH : Int)) + 1) * (IMG_WIDTH : Int)
        - abs_base_addr s data → d < 62 →
      ∃ rb, (handle_packet s data).rowbuf = some rb ∧ rb.length = IMG_WIDTH ∧
        (handle_packet s data).rowbuf_offset = 62 - (d : Int) ∧
        (∀ i, i < 2 → rb.getD (286 + i) 0 = (data.drop 2).getD (d + i) 0) ∧
        (∀ i, i + d < 60 → rb.getD i 0 = (data.drop 2).getD (d + 2 + i) 0) ∧
        (∀ i, 60 ≤ i + d → i < 286 →
          rb.getD i 0 = (s.rowbuf.getD (g_malloc IMG_WIDTH)).getD i 0)) ∧
    (abs_base_addr s data % (IMG_WIDTH : Int) ≠ 0 →
      ¬ ((abs_base_addr s data / (IMG_WIDTH : Int)) + 1) * (IMG_WIDTH : Int)
        - abs_base_addr s data < 62 →
      handle_packet s data = wrap_account s data) ∧
    { wrap_account s data with last_seqnum := s.last_seqnum, wraparounds := s.wraparounds } =
      s ∧
    ((abs_base_addr s data / (IMG_WIDTH : Int)) + 1) * (IMG_WIDTH : Int)
      - abs_base_addr s data = 288 - abs_base_addr s data % 288 ∧
    (handle_packet s data).last_seqnum = packet_seqnum data ∧
    (handle_packet s data).wraparounds =
      s.wraparounds + (if packet_seqnum data ≤ s.last_seqnum then 1 else 0) := by
  have hf := wrap_account_fields s data
  have hr : rowbuf_remaining (wrap_account s data) = -1 := by
    unfold rowbuf_remaining
    rw [if_pos (by rw [hf.1, hoff])]
  have hrn : ¬ rowbuf_remaining (wrap_account s data) ≠ -1 := by rw [hr]; simp
  have hwidth2 : ∀ b, (wrap_account s data).rowbuf = some b → b.length = IMG_WIDTH := by
    intro b hb
    rw [hf.2.1] at hb
    exact hwidth b hb
  refine ⟨?_, ?_, ?_, wrap_account_only s data, next_row_distance _,
    (handle_packet_seq_fields s data).2, ?_⟩
  · intro ha
    rw [handle_packet_eq, if_neg hrn, if_pos ha]
    obtain ⟨rb, h1, h2, h3, h4, h5, _⟩ :=
      start_new_row_content (wrap_account s data) (data.drop 2) 62 (by omega) hwidth2
    exact ⟨rb, h1, h2, h3, h4, fun i hi => h5 i (by omega)⟩
  · intro d ha hd hlt
    rw [handle_packet_eq, if_neg hrn, if_neg ha, if_pos (by rw [← hd]; omega), ← hd]
    obtain ⟨rb, h1, h2, h3, h4, h5, h6⟩ :=
      start_new_row_content (wrap_account s data) ((data.drop 2).drop (d : Int).toNat)
        (62 - (d : Int)) (by omega) hwidth2
    have hget : ∀ j, ((data.drop 2).drop (d : Int).toNat).getD j 0 =
        (data.drop 2).getD (d + j) 0 := by
      intro j
      rw [List.getD_eq_getElem?_getD, List.getElem?_drop, ← List.getD_eq_getElem?_getD]
      rfl
    refine ⟨rb, h1, h2, h3, ?_, ?_, ?_⟩
    · intro i hi
      rw [h4 i hi, hget]
    · intro i hi
      rw [h5 i (by omega), hget]
      congr 1
      omega
    · intro i hi1 hi2
      rw [h6 i (by omega) hi2, hf.2.1]
  · intro ha hge
    rw [handle_packet_eq, if_neg hrn, if_neg ha, if_neg hge]
  · rw [(handle_packet_seq_fields s data).1]
    exact hf.2.2.2

/-- Witness of C31: the first packet of a capture, with sequence number 0. -/
theorem C31_start_row_witness :
    (handle_packet (capsm_init example_fresh) (example_packet 0)).rowbuf_offset = 62 :=
  ((C31_start_row (capsm_init example_fresh) (example_packet 0) rfl
    (fun _ hb => by cases hb)).1 (by decide)).elim (fun _ h => h.2.2.1)

end Libfprint.Upeksonly

namespace Libfprint.Upeksonly

open sonly_kill_transfers_action
open Libfprint.Uru4000 (SsmCall SsmOutcome IoReply)

/-! ## Swipe driver: arming the bulk pool -/

theorem pool_state_get (k c j : Nat) (hj : j < NUM_BULK_TRANSFERS) :
    (pool_state k c).get? j = some ⟨decide (j < k), decide (j < c)⟩ := by
  unfold pool_state
  rw [List.get?_eq_getElem?, List.getElem?_map, List.getElem?_range hj]
  rfl

theorem pool_state_length (k c : Nat) : (pool_state k c).length = NUM_BULK_TRANSFERS := by
  unfold pool_state
  rw [List.length_map, List.length_range]

theorem pool_state_set_flying (k : Nat) (hk : k < NUM_BULK_TRANSFERS) :
    (pool_state k 0).set k ⟨true, false⟩ = pool_state (k + 1) 0 := by
  apply List.ext_get?
  intro j
  by_cases hj : j < NUM_BULK_TRANSFERS
  · rw [pool_state_get _ _ j hj]
    by_cases hjk : j = k
    · subst hjk
      rw [List.get?_eq_getElem?, List.getElem?_set_self (by rw [pool_state_length]; exact hj)]
      simp
    · rw [List.get?_eq_getElem?, List.getElem?_set_ne (Ne.symm hjk), ← List.get?_eq_getElem?,
        pool_state_get _ _ j hj]
      have : (j < k + 1) ↔ (j < k) := by omega
      simp [this]
  · rw [List.get?_eq_none.mpr (by rw [List.length_set, pool_state_length]; omega),
      List.get?_eq_none.mpr (by rw [pool_state_length]; omega)]

theorem pool_state_set_cancelling (i n : Nat) (hn : n < i) (hi : n < NUM_BULK_TRANSFERS) :
    (pool_state i n).set n ⟨true, true⟩ = pool_state i (n + 1) := by
  apply List.ext_get?
  intro j
  by_cases hj : j < NUM_BULK_TRANSFERS
  · rw [pool_state_get _ _ j hj]
    by_cases hjk : j = n
    · subst hjk
      rw [List.get?_eq_getElem?, List.getElem?_set_self (by rw [pool_state_length]; exact hj)]
      simp [hn]
    · rw [List.get?_eq_getElem?, List.getElem?_set_ne (Ne.symm hjk), ← List.get?_eq_getElem?,
        pool_state_get _ _ j hj]
      have : (j < n + 1) ↔ (j < n) := by omega
      simp [this]
  · rw [List.get?_eq_none.mpr (by rw [List.length_set, pool_state_length]; omega),
      List.get?_eq_none.mpr (by rw [pool_state_length]; omega)]

theorem submit_events_succ (submit_r : Nat → Int) (a : sonly_kill_transfers_action)
    (k n : Nat) :
    submit_events submit_r a k (n + 1) =
      Event.submit_transfer k (submit_r k) a :: submit_events submit_r a (k + 1) n := by
  unfold submit_events
  rw [List.range_succ_eq_map, List.map_cons, List.map_map]
  refine congrArg₂ List.cons rfl ?_
  apply List.map_congr_left
  intro j _
  show Event.submit_transfer (k + (j + 1)) (submit_r (k + (j + 1))) a = _
  have e : k + (j + 1) = k + 1 + j := by omega
  rw [e]

/-- The loop of `CAPSM_FIRE_BULK` when the submissions `k .. k+d-1` are accepted
and submission `k + d` fails: the state at the failing submission. -/
theorem fire_bulk_loop_fail (submit_r : Nat → Int) (d : Nat) :
    ∀ (n k : Nat) (s : sonly_dev), d < n → k + d < NUM_BULK_TRANSFERS →
      s.img_transfer_data = pool_state k 0 →
      (∀ j, j < d → ¬ submit_r (k + j) < 0) → submit_r (k + d) < 0 →
      fire_bulk_loop submit_r n k s =
        (if k + d = 0 then
          { s with
            trace := s.trace ++ submit_events submit_r s.killing_transfers k (d + 1) ++
              [Event.ssm_mark_aborted SsmRef.capsm (submit_r (k + d))] }
        else
          cancel_img_transfers
            { s with
              img_transfer_data := pool_state (k + d) 0
              num_flying := s.num_flying + (d : Int)
              killing_transfers := ABORT_SSM
              kill_ssm := SsmRef.capsm
              kill_status_code := submit_r (k + d)
              trace := s.trace ++ submit_events submit_r s.killing_transfers k (d + 1) }, true) := by
  induction d with
  | zero =>
    intro n k s hn hk hp _ hf
    obtain ⟨n, rfl⟩ : ∃ m, n = m + 1 := ⟨n - 1, by omega⟩
    unfold fire_bulk_loop
    simp only [Nat.add_zero] at hf ⊢
    rw [if_pos hf]
    by_cases h0 : k = 0
    · rw [if_pos h0, if_pos h0]
      subst h0
      rfl
    · rw [if_neg h0, if_neg h0]
      have e : s.num_flying + ((0 : Nat) : Int) = s.num_flying := by simp
      rw [e, ← hp]
      rfl
  | succ d ih =>
    intro n k s hn hk hp hok hf
    obtain ⟨n, rfl⟩ : ∃ m, n = m + 1 := ⟨n - 1, by omega⟩
    have hk0 : ¬ submit_r k < 0 := by simpa using hok 0 (by omega)
    have e1 : k + (d + 1) = k + 1 + d := by omega
    unfold fire_bulk_loop
    simp only []
    rw [if_neg hk0]
    have hset : set_idata (s.emit (Event.submit_transfer k (submit_r k) s.killing_transfers)) k
        (fun d => { d with flying := true }) =
        { s with
          img_transfer_data := pool_state (k + 1) 0
          trace := s.trace ++ [Event.submit_transfer k (submit_r k) s.killing_transfers] } := by
      unfold set_idata
      show (match s.img_transfer_data.get? k with
        | none => _
        | some idata => _) = _
      rw [hp, pool_state_get k 0 k (by omega)]
      simp only [Nat.lt_irrefl, decide_False, Nat.not_lt_zero]
      show ({ s with
        img_transfer_data := s.img_transfer_data.set k ⟨true, false⟩
        trace := s.trace ++ [Event.submit_transfer k (submit_r k) s.killing_transfers] } :
          sonly_dev) = _
      rw [hp, pool_state_set_flying k (by omega)]
    rw [hset]
    have h := ih n (k + 1)
      { s with
        img_transfer_data := pool_state (k + 1) 0
        num_flying := s.num_flying + 1
        trace := s.trace ++ [Event.submit_transfer k (submit_r k) s.killing_transfers] }
      (by omega) (by omega) rfl
      (fun j hj => by
        have := hok (j + 1) (by omega)
        have e : k + (j + 1) = k + 1 + j := by omega
        rw [e] at this
        exact this)
      (by rw [← e1]; exact hf)
    refine h.trans ?_
    have hne : ¬ k + 1 + d = 0 := by omega
    have hne2 : ¬ k + (d + 1) = 0 := by omega
    rw [if_neg hne, if_neg hne2]
    rw [submit_events_succ submit_r s.killing_transfers k (d + 1)]
    simp only [List.append_assoc, List.cons_append, List.nil_append, e1]
    have e2 : s.num_flying + 1 + (d : Int) = s.num_flying + ((d + 1 : Nat) : Int) := by
      push_cast
      ring
    rw [e2]

theorem cancel_events_succ (n : Nat) :
    cancel_events (n + 1) = cancel_events n ++ [Event.cancel_transfer n] := by
  unfold cancel_events
  rw [List.range_succ, List.map_append]
  rfl

/-- The loop of `cancel_img_transfers` over the first `n` transfers of a pool in
which the transfers `0 .. i-1` are flying and none is cancelling. -/
theorem cancel_fold_pool (i : Nat) (n : Nat) :
    ∀ s : sonly_dev, n ≤ NUM_BULK_TRANSFERS → s.img_transfer_data = pool_state i 0 →
      (List.range n).foldl cancel_one s =
        { s with
          img_transfer_data := pool_state i (min n i)
          trace := s.trace ++ cancel_events (min n i) } := by
  induction n with
  | zero =>
    intro s _ hp
    have e : min 0 i = 0 := by omega
    rw [e, ← hp]
    show s = { s with trace := s.trace ++ [] }
    rw [List.append_nil]
  | succ n ih =>
    intro s hn hp
    rw [List.range_succ, List.foldl_append, ih s (by omega) hp]
    show cancel_one _ n = _
    unfold cancel_one
    show (match (pool_state i (min n i)).get? n with
      | none => _
      | some idata => _) = _
    rw [pool_state_get i (min n i) n (by omega)]
    have hc : decide (n < min n i) = false := by
      rw [decide_eq_false_iff_not]
      omega
    rw [hc]
    by_cases hni : n < i
    · have e1 : min n i = n := by omega
      have e2 : min (n + 1) i = n + 1 := by omega
      have hd : decide (n < i) = true := by rw [decide_eq_true_iff]; exact hni
      rw [hd, e1, e2, cancel_events_succ]
      show ({ s with
        img_transfer_data := (pool_state i n).set n ⟨true, true⟩
        trace := s.trace ++ cancel_events n ++ [Event.cancel_transfer n] } : sonly_dev) = _
      rw [pool_state_set_cancelling i n hni (by omega), List.append_assoc]
    · have e1 : min n i = i := by omega
      have e2 : min (n + 1) i = i := by omega
      have hd : decide (n < i) = false := by rw [decide_eq_false_iff_not]; exact hni
      rw [hd, e1, e2]
      rfl

theorem last_transfer_killed_abort (s : sonly_dev) (r : Int)
    (hk : s.killing_transfers = ABORT_SSM) (hs : s.kill_ssm = SsmRef.capsm)
    (hr : s.kill_status_code = r) :
    (last_transfer_killed s).trace = s.trace ++ abort_events r := by
  unfold last_transfer_killed
  simp [sonly_dev.emit, hk, hs, hr, abort_events]

theorem img_data_cb_abort (s : sonly_dev) (r : Int) (hk : s.killing_transfers = ABORT_SSM)
    (hs : s.kill_ssm = SsmRef.capsm) (hr : s.kill_status_code = r)
    (idx : Nat) (status : Int) (buffer : List Nat) (rr : Int) :
    (img_data_cb s idx status buffer rr).trace =
      s.trace ++ (if s.num_flying = 1 then abort_events r else []) := by
  obtain ⟨l1, l2, l3, _⟩ := img_data_cb_landed_fields s idx
  have c := (set_idata_core s idx fun d => { d with flying := false, cancelling := false }).1
  have l4 : (img_data_cb_landed s idx).kill_ssm = SsmRef.capsm := by
    have e := (core_fields c).2.2.2.2.2.2.2.2
    unfold img_data_cb_landed
    exact e.trans hs
  have l5 : (img_data_cb_landed s idx).kill_status_code = r := by
    have e := (core_fields c).2.2.2.2.2.2.2.1
    unfold img_data_cb_landed
    exact e.trans hr
  unfold img_data_cb
  simp only []
  rw [if_pos (by rw [l2, hk]; decide)]
  by_cases h0 : (img_data_cb_landed s idx).num_flying = 0
  · rw [if_pos h0, last_transfer_killed_abort _ r (l2.trans hk) l4 l5, l3]
    have h1 : s.num_flying = 1 := by rw [l1] at h0; omega
    rw [if_pos h1]
  · rw [if_neg h0, l3]
    have h1 : ¬ s.num_flying = 1 := by rw [l1] at h0; omega
    rw [if_neg h1, List.append_nil]

/-- Completions while `ABORT_SSM` is pending on the capture machine: the trace
gains the deferred abort, at the completion that lands the last transfer, and
nothing else. -/
theorem run_abort (r : Int) (cs : List Completion) :
    ∀ (s : sonly_dev) (n : Int), s.killing_transfers = ABORT_SSM →
      s.kill_ssm = SsmRef.capsm → s.kill_status_code = r → s.num_flying = n →
      (run s cs).trace =
        s.trace ++ (if 0 < n ∧ n ≤ cs.length then abort_events r else []) := by
  induction cs with
  | nil =>
    intro s n _ _ _ _
    have : ¬ (0 < n ∧ n ≤ ((([] : List Completion).length : Nat) : Int)) := by
      simp only [List.length_nil, Nat.cast_zero]; omega
    rw [if_neg this]
    simp [run]
  | cons c cs ih =>
    intro s n hk hs hr hn
    have hne : s.killing_transfers ≠ NOT_KILLING := by rw [hk]; decide
    obtain ⟨a1, a2, _, _⟩ := img_data_cb_killing s hne c.idx c.status c.buffer c.resubmit_r
    have hc := (img_data_cb_killing_core s hne c.idx c.status c.buffer c.resubmit_r).1
    have a5 : (img_data_cb s c.idx c.status c.buffer c.resubmit_r).kill_ssm = s.kill_ssm := by
      have e := congrArg sonly_dev.kill_ssm hc
      exact e
    have a6 : (img_data_cb s c.idx c.status c.buffer c.resubmit_r).kill_status_code =
        s.kill_status_code := by
      have e := congrArg sonly_dev.kill_status_code hc
      exact e
    have a7 := img_data_cb_abort s r hk hs hr c.idx c.status c.buffer c.resubmit_r
    have b1 := ih (img_data_cb s c.idx c.status c.buffer c.resubmit_r) (n - 1)
      (a2.trans hk) (a5.trans hs) (a6.trans hr) (by rw [a1, hn])
    have hrun : run s (c :: cs) =
        run (img_data_cb s c.idx c.status c.buffer c.resubmit_r) cs := rfl
    rw [hrun, b1, a7, hn]
    simp only [List.length_cons, Nat.cast_add, Nat.cast_one]
    by_cases h1 : n = 1
    · subst h1
      have g1 : ¬ ((0 : Int) < 1 - 1 ∧ (1 : Int) - 1 ≤ (cs.length : Int)) := by omega
      have g2 : (0 : Int) < 1 ∧ (1 : Int) ≤ (cs.length : Int) + 1 := by omega
      rw [if_pos rfl, if_neg g1, if_pos g2, List.append_nil]
    · rw [if_neg h1, List.append_nil]
      by_cases h2 : 0 < n ∧ n ≤ (cs.length : Int) + 1
      · have g1 : 0 < n - 1 ∧ n - 1 ≤ (cs.length : Int) := by omega
        rw [if_pos h2, if_pos g1]
      · have g1 : ¬ (0 < n - 1 ∧ n - 1 ≤ (cs.length : Int)) := by omega
        rw [if_neg h2, if_neg g1]

/-- State `CAPSM_FIRE_BULK` on a fresh pool when submission `i` is the first to
fail. -/
theorem capsm_fire_bulk_fail (s : sonly_dev) (submit_r : Nat → Int) (i : Nat)
    (hpool : s.img_transfer_data = pool_state 0 0) (hfly : s.num_flying = 0)
    (hi : i < NUM_BULK_TRANSFERS) (hok : ∀ j, j < i → ¬ submit_r j < 0)
    (hfail : submit_r i < 0) :
    (fire_bulk_loop submit_r NUM_BULK_TRANSFERS 0 s).2 = true ∧
    capsm_fire_bulk s submit_r =
      (if i = 0 then
        { s with
          trace := s.trace ++ [Event.submit_transfer 0 (submit_r 0) s.killing_transfers,
            Event.ssm_mark_aborted SsmRef.capsm (submit_r 0)] }
      else
        { s with
          img_transfer_data := pool_state i i
          num_flying := (i : Int)
          killing_transfers := ABORT_SSM
          kill_ssm := SsmRef.capsm
          kill_status_code := submit_r i
          trace := s.trace ++ submit_events submit_r s.killing_transfers 0 (i + 1) ++
            cancel_events i }) := by
  have h := fire_bulk_loop_fail submit_r i NUM_BULK_TRANSFERS 0 s hi (by omega) hpool
    (fun j hj => by rw [Nat.zero_add]; exact hok j hj) (by rw [Nat.zero_add]; exact hfail)
  rw [Nat.zero_add] at h
  have h2 : (fire_bulk_loop submit_r NUM_BULK_TRANSFERS 0 s).2 = true := by rw [h]
  refine ⟨h2, ?_⟩
  unfold capsm_fire_bulk
  simp only []
  rw [if_pos h2, h]
  by_cases h0 : i = 0
  · subst h0
    rw [if_pos rfl, if_pos rfl]
    have e : submit_events submit_r s.killing_transfers 0 (0 + 1) =
        [Event.submit_transfer 0 (submit_r 0) s.killing_transfers] := rfl
    rw [e]
    simp only [List.append_assoc, List.cons_append, List.nil_append]
  · rw [if_neg h0, if_neg h0]
    unfold cancel_img_transfers
    have hnf : ¬ s.num_flying + (i : Int) = 0 := by rw [hfly]; omega
    rw [if_neg hnf]
    have hf := cancel_fold_pool i NUM_BULK_TRANSFERS
      { s with
        img_transfer_data := pool_state i 0
        num_flying := s.num_flying + (i : Int)
        killing_transfers := ABORT_SSM
        kill_ssm := SsmRef.capsm
        kill_status_code := submit_r i
        trace := s.trace ++ submit_events submit_r s.killing_transfers 0 (i + 1) }
      (Nat.le_refl _) rfl
    have e : min NUM_BULK_TRANSFERS i = i := by omega
    rw [e] at hf
    simp only [hfly, Int.zero_add] at hf ⊢
    exact hf

/-- The loop of `CAPSM_FIRE_BULK` when the submissions `k .. k+n-1` are all
accepted. -/
theorem fire_bulk_loop_all (submit_r : Nat → Int) (n : Nat) :
    ∀ (k : Nat) (s : sonly_dev), k + n ≤ NUM_BULK_TRANSFERS →
      s.img_transfer_data = pool_state k 0 →
      (∀ j, j < n → ¬ submit_r (k + j) < 0) →
      fire_bulk_loop submit_r n k s =
        ({ s with
          img_transfer_data := pool_state (k + n) 0
          num_flying := s.num_flying + (n : Int)
          trace := s.trace ++ submit_events submit_r s.killing_transfers k n }, false) := by
  induction n with
  | zero =>
    intro k s _ hp _
    unfold fire_bulk_loop
    have e : s.num_flying + ((0 : Nat) : Int) = s.num_flying := by simp
    rw [e, Nat.add_zero, ← hp]
    show (s, false) = ({ s with trace := s.trace ++ [] }, false)
    rw [List.append_nil]
  | succ n ih =>
    intro k s hk hp hok
    have hk0 : ¬ submit_r k < 0 := by simpa using hok 0 (by omega)
    have e1 : k + (n + 1) = k + 1 + n := by omega
    unfold fire_bulk_loop
    simp only []
    rw [if_neg hk0]
    have hset : set_idata (s.emit (Event.submit_transfer k (submit_r k) s.killing_transfers)) k
        (fun d => { d with flying := true }) =
        { s with
          img_transfer_data := pool_state (k + 1) 0
          trace := s.trace ++ [Event.submit_transfer k (submit_r k) s.killing_transfers] } := by
      unfold set_idata
      show (match s.img_transfer_data.get? k with
        | none => _
        | some idata => _) = _
      rw [hp, pool_state_get k 0 k (by omega)]
      simp only [Nat.lt_irrefl, decide_False, Nat.not_lt_zero]
      show ({ s with
        img_transfer_data := s.img_transfer_data.set k ⟨true, false⟩
        trace := s.trace ++ [Event.submit_transfer k (submit_r k) s.killing_transfers] } :
          sonly_dev) = _
      rw [hp, pool_state_set_flying k (by omega)]
    rw [hset]
    have h := ih (k + 1)
      { s with
        img_transfer_data := pool_state (k + 1) 0
        num_flying := s.num_flying + 1
        trace := s.trace ++ [Event.submit_transfer k (submit_r k) s.killing_transfers] }
      (by omega) rfl
      (fun j hj => by
        have := hok (j + 1) (by omega)
        have e : k + (j + 1) = k + 1 + j := by omega
        rw [e] at this
        exact this)
    refine h.trans ?_
    rw [submit_events_succ submit_r s.killing_transfers k n]
    simp only [List.append_assoc, List.cons_append, List.nil_append, e1]
    have e2 : s.num_flying + 1 + (n : Int) = s.num_flying + ((n + 1 : Nat) : Int) := by
      push_cast
      ring
    rw [e2]

/-- State `CAPSM_FIRE_BULK` on a fresh pool when all submissions are accepted. -/
theorem capsm_fire_bulk_all (s : sonly_dev) (submit_r : Nat → Int)
    (hpool : s.img_transfer_data = pool_state 0 0) (hfly : s.num_flying = 0)
    (hok : ∀ j, j < NUM_BULK_TRANSFERS → ¬ submit_r j < 0) :
    (fire_bulk_loop submit_r NUM_BULK_TRANSFERS 0 s).2 = false ∧
    capsm_fire_bulk s submit_r =
      { s with
        capturing := true
        img_transfer_data := pool_state NUM_BULK_TRANSFERS 0
        num_flying := (NUM_BULK_TRANSFERS : Int)
        trace := s.trace ++ submit_events submit_r s.killing_transfers 0 NUM_BULK_TRANSFERS ++
          [Event.ssm_next_state SsmRef.capsm] } := by
  have h := fire_bulk_loop_all submit_r NUM_BULK_TRANSFERS 0 s (by omega) hpool
    (fun j hj => by rw [Nat.zero_add]; exact hok j hj)
  rw [Nat.zero_add, hfly, Int.zero_add] at h
  have h2 : (fire_bulk_loop submit_r NUM_BULK_TRANSFERS 0 s).2 = false := by rw [h]
  refine ⟨h2, ?_⟩
  unfold capsm_fire_bulk
  simp only []
  rw [if_neg (by rw [h2]; decide), h]
  rfl

/-- C32: state `CAPSM_FIRE_BULK` of the capture machine on a pool in which no
transfer is flying.  If submission `i` is the first to fail, with the error `r`:
for `i = 0` the handler calls `fpi_ssm_mark_aborted (r)` at once, the machine
ends aborted with `r`, and the pool is as before (nothing flying); for `i > 0`
the handler makes no call on the machine, exactly the transfers `0 .. i-1` are
flying and marked cancelling (one `libusb_cancel_transfer` each),
`num_flying = i`, `killing_transfers = ABORT_SSM` with the status `r` on the
capture machine, and in any sequence of completions that follows the abort of
the capture machine with `r` happens exactly once, on the `i`-th completion.  If
all 24 submissions are accepted, `num_flying = 24`, `capturing` is set, and the
machine goes on in `CAPSM_WRITEV`, the capture-mode register burst. -/
theorem C32_arming (s : sonly_dev) (io : Nat → Nat → IoReply) (fuel : Nat)
    (hpool : s.img_transfer_data = List.replicate NUM_BULK_TRANSFERS ⟨false, false⟩)
    (hfly : s.num_flying = 0) :
    (∀ i, i < NUM_BULK_TRANSFERS → (∀ j, j < i → ¬ (io 0 j).submit_r < 0) →
      (io 0 i).submit_r < 0 →
      (i = 0 →
        capsm_run_state s CAPSM_FIRE_BULK (io 0) =
          ({ s with
            trace := s.trace ++
              [Event.submit_transfer 0 (io 0 0).submit_r s.killing_transfers,
                Event.ssm_mark_aborted SsmRef.capsm (io 0 0).submit_r] },
            [SsmCall.mark_aborted (io 0 0).submit_r]) ∧
        (ssm_exec CAPSM_NUM_STATES capsm_run_state io (fuel + 1) s CAPSM_FIRE_BULK).2 =
          some (SsmOutcome.aborted (io 0 0).submit_r)) ∧
      (0 < i →
        capsm_run_state s CAPSM_FIRE_BULK (io 0) =
          ({ s with
            img_transfer_data := pool_state i i
            num_flying := (i : Int)
            killing_transfers := ABORT_SSM
            kill_ssm := SsmRef.capsm
            kill_status_code := (io 0 i).submit_r
            trace := s.trace ++
              submit_events (fun j => (io 0 j).submit_r) s.killing_transfers 0 (i + 1) ++
              cancel_events i }, []) ∧
        (ssm_exec CAPSM_NUM_STATES capsm_run_state io (fuel + 1) s CAPSM_FIRE_BULK).2 =
          some (SsmOutcome.parked CAPSM_FIRE_BULK) ∧
        (∀ j, j < NUM_BULK_TRANSFERS →
          (capsm_run_state s CAPSM_FIRE_BULK (io 0)).1.img_transfer_data.get? j =
            some ⟨decide (j < i), decide (j < i)⟩) ∧
        ∀ cs : List Completion,
          (run (capsm_run_state s CAPSM_FIRE_BULK (io 0)).1 cs).trace =
            (capsm_run_state s CAPSM_FIRE_BULK (io 0)).1.trace ++
              (if i ≤ cs.length then abort_events (io 0 i).submit_r else []))) ∧
    ((∀ j, j < NUM_BULK_TRANSFERS → ¬ (io 0 j).submit_r < 0) →
      capsm_run_state s CAPSM_FIRE_BULK (io 0) =
        ({ s with
          capturing := true
          img_transfer_data := pool_state NUM_BULK_TRANSFERS 0
          num_flying := (NUM_BULK_TRANSFERS : Int)
          trace := s.trace ++
            submit_events (fun j => (io 0 j).submit_r) s.killing_transfers 0
              NUM_BULK_TRANSFERS ++
            [Event.ssm_next_state SsmRef.capsm] }, [SsmCall.next_state]) ∧
      (∀ j, j < NUM_BULK_TRANSFERS →
        (capsm_run_state s CAPSM_FIRE_BULK (io 0)).1.img_transfer_data.get? j =
          some ⟨true, false⟩) ∧
      ssm_exec CAPSM_NUM_STATES capsm_run_state io (fuel + 1) s CAPSM_FIRE_BULK =
        ssm_exec CAPSM_NUM_STATES capsm_run_state (fun k => io (k + 1)) fuel
          (capsm_run_state s CAPSM_FIRE_BULK (io 0)).1 CAPSM_WRITEV ∧
      ∀ t io2, capsm_run_state t CAPSM_WRITEV io2 = sm_write_regs t capsm_writev io2) := by
  have hp : s.img_transfer_data = pool_state 0 0 := by
    rw [hpool]
    decide
  have hstate : ∀ io1 : Nat → IoReply, capsm_run_state s CAPSM_FIRE_BULK io1 =
      (capsm_fire_bulk s (fun i => (io1 i).submit_r),
        if (io1 0).submit_r < 0 then [SsmCall.mark_aborted (io1 0).submit_r]
        else if (fire_bulk_loop (fun i => (io1 i).submit_r) NUM_BULK_TRANSFERS 0 s).2 then []
        else [SsmCall.next_state]) := by
    intro io1
    unfold capsm_run_state
    rw [if_neg (by decide), if_neg (by decide), if_neg (by decide), if_pos rfl]
  refine ⟨?_, ?_⟩
  · intro i hi hok hfail
    obtain ⟨f1, f2⟩ := capsm_fire_bulk_fail s (fun j => (io 0 j).submit_r) i hp hfly hi hok hfail
    refine ⟨?_, ?_⟩
    · intro h0
      subst h0
      have hrun : capsm_run_state s CAPSM_FIRE_BULK (io 0) =
          ({ s with
            trace := s.trace ++
              [Event.submit_transfer 0 (io 0 0).submit_r s.killing_transfers,
                Event.ssm_mark_aborted SsmRef.capsm (io 0 0).submit_r] },
            [SsmCall.mark_aborted (io 0 0).submit_r]) := by
        rw [hstate, f2, if_pos rfl, if_pos hfail]
      refine ⟨hrun, ?_⟩
      rw [ssm_exec, hrun]
    · intro h0
      have hne : ¬ i = 0 := by omega
      have hok0 : ¬ (io 0 0).submit_r < 0 := hok 0 h0
      have hrun : capsm_run_state s CAPSM_FIRE_BULK (io 0) =
          ({ s with
            img_transfer_data := pool_state i i
            num_flying := (i : Int)
            killing_transfers := ABORT_SSM
            kill_ssm := SsmRef.capsm
            kill_status_code := (io 0 i).submit_r
            trace := s.trace ++
              submit_events (fun j => (io 0 j).submit_r) s.killing_transfers 0 (i + 1) ++
              cancel_events i }, []) := by
        rw [hstate, f2, if_neg hne, if_neg hok0, f1, if_pos rfl]
      refine ⟨hrun, ?_, ?_, ?_⟩
      · rw [ssm_exec, hrun]
      · intro j hj
        rw [hrun]
        exact pool_state_get i i j hj
      · intro cs
        rw [hrun]
        have h := run_abort (io 0 i).submit_r cs
          { s with
            img_transfer_data := pool_state i i
            num_flying := (i : Int)
            killing_transfers := ABORT_SSM
            kill_ssm := SsmRef.capsm
            kill_status_code := (io 0 i).submit_r
            trace := s.trace ++
              submit_events (fun j => (io 0 j).submit_r) s.killing_transfers 0 (i + 1) ++
              cancel_events i } (i : Int) rfl rfl rfl rfl
        refine h.trans ?_
        by_cases hc : i ≤ cs.length
        · rw [if_pos hc, if_pos (by omega)]
        · rw [if_neg hc, if_neg (by omega)]
  · intro hok
    obtain ⟨f1, f2⟩ := capsm_fire_bulk_all s (fun j => (io 0 j).submit_r) hp hfly hok
    have hok0 : ¬ (io 0 0).submit_r < 0 := hok 0 (by decide)
    have hrun : capsm_run_state s CAPSM_FIRE_BULK (io 0) =
        ({ s with
          capturing := true
          img_transfer_data := pool_state NUM_BULK_TRANSFERS 0
          num_flying := (NUM_BULK_TRANSFERS : Int)
          trace := s.trace ++
            submit_events (fun j => (io 0 j).submit_r) s.killing_transfers 0
              NUM_BULK_TRANSFERS ++
            [Event.ssm_next_state SsmRef.capsm] }, [SsmCall.next_state]) := by
      rw [hstate, f2, if_neg hok0, f1, if_neg (by decide)]
    refine ⟨hrun, ?_, ?_, ?_⟩
    · intro j hj
      rw [hrun]
      have := pool_state_get NUM_BULK_TRANSFERS 0 j hj
      simpa [hj] using this
    · exact swipe_ssm_exec_next CAPSM_NUM_STATES capsm_run_state io fuel s _ CAPSM_FIRE_BULK
        CAPSM_WRITEV (by rw [hrun]) rfl (by decide)
    · intro t io2
      unfold capsm_run_state
      rw [if_neg (by decide), if_neg (by decide), if_neg (by decide), if_neg (by decide),
        if_pos rfl]

/-- Witness of C32: from the capture reset of `example_fresh`, submission 3
fails with `-1`; the transfers 0, 1, 2 are flying and cancelling, and the abort
comes with the third completion. -/
theorem C32_arming_witness :
    (capsm_run_state (capsm_init example_fresh) CAPSM_FIRE_BULK
      (example_fail_io 3 (-1))).1.num_flying = 3 ∧
    (run (capsm_run_state (capsm_init example_fresh) CAPSM_FIRE_BULK
      (example_fail_io 3 (-1))).1 (example_cancelled.take 3)).trace =
      (capsm_run_state (capsm_init example_fresh) CAPSM_FIRE_BULK
        (example_fail_io 3 (-1))).1.trace ++ abort_events (-1) :=
  ⟨congrArg (fun p => p.1.num_flying)
      (((C32_arming (capsm_init example_fresh) (fun _ => example_fail_io 3 (-1)) 0 rfl rfl).1 3
        (by decide) (by decide) (by decide)).2 (by decide)).1,
    (((C32_arming (capsm_init example_fresh) (fun _ => example_fail_io 3 (-1)) 0 rfl rfl).1 3
        (by decide) (by decide) (by decide)).2 (by decide)).2.2.2 (example_cancelled.take 3)⟩

end Libfprint.Upeksonly

namespace Libfprint.Uru4000

/-! ## Press driver: transition calls of the completion callbacks -/

/-- C33: `sm_write_reg_cb`, `sm_read_reg_cb`, `response_cb`, `challenge_cb` (with
the completion of the write it submits) and the two pause callbacks make exactly
one transition call for every status, and so does `fwfixer_read_cb` when the
read succeeded (status 0, data present).  A read that does not complete reaches
the callback with status `-EIO` and a null data pointer (`read_regs_cb` passes a
null pointer whenever the status is not 0).  For such a status `s`,
`fwfixer_read_cb` calls `fpi_ssm_mark_aborted (s)` and, having no `return`, goes
on to read `data[0]` through the null pointer: it makes one transition call, no
jump, and it does inspect the absent data, which is undefined behaviour.  A
probe read that completes with `LIBUSB_TRANSFER_ERROR` aborts the firmware fixer
with `-EIO` and leaves the program in that state. -/
theorem C33_one_transition :
    (∀ result : Int, (sm_write_reg_cb result).length = 1) ∧
    (∀ (s : uru4k_dev) (result : Int) (data : Option (List Nat)),
      (sm_read_reg_cb s result data).2.length = 1) ∧
    (∀ status : Int, (response_cb status).length = 1) ∧
    (∀ (aes : Aes) (s : uru4k_dev) (status : Int) (data : Option (List Nat)) (io : IoReply),
      (challenge_cb aes s status data io).2.length = 1) ∧
    (∀ s : uru4k_dev, (rebootpwr_pause_cb s).2.length = 1) ∧
    (∀ s : uru4k_dev, (powerup_pause_cb s).2.length = 1) ∧
    (∀ (s : uru4k_dev) (d : List Nat),
      (fwfixer_read_cb s 0 (some d)).2.length = 1 ∧
      (fwfixer_read_cb s 0 (some d)).1.null_deref = s.null_deref) ∧
    (∀ (status : Int) (n w : Nat) (data : List Nat), status ≠ LIBUSB_TRANSFER_COMPLETED →
      read_regs_cb status n w data = (- EIO, none)) ∧
    (∀ (status : Int) (n w : Nat) (data : List Nat), (read_regs_cb status n w data).1 ≠ 0 →
      (read_regs_cb status n w data).2 = none) ∧
    (∀ (s : uru4k_dev) (status : Int), status ≠ 0 →
      fwfixer_read_cb s status none =
        ({ s with null_deref := true }, [SsmCall.mark_aborted status])) ∧
    example_press_ctx.null_deref = false ∧
    fwfixer_exec (fun _ _ => read_failed) 2 example_press_ctx =
      ({ example_press_ctx with
        fwfixer_offset := 0
        trace := [Event.ctrl_in 0x510 3 0]
        null_deref := true }, some (SsmOutcome.aborted (-5))) := by
  refine ⟨?_, ?_, ?_, ?_, ?_, ?_, ?_, ?_, ?_, ?_, rfl, by decide⟩
  · intro result
    unfold sm_write_reg_cb
    split <;> rfl
  · intro s result data
    unfold sm_read_reg_cb
    split <;> rfl
  · intro status
    unfold response_cb
    split <;> rfl
  · intro aes s status data io
    unfold challenge_cb
    split
    · rfl
    · dsimp only
      unfold write_regs
      split
      · rfl
      · dsimp only
        split
        · rfl
        · dsimp only
          unfold response_cb
          split <;> rfl
  · intro s
    unfold rebootpwr_pause_cb
    dsimp only
    split <;> rfl
  · intro s
    unfold powerup_pause_cb
    dsimp only
    split
    · rfl
    · split <;> rfl
  · intro s d
    unfold fwfixer_read_cb
    dsimp only
    split <;> exact ⟨rfl, rfl⟩
  · intro status n w data h
    unfold read_regs_cb
    rw [if_pos h]
  · intro status n w data h
    unfold read_regs_cb at h ⊢
    split
    · rfl
    · split
      · rfl
      · rename_i h1 h2
        rw [if_neg h1, if_neg h2] at h
        exact absurd rfl h
  · intro s status h
    unfold fwfixer_read_cb
    simp [h]

end Libfprint.Uru4000

namespace Libfprint.Upeksonly

open sonly_kill_transfers_action

/-! ## Swipe driver: a gap-free stream -/

theorem wrap_account_counters (s : sonly_dev) (data : List Nat) :
    (wrap_account s data).finger_removed = s.finger_removed ∧
    (wrap_account s data).num_blank = s.num_blank ∧
    (wrap_account s data).num_rows = s.num_rows := by
  unfold wrap_account
  by_cases h : packet_seqnum data ≤ s.last_seqnum
  · simp [h]
  · simp [h]

/-- A completed row changes the counters by at most one, and does not end the
capture while fewer than 500 blank rows were counted. -/
theorem row_complete_counters (s : sonly_dev) (hf : s.finger_removed = 0)
    (hb0 : 0 ≤ s.num_blank) (hb : s.num_blank < 500) :
    (row_complete s).finger_removed = 0 ∧ 0 ≤ (row_complete s).num_blank ∧
    (row_complete s).num_blank ≤ s.num_blank + 1 ∧
    (row_complete s).num_rows ≤ s.num_rows + 1 := by
  have acc : ∀ t : sonly_dev, t.finger_removed = 0 → 0 ≤ t.num_blank →
      t.num_blank ≤ s.num_blank + 1 → t.num_rows = s.num_rows →
      (row_accept t).finger_removed = 0 ∧ 0 ≤ (row_accept t).num_blank ∧
      (row_accept t).num_blank ≤ s.num_blank + 1 ∧
      (row_accept t).num_rows ≤ s.num_rows + 1 := by
    intro t h1 h2 h3 h4
    obtain ⟨_, _, f3, f4, f5, _⟩ := row_accept_row_fields t
    rw [f3, f4, f5, h4]
    exact ⟨h1, h2, h3, Nat.le_refl _⟩
  unfold row_complete
  dsimp only
  split
  · split
    · split
      · exact ⟨hf, Int.le_refl 0, by show (0 : Int) ≤ s.num_blank + 1; omega, Nat.le_succ _⟩
      · exact acc _ hf (Int.le_refl 0) (by show (0 : Int) ≤ s.num_blank + 1; omega) rfl
    · split
      · rename_i hgt
        have hgt2 : s.num_blank + 1 > 500 := hgt
        omega
      · split
        · exact ⟨hf, by show (0 : Int) ≤ s.num_blank + 1; omega, Int.le_refl _, Nat.le_succ _⟩
        · exact acc _ hf (by show (0 : Int) ≤ s.num_blank + 1; omega) (Int.le_refl _) rfl
  · exact acc _ hf hb0 (by show s.num_blank ≤ s.num_blank + 1; omega) rfl

theorem handle_packet_counters (s : sonly_dev) (data : List Nat) (hf : s.finger_removed = 0)
    (hb0 : 0 ≤ s.num_blank) (hb : s.num_blank < 500) :
    (handle_packet s data).finger_removed = 0 ∧ 0 ≤ (handle_packet s data).num_blank ∧
    (handle_packet s data).num_blank ≤ s.num_blank + 1 ∧
    (handle_packet s data).num_rows ≤ s.num_rows + 1 := by
  obtain ⟨w1, w2, w3⟩ := wrap_account_counters s data
  have same : ∀ t : sonly_dev, t.finger_removed = (wrap_account s data).finger_removed →
      t.num_blank = (wrap_account s data).num_blank →
      t.num_rows = (wrap_account s data).num_rows →
      t.finger_removed = 0 ∧ 0 ≤ t.num_blank ∧ t.num_blank ≤ s.num_blank + 1 ∧
      t.num_rows ≤ s.num_rows + 1 := by
    intro t h1 h2 h3
    rw [h1, h2, h3, w1, w2, w3]
    exact ⟨hf, hb0, by omega, Nat.le_succ _⟩
  rw [handle_packet_eq]
  split
  · unfold add_to_rowbuf
    dsimp only
    split
    · have h := row_complete_counters
        { wrap_account s data with
          rowbuf := (wrap_account s data).rowbuf.map fun rb =>
            memcpy rb (wrap_account s data).rowbuf_offset.toNat (data.drop 2)
              (rowbuf_remaining (wrap_account s data)).toNat
          rowbuf_offset := (wrap_account s data).rowbuf_offset +
            rowbuf_remaining (wrap_account s data) }
        (by show (wrap_account s data).finger_removed = 0; rw [w1]; exact hf)
        (by show 0 ≤ (wrap_account s data).num_blank; rw [w2]; exact hb0)
        (by show (wrap_account s data).num_blank < 500; rw [w2]; exact hb)
      have e1 : ({ wrap_account s data with
          rowbuf := (wrap_account s data).rowbuf.map fun rb =>
            memcpy rb (wrap_account s data).rowbuf_offset.toNat (data.drop 2)
              (rowbuf_remaining (wrap_account s data)).toNat
          rowbuf_offset := (wrap_account s data).rowbuf_offset +
            rowbuf_remaining (wrap_account s data) } : sonly_dev).num_blank = s.num_blank := w2
      have e2 : ({ wrap_account s data with
          rowbuf := (wrap_account s data).rowbuf.map fun rb =>
            memcpy rb (wrap_account s data).rowbuf_offset.toNat (data.drop 2)
              (rowbuf_remaining (wrap_account s data)).toNat
          rowbuf_offset := (wrap_account s data).rowbuf_offset +
            rowbuf_remaining (wrap_account s data) } : sonly_dev).num_rows = s.num_rows := w3
      rw [e1, e2] at h
      exact h
    · exact same _ rfl rfl rfl
  · split
    · exact same _ rfl rfl rfl
    · split
      · exact same _ rfl rfl rfl
      · exact same _ rfl rfl rfl

theorem feed_packets_append (s : sonly_dev) (qs : List (List Nat)) (p : List Nat) :
    feed_packets s (qs ++ [p]) =
      (if is_capturing (feed_packets s qs) then handle_packet (feed_packets s qs) p
       else feed_packets s qs) := by
  unfold feed_packets
  rw [List.foldl_append]
  rfl

theorem gap_free_append (qs : List (List Nat)) (p : List Nat) (h : gap_free (qs ++ [p])) :
    gap_free qs ∧ packet_seqnum p = (qs.length : Int) := by
  constructor
  · intro k hk
    have := h k (by rw [List.length_append]; omega)
    rw [List.getD_append _ _ _ _ hk] at this
    exact this
  · have := h qs.length (by rw [List.length_append]; simp)
    rw [List.getD_append_right _ _ _ _ (Nat.le_refl _)] at this
    simpa using this

/-- What holds after the first `n` packets of a gap-free stream. -/
theorem stream_inv (s0 : sonly_dev) (ps : List (List Nat)) :
    gap_free ps → ps.length ≤ 499 →
      (feed_packets (capsm_init s0) ps).rowbuf_offset = stream_offset ps.length ∧
      (feed_packets (capsm_init s0) ps).wraparounds = (if ps.length = 0 then -1 else 0) ∧
      (feed_packets (capsm_init s0) ps).last_seqnum =
        (if ps.length = 0 then 16383 else (ps.length : Int) - 1) ∧
      (feed_packets (capsm_init s0) ps).finger_removed = 0 ∧
      0 ≤ (feed_packets (capsm_init s0) ps).num_blank ∧
      (feed_packets (capsm_init s0) ps).num_blank ≤ (ps.length : Int) ∧
      (feed_packets (capsm_init s0) ps).num_rows ≤ ps.length ∧
      ((feed_packets (capsm_init s0) ps).rowbuf_offset = -1 ∨
        (0 ≤ (feed_packets (capsm_init s0) ps).rowbuf_offset ∧
          (feed_packets (capsm_init s0) ps).rowbuf_offset < (IMG_WIDTH : Int))) := by
  induction ps using List.reverseRecOn with
  | nil =>
    intro _ _
    exact ⟨rfl, rfl, rfl, rfl, Int.le_refl 0, Int.le_refl 0, Nat.le_refl 0, Or.inl rfl⟩
  | append_singleton qs p ih =>
    intro hg hl
    obtain ⟨hgq, hseq⟩ := gap_free_append qs p hg
    rw [List.length_append, List.length_singleton] at hl ⊢
    obtain ⟨i1, i2, i3, i4, i5, i6, i7, i8⟩ := ih hgq (by omega)
    have hcap : is_capturing (feed_packets (capsm_init s0) qs) = true := by
      simp only [is_capturing, i4, decide_True, Bool.and_true, decide_eq_true_eq]
      have : MAX_ROWS = 700 := rfl
      omega
    rw [feed_packets_append, if_pos hcap]
    obtain ⟨c1, c2, c3, c4⟩ := handle_packet_counters (feed_packets (capsm_init s0) qs) p i4 i5
      (by omega)
    have hwr : (wrap_account (feed_packets (capsm_init s0) qs) p).wraparounds = 0 := by
      rw [(wrap_account_fields _ p).2.2.2, i2, i3, hseq]
      by_cases h0 : qs.length = 0
      · rw [if_pos h0, if_pos h0, h0]
        rfl
      · rw [if_neg h0, if_neg h0, if_neg (by omega)]
        rfl
    have habs : abs_base_addr (feed_packets (capsm_init s0) qs) p = 62 * (qs.length : Int) := by
      unfold abs_base_addr
      rw [hwr, hseq]
      omega
    refine ⟨?_, ?_, ?_, c1, c2, by omega, by omega,
      ?_⟩
    · rw [handle_packet_offset _ p i8, habs, i1]
      rfl
    · rw [(handle_packet_seq_fields _ p).1, hwr, if_neg (by omega)]
    · rw [(handle_packet_seq_fields _ p).2, hseq, if_neg (by omega)]
      omega
    · rcases handle_packet_offset_range _ p i8 with h | ⟨h1, h2⟩
      · exact Or.inl h
      · exact Or.inr ⟨by omega, h2⟩

/-- Packet `k` of a gap-free stream has the absolute address `62 * k`. -/
theorem stream_abs (s0 : sonly_dev) (qs : List (List Nat)) (p : List Nat)
    (hg : gap_free (qs ++ [p])) (hl : qs.length ≤ 498) :
    abs_base_addr (feed_packets (capsm_init s0) qs) p = 62 * (qs.length : Int) := by
  obtain ⟨hgq, hseq⟩ := gap_free_append qs p hg
  obtain ⟨_, i2, i3, _⟩ := stream_inv s0 qs hgq (by omega)
  have hwr : (wrap_account (feed_packets (capsm_init s0) qs) p).wraparounds = 0 := by
    rw [(wrap_account_fields _ p).2.2.2, i2, i3, hseq]
    by_cases h0 : qs.length = 0
    · rw [if_pos h0, if_pos h0, h0]
      rfl
    · rw [if_neg h0, if_neg h0, if_neg (by omega)]
      rfl
  unfold abs_base_addr
  rw [hwr, hseq]
  omega

theorem gap_free_initial (qs rest : List (List Nat)) (h : gap_free (qs ++ rest)) :
    gap_free qs := by
  intro k hk
  have := h k (by rw [List.length_append]; omega)
  rw [List.getD_append _ _ _ _ hk] at this
  exact this

/-- C34 (as stated) fails: in the gap-free stream of `example_packet`s handled
from the capture reset, packet 4 completes row 0 with its first 40 payload bytes
and its other 22 bytes are copied nowhere; the packets 5 to 8 are copied
nowhere; packet 9, at the absolute address 558, starts the next row with the
bytes from its payload offset 18 on, which is address 576.  No byte of the span
`[288, 576)` reaches a row. -/
theorem C34_counterexample :
    gap_free ((List.range 10).map example_packet) ∧
    handle_packet_copies
      (feed_packets (capsm_init example_fresh) ((List.range 4).map example_packet))
      (example_packet 4) = [⟨248, 0, 40⟩] ∧
    (∀ k, k < 4 →
      handle_packet_copies
        (feed_packets (capsm_init example_fresh) ((List.range (5 + k)).map example_packet))
        (example_packet (5 + k)) = []) ∧
    abs_base_addr
      (feed_packets (capsm_init example_fresh) ((List.range 9).map example_packet))
      (example_packet 9) = 558 ∧
    handle_packet_copies
      (feed_packets (capsm_init example_fresh) ((List.range 9).map example_packet))
      (example_packet 9) = [⟨286, 18, 2⟩, ⟨0, 20, 42⟩] := by
  decide

/-- C34 (amended): for a gap-free stream of packets with the sequence numbers
0, 1, 2, ... (up to 499 packets, any payload) handled from the capture reset,
packet `k` has the absolute address `62 * k`, the capture goes on, and the row
offset after `n` packets is `stream_offset n`.  Row 0 starts at address 0 with
packet 0 and is completed by packet 4.  The packet that completes a row leaves
no row in progress, and a packet that neither starts on nor contains a row
boundary starts none: the packets 5 to 8 start no row, packet 9 starts the row
of the span `[576, 864)`, completed by packet 13.  Rows are completed by the
packets 4, 13, 23, 32 (about every 9 packets). -/
theorem C34_gap_free_rows (s0 : sonly_dev) (ps : List (List Nat)) (hgap : gap_free ps)
    (hlen : ps.length ≤ 499) :
    (feed_packets (capsm_init s0) ps).rowbuf_offset = stream_offset ps.length ∧
    is_capturing (feed_packets (capsm_init s0) ps) = true ∧
    (∀ qs p rest, ps = qs ++ p :: rest →
      abs_base_addr (feed_packets (capsm_init s0) qs) p = 62 * (qs.length : Int)) ∧
    (List.range 14).map (fun n => stream_offset (n + 1)) =
      [62, 124, 186, 248, -1, -1, -1, -1, -1, 44, 106, 168, 230, -1] ∧
    (List.range 40).filter completes_row = [4, 13, 23, 32] ∧
    (∀ off a : Int, off ≠ -1 → ¬ off + 62 < (IMG_WIDTH : Int) → next_offset off a = -1) ∧
    (∀ a : Int, a % (IMG_WIDTH : Int) ≠ 0 →
      ¬ ((a / (IMG_WIDTH : Int)) + 1) * (IMG_WIDTH : Int) - a < 62 → next_offset (-1) a = -1) := by
  obtain ⟨i1, _, _, i4, _, _, i7, _⟩ := stream_inv s0 ps hgap hlen
  refine ⟨i1, ?_, ?_, by decide, by decide, ?_, ?_⟩
  · simp only [is_capturing, i4, decide_True, Bool.and_true, decide_eq_true_eq]
    have : MAX_ROWS = 700 := rfl
    omega
  · intro qs p rest he
    have hg2 : gap_free ((qs ++ [p]) ++ rest) := by
      rw [List.append_assoc]
      rw [he] at hgap
      exact hgap
    have hl2 : qs.length ≤ 498 := by
      rw [he, List.length_append, List.length_cons] at hlen
      omega
    exact stream_abs s0 qs p (gap_free_initial _ rest hg2) hl2
  · intro off a h1 h2
    unfold next_offset
    rw [if_neg h1, if_neg h2]
  · intro a h1 h2
    unfold next_offset
    rw [if_pos rfl, if_neg h1, if_neg h2]

/-- Witness of C34 (amended): the first 14 packets of the stream of
`example_packet`s; packet 13 completes the second row. -/
theorem C34_gap_free_rows_witness :
    (feed_packets (capsm_init example_fresh) ((List.range 14).map example_packet)).rowbuf_offset
      = stream_offset 14 ∧ stream_offset 14 = -1 :=
  ⟨(C34_gap_free_rows example_fresh ((List.range 14).map example_packet) (by decide)
    (by decide)).1, by decide⟩

end Libfprint.Upeksonly

namespace Libfprint.Upeksonly

open sonly_kill_transfers_action

/-! ## Swipe driver: bounds of the row-assembly copies -/

/-- The address `handle_packet` computes is even and not negative. -/
theorem abs_base_addr_even (s : sonly_dev) (data : List Nat) :
    abs_base_addr s data % 2 = 0 ∧ 0 ≤ abs_base_addr s data := by
  unfold abs_base_addr
  have h := Int.emod_nonneg (packet_seqnum data + (wrap_account s data).wraparounds * 16384)
    (by decide : (65536 : Int) ≠ 0)
  constructor <;> omega

/-- The distance to the next row boundary in the last branch of
`handle_packet`. -/
theorem boundary_distance (a : Int) (h2 : a % 2 = 0)
    (hlt : ((a / (IMG_WIDTH : Int)) + 1) * (IMG_WIDTH : Int) - a < 62) :
    (((a / (IMG_WIDTH : Int)) + 1) * (IMG_WIDTH : Int) - a) % 2 = 0 ∧
    2 ≤ ((a / (IMG_WIDTH : Int)) + 1) * (IMG_WIDTH : Int) - a ∧
    ((a / (IMG_WIDTH : Int)) + 1) * (IMG_WIDTH : Int) - a ≤ 60 := by
  have hw : (IMG_WIDTH : Int) = 288 := rfl
  rw [hw] at hlt ⊢
  have hd := Int.emod_add_ediv a 288
  have hm := Int.emod_nonneg a (by decide : (288 : Int) ≠ 0)
  have hl := Int.emod_lt_of_pos a (by decide : (0 : Int) < 288)
  refine ⟨by omega, by omega, by omega⟩

/-- The buffer `start_new_row` leaves is the old buffer (or the fresh
allocation) after its two copies. -/
theorem start_new_row_apply (s : sonly_dev) (payload : List Nat) (src size : Int)
    (hsrc : 0 ≤ src) :
    (start_new_row s (payload.drop src.toNat) size).rowbuf =
      some ((start_new_row_copies src size).foldl (apply_copy payload)
        (s.rowbuf.getD (g_malloc IMG_WIDTH))) := by
  have e : (payload.drop src.toNat).drop 2 = payload.drop (src + 2).toNat := by
    rw [List.drop_drop]
    congr 1
    omega
  unfold start_new_row start_new_row_copies apply_copy
  simp only [List.foldl_cons, List.foldl_nil, e]
  cases h : s.rowbuf <;> rfl

/-- The buffer `add_to_rowbuf` hands to `row_complete`, or leaves, is the old
buffer after its copy. -/
theorem add_to_rowbuf_apply (s : sonly_dev) (payload : List Nat) (size : Int) :
    s.rowbuf.map (fun rb => memcpy rb s.rowbuf_offset.toNat payload size.toNat) =
      s.rowbuf.map (fun rb => (add_to_rowbuf_copies s size).foldl (apply_copy payload) rb) := by
  unfold add_to_rowbuf_copies apply_copy
  simp

/-- C35: in every state of a capture reached from `CAPSM_INIT` by packets, and
for every packet, each copy of `start_new_row` and `add_to_rowbuf` has a length
that is not negative, reads within the 62 payload bytes and writes within
`rowbuf[0..288)`, the buffer being allocated with 288 bytes.  `abs_base_addr` is
even, so in the last branch of `handle_packet` the distance `diff` is even with
`2 ≤ diff ≤ 60` and `start_new_row` gets a size of at least 2; `add_to_rowbuf`
has `rowbuf_offset + size ≤ IMG_WIDTH`. -/
theorem C35_copies_in_bounds (s0 : sonly_dev) (hrows : s0.rows = []) (htrace : s0.trace = [])
    (hbuf : ∀ b, s0.rowbuf = some b → b.length = IMG_WIDTH) (ps : List (List Nat))
    (data : List Nat) :
    (∀ c ∈ handle_packet_copies (feed_packets (capsm_init s0) ps) data, c.in_bounds) ∧
    (abs_base_addr (feed_packets (capsm_init s0) ps) data % 2 = 0 ∧
      0 ≤ abs_base_addr (feed_packets (capsm_init s0) ps) data) ∧
    (∀ a : Int, a % 2 = 0 → a % (IMG_WIDTH : Int) ≠ 0 →
      ((a / (IMG_WIDTH : Int)) + 1) * (IMG_WIDTH : Int) - a < 62 →
      (((a / (IMG_WIDTH : Int)) + 1) * (IMG_WIDTH : Int) - a) % 2 = 0 ∧
      2 ≤ ((a / (IMG_WIDTH : Int)) + 1) * (IMG_WIDTH : Int) - a ∧
      ((a / (IMG_WIDTH : Int)) + 1) * (IMG_WIDTH : Int) - a ≤ 60 ∧
      2 ≤ 62 - (((a / (IMG_WIDTH : Int)) + 1) * (IMG_WIDTH : Int) - a)) ∧
    (rowbuf_remaining (wrap_account (feed_packets (capsm_init s0) ps) data) ≠ -1 →
      0 < rowbuf_remaining (wrap_account (feed_packets (capsm_init s0) ps) data) ∧
      (feed_packets (capsm_init s0) ps).rowbuf_offset +
        rowbuf_remaining (wrap_account (feed_packets (capsm_init s0) ps) data) ≤
          (IMG_WIDTH : Int) ∧
      (feed_packets (capsm_init s0) ps).rowbuf ≠ none) ∧
    (∀ b, (feed_packets (capsm_init s0) ps).rowbuf = some b → b.length = IMG_WIDTH) ∧
    (∀ (s : sonly_dev) (payload : List Nat) (src size : Int), 0 ≤ src →
      (start_new_row s (payload.drop src.toNat) size).rowbuf =
        some ((start_new_row_copies src size).foldl (apply_copy payload)
          (s.rowbuf.getD (g_malloc IMG_WIDTH)))) ∧
    (∀ (s : sonly_dev) (payload : List Nat) (size : Int),
      s.rowbuf.map (fun rb => memcpy rb s.rowbuf_offset.toNat payload size.toNat) =
        s.rowbuf.map (fun rb =>
          (add_to_rowbuf_copies s size).foldl (apply_copy payload) rb)) := by
  have hi := feed_packets_inv ps _ (capsm_init_inv s0 hrows htrace hbuf)
  have hr : RowbufInv (feed_packets (capsm_init s0) ps) :=
    feed_packets_rowbuf ps _ ⟨Or.inl rfl, fun hne => absurd rfl hne⟩
  have hf := wrap_account_fields (feed_packets (capsm_init s0) ps) data
  have hw : (IMG_WIDTH : Int) = 288 := rfl
  have hev := abs_base_addr_even (feed_packets (capsm_init s0) ps) data
  have hrem : rowbuf_remaining (wrap_account (feed_packets (capsm_init s0) ps) data) ≠ -1 →
      0 < rowbuf_remaining (wrap_account (feed_packets (capsm_init s0) ps) data) ∧
      (feed_packets (capsm_init s0) ps).rowbuf_offset +
        rowbuf_remaining (wrap_account (feed_packets (capsm_init s0) ps) data) ≤
          (IMG_WIDTH : Int) ∧
      0 ≤ (feed_packets (capsm_init s0) ps).rowbuf_offset ∧
      rowbuf_remaining (wrap_account (feed_packets (capsm_init s0) ps) data) ≤ 62 ∧
      (feed_packets (capsm_init s0) ps).rowbuf ≠ none := by
    intro hne
    have hoff := rowbuf_remaining_ne _ hne
    rw [hf.1] at hoff
    have hrange := hr.1
    have hsome := hr.2 hoff
    have hval : rowbuf_remaining (wrap_account (feed_packets (capsm_init s0) ps) data) =
        (if 288 - (feed_packets (capsm_init s0) ps).rowbuf_offset > 62 then 62
         else 288 - (feed_packets (capsm_init s0) ps).rowbuf_offset) := by
      unfold rowbuf_remaining
      rw [if_neg (by rw [hf.1]; exact hoff), hf.1]
      rfl
    rw [hval, hw]
    rw [hw] at hrange
    by_cases hc : 288 - (feed_packets (capsm_init s0) ps).rowbuf_offset > 62
    · rw [if_pos hc]
      exact ⟨by omega, by omega, by omega, by omega, hsome⟩
    · rw [if_neg hc]
      exact ⟨by omega, by omega, by omega, by omega, hsome⟩
  refine ⟨?_, hev, ?_, fun hne => ⟨(hrem hne).1, (hrem hne).2.1, (hrem hne).2.2.2.2⟩,
    hi.rowbuf_width, start_new_row_apply, add_to_rowbuf_apply⟩
  · intro c hc
    unfold handle_packet_copies at hc
    dsimp only at hc
    by_cases h1 : rowbuf_remaining (wrap_account (feed_packets (capsm_init s0) ps) data) ≠ -1
    · rw [if_pos h1] at hc
      obtain ⟨r1, r2, r3, r4, _⟩ := hrem h1
      unfold add_to_rowbuf_copies at hc
      rw [List.mem_singleton] at hc
      subst hc
      unfold Copy.in_bounds
      dsimp only
      rw [hf.1]
      refine ⟨by omega, by omega, by omega, r3, r2⟩
    · rw [if_neg h1] at hc
      by_cases h2 : abs_base_addr (feed_packets (capsm_init s0) ps) data % (IMG_WIDTH : Int) = 0
      · rw [if_pos h2] at hc
        unfold start_new_row_copies at hc
        rcases List.mem_cons.mp hc with hc | hc
        · subst hc
          unfold Copy.in_bounds
          rw [hw]
          dsimp only
          omega
        · rw [List.mem_singleton] at hc
          subst hc
          unfold Copy.in_bounds
          rw [hw]
          dsimp only
          omega
      · rw [if_neg h2] at hc
        by_cases h3 : ((abs_base_addr (feed_packets (capsm_init s0) ps) data / (IMG_WIDTH : Int))
            + 1) * (IMG_WIDTH : Int) - abs_base_addr (feed_packets (capsm_init s0) ps) data < 62
        · rw [if_pos h3] at hc
          obtain ⟨_, b2, b3⟩ := boundary_distance _ hev.1 h3
          unfold start_new_row_copies at hc
          rcases List.mem_cons.mp hc with hc | hc
          · subst hc
            unfold Copy.in_bounds
            rw [hw] at b2 b3 ⊢
            dsimp only
            omega
          · rw [List.mem_singleton] at hc
            subst hc
            unfold Copy.in_bounds
            rw [hw] at b2 b3 ⊢
            dsimp only
            omega
        · rw [if_neg h3] at hc
          cases hc
  · intro a ha _ hlt
    obtain ⟨b1, b2, b3⟩ := boundary_distance a ha hlt
    exact ⟨b1, b2, b3, by omega⟩

/-- Witness of C35: the capture of `example_fresh` after the packets 0 to 8;
packet 9 starts a row 18 bytes into its payload. -/
theorem C35_copies_in_bounds_witness :
    handle_packet_copies
        (feed_packets (capsm_init example_fresh) ((List.range 9).map example_packet))
        (example_packet 9) = [⟨286, 18, 2⟩, ⟨0, 20, 42⟩] ∧
    Copy.in_bounds ⟨286, 18, 2⟩ ∧ Copy.in_bounds ⟨0, 20, 42⟩ :=
  ⟨by decide,
    (C35_copies_in_bounds example_fresh rfl rfl (fun _ hb => by cases hb)
      ((List.range 9).map example_packet) (example_packet 9)).1 ⟨286, 18, 2⟩ (by decide),
    (C35_copies_in_bounds example_fresh rfl rfl (fun _ hb => by cases hb)
      ((List.range 9).map example_packet) (example_packet 9)).1 ⟨0, 20, 42⟩ (by decide)⟩

end Libfprint.Upeksonly

namespace Libfprint.Upeksonly

open sonly_kill_transfers_action

/-! ## Swipe driver: the content of a completed row -/

theorem add_to_rowbuf_eq (s : sonly_dev) (data : List Nat) (size : Int) :
    add_to_rowbuf s data size =
      (if (add_to_rowbuf_copy s data size).rowbuf_offset ≥ (IMG_WIDTH : Int) then
        row_complete (add_to_rowbuf_copy s data size)
      else add_to_rowbuf_copy s data size) := rfl

theorem getD_drop_add (l : List Nat) (n i : Nat) : (l.drop n).getD i 0 = l.getD (n + i) 0 := by
  rw [List.getD_eq_getElem?_getD, List.getElem?_drop, ← List.getD_eq_getElem?_getD]

/-- A packet handled while a row is in progress at offset `off`: the copy, and
the call of `row_complete` when the row is full. -/
theorem handle_packet_continue (t : sonly_dev) (p : List Nat) (off : Nat)
    (ho : t.rowbuf_offset = (off : Int)) (hlt : off < 288) :
    handle_packet t p =
      (if (continue_row t p).rowbuf_offset ≥ (IMG_WIDTH : Int) then
        row_complete (continue_row t p)
      else continue_row t p) ∧
    (continue_row t p).rowbuf_offset = ((off + min (288 - off) 62 : Nat) : Int) ∧
    (continue_row t p).rowbuf =
      t.rowbuf.map (fun rb => memcpy rb off (p.drop 2) (min (288 - off) 62)) ∧
    is_capturing (continue_row t p) = is_capturing t := by
  obtain ⟨w1, w2, _, _⟩ := wrap_account_fields t p
  obtain ⟨c1, _, c3⟩ := wrap_account_counters t p
  have hrem : rowbuf_remaining (wrap_account t p) = ((min (288 - off) 62 : Nat) : Int) := by
    unfold rowbuf_remaining
    rw [w1, ho, if_neg (by omega)]
    have hw : (IMG_WIDTH : Int) = 288 := rfl
    simp only [hw]
    by_cases h : (288 : Int) - (off : Int) > 62
    · rw [if_pos h]
      have : min (288 - off) 62 = 62 := by omega
      rw [this]
      rfl
    · rw [if_neg h]
      have : min (288 - off) 62 = 288 - off := by omega
      rw [this]
      omega
  have hne : rowbuf_remaining (wrap_account t p) ≠ -1 := by
    rw [hrem]
    omega
  refine ⟨?_, ?_, ?_, ?_⟩
  · rw [handle_packet_eq, if_pos hne, add_to_rowbuf_eq]
    rfl
  · show (wrap_account t p).rowbuf_offset + rowbuf_remaining (wrap_account t p) = _
    rw [w1, ho, hrem]
    push_cast
    rfl
  · show (wrap_account t p).rowbuf.map _ = _
    rw [w1, w2, ho, hrem]
    rfl
  · show (decide ((wrap_account t p).num_rows < MAX_ROWS) &&
      decide ((wrap_account t p).finger_removed = 0)) = _
    rw [c1, c3]
    rfl

/-- While the row is not full: after the packets `ps` handled from a context
with a row in progress at offset `st`, the buffer holds the payloads of `ps`
from `st` on, and is as before everywhere else. -/
theorem row_progress (s1 : sonly_dev) (rb1 : List Nat) (st : Nat)
    (hrb : s1.rowbuf = some rb1) (hl : rb1.length = 288) (hoff : s1.rowbuf_offset = (st : Int))
    (hcap : is_capturing s1 = true) (ps : List (List Nat)) :
    st + 62 * ps.length < 288 →
    ∃ buf, (feed_packets s1 ps).rowbuf = some buf ∧ buf.length = 288 ∧
      (feed_packets s1 ps).rowbuf_offset = ((st + 62 * ps.length : Nat) : Int) ∧
      is_capturing (feed_packets s1 ps) = true ∧
      (∀ i, i < 288 → (i < st ∨ st + 62 * ps.length ≤ i) → buf.getD i 0 = rb1.getD i 0) ∧
      (∀ k j, k < ps.length → j < 62 →
        buf.getD (st + 62 * k + j) 0 = (ps.getD k []).getD (2 + j) 0) := by
  induction ps using List.reverseRecOn with
  | nil =>
    intro _
    refine ⟨rb1, hrb, hl, ?_, hcap, fun _ _ _ => rfl, ?_⟩
    · show s1.rowbuf_offset = _
      rw [hoff]
      rfl
    · intro k j hk
      cases hk
  | append_singleton qs p ih =>
    intro hlt
    rw [List.length_append, List.length_singleton] at hlt
    obtain ⟨buf, b1, b2, b3, b4, b5, b6⟩ := ih (by omega)
    obtain ⟨c1, c2, c3, c4⟩ := handle_packet_continue (feed_packets s1 qs) p
      (st + 62 * qs.length) b3 (by omega)
    have hmin : min (288 - (st + 62 * qs.length)) 62 = 62 := by omega
    rw [hmin] at c2 c3
    have hw : (IMG_WIDTH : Int) = 288 := rfl
    have hstep : feed_packets s1 (qs ++ [p]) = continue_row (feed_packets s1 qs) p := by
      rw [feed_packets_append, if_pos b4, c1, if_neg]
      rw [c2, hw]
      omega
    rw [hstep, List.length_append, List.length_singleton]
    refine ⟨memcpy buf (st + 62 * qs.length) (p.drop 2) 62, ?_, ?_, ?_, ?_, ?_, ?_⟩
    · rw [c3, b1]
      rfl
    · rw [memcpy_length, b2]
    · rw [c2]
      congr 1
    · rw [c4, b4]
    · intro i hi288 hi
      rw [memcpy_getD _ _ _ _ _ (by rw [b2]; exact hi288), if_neg (by omega)]
      exact b5 i hi288 (by omega)
    · intro k j hk hj
      rw [memcpy_getD _ _ _ _ _ (by
        rw [b2]
        rcases Nat.lt_succ_iff_lt_or_eq.mp hk with h | h
        · have : 62 * k + 62 ≤ 62 * qs.length := by omega
          omega
        · subst h
          omega)]
      rcases Nat.lt_succ_iff_lt_or_eq.mp hk with h | h
      · have h62 : 62 * k + 62 ≤ 62 * qs.length := by omega
        rw [if_neg (by omega), List.getD_append _ _ _ _ h]
        exact b6 k j h hj
      · subst h
        rw [if_pos (by omega), List.getD_append_right _ _ _ _ (Nat.le_refl _), Nat.sub_self]
        have e : st + 62 * qs.length + j - (st + 62 * qs.length) = j := by omega
        rw [e, getD_drop_add]
        rfl

theorem flatten_getD_uniform (l : List (List Nat)) (h : ∀ x ∈ l, x.length = 62) :
    ∀ k j, k < l.length → j < 62 →
      l.flatten.getD (62 * k + j) 0 = (l.getD k []).getD j 0 := by
  induction l with
  | nil =>
    intro k j hk
    cases hk
  | cons x xs ih =>
    intro k j hk hj
    have hx : x.length = 62 := h x (List.mem_cons_self _ _)
    rw [List.flatten_cons]
    cases k with
    | zero =>
      rw [List.getD_append _ _ _ _ (by rw [hx]; omega), Nat.mul_zero, Nat.zero_add]
      rfl
    | succ k =>
      rw [List.getD_append_right _ _ _ _ (by rw [hx]; omega), hx]
      have e : 62 * (k + 1) + j - 62 = 62 * k + j := by omega
      rw [e]
      exact ih (fun y hy => h y (List.mem_cons_of_mem _ hy)) k j
        (by simpa using hk) hj

theorem start_row_at_capturing (s : sonly_dev) (p0 : List Nat) (d : Nat) :
    is_capturing (start_row_at s p0 d) = is_capturing s := by
  unfold start_row_at start_new_row
  rfl

/-- C36: a row started by `start_new_row` at payload offset `d` of packet `p0`
(start offset `62 - d`), continued by the packets `ps`, which do not fill it,
and filled by the packet `p_last`.  `handle_packet` calls `row_complete` for
`p_last`, on a context `c` whose buffer has 288 bytes: the bytes
`[0, 60 - d)` are the payload bytes `[d + 2, 62)` of `p0`; the bytes
`[60 - d, 62 - d)` are those the buffer held before the row was started; the
bytes `[62 - d, 288)` are the payloads of the following packets one after the
other, cut off at 288.  The bytes `[286, 288)`, where `start_new_row` had put
the payload bytes `[d, d + 2)` of `p0`, hold bytes of `p_last`. -/
theorem C36_row_content (s : sonly_dev) (p0 : List Nat) (d : Nat) (ps : List (List Nat))
    (p_last : List Nat) (t c : sonly_dev)
    (ht : t = feed_packets (start_row_at s p0 d) ps) (hc : c = continue_row t p_last)
    (hd2 : d % 2 = 0) (hd : d ≤ 60)
    (hwidth : ∀ b, s.rowbuf = some b → b.length = IMG_WIDTH)
    (hcap : is_capturing s = true)
    (hnot : 62 - d + 62 * ps.length < 288) (hfull : 288 ≤ 62 - d + 62 * (ps.length + 1))
    (hlen : ∀ p ∈ ps ++ [p_last], p.length = 64) :
    t.rowbuf_offset = ((62 - d + 62 * ps.length : Nat) : Int) ∧
    is_capturing t = true ∧
    handle_packet t p_last = row_complete c ∧
    c.rowbuf_offset = 288 ∧
    c.rowbuf ≠ none ∧
    c.rowbuf_data.length = 288 ∧
    (∀ i, i + 2 < 62 - d → c.rowbuf_data.getD i 0 = (p0.drop 2).getD (d + 2 + i) 0) ∧
    (∀ i, 60 - d ≤ i → i < 62 - d →
      c.rowbuf_data.getD i 0 = (s.rowbuf.getD (g_malloc IMG_WIDTH)).getD i 0) ∧
    (∀ k j, k ≤ ps.length → j < 62 → 62 - d + 62 * k + j < 288 →
      c.rowbuf_data.getD (62 - d + 62 * k + j) 0 =
        (((ps ++ [p_last]).getD k []).drop 2).getD j 0) ∧
    (∀ i, 62 - d ≤ i → i < 288 →
      c.rowbuf_data.getD i 0 =
        ((((ps ++ [p_last]).map (List.drop 2)).flatten).take (288 - (62 - d))).getD
          (i - (62 - d)) 0) ∧
    (∀ i, i < 2 →
      (start_row_at s p0 d).rowbuf_data.getD (286 + i) 0 = (p0.drop 2).getD (d + i) 0) ∧
    (∀ i, i < 2 →
      c.rowbuf_data.getD (286 + i) 0 =
        (p_last.drop 2).getD (286 + i - (62 - d + 62 * ps.length)) 0) := by
  have hw : IMG_WIDTH = 288 := rfl
  have hwi : (IMG_WIDTH : Int) = 288 := rfl
  obtain ⟨rb1, r1, r2, r3, r4, r5, r6⟩ :=
    start_new_row_content s ((p0.drop 2).drop d) (62 - (d : Int)) (by omega) hwidth
  have r1b : (start_row_at s p0 d).rowbuf = some rb1 := r1
  have r3b : (start_row_at s p0 d).rowbuf_offset = ((62 - d : Nat) : Int) := by
    refine Eq.trans r3 ?_
    omega
  obtain ⟨buf, b1, b2, b3, b4, b5, b6⟩ := row_progress (start_row_at s p0 d) rb1 (62 - d) r1b
    (by rw [r2, hw]) r3b (by rw [start_row_at_capturing]; exact hcap) ps hnot
  rw [← ht] at b1 b3 b4
  obtain ⟨c1, c2, c3, c4⟩ := handle_packet_continue t p_last (62 - d + 62 * ps.length) b3 hnot
  have hmin : min (288 - (62 - d + 62 * ps.length)) 62 = 288 - (62 - d + 62 * ps.length) := by
    omega
  rw [hmin, ← hc] at c2 c3
  rw [← hc] at c1
  have hoff : c.rowbuf_offset = 288 := by
    rw [c2]
    omega
  have hbuf : c.rowbuf = some (memcpy buf (62 - d + 62 * ps.length) (p_last.drop 2)
      (288 - (62 - d + 62 * ps.length))) := by
    rw [c3, b1]
    rfl
  have hdata : c.rowbuf_data = memcpy buf (62 - d + 62 * ps.length) (p_last.drop 2)
      (288 - (62 - d + 62 * ps.length)) := by
    unfold sonly_dev.rowbuf_data
    rw [hbuf]
    rfl
  have hpoint : ∀ k j, k ≤ ps.length → j < 62 → 62 - d + 62 * k + j < 288 →
      c.rowbuf_data.getD (62 - d + 62 * k + j) 0 =
        (((ps ++ [p_last]).getD k []).drop 2).getD j 0 := by
    intro k j hk hj hlt
    rw [hdata, memcpy_getD _ _ _ _ _ (by rw [b2]; exact hlt)]
    rcases Nat.lt_or_eq_of_le hk with h | h
    · have h62 : 62 * k + 62 ≤ 62 * ps.length := by omega
      rw [if_neg (by omega), List.getD_append _ _ _ _ h, getD_drop_add]
      exact b6 k j h hj
    · rw [h, if_pos (by omega), List.getD_append_right _ _ _ _ (Nat.le_refl _), Nat.sub_self]
      have e : 62 - d + 62 * ps.length + j - (62 - d + 62 * ps.length) = j := by omega
      rw [e]
      rfl
  refine ⟨b3, b4, ?_, hoff, ?_, ?_, ?_, ?_, hpoint, ?_, ?_, ?_⟩
  · rw [c1, if_pos]
    rw [hoff, hwi]
  · rw [hbuf]
    exact Option.some_ne_none _
  · rw [hdata, memcpy_length, b2]
  · intro i hi
    rw [hdata, memcpy_getD _ _ _ _ _ (by rw [b2]; omega), if_neg (by omega),
      b5 i (by omega) (Or.inl (by omega)), r5 i (by omega), getD_drop_add]
    congr 1
    omega
  · intro i h1 h2
    rw [hdata, memcpy_getD _ _ _ _ _ (by rw [b2]; omega), if_neg (by omega),
      b5 i (by omega) (Or.inl (by omega))]
    exact r6 i (by omega) (by omega)
  · intro i h1 h2
    have hall : ∀ x ∈ (ps ++ [p_last]).map (List.drop 2), x.length = 62 := by
      intro x hx
      obtain ⟨y, hy, rfl⟩ := List.mem_map.mp hx
      rw [List.length_drop, hlen y hy]
    have hk : (i - (62 - d)) / 62 ≤ ps.length := by
      have : i - (62 - d) < 62 * (ps.length + 1) := by omega
      exact Nat.lt_succ_iff.mp ((Nat.div_lt_iff_lt_mul (by decide)).mpr (by omega))
    have hj : (i - (62 - d)) % 62 < 62 := Nat.mod_lt _ (by decide)
    have hi : 62 - d + 62 * ((i - (62 - d)) / 62) + (i - (62 - d)) % 62 = i := by
      have := Nat.div_add_mod (i - (62 - d)) 62
      omega
    have h3 := hpoint ((i - (62 - d)) / 62) ((i - (62 - d)) % 62) hk hj (by rw [hi]; exact h2)
    rw [hi] at h3
    rw [h3]
    have h4 := flatten_getD_uniform ((ps ++ [p_last]).map (List.drop 2)) hall
      ((i - (62 - d)) / 62) ((i - (62 - d)) % 62)
      (by rw [List.length_map, List.length_append, List.length_singleton]; omega) hj
    rw [Nat.div_add_mod] at h4
    rw [List.getD_eq_getElem?_getD (List.take _ _), List.getElem?_take_of_lt (by omega),
      ← List.getD_eq_getElem?_getD, h4]
    rw [List.getD_eq_getElem?_getD (List.map _ _), List.getElem?_map,
      List.getD_eq_getElem?_getD (ps ++ [p_last])]
    cases (ps ++ [p_last])[(i - (62 - d)) / 62]? <;> rfl
  · intro i hi
    have e : (start_row_at s p0 d).rowbuf_data = rb1 := by
      unfold sonly_dev.rowbuf_data
      rw [r1b]
      rfl
    rw [e, r4 i hi, getD_drop_add]
  · intro i hi
    have h3 := hpoint ps.length (286 + i - (62 - d + 62 * ps.length)) (Nat.le_refl _)
      (by omega) (by omega)
    have e : 62 - d + 62 * ps.length + (286 + i - (62 - d + 62 * ps.length)) = 286 + i := by
      omega
    rw [e] at h3
    rw [h3, List.getD_append_right _ _ _ _ (Nat.le_refl _), Nat.sub_self]
    rfl

/-- Witness of C36: the first row of a capture, from five packets whose payload
byte `j` of packet `k` is `62 * k + j`.  The row is completed by packet 4; its
byte 0 is the payload byte 2 of packet 0 and its byte 286 is the payload byte 38
of packet 4. -/
theorem C36_row_content_witness :
    (continue_row
      (feed_packets (start_row_at (capsm_init example_fresh) (example_ramp 0) 0)
        [example_ramp 1, example_ramp 2, example_ramp 3])
      (example_ramp 4)).rowbuf_data.getD 0 0 = 2 ∧
    (continue_row
      (feed_packets (start_row_at (capsm_init example_fresh) (example_ramp 0) 0)
        [example_ramp 1, example_ramp 2, example_ramp 3])
      (example_ramp 4)).rowbuf_data.getD 286 0 = 286 :=
  have h := C36_row_content (capsm_init example_fresh) (example_ramp 0) 0
    [example_ramp 1, example_ramp 2, example_ramp 3] (example_ramp 4) _ _ rfl rfl
    (by decide) (by decide) (fun b hb => nomatch hb) (by decide) (by decide) (by decide)
    (by decide)
  ⟨(h.2.2.2.2.2.2.1 0 (by decide)).trans (by decide),
    (h.2.2.2.2.2.2.2.2.2.2.2 0 (by decide)).trans (by decide)⟩

end Libfprint.Upeksonly

namespace Libfprint.Upeksonly

open sonly_kill_transfers_action

/-! ## Swipe driver: the length of the row list -/

theorem handoff_img_handed (s : sonly_dev) (h : s.rows ≠ []) :
    (handoff_img s).rows = [] ∧ handoffs (handoff_img s).trace ≠ [] := by
  refine ⟨(core_fields (handoff_img_core s h)).1, ?_⟩
  rw [(handoff_img_obs s h).1]
  simp

theorem row_accept_handed (s : sonly_dev) (hcap : is_capturing s = true) :
    is_capturing (row_accept s) = true ∨
      ((row_accept s).rows = [] ∧ handoffs (row_accept s).trace ≠ []) := by
  have hfr : s.finger_removed = 0 := by
    simp [is_capturing] at hcap; exact hcap.2
  unfold row_accept
  simp only []
  split
  · exact Or.inr (handoff_img_handed _ (by simp))
  · rename_i hge
    have hge2 : ¬ MAX_ROWS ≤ s.num_rows + 1 := hge
    left
    simp [is_capturing, sonly_dev.emit, hfr]
    omega

theorem row_complete_handed (s : sonly_dev) (h : CaptureInv s) (hcap : is_capturing s = true) :
    is_capturing (row_complete s) = true ∨
      ((row_complete s).rows = [] ∧ handoffs (row_complete s).trace ≠ []) := by
  have hl := h.rows_len hcap
  have hcap1 : ∀ t : sonly_dev, t.num_rows = s.num_rows → t.finger_removed = s.finger_removed →
      is_capturing t = true := by
    intro t h1 h2
    rw [← hcap]; simp [is_capturing, h1, h2]
  unfold row_complete
  simp only [gt_iff_lt]
  by_cases hpos : 0 < s.num_rows
  · have hpos2 : 0 < ({ s with rowbuf_offset := -1 } : sonly_dev).num_rows := hpos
    rw [if_pos hpos2]
    have hne : s.rows ≠ [] := by
      intro hnil
      rw [hnil] at hl
      simp at hl
      omega
    split
    · split
      · exact Or.inl (hcap1 _ rfl rfl)
      · exact row_accept_handed _ (hcap1 _ rfl rfl)
    · split
      · exact Or.inr (handoff_img_handed _ hne)
      · split
        · exact Or.inl (hcap1 _ rfl rfl)
        · exact row_accept_handed _ (hcap1 _ rfl rfl)
  · have hpos2 : ¬ 0 < ({ s with rowbuf_offset := -1 } : sonly_dev).num_rows := hpos
    rw [if_neg hpos2]
    exact row_accept_handed _ (hcap1 _ rfl rfl)

theorem add_to_rowbuf_handed (s : sonly_dev) (h : CaptureInv s) (hcap : is_capturing s = true)
    (hoff : s.rowbuf_offset ≠ -1) (data : List Nat) (size : Int) :
    is_capturing (add_to_rowbuf s data size) = true ∨
      ((add_to_rowbuf s data size).rows = [] ∧
        handoffs (add_to_rowbuf s data size).trace ≠ []) := by
  obtain ⟨b, hb⟩ : ∃ b, s.rowbuf = some b := by
    cases hr : s.rowbuf with
    | none => exact absurd hr (h.rowbuf_some hoff)
    | some b => exact ⟨b, rfl⟩
  have hinv : CaptureInv { s with
      rowbuf := s.rowbuf.map fun rb => memcpy rb s.rowbuf_offset.toNat data size.toNat
      rowbuf_offset := s.rowbuf_offset + size } := by
    constructor
    · exact h.rows_len
    · exact h.row_width
    · intro b2 hb2
      simp only [hb, Option.map_some', Option.some.injEq] at hb2
      subst hb2
      rw [memcpy_length]
      exact h.rowbuf_width b hb
    · intro _; simp [hb]
    · exact h.num_rows_le
    · exact h.dedup
    · exact h.stack
    · exact h.imgs
    · exact h.done
  unfold add_to_rowbuf
  simp only []
  split
  · exact row_complete_handed _ hinv (by rw [← hcap]; simp [is_capturing])
  · left
    rw [← hcap]; simp [is_capturing]

theorem handle_packet_handed (s : sonly_dev) (h : CaptureInv s) (hcap : is_capturing s = true)
    (data : List Nat) :
    is_capturing (handle_packet s data) = true ∨
      ((handle_packet s data).rows = [] ∧ handoffs (handle_packet s data).trace ≠ []) := by
  have hf := wrap_account_fields s data
  have hcw : is_capturing (wrap_account s data) = true := by
    rw [← hcap]
    unfold wrap_account
    by_cases c : packet_seqnum data ≤ s.last_seqnum
    · simp [c, is_capturing]
    · simp [c, is_capturing]
  have hiw : CaptureInv (wrap_account s data) := by
    unfold wrap_account
    by_cases c : packet_seqnum data ≤ s.last_seqnum
    · simp only [c, if_true]
      exact h.congr rfl rfl rfl rfl rfl rfl h.rowbuf_some
    · simp only [c, if_false]
      exact h.congr rfl rfl rfl rfl rfl rfl h.rowbuf_some
  have hsn : ∀ d2 sz, is_capturing (start_new_row (wrap_account s data) d2 sz) = true := by
    intro d2 sz
    rw [← hcw]; simp [is_capturing, start_new_row]
  rw [handle_packet_eq]
  by_cases c1 : rowbuf_remaining (wrap_account s data) ≠ -1
  · rw [if_pos c1]
    exact add_to_rowbuf_handed _ hiw hcw (rowbuf_remaining_ne _ c1) _ _
  · rw [if_neg c1]
    split
    · exact Or.inl (hsn _ _)
    · split
      · exact Or.inl (hsn _ _)
      · exact Or.inl hcw

/-- While packets are handled, either the capture goes on or the row list has
been emptied by a handoff. -/
theorem feed_packets_handed (ps : List (List Nat)) :
    ∀ s, CaptureInv s →
      (is_capturing s = true ∨ (s.rows = [] ∧ handoffs s.trace ≠ [])) →
      (is_capturing (feed_packets s ps) = true ∨
        ((feed_packets s ps).rows = [] ∧ handoffs (feed_packets s ps).trace ≠ [])) := by
  induction ps with
  | nil => intro s _ h; exact h
  | cons p ps ih =>
    intro s hi h
    have e : feed_packets s (p :: ps) =
        feed_packets (if is_capturing s then handle_packet s p else s) ps := rfl
    rw [e]
    by_cases hc : is_capturing s = true
    · rw [if_pos hc]
      exact ih _ (handle_packet_inv s hi hc p) (handle_packet_handed s hi hc p)
    · rw [if_neg hc]
      exact ih _ hi h

/-- C37: in a capture that starts at `CAPSM_INIT` with an empty row list, after
any packets handled by `handle_packet` (as the loop of `img_data_cb` calls it,
while `is_capturing` holds) the row list has `num_rows` elements as long as no
image was handed off; the handoff empties the list and ends the capture. -/
theorem C37_rows_length (s0 : sonly_dev) (hrows : s0.rows = []) (htrace : s0.trace = [])
    (hbuf : ∀ b, s0.rowbuf = some b → b.length = IMG_WIDTH) (ps : List (List Nat)) :
    (handoffs (feed_packets (capsm_init s0) ps).trace = [] →
      (feed_packets (capsm_init s0) ps).rows.length = (feed_packets (capsm_init s0) ps).num_rows ∧
      is_capturing (feed_packets (capsm_init s0) ps) = true) ∧
    (handoffs (feed_packets (capsm_init s0) ps).trace ≠ [] →
      (feed_packets (capsm_init s0) ps).rows = [] ∧
      is_capturing (feed_packets (capsm_init s0) ps) = false) ∧
    (is_capturing (feed_packets (capsm_init s0) ps) = true →
      (feed_packets (capsm_init s0) ps).rows.length =
        (feed_packets (capsm_init s0) ps).num_rows) ∧
    (capsm_init s0).rows = [] ∧ (capsm_init s0).num_rows = 0 := by
  have hi0 := capsm_init_inv s0 hrows htrace hbuf
  have hi := feed_packets_inv ps _ hi0
  have hh := feed_packets_handed ps _ hi0 (Or.inl (by
    simp [capsm_init, is_capturing, sonly_dev.emit, MAX_ROWS]))
  refine ⟨?_, ?_, hi.rows_len, ?_, rfl⟩
  · intro hnone
    rcases hh with hc | ⟨_, hne⟩
    · exact ⟨hi.rows_len hc, hc⟩
    · exact absurd hnone hne
  · intro hne
    have hstop := hi.done hne
    rcases hh with hc | ⟨hr, _⟩
    · rw [hstop] at hc
      cases hc
    · exact ⟨hr, hstop⟩
  · simp [capsm_init, sonly_dev.emit, hrows]

/-- Witness of C37: the capture of `example_fresh`, fed the packets with
sequence numbers 0 to 4, which make one row. -/
theorem C37_rows_length_witness :
    (feed_packets (capsm_init example_fresh) ((List.range 5).map example_packet)).rows.length =
      (feed_packets (capsm_init example_fresh)
        ((List.range 5).map example_packet)).num_rows :=
  (C37_rows_length example_fresh rfl rfl (fun _ hb => by cases hb)
    ((List.range 5).map example_packet)).2.2.1 (by decide)

end Libfprint.Upeksonly

namespace Libfprint.Uru4000

/-! ## Press driver: a second run of the firmware fixer -/

theorem byte_fix_idem (b : Nat) :
    (b &&& 0xef) &&& 0x0f = b &&& 0x0f ∧ (b &&& 0xef) &&& 0xef = b &&& 0xef := by
  constructor
  · rw [Nat.land_assoc]
    rfl
  · rw [Nat.land_assoc]
    rfl

theorem fw_patched_match (tr : Nat → List Nat) (m : Nat) (h : fw_match (tr m)) :
    fw_match (fw_patched tr m m) ∧
    (fw_patched tr m m).getD 1 0 = (tr m).getD 1 0 &&& 0xef := by
  obtain ⟨h0, h1, h2⟩ := h
  have hlen : 2 < (tr m).length := by
    by_contra hc
    rw [List.getD_eq_default _ _ (by omega)] at h2
    cases h2
  unfold fw_patched fw_match
  rw [if_pos rfl]
  have e0 : ((tr m).set 1 ((tr m).getD 1 0 &&& 0xef)).getD 0 0 = (tr m).getD 0 0 := by
    simp [List.getD_eq_getElem?_getD, List.getElem?_set]
  have e1 : ((tr m).set 1 ((tr m).getD 1 0 &&& 0xef)).getD 1 0 = (tr m).getD 1 0 &&& 0xef := by
    rw [List.getD_eq_getElem _ _ (by rw [List.length_set]; omega)]
    simp
  have e2 : ((tr m).set 1 ((tr m).getD 1 0 &&& 0xef)).getD 2 0 = (tr m).getD 2 0 := by
    simp [List.getD_eq_getElem?_getD, List.getElem?_set]
  rw [e0, e1, e2]
  exact ⟨⟨h0, by rw [(byte_fix_idem _).1]; exact h1, h2⟩, rfl⟩

/-- C38: for every byte `b` with `(b & 0x0F) = 0x07`, the patched value
`b' = b & 0xEF` has `(b' & 0x0F) = 0x07` and `b' & 0xEF = b'`.  Hence, when the
firmware fixer runs on firmware in which the second byte of the first matching
candidate `m` was replaced by `b'` (all else unchanged, reads succeeding), it
stops at the same candidate `m`, takes `b'` as the value, issues no register
write and completes. -/
theorem C38_fwfixer_idempotent (tr : Nat → List Nat) (m : Nat) (io : Nat → Nat → IoReply)
    (fuel : Nat) (s : uru4k_dev) (hm : m < 4) (hfuel : 7 ≤ fuel)
    (hfirst : ∀ j, j < m → ¬ fw_match (tr j)) (hmatch : fw_match (tr m))
    (hreads : ∀ j, j ≤ m → io (j + 1) 0 = read_ok (fw_patched tr m j) 3) :
    (∀ b : Nat, b &&& 0x0f = 0x07 →
      (b &&& 0xef) &&& 0x0f = 0x07 ∧ (b &&& 0xef) &&& 0xef = b &&& 0xef) ∧
    fw_match (fw_patched tr m m) ∧ (∀ j, j < m → ¬ fw_match (fw_patched tr m j)) ∧
    fwfixer_exec io fuel s =
      ({ s with
          fwfixer_offset := (m : Int)
          fwfixer_value := (tr m).getD 1 0 &&& 0xef
          trace := s.trace ++ probe_reads 0 (m + 1) },
        some SsmOutcome.completed) ∧
    writes (probe_reads 0 (m + 1)) = 0 := by
  obtain ⟨hpm, hpv⟩ := fw_patched_match tr m hmatch
  have hpf : ∀ j, j < m → ¬ fw_match (fw_patched tr m j) := by
    intro j hj
    unfold fw_patched
    rw [if_neg (by omega)]
    exact hfirst j hj
  refine ⟨fun b hb => ⟨by rw [(byte_fix_idem b).1]; exact hb, (byte_fix_idem b).2⟩, hpm, hpf,
    ?_, ?_⟩
  · obtain ⟨g, rfl⟩ : ∃ g, fuel = m + (g + 1 + 1) + 1 := ⟨fuel - m - 3, by omega⟩
    unfold fwfixer_exec
    rw [fwfixer_exec_init]
    rw [fwfixer_exec_scan (fw_patched tr m) m 0 _ (fun k => io (k + 1)) (g + 1 + 1) (by simp)
      (by omega) (fun j hj => ⟨hreads j (by omega), hpf j hj⟩)]
    rw [fwfixer_exec_read_match _ (g + 1) _ m hm (fw_patched tr m m) (by simp)
      (by simpa using hreads m (le_refl m)) hpm]
    have hr : probe_reads 0 (m + 1) =
        probe_reads 0 m ++ [Event.ctrl_in (fwenc_offsets.getD m 0) 3 0] := by
      simp [probe_reads, List.range_succ]
    rw [fwfixer_exec_write_clear _ g _ (by
      show (fw_patched tr m m).getD 1 0 &&& 0xef = (fw_patched tr m m).getD 1 0
      rw [hpv]
      exact (byte_fix_idem _).2), hr, hpv]
    simp [uru4k_dev.emit]
  · unfold writes probe_reads
    rw [List.countP_eq_zero]
    intro e he
    obtain ⟨j, _, rfl⟩ := List.mem_map.mp he
    simp

/-- Witness of C38: the firmware `example_fw` after the fix (`FF 07 41` at
0x792): the second run reads the same three candidates and writes nothing. -/
theorem C38_fwfixer_idempotent_witness :
    fwfixer_exec example_fw_patched_io 7 example_press_ctx =
      ({ example_press_ctx with
          fwfixer_offset := 2
          fwfixer_value := 0x07
          trace := [Event.ctrl_in 0x510 3 0, Event.ctrl_in 0x62D 3 0, Event.ctrl_in 0x792 3 0] },
        some SsmOutcome.completed) :=
  (C38_fwfixer_idempotent example_fw 2 example_fw_patched_io 7 example_press_ctx (by decide)
    (le_refl 7) (by decide) (by decide) (fun _ _ => rfl)).2.2.2.1

end Libfprint.Uru4000

namespace Libfprint.Upeksonly

open sonly_kill_transfers_action

/-! ## The example swipe: packets -/

theorem memcpy_congr (dst : List Nat) (off : Nat) (a b : List Nat) (n : Nat)
    (h : ∀ i, i < n → a.getD i 0 = b.getD i 0) : memcpy dst off a n = memcpy dst off b n := by
  unfold memcpy
  apply List.map_congr_left
  intro i _
  by_cases hc : off ≤ i ∧ i < off + n
  · rw [if_pos hc, if_pos hc]
    exact h _ (by omega)
  · rw [if_neg hc, if_neg hc]

theorem replicate_getD {α : Type} (n i : Nat) (a d : α) (h : i < n) :
    (List.replicate n a).getD i d = a := by
  rw [List.getD_eq_getElem _ _ (by rw [List.length_replicate]; exact h)]
  exact List.getElem_replicate _ _

theorem is_flat_seqnum (p : List Nat) (v : Nat) (h : is_flat p v) : packet_seqnum p = 0 := by
  unfold packet_seqnum
  rw [h.1, h.2.1]
  rfl

theorem is_flat_payload (p : List Nat) (v : Nat) (h : is_flat p v) (dst : List Nat)
    (off n : Nat) (hn : n ≤ 62) :
    memcpy dst off (p.drop 2) n = memcpy dst off (List.replicate 62 v) n := by
  apply memcpy_congr
  intro i hi
  rw [getD_drop_add, h.2.2 i (by omega), replicate_getD _ _ _ _ (by omega)]

theorem is_flat_payload2 (p : List Nat) (v : Nat) (h : is_flat p v) (dst : List Nat)
    (off : Nat) :
    memcpy dst off ((p.drop 2).drop 2) 60 = memcpy dst off (List.replicate 60 v) 60 := by
  apply memcpy_congr
  intro i hi
  rw [getD_drop_add, getD_drop_add, h.2.2 (2 + i) (by omega), replicate_getD _ _ _ _ (by omega)]

theorem flatten_getD_width (w : Nat) (l : List (List Nat)) (h : ∀ x ∈ l, x.length = w) :
    ∀ k j, k < l.length → j < w →
      l.flatten.getD (w * k + j) 0 = (l.getD k []).getD j 0 := by
  induction l with
  | nil =>
    intro k j hk
    cases hk
  | cons x xs ih =>
    intro k j hk hj
    have hx : x.length = w := h x (List.mem_cons_self _ _)
    rw [List.flatten_cons]
    cases k with
    | zero =>
      rw [List.getD_append _ _ _ _ (by rw [hx]; omega), Nat.mul_zero, Nat.zero_add]
      rfl
    | succ k =>
      rw [List.getD_append_right _ _ _ _ (by rw [hx, Nat.mul_succ]; omega), hx]
      have e : w * (k + 1) + j - w = w * k + j := by
        rw [Nat.mul_succ]
        omega
      rw [e]
      exact ih (fun y hy => h y (List.mem_cons_of_mem _ hy)) k j
        (by simpa using hk) hj

/-- Every packet of a flat buffer is flat. -/
theorem flat_buffer_packet (v k : Nat) (hk : k < 64) :
    is_flat ((example_flat_buffer v).drop (64 * k)) v := by
  have hall : ∀ x ∈ List.replicate 64 (example_flat_packet v), x.length = 64 := by
    intro x hx
    rw [List.eq_of_mem_replicate hx]
    unfold example_flat_packet
    simp
  have hget : ∀ j, j < 64 →
      ((example_flat_buffer v).drop (64 * k)).getD j 0 = (example_flat_packet v).getD j 0 := by
    intro j hj
    rw [getD_drop_add]
    unfold example_flat_buffer
    rw [flatten_getD_width 64 _ hall k j (by rw [List.length_replicate]; exact hk) hj,
      replicate_getD _ _ _ _ hk]
  refine ⟨?_, ?_, ?_⟩
  · rw [hget 0 (by omega)]
    rfl
  · rw [hget 1 (by omega)]
    rfl
  · intro i hi
    rw [hget (2 + i) (by omega)]
    unfold example_flat_packet
    rw [show 2 + i = i + 2 from Nat.add_comm 2 i]
    show (List.replicate 62 v).getD i 0 = v
    exact replicate_getD _ _ _ _ hi

theorem loop_packets_flat (v n : Nat) (hn : n ≤ 64) :
    ∀ p ∈ loop_packets (example_flat_buffer v) n, is_flat p v := by
  intro p hp
  unfold loop_packets at hp
  obtain ⟨i, hi, rfl⟩ := List.mem_map.mp hp
  have := List.mem_range.mp hi
  exact flat_buffer_packet v _ (by omega)

theorem feed_packets_stopped (s : sonly_dev) (hc : is_capturing s = false)
    (l : List (List Nat)) : feed_packets s l = s := by
  induction l with
  | nil => rfl
  | cons p l ih =>
    show feed_packets (if is_capturing s then handle_packet s p else s) l = s
    rw [hc]
    exact ih

theorem feed_packets_cons (s : sonly_dev) (p : List Nat) (l : List (List Nat))
    (hc : is_capturing s = true) :
    feed_packets s (p :: l) = feed_packets (handle_packet s p) l := by
  show feed_packets (if is_capturing s then handle_packet s p else s) l = _
  rw [hc]
  rfl

theorem feed_packets_concat (s : sonly_dev) (a b : List (List Nat)) :
    feed_packets s (a ++ b) = feed_packets (feed_packets s a) b := by
  unfold feed_packets
  rw [List.foldl_append]

theorem loop_packets_succ (buffer : List Nat) (n : Nat) (hn : n + 1 ≤ 64) :
    loop_packets buffer (n + 1) = buffer.drop (64 * (64 - (n + 1))) :: loop_packets buffer n := by
  unfold loop_packets
  rw [List.range_succ_eq_map, List.map_cons, List.map_map]
  refine congrArg₂ List.cons ?_ ?_
  · rfl
  · apply List.map_congr_left
    intro i _
    show buffer.drop (64 * (64 - (n + 1) + (i + 1))) = _
    have e : 64 - (n + 1) + (i + 1) = 64 - n + i := by omega
    rw [e]

/-- The packet loop of `img_data_cb` hands the packets of the buffer to
`handle_packet` while the capture runs; it leaves through its `return` only
when the capture is over. -/
theorem packet_loop_feed (buffer : List Nat) (n : Nat) (hn : n ≤ 64) :
    ∀ s : sonly_dev,
      (packet_loop buffer n s).1 = feed_packets s (loop_packets buffer n) ∧
      ((packet_loop buffer n s).2 = true → is_capturing (packet_loop buffer n s).1 = false) := by
  induction n with
  | zero =>
    intro s
    refine ⟨rfl, ?_⟩
    intro h
    cases h
  | succ n ih =>
    intro s
    rw [loop_packets_succ buffer n hn]
    unfold packet_loop
    by_cases hc : is_capturing s = true
    · have hc2 : ¬ ((!is_capturing s) = true) := by simp [hc]
      rw [if_neg hc2, feed_packets_cons _ _ _ hc]
      exact ih (by omega) _
    · have hc3 : is_capturing s = false := by simpa using hc
      have hc2 : (!is_capturing s) = true := by simp [hc3]
      rw [if_pos hc2, feed_packets_stopped s hc3]
      exact ⟨rfl, fun _ => hc3⟩

end Libfprint.Upeksonly

namespace Libfprint.Upeksonly

open sonly_kill_transfers_action

/-! ## The example swipe: one packet -/

theorem swipe_wrap (pool : List img_transfer_data) (nf : Int) (rows : List (List Nat))
    (rb : Option (List Nat)) (off w nb fr ls : Int) (kt : sonly_kill_transfers_action)
    (tr : List Event) (p : List Nat) (v : Nat) (hp : is_flat p v) (hls : 0 ≤ ls) :
    wrap_account (swipe_ctx pool nf rows rb off w nb fr ls kt tr) p =
      swipe_ctx pool nf rows rb off (w + 1) nb fr 0 kt tr := by
  unfold wrap_account
  rw [is_flat_seqnum p v hp]
  have h : (0 : Int) ≤ (swipe_ctx pool nf rows rb off w nb fr ls kt tr).last_seqnum := hls
  simp only [h, if_true]
  rfl

theorem swipe_abs (pool : List img_transfer_data) (nf : Int) (rows : List (List Nat))
    (rb : Option (List Nat)) (off w nb fr ls : Int) (kt : sonly_kill_transfers_action)
    (tr : List Event) (p : List Nat) (v : Nat) (hp : is_flat p v) (hls : 0 ≤ ls) :
    abs_base_addr (swipe_ctx pool nf rows rb off w nb fr ls kt tr) p =
      (16384 * ((w + 1) % 4)) * 62 := by
  unfold abs_base_addr
  rw [swipe_wrap pool nf rows rb off w nb fr ls kt tr p v hp hls, is_flat_seqnum p v hp]
  show ((0 + (w + 1) * 16384) % 65536) * 62 = _
  have e : (0 + (w + 1) * 16384) % 65536 = 16384 * ((w + 1) % 4) := by omega
  rw [e]

/-- A flat packet that starts a row. -/
theorem swipe_start (pool : List img_transfer_data) (nf : Int) (rows : List (List Nat))
    (rb : Option (List Nat)) (w nb fr ls : Int) (kt : sonly_kill_transfers_action)
    (tr : List Event) (p : List Nat) (v : Nat) (hp : is_flat p v) (hls : 0 ≤ ls)
    (hw : (w + 1) % 4 = 0) :
    handle_packet (swipe_ctx pool nf rows rb (-1) w nb fr ls kt tr) p =
      swipe_ctx pool nf rows
        (some (memcpy (memcpy (rb.getD (g_malloc IMG_WIDTH)) (IMG_WIDTH - 2)
          (List.replicate 62 v) 2) 0 (List.replicate 60 v) 60))
        62 (w + 1) nb fr 0 kt tr := by
  have habs := swipe_abs pool nf rows rb (-1) w nb fr ls kt tr p v hp hls
  rw [hw] at habs
  rw [handle_packet_eq, habs, swipe_wrap pool nf rows rb (-1) w nb fr ls kt tr p v hp hls]
  have hr : ¬ rowbuf_remaining (swipe_ctx pool nf rows rb (-1) (w + 1) nb fr 0 kt tr) ≠ -1 := by
    intro h
    exact h rfl
  rw [if_neg hr, if_pos (by decide)]
  unfold start_new_row
  cases rb with
  | none =>
    show swipe_ctx pool nf rows (some (memcpy (memcpy (g_malloc IMG_WIDTH) (IMG_WIDTH - 2)
      (p.drop 2) 2) 0 ((p.drop 2).drop 2) 60)) 62 (w + 1) nb fr 0 kt tr = _
    rw [is_flat_payload2 p v hp, is_flat_payload p v hp _ _ 2 (by omega)]
    rfl
  | some b =>
    show swipe_ctx pool nf rows (some (memcpy (memcpy b (IMG_WIDTH - 2)
      (p.drop 2) 2) 0 ((p.drop 2).drop 2) 60)) 62 (w + 1) nb fr 0 kt tr = _
    rw [is_flat_payload2 p v hp, is_flat_payload p v hp _ _ 2 (by omega)]
    rfl

/-- A flat packet that continues a row without filling it. -/
theorem swipe_continue (pool : List img_transfer_data) (nf : Int) (rows : List (List Nat))
    (b : List Nat) (off : Nat) (w nb fr ls : Int) (kt : sonly_kill_transfers_action)
    (tr : List Event) (p : List Nat) (v : Nat) (hp : is_flat p v) (hls : 0 ≤ ls)
    (hoff : off + 62 < 288) :
    handle_packet (swipe_ctx pool nf rows (some b) (off : Int) w nb fr ls kt tr) p =
      swipe_ctx pool nf rows (some (memcpy b off (List.replicate 62 v) 62))
        ((off + 62 : Nat) : Int) (w + 1) nb fr 0 kt tr := by
  obtain ⟨c1, c2, c3, _⟩ := handle_packet_continue
    (swipe_ctx pool nf rows (some b) (off : Int) w nb fr ls kt tr) p off rfl (by omega)
  have hmin : min (288 - off) 62 = 62 := by omega
  rw [hmin] at c2 c3
  have hw : (IMG_WIDTH : Int) = 288 := rfl
  rw [c1, if_neg (by rw [c2, hw]; omega)]
  have hcr : continue_row (swipe_ctx pool nf rows (some b) (off : Int) w nb fr ls kt tr) p =
      { wrap_account (swipe_ctx pool nf rows (some b) (off : Int) w nb fr ls kt tr) p with
        rowbuf := (continue_row (swipe_ctx pool nf rows (some b) (off : Int) w nb fr ls kt tr)
          p).rowbuf
        rowbuf_offset := (continue_row
          (swipe_ctx pool nf rows (some b) (off : Int) w nb fr ls kt tr) p).rowbuf_offset } := rfl
  rw [hcr, c2, c3, swipe_wrap pool nf rows (some b) (off : Int) w nb fr ls kt tr p v hp hls]
  show swipe_ctx pool nf rows (some (memcpy b off (p.drop 2) 62)) _ _ _ _ _ _ _ = _
  rw [is_flat_payload p v hp _ _ 62 (by omega)]
  rfl

/-- A flat packet that fills the row. -/
theorem swipe_fill (pool : List img_transfer_data) (nf : Int) (rows : List (List Nat))
    (b : List Nat) (w nb fr ls : Int) (kt : sonly_kill_transfers_action)
    (tr : List Event) (p : List Nat) (v : Nat) (hp : is_flat p v) (hls : 0 ≤ ls) :
    handle_packet (swipe_ctx pool nf rows (some b) 248 w nb fr ls kt tr) p =
      row_complete (swipe_ctx pool nf rows (some (memcpy b 248 (List.replicate 62 v) 40))
        288 (w + 1) nb fr 0 kt tr) := by
  obtain ⟨c1, c2, c3, _⟩ := handle_packet_continue
    (swipe_ctx pool nf rows (some b) 248 w nb fr ls kt tr) p 248 rfl (by omega)
  have hmin : min (288 - 248) 62 = 40 := by omega
  rw [hmin] at c2 c3
  have hw : (IMG_WIDTH : Int) = 288 := rfl
  rw [c1, if_pos (by rw [c2, hw]; decide)]
  have hcr : continue_row (swipe_ctx pool nf rows (some b) 248 w nb fr ls kt tr) p =
      { wrap_account (swipe_ctx pool nf rows (some b) 248 w nb fr ls kt tr) p with
        rowbuf := (continue_row (swipe_ctx pool nf rows (some b) 248 w nb fr ls kt tr)
          p).rowbuf
        rowbuf_offset := (continue_row
          (swipe_ctx pool nf rows (some b) 248 w nb fr ls kt tr) p).rowbuf_offset } := rfl
  rw [hcr, c2, c3, swipe_wrap pool nf rows (some b) 248 w nb fr ls kt tr p v hp hls]
  show row_complete (swipe_ctx pool nf rows (some (memcpy b 248 (p.drop 2) 40)) _ _ _ _ _ _ _) = _
  rw [is_flat_payload p v hp _ _ 40 (by omega)]
  rfl

/-- A flat packet that neither starts on a row boundary nor contains one. -/
theorem swipe_skip (pool : List img_transfer_data) (nf : Int) (rows : List (List Nat))
    (rb : Option (List Nat)) (w nb fr ls : Int) (kt : sonly_kill_transfers_action)
    (tr : List Event) (p : List Nat) (v : Nat) (hp : is_flat p v) (hls : 0 ≤ ls)
    (hw : (w + 1) % 4 ≠ 0) :
    handle_packet (swipe_ctx pool nf rows rb (-1) w nb fr ls kt tr) p =
      swipe_ctx pool nf rows rb (-1) (w + 1) nb fr 0 kt tr := by
  have habs := swipe_abs pool nf rows rb (-1) w nb fr ls kt tr p v hp hls
  rw [handle_packet_eq, habs, swipe_wrap pool nf rows rb (-1) w nb fr ls kt tr p v hp hls]
  have hr : ¬ rowbuf_remaining (swipe_ctx pool nf rows rb (-1) (w + 1) nb fr 0 kt tr) ≠ -1 := by
    intro h
    exact h rfl
  have hm : (w + 1) % 4 = 1 ∨ (w + 1) % 4 = 2 ∨ (w + 1) % 4 = 3 := by omega
  rw [if_neg hr]
  rcases hm with h | h | h <;> rw [h] <;>
    rw [if_neg (by decide), if_neg (by decide)]

end Libfprint.Upeksonly

namespace Libfprint.Upeksonly

open sonly_kill_transfers_action

/-! ## The example swipe: one row -/

theorem swipe_capturing (pool : List img_transfer_data) (nf : Int) (rows : List (List Nat))
    (rb : Option (List Nat)) (off w nb ls : Int) (kt : sonly_kill_transfers_action)
    (tr : List Event) (hrows : rows.length < MAX_ROWS) :
    is_capturing (swipe_ctx pool nf rows rb off w nb 0 ls kt tr) = true := by
  show (decide (rows.length < MAX_ROWS) && decide ((0 : Int) = 0)) = true
  simp [hrows]

/-- Five flat packets, from the start of a row to the call of `row_complete`. -/
theorem swipe_row (pool : List img_transfer_data) (nf : Int) (rows : List (List Nat))
    (rb : Option (List Nat)) (w nb ls : Int) (kt : sonly_kill_transfers_action)
    (tr : List Event) (v : Nat) (p1 p2 p3 p4 p5 : List Nat)
    (h1 : is_flat p1 v) (h2 : is_flat p2 v) (h3 : is_flat p3 v) (h4 : is_flat p4 v)
    (h5 : is_flat p5 v) (hls : 0 ≤ ls) (hw : (w + 1) % 4 = 0)
    (hrows : rows.length < MAX_ROWS) (l : List (List Nat)) :
    feed_packets (swipe_ctx pool nf rows rb (-1) w nb 0 ls kt tr)
        (p1 :: p2 :: p3 :: p4 :: p5 :: l) =
      feed_packets
        (row_complete (swipe_ctx pool nf rows
          (some (flat_assembled (rb.getD (g_malloc IMG_WIDTH)) v)) 288 (w + 5) nb 0 0 kt tr))
        l := by
  have e0 : (0 : Int) ≤ 0 := Int.le_refl 0
  rw [feed_packets_cons _ _ _ (swipe_capturing _ _ _ _ _ _ _ _ _ _ hrows),
    swipe_start pool nf rows rb w nb 0 ls kt tr p1 v h1 hls hw,
    feed_packets_cons _ _ _ (swipe_capturing _ _ _ _ _ _ _ _ _ _ hrows)]
  have s2 := swipe_continue pool nf rows
    (memcpy (memcpy (rb.getD (g_malloc IMG_WIDTH)) (IMG_WIDTH - 2)
      (List.replicate 62 v) 2) 0 (List.replicate 60 v) 60) 62 (w + 1) nb 0 0 kt tr p2 v h2 e0
    (by omega)
  rw [show handle_packet (swipe_ctx pool nf rows
      (some (memcpy (memcpy (rb.getD (g_malloc IMG_WIDTH)) (IMG_WIDTH - 2)
        (List.replicate 62 v) 2) 0 (List.replicate 60 v) 60)) 62 (w + 1) nb 0 0 kt tr) p2 = _
    from s2, feed_packets_cons _ _ _ (swipe_capturing _ _ _ _ _ _ _ _ _ _ hrows)]
  have s3 := swipe_continue pool nf rows
    (memcpy (memcpy (memcpy (rb.getD (g_malloc IMG_WIDTH)) (IMG_WIDTH - 2)
      (List.replicate 62 v) 2) 0 (List.replicate 60 v) 60) 62 (List.replicate 62 v) 62)
    124 (w + 1 + 1) nb 0 0 kt tr p3 v h3 e0 (by omega)
  rw [show handle_packet (swipe_ctx pool nf rows
      (some (memcpy (memcpy (memcpy (rb.getD (g_malloc IMG_WIDTH)) (IMG_WIDTH - 2)
        (List.replicate 62 v) 2) 0 (List.replicate 60 v) 60) 62 (List.replicate 62 v) 62))
      ((62 + 62 : Nat) : Int) (w + 1 + 1) nb 0 0 kt tr) p3 = _ from s3,
    feed_packets_cons _ _ _ (swipe_capturing _ _ _ _ _ _ _ _ _ _ hrows)]
  have s4 := swipe_continue pool nf rows
    (memcpy (memcpy (memcpy (memcpy (rb.getD (g_malloc IMG_WIDTH)) (IMG_WIDTH - 2)
      (List.replicate 62 v) 2) 0 (List.replicate 60 v) 60) 62 (List.replicate 62 v) 62)
      124 (List.replicate 62 v) 62)
    186 (w + 1 + 1 + 1) nb 0 0 kt tr p4 v h4 e0 (by omega)
  rw [show handle_packet (swipe_ctx pool nf rows
      (some (memcpy (memcpy (memcpy (memcpy (rb.getD (g_malloc IMG_WIDTH)) (IMG_WIDTH - 2)
        (List.replicate 62 v) 2) 0 (List.replicate 60 v) 60) 62 (List.replicate 62 v) 62)
        124 (List.replicate 62 v) 62))
      ((124 + 62 : Nat) : Int) (w + 1 + 1 + 1) nb 0 0 kt tr) p4 = _ from s4,
    feed_packets_cons _ _ _ (swipe_capturing _ _ _ _ _ _ _ _ _ _ hrows)]
  have s5 := swipe_fill pool nf rows
    (memcpy (memcpy (memcpy (memcpy (memcpy (rb.getD (g_malloc IMG_WIDTH)) (IMG_WIDTH - 2)
      (List.replicate 62 v) 2) 0 (List.replicate 60 v) 60) 62 (List.replicate 62 v) 62)
      124 (List.replicate 62 v) 62) 186 (List.replicate 62 v) 62)
    (w + 1 + 1 + 1 + 1) nb 0 0 kt tr p5 v h5 e0
  rw [show handle_packet (swipe_ctx pool nf rows
      (some (memcpy (memcpy (memcpy (memcpy (memcpy (rb.getD (g_malloc IMG_WIDTH)) (IMG_WIDTH - 2)
        (List.replicate 62 v) 2) 0 (List.replicate 60 v) 60) 62 (List.replicate 62 v) 62)
        124 (List.replicate 62 v) 62) 186 (List.replicate 62 v) 62))
      ((186 + 62 : Nat) : Int) (w + 1 + 1 + 1 + 1) nb 0 0 kt tr) p5 = _ from s5]
  have e : w + 1 + 1 + 1 + 1 + 1 = w + 5 := by ring
  rw [e]
  rfl

/-- Three flat packets after a completed row: none of them starts a row. -/
theorem swipe_gap (pool : List img_transfer_data) (nf : Int) (rows : List (List Nat))
    (rb : Option (List Nat)) (u nb : Int) (kt : sonly_kill_transfers_action)
    (tr : List Event) (v : Nat) (p6 p7 p8 : List Nat)
    (h6 : is_flat p6 v) (h7 : is_flat p7 v) (h8 : is_flat p8 v) (hu : (u + 1) % 4 = 1)
    (hrows : rows.length < MAX_ROWS) (l : List (List Nat)) :
    feed_packets (swipe_ctx pool nf rows rb (-1) u nb 0 0 kt tr) (p6 :: p7 :: p8 :: l) =
      feed_packets (swipe_ctx pool nf rows rb (-1) (u + 3) nb 0 0 kt tr) l := by
  have e0 : (0 : Int) ≤ 0 := Int.le_refl 0
  rw [feed_packets_cons _ _ _ (swipe_capturing _ _ _ _ _ _ _ _ _ _ hrows),
    swipe_skip pool nf rows rb u nb 0 0 kt tr p6 v h6 e0 (by omega),
    feed_packets_cons _ _ _ (swipe_capturing _ _ _ _ _ _ _ _ _ _ hrows),
    swipe_skip pool nf rows rb (u + 1) nb 0 0 kt tr p7 v h7 e0 (by omega),
    feed_packets_cons _ _ _ (swipe_capturing _ _ _ _ _ _ _ _ _ _ hrows),
    swipe_skip pool nf rows rb (u + 1 + 1) nb 0 0 kt tr p8 v h8 e0 (by omega)]
  have e : u + 1 + 1 + 1 = u + 3 := by ring
  rw [e]

end Libfprint.Upeksonly

namespace Libfprint.Upeksonly

open sonly_kill_transfers_action

/-! ## The example swipe: `row_complete` -/

/-- The first row of a capture is stored without a comparison. -/
theorem swipe_rc_first (pool : List img_transfer_data) (nf : Int) (r : List Nat)
    (w nb ls : Int) (kt : sonly_kill_transfers_action) (tr : List Event) :
    row_complete (swipe_ctx pool nf [] (some r) 288 w nb 0 ls kt tr) =
      swipe_ctx pool nf [r] none (-1) w nb 0 ls kt (tr ++ [Event.g_slist_prepend r]) := by
  unfold row_complete
  have h0 : ¬ ({ swipe_ctx pool nf [] (some r) 288 w nb 0 ls kt tr with
      rowbuf_offset := -1 } : sonly_dev).num_rows > 0 := by
    show ¬ (0 > 0)
    omega
  simp only [h0, if_false]
  unfold row_accept
  have h1 : ¬ ((1 : Nat) ≥ MAX_ROWS) := by decide
  simp only [sonly_dev.emit, sonly_dev.rowbuf_data]
  rw [if_neg (by exact h1)]
  rfl

/-- A row whose total is below 52000 and that differs from the last stored row
by less than 3000 is dropped and resets the count of blank rows. -/
theorem swipe_rc_drop (pool : List img_transfer_data) (nf : Int) (last r : List Nat)
    (l : List (List Nat)) (w nb ls : Int) (kt : sonly_kill_transfers_action) (tr : List Event)
    (d t : Int) (hcr : compute_rows last r = (d, t)) (ht : t < 52000) (hd : d < 3000) :
    row_complete (swipe_ctx pool nf (last :: l) (some r) 288 w nb 0 ls kt tr) =
      swipe_ctx pool nf (last :: l) (some r) (-1) w 0 0 ls kt tr := by
  unfold row_complete
  have h0 : ({ swipe_ctx pool nf (last :: l) (some r) 288 w nb 0 ls kt tr with
      rowbuf_offset := -1 } : sonly_dev).num_rows > 0 := by
    show (last :: l).length > 0
    simp
  have hc : compute_rows
      (({ swipe_ctx pool nf (last :: l) (some r) 288 w nb 0 ls kt tr with
        rowbuf_offset := -1 } : sonly_dev).rows.headD [])
      ({ swipe_ctx pool nf (last :: l) (some r) 288 w nb 0 ls kt tr with
        rowbuf_offset := -1 } : sonly_dev).rowbuf_data = (d, t) := hcr
  simp only [h0, if_true, hc, ht, hd]
  rfl

/-- A blank row (total at least 52000) that differs from the last stored row by
less than 3000 is dropped and counted. -/
theorem swipe_rc_blank (pool : List img_transfer_data) (nf : Int) (last r : List Nat)
    (l : List (List Nat)) (w nb ls : Int) (kt : sonly_kill_transfers_action) (tr : List Event)
    (d t : Int) (hcr : compute_rows last r = (d, t)) (ht : ¬ t < 52000) (hd : d < 3000)
    (hnb : ¬ nb + 1 > 500) :
    row_complete (swipe_ctx pool nf (last :: l) (some r) 288 w nb 0 ls kt tr) =
      swipe_ctx pool nf (last :: l) (some r) (-1) w (nb + 1) 0 ls kt tr := by
  unfold row_complete
  have h0 : ({ swipe_ctx pool nf (last :: l) (some r) 288 w nb 0 ls kt tr with
      rowbuf_offset := -1 } : sonly_dev).num_rows > 0 := by
    show (last :: l).length > 0
    simp
  have hc : compute_rows
      (({ swipe_ctx pool nf (last :: l) (some r) 288 w nb 0 ls kt tr with
        rowbuf_offset := -1 } : sonly_dev).rows.headD [])
      ({ swipe_ctx pool nf (last :: l) (some r) 288 w nb 0 ls kt tr with
        rowbuf_offset := -1 } : sonly_dev).rowbuf_data = (d, t) := hcr
  have hb : ¬ ({ ({ swipe_ctx pool nf (last :: l) (some r) 288 w nb 0 ls kt tr with
      rowbuf_offset := -1 } : sonly_dev) with
      num_blank := ({ swipe_ctx pool nf (last :: l) (some r) 288 w nb 0 ls kt tr with
        rowbuf_offset := -1 } : sonly_dev).num_blank + 1 } : sonly_dev).num_blank > 500 := hnb
  simp only [h0, if_true, hc, ht, hd, hb, if_false]
  rfl

/-- A blank row that differs from the last stored row by at least 3000 is
stored and counted. -/
theorem swipe_rc_store (pool : List img_transfer_data) (nf : Int) (last r : List Nat)
    (l : List (List Nat)) (w nb ls : Int) (kt : sonly_kill_transfers_action) (tr : List Event)
    (d t : Int) (hcr : compute_rows last r = (d, t)) (ht : ¬ t < 52000) (hd : ¬ d < 3000)
    (hnb : ¬ nb + 1 > 500) (hmax : ¬ (last :: l).length + 1 ≥ MAX_ROWS) :
    row_complete (swipe_ctx pool nf (last :: l) (some r) 288 w nb 0 ls kt tr) =
      swipe_ctx pool nf (r :: last :: l) none (-1) w (nb + 1) 0 ls kt
        (tr ++ [Event.g_slist_prepend r]) := by
  unfold row_complete
  have h0 : ({ swipe_ctx pool nf (last :: l) (some r) 288 w nb 0 ls kt tr with
      rowbuf_offset := -1 } : sonly_dev).num_rows > 0 := by
    show (last :: l).length > 0
    simp
  have hc : compute_rows
      (({ swipe_ctx pool nf (last :: l) (some r) 288 w nb 0 ls kt tr with
        rowbuf_offset := -1 } : sonly_dev).rows.headD [])
      ({ swipe_ctx pool nf (last :: l) (some r) 288 w nb 0 ls kt tr with
        rowbuf_offset := -1 } : sonly_dev).rowbuf_data = (d, t) := hcr
  have hb : ¬ ({ ({ swipe_ctx pool nf (last :: l) (some r) 288 w nb 0 ls kt tr with
      rowbuf_offset := -1 } : sonly_dev) with
      num_blank := ({ swipe_ctx pool nf (last :: l) (some r) 288 w nb 0 ls kt tr with
        rowbuf_offset := -1 } : sonly_dev).num_blank + 1 } : sonly_dev).num_blank > 500 := hnb
  simp only [h0, if_true, hc, ht, hd, hb, if_false]
  unfold row_accept
  simp only [sonly_dev.emit, sonly_dev.rowbuf_data]
  rw [if_neg (by exact hmax)]
  rfl

/-- The 501st blank row in a row: the finger is gone and the image is handed
off. -/
theorem swipe_rc_handoff (pool : List img_transfer_data) (nf : Int) (last r : List Nat)
    (l : List (List Nat)) (w nb ls : Int) (kt : sonly_kill_transfers_action) (tr : List Event)
    (d t : Int) (hcr : compute_rows last r = (d, t)) (ht : ¬ t < 52000)
    (hnb : nb + 1 > 500) :
    row_complete (swipe_ctx pool nf (last :: l) (some r) 288 w nb 0 ls kt tr) =
      handoff_img (swipe_ctx pool nf (last :: l) (some r) (-1) w (nb + 1) 1 ls kt tr) := by
  unfold row_complete
  have h0 : ({ swipe_ctx pool nf (last :: l) (some r) 288 w nb 0 ls kt tr with
      rowbuf_offset := -1 } : sonly_dev).num_rows > 0 := by
    show (last :: l).length > 0
    simp
  have hc : compute_rows
      (({ swipe_ctx pool nf (last :: l) (some r) 288 w nb 0 ls kt tr with
        rowbuf_offset := -1 } : sonly_dev).rows.headD [])
      ({ swipe_ctx pool nf (last :: l) (some r) 288 w nb 0 ls kt tr with
        rowbuf_offset := -1 } : sonly_dev).rowbuf_data = (d, t) := hcr
  have hb : ({ ({ swipe_ctx pool nf (last :: l) (some r) 288 w nb 0 ls kt tr with
      rowbuf_offset := -1 } : sonly_dev) with
      num_blank := ({ swipe_ctx pool nf (last :: l) (some r) 288 w nb 0 ls kt tr with
        rowbuf_offset := -1 } : sonly_dev).num_blank + 1 } : sonly_dev).num_blank > 500 := hnb
  simp only [h0, if_true, hc, ht, hb, if_false]
  rfl

end Libfprint.Upeksonly

namespace Libfprint.Upeksonly

open sonly_kill_transfers_action

/-! ## The example swipe: the rows -/

theorem example_flat_row_length (v : Nat) : (example_flat_row v).length = 288 := by
  unfold example_flat_row
  rw [List.length_append, List.length_append, List.length_replicate, List.length_replicate]
  rfl

theorem example_flat_row_getD (v i : Nat) (hi : i < 288) :
    (example_flat_row v).getD i 0 = if i = 60 ∨ i = 61 then 0 else v := by
  unfold example_flat_row
  by_cases h1 : i < 60
  · rw [List.append_assoc, List.getD_append _ _ _ _ (by rw [List.length_replicate]; exact h1),
      replicate_getD _ _ _ _ h1, if_neg (by omega)]
  · by_cases h2 : i < 62
    · rw [List.getD_append _ _ _ _ (by simp; omega),
        List.getD_append_right _ _ _ _ (by rw [List.length_replicate]; omega),
        List.length_replicate, if_pos (by omega)]
      have : i - 60 = 0 ∨ i - 60 = 1 := by omega
      rcases this with e | e <;> rw [e] <;> rfl
    · rw [List.getD_append_right _ _ _ _ (by simp; omega), if_neg (by omega)]
      exact replicate_getD _ _ _ _ (by simp; omega)

theorem list_eq_of_getD (a b : List Nat) (hl : a.length = b.length)
    (h : ∀ i, i < a.length → a.getD i 0 = b.getD i 0) : a = b := by
  apply List.ext_getElem hl
  intro i h1 h2
  have := h i h1
  rw [List.getD_eq_getElem _ _ h1, List.getD_eq_getElem _ _ h2] at this
  exact this

/-- The row that five flat packets make in a buffer of 288 bytes whose bytes 60
and 61 are 0. -/
theorem flat_assembled_eq (old : List Nat) (v : Nat) (hl : old.length = 288)
    (h60 : old.getD 60 0 = 0) (h61 : old.getD 61 0 = 0) :
    flat_assembled old v = example_flat_row v := by
  have hw : IMG_WIDTH - 2 = 286 := rfl
  have l1 : (memcpy old 286 (List.replicate 62 v) 2).length = 288 := by
    rw [memcpy_length, hl]
  have l2 : (memcpy (memcpy old 286 (List.replicate 62 v) 2) 0 (List.replicate 60 v) 60).length
      = 288 := by
    rw [memcpy_length, l1]
  have l3 : (memcpy (memcpy (memcpy old 286 (List.replicate 62 v) 2) 0 (List.replicate 60 v) 60)
      62 (List.replicate 62 v) 62).length = 288 := by
    rw [memcpy_length, l2]
  have l4 : (memcpy (memcpy (memcpy (memcpy old 286 (List.replicate 62 v) 2) 0
      (List.replicate 60 v) 60) 62 (List.replicate 62 v) 62) 124 (List.replicate 62 v) 62).length
      = 288 := by
    rw [memcpy_length, l3]
  have l5 : (memcpy (memcpy (memcpy (memcpy (memcpy old 286 (List.replicate 62 v) 2) 0
      (List.replicate 60 v) 60) 62 (List.replicate 62 v) 62) 124 (List.replicate 62 v) 62)
      186 (List.replicate 62 v) 62).length = 288 := by
    rw [memcpy_length, l4]
  unfold flat_assembled
  rw [hw]
  apply list_eq_of_getD
  · rw [memcpy_length, l5, example_flat_row_length]
  · intro i hi
    rw [memcpy_length, l5] at hi
    rw [example_flat_row_getD v i hi, memcpy_getD _ _ _ _ _ (by rw [l5]; exact hi)]
    by_cases c6 : 248 ≤ i ∧ i < 248 + 40
    · rw [if_pos c6, if_neg (by omega)]
      exact replicate_getD _ _ _ _ (by omega)
    rw [if_neg c6, memcpy_getD _ _ _ _ _ (by rw [l4]; exact hi)]
    by_cases c5 : 186 ≤ i ∧ i < 186 + 62
    · rw [if_pos c5, if_neg (by omega)]
      exact replicate_getD _ _ _ _ (by omega)
    rw [if_neg c5, memcpy_getD _ _ _ _ _ (by rw [l3]; exact hi)]
    by_cases c4 : 124 ≤ i ∧ i < 124 + 62
    · rw [if_pos c4, if_neg (by omega)]
      exact replicate_getD _ _ _ _ (by omega)
    rw [if_neg c4, memcpy_getD _ _ _ _ _ (by rw [l2]; exact hi)]
    by_cases c3 : 62 ≤ i ∧ i < 62 + 62
    · rw [if_pos c3, if_neg (by omega)]
      exact replicate_getD _ _ _ _ (by omega)
    rw [if_neg c3, memcpy_getD _ _ _ _ _ (by rw [l1]; exact hi)]
    by_cases c2 : 0 ≤ i ∧ i < 0 + 60
    · rw [if_pos c2, if_neg (by omega)]
      exact replicate_getD _ _ _ _ (by omega)
    rw [if_neg c2, memcpy_getD _ _ _ _ _ (by rw [hl]; exact hi), if_neg (by omega)]
    have : i = 60 ∨ i = 61 := by omega
    rcases this with e | e
    · rw [if_pos (Or.inl e), e, h60]
    · rw [if_pos (Or.inr e), e, h61]

/-- The rows of the example swipe: whatever the row buffer was (absent, or the
buffer of an earlier row of the swipe), five packets of payload bytes `v` make
the row `example_flat_row v`. -/
theorem example_flat_rows (v : Nat) (rb : Option (List Nat))
    (h : rb = none ∨ ∃ u, rb = some (example_flat_row u)) :
    flat_assembled (rb.getD (g_malloc IMG_WIDTH)) v = example_flat_row v := by
  rcases h with h | ⟨u, h⟩
  · rw [h]
    show flat_assembled (g_malloc IMG_WIDTH) v = _
    exact flat_assembled_eq _ v (List.length_replicate _ _)
      (replicate_getD _ _ _ _ (by decide)) (replicate_getD _ _ _ _ (by decide))
  · rw [h]
    show flat_assembled (example_flat_row u) v = _
    refine flat_assembled_eq _ v (example_flat_row_length u) ?_ ?_
    · rw [example_flat_row_getD u 60 (by omega), if_pos (Or.inl rfl)]
    · rw [example_flat_row_getD u 61 (by omega), if_pos (Or.inr rfl)]

set_option maxRecDepth 100000 in
theorem example_flat_compare :
    compute_rows (example_flat_row 0) (example_flat_row 0) = (0, 0) ∧
    compute_rows (example_flat_row 0) (example_flat_row 255) = (72930, 72930) ∧
    compute_rows (example_flat_row 255) (example_flat_row 255) = (0, 72930) := by
  decide

theorem example_flat_image :
    handoff_copy [example_flat_row 255, example_flat_row 0] 0 (g_malloc (IMG_WIDTH * 2)) =
      example_flat_row 255 ++ example_flat_row 0 := by
  have hw : IMG_WIDTH = 288 := rfl
  rw [handoff_copy_eq _ 0 _ (by
    intro r hr
    simp only [List.mem_cons, List.mem_singleton, List.not_mem_nil, or_false] at hr
    rcases hr with e | e <;> rw [e, hw] <;> exact example_flat_row_length _) (by
    unfold g_malloc
    rw [List.length_replicate]
    simp)]
  simp

/-- A list of at least eight packets. -/
theorem list_eight {α : Type} (l : List α) (h : 8 ≤ l.length) :
    ∃ p1 p2 p3 p4 p5 p6 p7 p8 rest, l = p1 :: p2 :: p3 :: p4 :: p5 :: p6 :: p7 :: p8 :: rest := by
  match l, h with
  | p1 :: p2 :: p3 :: p4 :: p5 :: p6 :: p7 :: p8 :: rest, _ =>
    exact ⟨p1, p2, p3, p4, p5, p6, p7, p8, rest, rfl⟩

/-- Eight flat packets from a context with no row in progress: five make a row,
`row_complete` is called, and three more are passed over if the capture goes
on. -/
theorem swipe_group (pool : List img_transfer_data) (nf : Int) (rows : List (List Nat))
    (rb : Option (List Nat)) (w nb ls : Int) (kt : sonly_kill_transfers_action)
    (tr : List Event) (v : Nat) (hls : 0 ≤ ls) (hw : (w + 1) % 4 = 0)
    (hrows : rows.length < MAX_ROWS) (l : List (List Nat)) (hl : 8 ≤ l.length)
    (hflat : ∀ p ∈ l, is_flat p v)
    (rows2 : List (List Nat)) (rb2 : Option (List Nat)) (nb2 : Int) (tr2 : List Event)
    (hrc : row_complete (swipe_ctx pool nf rows
        (some (flat_assembled (rb.getD (g_malloc IMG_WIDTH)) v)) 288 (w + 5) nb 0 0 kt tr) =
      swipe_ctx pool nf rows2 rb2 (-1) (w + 5) nb2 0 0 kt tr2)
    (hrows2 : rows2.length < MAX_ROWS) :
    feed_packets (swipe_ctx pool nf rows rb (-1) w nb 0 ls kt tr) l =
      feed_packets (swipe_ctx pool nf rows2 rb2 (-1) (w + 8) nb2 0 0 kt tr2) (l.drop 8) := by
  obtain ⟨p1, p2, p3, p4, p5, p6, p7, p8, rest, rfl⟩ := list_eight l hl
  have f : ∀ p, p ∈ p1 :: p2 :: p3 :: p4 :: p5 :: p6 :: p7 :: p8 :: rest → is_flat p v := hflat
  rw [swipe_row pool nf rows rb w nb ls kt tr v p1 p2 p3 p4 p5 (f p1 (by simp)) (f p2 (by simp))
    (f p3 (by simp)) (f p4 (by simp)) (f p5 (by simp)) hls hw hrows, hrc,
    swipe_gap pool nf rows2 rb2 (w + 5) nb2 kt tr2 v p6 p7 p8 (f p6 (by simp)) (f p7 (by simp))
      (f p8 (by simp)) (by omega) hrows2]
  have e : w + 5 + 3 = w + 8 := by ring
  rw [e]
  rfl

end Libfprint.Upeksonly

namespace Libfprint.Upeksonly

open sonly_kill_transfers_action

/-! ## The example swipe: groups of eight packets -/

/-- The first row of the capture: stored without a comparison. -/
theorem swipe_group_first (pool : List img_transfer_data) (nf : Int)
    (w nb ls : Int) (kt : sonly_kill_transfers_action) (tr : List Event) (v : Nat)
    (hls : 0 ≤ ls) (hw : (w + 1) % 4 = 0) (l : List (List Nat)) (hl : 8 ≤ l.length)
    (hflat : ∀ p ∈ l, is_flat p v) :
    feed_packets (swipe_ctx pool nf [] none (-1) w nb 0 ls kt tr) l =
      feed_packets (swipe_ctx pool nf [example_flat_row v] none (-1) (w + 8) nb 0 0 kt
        (tr ++ [Event.g_slist_prepend (example_flat_row v)])) (l.drop 8) := by
  have h1 : [example_flat_row v].length < MAX_ROWS := by
    show 1 < MAX_ROWS
    decide
  refine swipe_group pool nf [] none w nb ls kt tr v hls hw (by decide) l hl hflat _ _ _ _ ?_ h1
  rw [example_flat_rows v none (Or.inl rfl)]
  exact swipe_rc_first pool nf _ (w + 5) nb 0 kt tr

/-- A dark row equal to the last stored row is dropped; the count of blank rows
is reset. -/
theorem swipe_group_dark (pool : List img_transfer_data) (nf : Int) (rest : List (List Nat))
    (rb : Option (List Nat)) (hrb : rb = none ∨ ∃ u, rb = some (example_flat_row u))
    (w nb ls : Int) (kt : sonly_kill_transfers_action) (tr : List Event)
    (hls : 0 ≤ ls) (hw : (w + 1) % 4 = 0) (hrows : (example_flat_row 0 :: rest).length < MAX_ROWS)
    (l : List (List Nat)) (hl : 8 ≤ l.length) (hflat : ∀ p ∈ l, is_flat p 0) :
    feed_packets (swipe_ctx pool nf (example_flat_row 0 :: rest) rb (-1) w nb 0 ls kt tr) l =
      feed_packets (swipe_ctx pool nf (example_flat_row 0 :: rest) (some (example_flat_row 0))
        (-1) (w + 8) 0 0 0 kt tr) (l.drop 8) := by
  refine swipe_group pool nf _ rb w nb ls kt tr 0 hls hw hrows l hl hflat _ _ _ _ ?_ hrows
  rw [example_flat_rows 0 rb hrb]
  exact swipe_rc_drop pool nf _ _ rest (w + 5) nb 0 kt tr 0 0 example_flat_compare.1
    (by decide) (by decide)

/-- The first bright row after a dark one is stored and counted as blank. -/
theorem swipe_group_store (pool : List img_transfer_data) (nf : Int) (rest : List (List Nat))
    (rb : Option (List Nat)) (hrb : rb = none ∨ ∃ u, rb = some (example_flat_row u))
    (w nb ls : Int) (kt : sonly_kill_transfers_action) (tr : List Event)
    (hls : 0 ≤ ls) (hw : (w + 1) % 4 = 0)
    (hrows : (example_flat_row 0 :: rest).length + 1 < MAX_ROWS) (hnb : nb + 1 ≤ 500)
    (l : List (List Nat)) (hl : 8 ≤ l.length) (hflat : ∀ p ∈ l, is_flat p 255) :
    feed_packets (swipe_ctx pool nf (example_flat_row 0 :: rest) rb (-1) w nb 0 ls kt tr) l =
      feed_packets (swipe_ctx pool nf (example_flat_row 255 :: example_flat_row 0 :: rest) none
        (-1) (w + 8) (nb + 1) 0 0 kt
        (tr ++ [Event.g_slist_prepend (example_flat_row 255)])) (l.drop 8) := by
  refine swipe_group pool nf _ rb w nb ls kt tr 255 hls hw (by omega) l hl hflat _ _ _ _ ?_
    (by simpa using hrows)
  rw [example_flat_rows 255 rb hrb]
  exact swipe_rc_store pool nf _ _ rest (w + 5) nb 0 kt tr 72930 72930
    example_flat_compare.2.1 (by decide) (by decide) (by omega) (by omega)

/-- A bright row equal to the last stored row is dropped and counted as
blank. -/
theorem swipe_group_blank (pool : List img_transfer_data) (nf : Int) (rest : List (List Nat))
    (rb : Option (List Nat)) (hrb : rb = none ∨ ∃ u, rb = some (example_flat_row u))
    (w nb ls : Int) (kt : sonly_kill_transfers_action) (tr : List Event)
    (hls : 0 ≤ ls) (hw : (w + 1) % 4 = 0)
    (hrows : (example_flat_row 255 :: rest).length < MAX_ROWS) (hnb : nb + 1 ≤ 500)
    (l : List (List Nat)) (hl : 8 ≤ l.length) (hflat : ∀ p ∈ l, is_flat p 255) :
    feed_packets (swipe_ctx pool nf (example_flat_row 255 :: rest) rb (-1) w nb 0 ls kt tr) l =
      feed_packets (swipe_ctx pool nf (example_flat_row 255 :: rest)
        (some (example_flat_row 255)) (-1) (w + 8) (nb + 1) 0 0 kt tr) (l.drop 8) := by
  refine swipe_group pool nf _ rb w nb ls kt tr 255 hls hw hrows l hl hflat _ _ _ _ ?_ hrows
  rw [example_flat_rows 255 rb hrb]
  exact swipe_rc_blank pool nf _ _ rest (w + 5) nb 0 kt tr 0 72930
    example_flat_compare.2.2 (by decide) (by decide) (by omega)

/-- Dropped dark rows, `k` of them. -/
theorem swipe_dark_rows (pool : List img_transfer_data) (nf : Int) (rest : List (List Nat))
    (kt : sonly_kill_transfers_action) (tr : List Event)
    (hrows : (example_flat_row 0 :: rest).length < MAX_ROWS) (k : Nat) :
    ∀ (w : Int) (l : List (List Nat)), (w + 1) % 4 = 0 → 8 * k ≤ l.length →
      (∀ p ∈ l, is_flat p 0) →
      feed_packets (swipe_ctx pool nf (example_flat_row 0 :: rest) (some (example_flat_row 0))
        (-1) w 0 0 0 kt tr) l =
      feed_packets (swipe_ctx pool nf (example_flat_row 0 :: rest) (some (example_flat_row 0))
        (-1) (w + 8 * (k : Nat)) 0 0 0 kt tr) (l.drop (8 * k)) := by
  induction k with
  | zero =>
    intro w l _ _ _
    have e : w + 8 * ((0 : Nat) : Int) = w := by simp
    rw [e]
    rfl
  | succ k ih =>
    intro w l hw hl hflat
    rw [swipe_group_dark pool nf rest _ (Or.inr ⟨0, rfl⟩) w 0 0 kt tr (le_refl _) hw hrows l
      (by omega) hflat,
      ih (w + 8) (l.drop 8) (by omega) (by rw [List.length_drop]; omega)
        (fun p hp => hflat p (List.mem_of_mem_drop hp)), List.drop_drop]
    have e : w + 8 + 8 * ((k : Nat) : Int) = w + 8 * ((k + 1 : Nat) : Int) := by
      push_cast
      ring
    have e2 : 8 + 8 * k = 8 * (k + 1) := by ring
    rw [e, e2]

/-- Dropped bright rows, `k` of them. -/
theorem swipe_blank_rows (pool : List img_transfer_data) (nf : Int) (rest : List (List Nat))
    (kt : sonly_kill_transfers_action) (tr : List Event)
    (hrows : (example_flat_row 255 :: rest).length < MAX_ROWS) (k : Nat) :
    ∀ (w nb : Int) (l : List (List Nat)), (w + 1) % 4 = 0 → nb + (k : Nat) ≤ 500 →
      8 * k ≤ l.length → (∀ p ∈ l, is_flat p 255) →
      feed_packets (swipe_ctx pool nf (example_flat_row 255 :: rest)
        (some (example_flat_row 255)) (-1) w nb 0 0 kt tr) l =
      feed_packets (swipe_ctx pool nf (example_flat_row 255 :: rest)
        (some (example_flat_row 255)) (-1) (w + 8 * (k : Nat)) (nb + (k : Nat)) 0 0 kt tr)
        (l.drop (8 * k)) := by
  induction k with
  | zero =>
    intro w nb l _ _ _ _
    have e : w + 8 * ((0 : Nat) : Int) = w := by simp
    have e2 : nb + ((0 : Nat) : Int) = nb := by simp
    rw [e, e2]
    rfl
  | succ k ih =>
    intro w nb l hw hnb hl hflat
    have hnb2 : nb + 1 + ((k : Nat) : Int) ≤ 500 := by
      push_cast at hnb
      omega
    rw [swipe_group_blank pool nf rest _ (Or.inr ⟨255, rfl⟩) w nb 0 kt tr (le_refl _) hw hrows
      (by omega) l (by omega) hflat,
      ih (w + 8) (nb + 1) (l.drop 8) (by omega) hnb2 (by rw [List.length_drop]; omega)
        (fun p hp => hflat p (List.mem_of_mem_drop hp)), List.drop_drop]
    have e : w + 8 + 8 * ((k : Nat) : Int) = w + 8 * ((k + 1 : Nat) : Int) := by
      push_cast
      ring
    have e2 : 8 + 8 * k = 8 * (k + 1) := by ring
    have e3 : nb + 1 + ((k : Nat) : Int) = nb + ((k + 1 : Nat) : Int) := by
      push_cast
      ring
    rw [e, e2, e3]

end Libfprint.Upeksonly

namespace Libfprint.Upeksonly

open sonly_kill_transfers_action

/-! ## The example swipe: buffers of 64 packets -/

theorem drop_all {α : Type} (l : List α) (a b c : Nat) (h : l.length ≤ a + b + c) :
    ((l.drop a).drop b).drop c = [] := by
  rw [List.drop_drop, List.drop_drop]
  exact List.drop_eq_nil_of_le (by omega)

/-- The first buffer: dark packets.  One row is stored, seven are dropped. -/
theorem swipe_buffer_dark (pool : List img_transfer_data) (nf : Int)
    (w nb ls : Int) (kt : sonly_kill_transfers_action) (tr : List Event)
    (hls : 0 ≤ ls) (hw : (w + 1) % 4 = 0) (l : List (List Nat)) (hl : l.length = 64)
    (hflat : ∀ p ∈ l, is_flat p 0) :
    feed_packets (swipe_ctx pool nf [] none (-1) w nb 0 ls kt tr) l =
      swipe_ctx pool nf [example_flat_row 0] (some (example_flat_row 0)) (-1) (w + 64) 0 0 0 kt
        (tr ++ [Event.g_slist_prepend (example_flat_row 0)]) := by
  have h1 : [example_flat_row 0].length < MAX_ROWS := by
    show 1 < MAX_ROWS
    decide
  have f1 : ∀ p ∈ l.drop 8, is_flat p 0 := fun p hp => hflat p (List.mem_of_mem_drop hp)
  have f2 : ∀ p ∈ (l.drop 8).drop 8, is_flat p 0 := fun p hp => f1 p (List.mem_of_mem_drop hp)
  rw [swipe_group_first pool nf w nb ls kt tr 0 hls hw l (by omega) hflat,
    swipe_group_dark pool nf [] none (Or.inl rfl) (w + 8) nb 0 kt _ (le_refl _) (by omega) h1
      (l.drop 8) (by rw [List.length_drop]; omega) f1,
    swipe_dark_rows pool nf [] kt _ h1 6 (w + 8 + 8) ((l.drop 8).drop 8) (by omega)
      (by rw [List.length_drop, List.length_drop]; omega) f2,
    drop_all l 8 8 (8 * 6) (by omega)]
  have e : w + 8 + 8 + 8 * ((6 : Nat) : Int) = w + 64 := by
    push_cast
    ring
  rw [e]
  rfl

/-- The second buffer: bright packets after a dark row.  One row is stored,
seven are dropped; all eight count as blank. -/
theorem swipe_buffer_bright (pool : List img_transfer_data) (nf : Int)
    (w nb : Int) (kt : sonly_kill_transfers_action) (tr : List Event)
    (hw : (w + 1) % 4 = 0) (hnb : nb + 8 ≤ 500) (l : List (List Nat)) (hl : l.length = 64)
    (hflat : ∀ p ∈ l, is_flat p 255) :
    feed_packets (swipe_ctx pool nf [example_flat_row 0] (some (example_flat_row 0)) (-1) w nb
        0 0 kt tr) l =
      swipe_ctx pool nf [example_flat_row 255, example_flat_row 0] (some (example_flat_row 255))
        (-1) (w + 64) (nb + 8) 0 0 kt
        (tr ++ [Event.g_slist_prepend (example_flat_row 255)]) := by
  have h1 : [example_flat_row 0].length + 1 < MAX_ROWS := by
    show 2 < MAX_ROWS
    decide
  have h2 : [example_flat_row 255, example_flat_row 0].length < MAX_ROWS := by
    show 2 < MAX_ROWS
    decide
  have f1 : ∀ p ∈ l.drop 8, is_flat p 255 := fun p hp => hflat p (List.mem_of_mem_drop hp)
  have f2 : ∀ p ∈ (l.drop 8).drop 8, is_flat p 255 :=
    fun p hp => f1 p (List.mem_of_mem_drop hp)
  rw [swipe_group_store pool nf [] _ (Or.inr ⟨0, rfl⟩) w nb 0 kt tr (le_refl _) hw h1
      (by omega) l (by omega) hflat,
    swipe_group_blank pool nf [example_flat_row 0] none (Or.inl rfl) (w + 8) (nb + 1) 0 kt _
      (le_refl _) (by omega) h2 (by omega) (l.drop 8) (by rw [List.length_drop]; omega) f1,
    swipe_blank_rows pool nf [example_flat_row 0] kt _ h2 6 (w + 8 + 8) (nb + 1 + 1)
      ((l.drop 8).drop 8) (by omega) (by push_cast; omega)
      (by rw [List.length_drop, List.length_drop]; omega) f2,
    drop_all l 8 8 (8 * 6) (by omega)]
  have e : w + 8 + 8 + 8 * ((6 : Nat) : Int) = w + 64 := by
    push_cast
    ring
  have e2 : nb + 1 + 1 + ((6 : Nat) : Int) = nb + 8 := by
    push_cast
    ring
  rw [e, e2]
  rfl

/-- A buffer of bright packets after a bright row: eight rows are dropped and
counted as blank. -/
theorem swipe_buffer_blank (pool : List img_transfer_data) (nf : Int) (rest : List (List Nat))
    (w nb : Int) (kt : sonly_kill_transfers_action) (tr : List Event)
    (hrows : (example_flat_row 255 :: rest).length < MAX_ROWS)
    (hw : (w + 1) % 4 = 0) (hnb : nb + 8 ≤ 500) (l : List (List Nat)) (hl : l.length = 64)
    (hflat : ∀ p ∈ l, is_flat p 255) :
    feed_packets (swipe_ctx pool nf (example_flat_row 255 :: rest)
        (some (example_flat_row 255)) (-1) w nb 0 0 kt tr) l =
      swipe_ctx pool nf (example_flat_row 255 :: rest) (some (example_flat_row 255))
        (-1) (w + 64) (nb + 8) 0 0 kt tr := by
  rw [swipe_blank_rows pool nf rest kt tr hrows 8 w nb l hw (by push_cast; omega) (by omega)
    hflat, List.drop_eq_nil_of_le (by omega)]
  have e : w + 8 * ((8 : Nat) : Int) = w + 64 := by
    push_cast
    ring
  have e2 : nb + ((8 : Nat) : Int) = nb + 8 := by
    push_cast
    ring
  rw [e, e2]
  rfl

/-- The call of `handoff_img` at the end of the example swipe: the image of the
two stored rows, the newest first, is handed to the host, then
`cancel_img_transfers` is called. -/
theorem swipe_handoff (pool : List img_transfer_data) (nf w nb ls : Int) (tr : List Event) :
    handoff_img (swipe_ctx pool nf [example_flat_row 255, example_flat_row 0]
        (some (example_flat_row 255)) (-1) w nb 1 ls NOT_KILLING tr) =
      cancel_img_transfers
        { swipe_ctx pool nf [example_flat_row 255, example_flat_row 0]
            (some (example_flat_row 255)) (-1) w nb 1 ls ITERATE_SSM
            (tr ++ [Event.image_captured 2 576 (example_flat_row 255 ++ example_flat_row 0),
              Event.report_finger_status false]) with rows := [] } := by
  have h1 : handoff_img (swipe_ctx pool nf
        [example_flat_row 255, example_flat_row 0]
        (some (example_flat_row 255)) (-1) w nb 1 ls NOT_KILLING tr) =
      cancel_img_transfers
        { swipe_ctx pool nf [example_flat_row 255, example_flat_row 0]
          (some (example_flat_row 255)) (-1) w nb 1 ls ITERATE_SSM
          (tr ++ [Event.image_captured 2 576
            (handoff_copy [example_flat_row 255, example_flat_row 0] 0
              (g_malloc (IMG_WIDTH * 2)))] ++ [Event.report_finger_status false])
          with rows := [] } := rfl
  rw [h1, example_flat_image]
  simp only [List.append_assoc, List.cons_append, List.nil_append]

/-- The last buffer of the example swipe: four more blank rows make 500, the
next one is the 501st, and `handoff_img` ends the capture; the remaining packets
of the buffer are not handled. -/
theorem swipe_buffer_last (pool : List img_transfer_data) (nf w : Int) (tr : List Event)
    (hw : (w + 1) % 4 = 0) (l : List (List Nat)) (hl : l.length = 64)
    (hflat : ∀ p ∈ l, is_flat p 255) :
    feed_packets (swipe_ctx pool nf [example_flat_row 255, example_flat_row 0]
        (some (example_flat_row 255)) (-1) w 496 0 0 NOT_KILLING tr) l =
      cancel_img_transfers
        { swipe_ctx pool nf [example_flat_row 255, example_flat_row 0]
            (some (example_flat_row 255)) (-1) (w + 37) 501 1 0 ITERATE_SSM
            (tr ++ [Event.image_captured 2 576 (example_flat_row 255 ++ example_flat_row 0),
              Event.report_finger_status false]) with rows := [] } := by
  have h2 : [example_flat_row 255, example_flat_row 0].length < MAX_ROWS := by
    show 2 < MAX_ROWS
    decide
  have f1 : ∀ p ∈ l.drop (8 * 4), is_flat p 255 :=
    fun p hp => hflat p (List.mem_of_mem_drop hp)
  rw [swipe_blank_rows pool nf [example_flat_row 0] NOT_KILLING tr h2 4 w 496 l hw
    (by decide) (by omega) hflat]
  obtain ⟨p1, p2, p3, p4, p5, p6, p7, p8, rest, e⟩ :=
    list_eight (l.drop (8 * 4)) (by rw [List.length_drop]; omega)
  rw [e] at f1 ⊢
  rw [swipe_row pool nf _ _ _ _ 0 NOT_KILLING tr 255 p1 p2 p3 p4 p5
    (f1 p1 (by simp)) (f1 p2 (by simp)) (f1 p3 (by simp)) (f1 p4 (by simp)) (f1 p5 (by simp))
    (le_refl _) (by omega) h2,
    example_flat_rows 255 _ (Or.inr ⟨255, rfl⟩),
    swipe_rc_handoff pool nf _ _ [example_flat_row 0] _ _ 0 NOT_KILLING tr 0 72930
      example_flat_compare.2.2 (by decide) (by decide),
    swipe_handoff pool nf _ _ 0 tr]
  rw [feed_packets_stopped _ (by
    rw [is_capturing_of_core (cancel_img_transfers_core _)]
    show (decide (_ < MAX_ROWS) && decide ((1 : Int) = 0)) = false
    simp)]
  have e1 : w + 8 * ((4 : Nat) : Int) + 5 = w + 37 := by
    push_cast
    ring
  have e2 : (496 : Int) + ((4 : Nat) : Int) + 1 = 501 := by decide
  rw [e1, e2]

end Libfprint.Upeksonly

namespace Libfprint.Upeksonly

open sonly_kill_transfers_action

/-! ## The example swipe: callbacks -/

theorem example_pool_get (i : Nat) (hi : i < 24) :
    example_pool_all.get? i = some ⟨true, false⟩ := by
  unfold example_pool_all
  rw [List.get?_eq_getElem?, List.getElem?_replicate, if_pos hi]

theorem replicate_set_self {α : Type} (n i : Nat) (a : α) :
    (List.replicate n a).set i a = List.replicate n a := by
  apply List.ext_getElem
  · simp
  · intro k h1 h2
    rw [List.getElem_set]
    split <;> simp

theorem example_pool_set (i : Nat) (a : img_transfer_data) :
    (example_pool_all.set i a).set i ⟨true, false⟩ = example_pool_all := by
  rw [List.set_set]
  exact replicate_set_self 24 i _

theorem set_idata_some (s : sonly_dev) (i : Nat) (f : img_transfer_data → img_transfer_data)
    (d : img_transfer_data) (h : s.img_transfer_data.get? i = some d) :
    set_idata s i f = { s with img_transfer_data := s.img_transfer_data.set i (f d) } := by
  unfold set_idata
  simp only [h]

/-- The first statements of `img_data_cb` for transfer `i` of the pool. -/
theorem swipe_landed (i : Nat) (hi : i < 24) (nf : Int) (rows : List (List Nat))
    (rb : Option (List Nat)) (off w nb fr ls : Int) (kt : sonly_kill_transfers_action)
    (tr : List Event) :
    img_data_cb_landed (swipe_ctx example_pool_all nf rows rb off w nb fr ls kt tr) i =
      swipe_ctx (example_pool_all.set i ⟨false, false⟩) (nf - 1) rows rb off w nb fr ls kt
        tr := by
  unfold img_data_cb_landed
  rw [set_idata_some _ i _ ⟨true, false⟩ (example_pool_get i hi)]
  rfl

/-- The resubmission of transfer `i` at the end of `img_data_cb`, while the
capture goes on. -/
theorem swipe_resubmit (i : Nat) (hi : i < 24) (nf : Int) (rows : List (List Nat))
    (rb : Option (List Nat)) (off w nb ls : Int) (tr : List Event)
    (hrows : rows.length < MAX_ROWS) :
    img_data_cb_resubmit (swipe_ctx (example_pool_all.set i ⟨false, false⟩) nf rows rb off w nb
        0 ls NOT_KILLING tr) i 0 =
      swipe_ctx example_pool_all (nf + 1) rows rb off w nb 0 ls NOT_KILLING
        (tr ++ [Event.submit_transfer i 0 NOT_KILLING]) := by
  unfold img_data_cb_resubmit
  rw [swipe_capturing _ nf rows rb off w nb ls NOT_KILLING tr hrows]
  simp only [if_true]
  rw [if_neg (by decide)]
  have hg : (example_pool_all.set i ⟨false, false⟩).get? i = some ⟨false, false⟩ := by
    rw [List.get?_eq_getElem?, List.getElem?_set_self]
    unfold example_pool_all
    rw [List.length_replicate]
    exact hi
  rw [set_idata_some _ i _ ⟨false, false⟩ hg]
  have e2 := example_pool_set i ⟨false, false⟩
  show swipe_ctx ((example_pool_all.set i ⟨false, false⟩).set i ⟨true, false⟩) (nf + 1) rows rb
    off w nb 0 ls NOT_KILLING (tr ++ [Event.submit_transfer i 0 NOT_KILLING]) = _
  rw [e2]

/-- The callback `img_data_cb` of transfer `i`, completed, while the capture
goes on: the 64 packets are handled, then the transfer is resubmitted if the
capture still goes on. -/
theorem swipe_cb (i : Nat) (hi : i < 24) (nf : Int) (rows : List (List Nat))
    (rb : Option (List Nat)) (w nb ls : Int) (tr : List Event) (buffer : List Nat) :
    img_data_cb (swipe_ctx example_pool_all nf rows rb (-1) w nb 0 ls NOT_KILLING tr) i
        LIBUSB_TRANSFER_COMPLETED buffer 0 =
      img_data_cb_resubmit
        (feed_packets (swipe_ctx (example_pool_all.set i ⟨false, false⟩) (nf - 1) rows rb (-1) w
          nb 0 ls NOT_KILLING tr) (loop_packets buffer 64)) i 0 := by
  unfold img_data_cb
  simp only [swipe_landed i hi]
  rw [if_neg (by
    intro h
    exact h rfl)]
  have hS : img_data_cb_status (swipe_ctx (example_pool_all.set i ⟨false, false⟩) (nf - 1) rows
      rb (-1) w nb 0 ls NOT_KILLING tr) LIBUSB_TRANSFER_COMPLETED =
      swipe_ctx (example_pool_all.set i ⟨false, false⟩) (nf - 1) rows rb (-1) w nb 0 ls
        NOT_KILLING tr := by
    unfold img_data_cb_status
    rw [if_neg (by
      intro h
      exact h rfl)]
  simp only [hS]
  obtain ⟨h1, h2⟩ := packet_loop_feed buffer 64 (le_refl _)
    (swipe_ctx (example_pool_all.set i ⟨false, false⟩) (nf - 1) rows rb (-1) w nb 0 ls
      NOT_KILLING tr)
  cases hp : (packet_loop buffer 64 (swipe_ctx (example_pool_all.set i ⟨false, false⟩) (nf - 1)
      rows rb (-1) w nb 0 ls NOT_KILLING tr)).2 with
  | false =>
    simp only [Bool.false_eq_true, if_false]
    rw [h1]
  | true =>
    have hc := h2 hp
    simp only [if_true]
    rw [← h1]
    unfold img_data_cb_resubmit
    rw [hc]
    simp

/-- The callback of the first buffer. -/
theorem swipe_cb_dark (i : Nat) (hi : i < 24) (nf w nb ls : Int) (tr : List Event)
    (hls : 0 ≤ ls) (hw : (w + 1) % 4 = 0) :
    img_data_cb (swipe_ctx example_pool_all nf [] none (-1) w nb 0 ls NOT_KILLING tr) i
        LIBUSB_TRANSFER_COMPLETED (example_flat_buffer 0) 0 =
      swipe_ctx example_pool_all nf [example_flat_row 0] (some (example_flat_row 0)) (-1)
        (w + 64) 0 0 0 NOT_KILLING
        (tr ++ [Event.g_slist_prepend (example_flat_row 0),
          Event.submit_transfer i 0 NOT_KILLING]) := by
  rw [swipe_cb i hi,
    swipe_buffer_dark _ _ w nb ls NOT_KILLING tr hls hw _ (by simp [loop_packets])
      (loop_packets_flat 0 64 (le_refl _)),
    swipe_resubmit i hi _ _ _ _ _ _ _ _ (by
      show 1 < MAX_ROWS
      decide)]
  have e : nf - 1 + 1 = nf := by ring
  rw [e]
  simp only [List.append_assoc, List.cons_append, List.nil_append]

/-- The callback of the second buffer. -/
theorem swipe_cb_bright (i : Nat) (hi : i < 24) (nf w nb : Int) (tr : List Event)
    (hw : (w + 1) % 4 = 0) (hnb : nb + 8 ≤ 500) :
    img_data_cb (swipe_ctx example_pool_all nf [example_flat_row 0] (some (example_flat_row 0))
        (-1) w nb 0 0 NOT_KILLING tr) i LIBUSB_TRANSFER_COMPLETED (example_flat_buffer 255) 0 =
      swipe_ctx example_pool_all nf [example_flat_row 255, example_flat_row 0]
        (some (example_flat_row 255)) (-1) (w + 64) (nb + 8) 0 0 NOT_KILLING
        (tr ++ [Event.g_slist_prepend (example_flat_row 255),
          Event.submit_transfer i 0 NOT_KILLING]) := by
  rw [swipe_cb i hi,
    swipe_buffer_bright _ _ w nb NOT_KILLING tr hw hnb _ (by simp [loop_packets])
      (loop_packets_flat 255 64 (le_refl _)),
    swipe_resubmit i hi _ _ _ _ _ _ _ _ (by
      show 2 < MAX_ROWS
      decide)]
  have e : nf - 1 + 1 = nf := by ring
  rw [e]
  simp only [List.append_assoc, List.cons_append, List.nil_append]

/-- The callback of a later buffer of bright packets. -/
theorem swipe_cb_blank (i : Nat) (hi : i < 24) (nf w nb : Int) (rest : List (List Nat))
    (tr : List Event) (hrows : (example_flat_row 255 :: rest).length < MAX_ROWS)
    (hw : (w + 1) % 4 = 0) (hnb : nb + 8 ≤ 500) :
    img_data_cb (swipe_ctx example_pool_all nf (example_flat_row 255 :: rest)
        (some (example_flat_row 255)) (-1) w nb 0 0 NOT_KILLING tr) i
        LIBUSB_TRANSFER_COMPLETED (example_flat_buffer 255) 0 =
      swipe_ctx example_pool_all nf (example_flat_row 255 :: rest)
        (some (example_flat_row 255)) (-1) (w + 64) (nb + 8) 0 0 NOT_KILLING
        (tr ++ [Event.submit_transfer i 0 NOT_KILLING]) := by
  rw [swipe_cb i hi,
    swipe_buffer_blank _ _ rest w nb NOT_KILLING tr hrows hw hnb _ (by simp [loop_packets])
      (loop_packets_flat 255 64 (le_refl _)),
    swipe_resubmit i hi _ _ _ _ _ _ _ _ hrows]
  have e : nf - 1 + 1 = nf := by ring
  rw [e]

/-- The callback of the last buffer: the image is handed off and the transfer is
not resubmitted. -/
theorem swipe_cb_last (i : Nat) (hi : i < 24) (nf w : Int) (tr : List Event)
    (hw : (w + 1) % 4 = 0) :
    img_data_cb (swipe_ctx example_pool_all nf [example_flat_row 255, example_flat_row 0]
        (some (example_flat_row 255)) (-1) w 496 0 0 NOT_KILLING tr) i
        LIBUSB_TRANSFER_COMPLETED (example_flat_buffer 255) 0 =
      cancel_img_transfers
        { swipe_ctx (example_pool_all.set i ⟨false, false⟩) (nf - 1)
            [example_flat_row 255, example_flat_row 0]
            (some (example_flat_row 255)) (-1) (w + 37) 501 1 0 ITERATE_SSM
            (tr ++ [Event.image_captured 2 576 (example_flat_row 255 ++ example_flat_row 0),
              Event.report_finger_status false]) with rows := [] } := by
  rw [swipe_cb i hi,
    swipe_buffer_last _ _ w tr hw _ (by simp [loop_packets])
      (loop_packets_flat 255 64 (le_refl _))]
  unfold img_data_cb_resubmit
  rw [is_capturing_of_core (cancel_img_transfers_core _)]
  have e : is_capturing ({ swipe_ctx (example_pool_all.set i ⟨false, false⟩) (nf - 1)
      [example_flat_row 255, example_flat_row 0]
      (some (example_flat_row 255)) (-1) (w + 37) 501 1 0 ITERATE_SSM
      (tr ++ [Event.image_captured 2 576 (example_flat_row 255 ++ example_flat_row 0),
        Event.report_finger_status false]) with rows := [] } : sonly_dev) = false := by
    show (decide (_ < MAX_ROWS) && decide ((1 : Int) = 0)) = false
    simp
  rw [e]
  simp

/-- Callbacks of buffers of bright packets after a bright row. -/
theorem swipe_run_blank (nf : Int) (rest : List (List Nat))
    (hrows : (example_flat_row 255 :: rest).length < MAX_ROWS) (js : List Nat) :
    ∀ (w nb : Int) (tr : List Event), (∀ j ∈ js, j < 24) → (w + 1) % 4 = 0 →
      nb + 8 * (js.length : Int) ≤ 500 →
      run (swipe_ctx example_pool_all nf (example_flat_row 255 :: rest)
          (some (example_flat_row 255)) (-1) w nb 0 0 NOT_KILLING tr)
          (js.map fun i => example_flat_completion i 255) =
        swipe_ctx example_pool_all nf (example_flat_row 255 :: rest)
          (some (example_flat_row 255)) (-1) (w + 64 * (js.length : Int))
          (nb + 8 * (js.length : Int)) 0 0 NOT_KILLING
          (tr ++ js.map fun i => Event.submit_transfer i 0 NOT_KILLING) := by
  induction js with
  | nil =>
    intro w nb tr _ _ _
    simp [run]
  | cons j js ih =>
    intro w nb tr hj hw hnb
    rw [List.map_cons, run_cons]
    have hl : ((j :: js).length : Int) = (js.length : Int) + 1 := by simp
    rw [hl] at hnb ⊢
    have h1 : img_data_cb (swipe_ctx example_pool_all nf (example_flat_row 255 :: rest)
        (some (example_flat_row 255)) (-1) w nb 0 0 NOT_KILLING tr)
        (example_flat_completion j 255).idx (example_flat_completion j 255).status
        (example_flat_completion j 255).buffer (example_flat_completion j 255).resubmit_r =
        swipe_ctx example_pool_all nf (example_flat_row 255 :: rest)
          (some (example_flat_row 255)) (-1) (w + 64) (nb + 8) 0 0 NOT_KILLING
          (tr ++ [Event.submit_transfer j 0 NOT_KILLING]) :=
      swipe_cb_blank j (hj j (by simp)) nf w nb rest tr hrows hw (by omega)
    rw [h1, ih (w + 64) (nb + 8) _ (fun x hx => hj x (by simp [hx])) (by omega) (by omega)]
    have e1 : w + 64 + 64 * (js.length : Int) = w + 64 * ((js.length : Int) + 1) := by ring
    have e2 : nb + 8 + 8 * (js.length : Int) = nb + 8 * ((js.length : Int) + 1) := by ring
    rw [e1, e2]
    simp only [List.append_assoc, List.cons_append, List.nil_append, List.map_cons]

end Libfprint.Upeksonly

namespace Libfprint.Upeksonly

open sonly_kill_transfers_action

/-! ## The example swipe: the run -/

theorem run_concat (s : sonly_dev) (a b : List Completion) :
    run s (a ++ b) = run (run s a) b := by
  unfold run
  rw [List.foldl_append]

theorem example_order_facts : example_order.length = 61 ∧ ∀ j ∈ example_order, j < 24 := by
  unfold example_order
  refine ⟨by simp, ?_⟩
  intro j hj
  obtain ⟨k, _, rfl⟩ := List.mem_map.mp hj
  omega

/-- The example swipe ends in the callback of transfer 15, in the call
`cancel_img_transfers` of `handoff_img`. -/
theorem example_swipe_run :
    run (capsm_init example_flying) example_swipe = cancel_img_transfers example_handed_off := by
  have h0 : capsm_init example_flying =
      swipe_ctx example_pool_all 24 [] none (-1) (-1) 0 0 16383 NOT_KILLING
        [Event.ssm_next_state SsmRef.capsm] := rfl
  have h1 : img_data_cb (swipe_ctx example_pool_all 24 [] none (-1) (-1) 0 0 16383 NOT_KILLING
        [Event.ssm_next_state SsmRef.capsm])
      (example_flat_completion 0 0).idx (example_flat_completion 0 0).status
      (example_flat_completion 0 0).buffer (example_flat_completion 0 0).resubmit_r = _ :=
    swipe_cb_dark 0 (by decide) 24 (-1) 0 16383 _ (by decide) (by decide)
  have h2 : img_data_cb (swipe_ctx example_pool_all 24 [example_flat_row 0]
        (some (example_flat_row 0)) (-1) (-1 + 64) 0 0 0 NOT_KILLING
        ([Event.ssm_next_state SsmRef.capsm] ++ [Event.g_slist_prepend (example_flat_row 0),
          Event.submit_transfer 0 0 NOT_KILLING]))
      (example_flat_completion 1 255).idx (example_flat_completion 1 255).status
      (example_flat_completion 1 255).buffer (example_flat_completion 1 255).resubmit_r = _ :=
    swipe_cb_bright 1 (by decide) 24 (-1 + 64) 0 _ (by decide) (by decide)
  have h3 := swipe_run_blank 24 [example_flat_row 0] (by
      show 2 < MAX_ROWS
      decide) example_order (-1 + 64 + 64) (0 + 8)
    ([Event.ssm_next_state SsmRef.capsm] ++ [Event.g_slist_prepend (example_flat_row 0),
        Event.submit_transfer 0 0 NOT_KILLING] ++
      [Event.g_slist_prepend (example_flat_row 255), Event.submit_transfer 1 0 NOT_KILLING])
    example_order_facts.2 (by decide) (by
      rw [example_order_facts.1]
      decide)
  rw [example_order_facts.1] at h3
  have e1 : (0 : Int) + 8 + 8 * ((61 : Nat) : Int) = 496 := by decide
  rw [e1] at h3
  have h4 : img_data_cb (swipe_ctx example_pool_all 24
        [example_flat_row 255, example_flat_row 0] (some (example_flat_row 255)) (-1)
        (-1 + 64 + 64 + 64 * ((61 : Nat) : Int)) 496 0 0 NOT_KILLING
        ([Event.ssm_next_state SsmRef.capsm] ++ [Event.g_slist_prepend (example_flat_row 0),
            Event.submit_transfer 0 0 NOT_KILLING] ++
          [Event.g_slist_prepend (example_flat_row 255), Event.submit_transfer 1 0 NOT_KILLING] ++
          example_order.map fun i => Event.submit_transfer i 0 NOT_KILLING))
      (example_flat_completion 15 255).idx (example_flat_completion 15 255).status
      (example_flat_completion 15 255).buffer (example_flat_completion 15 255).resubmit_r = _ :=
    swipe_cb_last 15 (by decide) 24 _ _ (by decide)
  unfold example_swipe
  rw [h0, run_cons, h1, run_cons, h2, run_concat, h3, run_cons, h4]
  rfl

theorem cancel_img_transfers_mem (s : sonly_dev) (e : Event) (hn : s.num_flying ≠ 0)
    (h : e ∈ s.trace) : e ∈ (cancel_img_transfers s).trace := by
  unfold cancel_img_transfers
  rw [if_neg hn]
  obtain ⟨ext, h1, _⟩ := cancel_fold_trace (List.range NUM_BULK_TRANSFERS) s
  rw [h1]
  exact List.mem_append_left _ h

theorem prepends_submits (l : List Nat) :
    prepends (l.map fun i => Event.submit_transfer i 0 NOT_KILLING) = [] := by
  induction l with
  | nil => rfl
  | cons i l ih =>
    rw [List.map_cons]
    show prepends ([Event.submit_transfer i 0 NOT_KILLING] ++ _) = []
    rw [prepends_append, ih]
    rfl

/-- The example swipe hands one image to the host: two rows, the bright one
first. -/
theorem example_swipe_image :
    Event.image_captured 2 576 (example_flat_row 255 ++ example_flat_row 0) ∈
      (run (capsm_init example_flying) example_swipe).trace := by
  rw [example_swipe_run]
  apply cancel_img_transfers_mem _ _ (by
    show (23 : Int) ≠ 0
    decide)
  show _ ∈ _ ++ [Event.image_captured 2 576 (example_flat_row 255 ++ example_flat_row 0),
    Event.report_finger_status false]
  exact List.mem_append_right _ (List.mem_cons_self _ _)

/-- The rows stored during the example swipe: the dark one, then the bright
one. -/
theorem example_swipe_prepends :
    prepends (run (capsm_init example_flying) example_swipe).trace =
      [example_flat_row 0, example_flat_row 255] := by
  rw [example_swipe_run, (cancel_img_transfers_obs example_handed_off).2.1]
  show prepends ([Event.ssm_next_state SsmRef.capsm,
      Event.g_slist_prepend (example_flat_row 0),
      Event.submit_transfer 0 0 NOT_KILLING, Event.g_slist_prepend (example_flat_row 255),
      Event.submit_transfer 1 0 NOT_KILLING] ++
      (example_order.map fun i => Event.submit_transfer i 0 NOT_KILLING) ++
      [Event.image_captured 2 576 (example_flat_row 255 ++ example_flat_row 0),
        Event.report_finger_status false]) = _
  rw [prepends_append, prepends_append, prepends_submits]
  rfl

theorem feed_packets_empty (s : sonly_dev) : feed_packets s [] = s := rfl

theorem list_five {α : Type} (l : List α) (h : l.length = 5) :
    ∃ p1 p2 p3 p4 p5, l = [p1, p2, p3, p4, p5] := by
  match l, h with
  | [p1, p2, p3, p4, p5], _ => exact ⟨p1, p2, p3, p4, p5, rfl⟩

/-- The second call of `row_complete` in the example swipe is made in the
context `example_dark_duplicate`, after 13 packets of the first buffer. -/
theorem example_swipe_second_row :
    feed_packets (img_data_cb_landed (capsm_init example_flying) 0)
        ((loop_packets (example_flat_buffer 0) 64).take 13) =
      row_complete example_dark_duplicate := by
  have h0 : img_data_cb_landed (capsm_init example_flying) 0 =
      swipe_ctx (example_pool_all.set 0 ⟨false, false⟩) (24 - 1) [] none (-1) (-1) 0 0 16383
        NOT_KILLING [Event.ssm_next_state SsmRef.capsm] :=
    swipe_landed 0 (by decide) 24 [] none (-1) (-1) 0 0 16383 NOT_KILLING _
  have hl : ((loop_packets (example_flat_buffer 0) 64).take 13).length = 13 := by
    simp [loop_packets]
  have f : ∀ p ∈ (loop_packets (example_flat_buffer 0) 64).take 13, is_flat p 0 :=
    fun p hp => loop_packets_flat 0 64 (le_refl _) p (List.mem_of_mem_take hp)
  rw [h0, swipe_group_first _ _ (-1) 0 16383 NOT_KILLING _ 0 (by decide) (by decide) _
    (by omega) f]
  obtain ⟨p1, p2, p3, p4, p5, e⟩ :=
    list_five (((loop_packets (example_flat_buffer 0) 64).take 13).drop 8)
      (by rw [List.length_drop, hl])
  have f2 : ∀ p ∈ ((loop_packets (example_flat_buffer 0) 64).take 13).drop 8, is_flat p 0 :=
    fun p hp => f p (List.mem_of_mem_drop hp)
  rw [e] at f2 ⊢
  rw [swipe_row _ _ _ _ _ _ 0 NOT_KILLING _ 0 p1 p2 p3 p4 p5
    (f2 p1 (by simp)) (f2 p2 (by simp)) (f2 p3 (by simp)) (f2 p4 (by simp)) (f2 p5 (by simp))
    (le_refl _) (by decide) (by
      show 1 < MAX_ROWS
      decide),
    example_flat_rows 0 none (Or.inl rfl)]
  have e1 : (-1 : Int) + 8 + 5 = 12 := by decide
  have e2 : (24 : Int) - 1 = 23 := by decide
  rw [e1, e2]
  unfold example_dark_duplicate
  simp only [List.singleton_append]
  exact feed_packets_empty _

end Libfprint.Upeksonly

namespace Libfprint.Upeksonly

open sonly_kill_transfers_action

/-! ## The example swipe: what the claims say of it -/

theorem example_swipe_num_rows : (run (capsm_init example_flying) example_swipe).num_rows = 2 := by
  rw [example_swipe_run]
  exact (core_fields (cancel_img_transfers_core example_handed_off)).2.1

theorem example_flat_same : abs_diff_sum (example_flat_row 0) (example_flat_row 0) < 3000 := by
  rw [← compute_rows_fst, example_flat_compare.1]
  decide

/-- Witness of C1 (amended): the example swipe of 64 buffers, in which 8 dark
rows and 501 bright rows are completed.  The dark row is stored first and the
bright row second; the image handed to the host has these two rows, the bright
one as row 0 and the dark one as row 1. -/
theorem C1_handoff_rows_newest_first_witness :
    example_flying.rows = [] ∧ example_flying.trace = [] ∧
    Event.image_captured 2 576 (example_flat_row 255 ++ example_flat_row 0) ∈
      (run (capsm_init example_flying) example_swipe).trace ∧
    prepends (run (capsm_init example_flying) example_swipe).trace =
      [example_flat_row 0, example_flat_row 255] ∧
    2 = (prepends (run (capsm_init example_flying) example_swipe).trace).length ∧
    slice (example_flat_row 255 ++ example_flat_row 0) IMG_WIDTH 0 =
      (prepends (run (capsm_init example_flying) example_swipe).trace).getD (2 - 1 - 0) [] ∧
    slice (example_flat_row 255 ++ example_flat_row 0) IMG_WIDTH 1 =
      (prepends (run (capsm_init example_flying) example_swipe).trace).getD (2 - 1 - 1) [] ∧
    slice (example_flat_row 255 ++ example_flat_row 0) IMG_WIDTH 0 = example_flat_row 255 ∧
    slice (example_flat_row 255 ++ example_flat_row 0) IMG_WIDTH 1 = example_flat_row 0 :=
  ⟨rfl, rfl, example_swipe_image, example_swipe_prepends,
    (C1_handoff_rows_newest_first example_flying rfl rfl (fun b hb => by cases hb)
      example_swipe 2 576 _ example_swipe_image).1,
    (C1_handoff_rows_newest_first example_flying rfl rfl (fun b hb => by cases hb)
      example_swipe 2 576 _ example_swipe_image).2 0 (by decide),
    (C1_handoff_rows_newest_first example_flying rfl rfl (fun b hb => by cases hb)
      example_swipe 2 576 _ example_swipe_image).2 1 (by decide),
    ((C1_handoff_rows_newest_first example_flying rfl rfl (fun b hb => by cases hb)
      example_swipe 2 576 _ example_swipe_image).2 0 (by decide)).trans
        (by rw [example_swipe_prepends]; rfl),
    ((C1_handoff_rows_newest_first example_flying rfl rfl (fun b hb => by cases hb)
      example_swipe 2 576 _ example_swipe_image).2 1 (by decide)).trans
        (by rw [example_swipe_prepends]; rfl)⟩

/-- Witness of C2: the example swipe.  Its image has height 2 and
`IMG_WIDTH * 2 = 576` bytes; `handoff_img` was not reached without rows. -/
theorem C2_swipe_image_size_witness :
    example_flying.rows = [] ∧ example_flying.trace = [] ∧
    Event.image_captured 2 576 (example_flat_row 255 ++ example_flat_row 0) ∈
      (run (capsm_init example_flying) example_swipe).trace ∧
    (run (capsm_init example_flying) example_swipe).num_rows = 2 ∧
    Event.fp_err_no_rows ∉ (run (capsm_init example_flying) example_swipe).trace ∧
    (run (capsm_init example_flying) example_swipe).num_rows ≤ MAX_ROWS ∧
    576 = IMG_WIDTH * 2 ∧ (example_flat_row 255 ++ example_flat_row 0).length = 576 ∧
    1 ≤ 2 ∧ 2 ≤ MAX_ROWS ∧ MAX_ROWS = 700 :=
  ⟨rfl, rfl, example_swipe_image, example_swipe_num_rows,
    (C2_swipe_image_size example_flying rfl rfl (fun b hb => by cases hb) example_swipe).1,
    (C2_swipe_image_size example_flying rfl rfl (fun b hb => by cases hb) example_swipe).2.1,
    (C2_swipe_image_size example_flying rfl rfl (fun b hb => by cases hb) example_swipe).2.2
      2 576 _ example_swipe_image⟩

/-- Witness of C3: the example swipe.  The two rows of its image differ by at
least 3000; and the second row of the swipe, completed in the context
`example_dark_duplicate` after 13 packets of the first buffer, equals the stored
row and is not prepended. -/
theorem C3_swipe_row_dedup_witness :
    example_flying.rows = [] ∧ example_flying.trace = [] ∧
    Event.image_captured 2 576 (example_flat_row 255 ++ example_flat_row 0) ∈
      (run (capsm_init example_flying) example_swipe).trace ∧
    3000 ≤ abs_diff_sum (slice (example_flat_row 255 ++ example_flat_row 0) IMG_WIDTH 0)
      (slice (example_flat_row 255 ++ example_flat_row 0) IMG_WIDTH (0 + 1)) ∧
    feed_packets (img_data_cb_landed (capsm_init example_flying) 0)
        ((loop_packets (example_flat_buffer 0) 64).take 13) =
      row_complete example_dark_duplicate ∧
    0 < example_dark_duplicate.num_rows ∧
    example_dark_duplicate.rows = [example_flat_row 0] ∧
    example_dark_duplicate.rowbuf = some (example_flat_row 0) ∧
    abs_diff_sum (example_flat_row 0) (example_flat_row 0) < 3000 ∧
    prepends (row_complete example_dark_duplicate).trace =
      prepends example_dark_duplicate.trace :=
  ⟨rfl, rfl, example_swipe_image,
    (C3_swipe_row_dedup example_flying rfl rfl (fun b hb => by cases hb) example_swipe).1
      2 576 _ example_swipe_image 0 (by decide),
    example_swipe_second_row, by decide, rfl, rfl, example_flat_same,
    (C3_swipe_row_dedup example_flying rfl rfl (fun b hb => by cases hb) example_swipe).2
      example_dark_duplicate (example_flat_row 0) (example_flat_row 0) [] (by decide) rfl rfl
      example_flat_same⟩

end Libfprint.Upeksonly
